import Mathlib

/-!
# Glance core patterns: shader builder, attribute binding resolver, framebuffer stack,
texture loaders

A shallow embedding of `src/glance/ts/core_patterns.ts`.

* Exceptions are values of `Except GlanceError`; a function that touches the
  WebGL2 context also returns the context it leaves behind, so that the calls
  made before an exception is raised stay visible.
* The WebGL2 context is its canvas size plus the log of the device calls made
  on it, oldest first.
* A JavaScript `Map` is the list of its entries in insertion order; `JsMap.set`
  keeps the keys unique exactly as `Map.prototype.set` does.
* A loader that works with image elements is its body up to the `return`,
  followed by the handlers that the browser runs later, one per event of an
  image element; a promise is its state, which `resolve` and `reject` change
  only while it is pending.
-/

namespace Glance

/-! ## Errors -/

/-- The exceptions of the module.  `throwError(() => msg)` of `dev.js` has return
type `never`: it always throws.  Each constructor stands for one message of the
source and carries the values interpolated into it. -/
inductive GlanceError where
  /-- An exception raised by `createVertexShader` or `createFragmentShader`. -/
  | compilation (msg : String)
  /-- An exception raised by `createShaderProgram`. -/
  | link (msg : String)
  /-- The message "Cannot specify mapping for multiple buffers". -/
  | mappingForMultipleBuffers
  /-- The message "Attribute map collision of location L". -/
  | collision (location : Int)
  /-- The message "Attribute A not found in shader S". -/
  | notFoundInShader (shaderAttribute : String) (shaderName : String)
  /-- The message "Attribute A not found in buffer B". -/
  | notFoundInBuffer (bufferAttribute : String) (bufferName : String)
  /-- The message "Framebuffer F has no attachments". -/
  | noAttachments (framebufferName : String)
  /-- The message "Unexpected pixel data length: A instead of E". -/
  | unexpectedPixelDataLength (actual expected : Nat)
  /-- The message "Data volume textures must (for now) have internal format R16F". -/
  | dataVolumeFormat
  deriving DecidableEq, Repr

/-! ## Numbers

A JavaScript number is an IEEE 754 double, and an element of a `Float32Array` is
an IEEE 754 single: a NaN, an infinity, a zero with its sign, or a rational
number other than zero that the format holds.  An operation gives the exact
result rounded to the nearest value of the format, ties to even. -/

/-- A JavaScript number or an element of a `Float32Array`.  The value of
`finite` is not zero and is one that the format holds (`JsNumber.IsDouble`). -/
inductive JsNumber where
  | nan
  | infinity (negative : Bool)
  | zero (negative : Bool)
  | finite (value : ℚ)
  deriving DecidableEq, Repr

/-- A binary floating-point format: the number of bits of the significand, the
exponent of the smallest normal number and the one of the largest. -/
structure FloatFormat where
  precision : Nat
  emin : Int
  emax : Int
  deriving DecidableEq, Repr

/-- The format of a double. -/
def binary64 : FloatFormat :=
  { precision := 53, emin := -1022, emax := 1023 }

/-- The format of an element of a `Float32Array`. -/
def binary32 : FloatFormat :=
  { precision := 24, emin := -126, emax := 127 }

/-- The integer nearest to a rational number, a tie going to the even one. -/
def roundHalfEven (x : ℚ) : Int :=
  if x - ⌊x⌋ < 1 / 2 then ⌊x⌋
  else if 1 / 2 < x - ⌊x⌋ then ⌊x⌋ + 1
  else if ⌊x⌋ % 2 = 0 then ⌊x⌋ else ⌊x⌋ + 1

/-- The exponent of the binade of a positive number, which is not below that of
the smallest normal number. -/
def FloatFormat.exponent (fmt : FloatFormat) (q : ℚ) : Int :=
  max (Int.log 2 q) fmt.emin

/-- The distance of two neighbouring values of the format in the binade of a
positive number. -/
def FloatFormat.ulp (fmt : FloatFormat) (q : ℚ) : ℚ :=
  (2 : ℚ) ^ (fmt.exponent q - ((fmt.precision : Int) - 1))

/-- The multiple of the distance `ulp` nearest to a number that is not negative,
ties to even; it may lie past the largest value of the format. -/
def FloatFormat.nearestPos (fmt : FloatFormat) (q : ℚ) : ℚ :=
  (roundHalfEven (q / fmt.ulp q) : ℚ) * fmt.ulp q

/-- Rounding to nearest, ties to even, of any rational number, by its sign. -/
def FloatFormat.nearest (fmt : FloatFormat) (q : ℚ) : ℚ :=
  if q < 0 then -fmt.nearestPos (-q) else fmt.nearestPos q

/-- The value of the format that an exact result rounds to: a result that is
zero is the zero `+0`, one that rounds to zero keeps its sign, and one that
rounds past the largest value of the format is an infinity. -/
def FloatFormat.round (fmt : FloatFormat) (q : ℚ) : JsNumber :=
  if q = 0 then .zero false
  else if fmt.nearest q = 0 then .zero (decide (q < 0))
  else if (2 : ℚ) ^ (fmt.emax + 1) ≤ |fmt.nearest q| then .infinity (decide (q < 0))
  else .finite (fmt.nearest q)

/-- The number is a double: a value that `finite` carries is one that rounding
leaves as it is. -/
def JsNumber.IsDouble : JsNumber → Prop
  | .finite q => binary64.round q = .finite q
  | _ => True

instance JsNumber.decidableIsDouble (a : JsNumber) : Decidable a.IsDouble :=
  match a with
  | .finite q => inferInstanceAs (Decidable (binary64.round q = .finite q))
  | .nan => isTrue trivial
  | .infinity _ => isTrue trivial
  | .zero _ => isTrue trivial

/-- The function `Number.isFinite`. -/
def JsNumber.isFinite : JsNumber → Bool
  | .zero _ => true
  | .finite _ => true
  | _ => false

/-- The rational value of a number that is finite (0 for the others). -/
def JsNumber.val : JsNumber → ℚ
  | .finite q => q
  | _ => 0

/-- The sign bit of a number. -/
def JsNumber.negative : JsNumber → Bool
  | .nan => false
  | .infinity s => s
  | .zero s => s
  | .finite q => decide (q < 0)

/-- The unary minus. -/
def JsNumber.neg : JsNumber → JsNumber
  | .nan => .nan
  | .infinity s => .infinity (!s)
  | .zero s => .zero (!s)
  | .finite q => .finite (-q)

/-- The operator `+` on numbers. -/
def JsNumber.add : JsNumber → JsNumber → JsNumber
  | .nan, _ => .nan
  | _, .nan => .nan
  | .infinity s, .infinity t => if s = t then .infinity s else .nan
  | .infinity s, _ => .infinity s
  | _, .infinity t => .infinity t
  | .zero s, .zero t => .zero (s && t)
  | .zero _, .finite y => .finite y
  | .finite x, .zero _ => .finite x
  | .finite x, .finite y => binary64.round (x + y)

/-- The operator `-` on numbers. -/
def JsNumber.sub (a b : JsNumber) : JsNumber :=
  a.add b.neg

/-- The operator `*` on numbers. -/
def JsNumber.mul : JsNumber → JsNumber → JsNumber
  | .nan, _ => .nan
  | _, .nan => .nan
  | .infinity _, .zero _ => .nan
  | .zero _, .infinity _ => .nan
  | .infinity s, b => .infinity (xor s b.negative)
  | a, .infinity t => .infinity (xor a.negative t)
  | .zero s, b => .zero (xor s b.negative)
  | a, .zero t => .zero (xor a.negative t)
  | .finite x, .finite y => binary64.round (x * y)

/-- The operator `/` on numbers. -/
def JsNumber.div : JsNumber → JsNumber → JsNumber
  | .nan, _ => .nan
  | _, .nan => .nan
  | .infinity _, .infinity _ => .nan
  | .zero _, .zero _ => .nan
  | .infinity s, b => .infinity (xor s b.negative)
  | a, .infinity t => .zero (xor a.negative t)
  | .zero s, b => .zero (xor s b.negative)
  | a, .zero t => .infinity (xor a.negative t)
  | .finite x, .finite y => binary64.round (x / y)

/-- The operator `<` on numbers. -/
def JsNumber.lt : JsNumber → JsNumber → Bool
  | .nan, _ => false
  | _, .nan => false
  | .infinity s, .infinity t => s && !t
  | .infinity s, _ => s
  | _, .infinity t => !t
  | a, b => decide (a.val < b.val)

/-- The function `Math.max` of two numbers. -/
def JsNumber.max (a b : JsNumber) : JsNumber :=
  match a, b with
  | .nan, _ => .nan
  | _, .nan => .nan
  | .zero s, .zero t => .zero (s && t)
  | a, b => if a.lt b then b else a

/-- The function `Math.min` of two numbers. -/
def JsNumber.min (a b : JsNumber) : JsNumber :=
  match a, b with
  | .nan, _ => .nan
  | _, .nan => .nan
  | .zero s, .zero t => .zero (s || t)
  | a, b => if b.lt a then b else a

/-- The number that an element of a `Uint8ClampedArray` reads as. -/
def JsNumber.ofNat (n : Nat) : JsNumber :=
  if n = 0 then .zero false else .finite n

/-- The store of a number into a `Float32Array`: the nearest single. -/
def JsNumber.toFloat32 : JsNumber → JsNumber
  | .finite q => binary32.round q
  | a => a

/-- The place of a number that is not a NaN on the extended number line. -/
def JsNumber.ext : JsNumber → WithBot (WithTop ℚ)
  | .nan => ((0 : ℚ) : WithTop ℚ)
  | .infinity true => ⊥
  | .infinity false => ((⊤ : WithTop ℚ) : WithBot (WithTop ℚ))
  | .zero _ => ((0 : ℚ) : WithTop ℚ)
  | .finite q => ((q : ℚ) : WithTop ℚ)

/-- The place on the extended number line of a rounded value: past the largest
value of the format it is an infinity. -/
def FloatFormat.place (fmt : FloatFormat) (r : ℚ) : WithBot (WithTop ℚ) :=
  if (2 : ℚ) ^ (fmt.emax + 1) ≤ r then ((⊤ : WithTop ℚ) : WithBot (WithTop ℚ))
  else if r ≤ -(2 : ℚ) ^ (fmt.emax + 1) then ⊥
  else ((r : WithTop ℚ) : WithBot (WithTop ℚ))

/-- The number is the finite double of the value `q`. -/
def JsNumber.Is (a : JsNumber) (q : ℚ) : Prop :=
  a.isFinite = true ∧ a.val = q ∧ a.IsDouble

/-! ## Data model (the types of `types.js`) -/

/-- A compiled vertex shader object. -/
structure VertexShader where
  glObject : Nat
  source : String
  deriving DecidableEq, Repr

/-- A compiled fragment shader object. -/
structure FragmentShader where
  glObject : Nat
  source : String
  deriving DecidableEq, Repr

/-- The argument type of `deleteShader`: a shader object of either stage. -/
inductive Shader where
  | vertex (shader : VertexShader)
  | fragment (shader : FragmentShader)
  deriving DecidableEq, Repr

/-- An input location of a program: a JavaScript number. -/
abbrev AttributeLocation := Int

/-- A uniform value; it is handed to the linker untouched. -/
abbrev UniformValue := List Int

/-- A JavaScript `Map`: its entries in insertion order.  A `Map` never holds a
key twice (`JsMap.WF`); the operations below keep it so. -/
abbrev JsMap (κ : Type) (α : Type) := List (κ × α)

/-- The keys of a map, in insertion order: `map.keys()`. -/
def JsMap.keys {κ α : Type} (m : JsMap κ α) : List κ :=
  m.map Prod.fst

/-- The invariant of a JavaScript `Map` (and of the own properties of an
object): no key occurs twice. -/
def JsMap.WF {κ α : Type} (m : JsMap κ α) : Prop :=
  m.keys.Nodup

instance JsMap.decidableWF {κ α : Type} [DecidableEq κ] (m : JsMap κ α) : Decidable m.WF :=
  inferInstanceAs (Decidable (List.Nodup (List.map Prod.fst m)))

/-- The method `map.has(key)`. -/
def JsMap.has {κ α : Type} [DecidableEq κ] : JsMap κ α → κ → Bool
  | [], _ => false
  | (k, _) :: rest, key => if k = key then true else JsMap.has rest key

/-- The method `map.get(key)`; `none` is `undefined`. -/
def JsMap.get {κ α : Type} [DecidableEq κ] : JsMap κ α → κ → Option α
  | [], _ => none
  | (k, v) :: rest, key => if k = key then some v else JsMap.get rest key

/-- The method `map.set(key, value)`: the value of an existing key is replaced
where the key stands, a new key is appended. -/
def JsMap.set {κ α : Type} [DecidableEq κ] : JsMap κ α → κ → α → JsMap κ α
  | [], key, value => [(key, value)]
  | (k, v) :: rest, key, value =>
    if k = key then (key, value) :: rest else (k, v) :: JsMap.set rest key value

/-- A linked program: its name and the map from attribute name to the
attribute's input location (`shader.attributes.get(n)?.location`). -/
structure ShaderProgram where
  name : String
  glObject : Nat
  attributes : JsMap String AttributeLocation
  deriving DecidableEq, Repr

/-- Modelled from the spec: the attribute description of `types.js`, which is
missing; per named attribute "its component count, element type, and byte
offset/stride within that buffer". -/
structure AttributeDescription where
  componentCount : Nat
  elementType : Nat
  byteOffset : Nat
  byteStride : Nat
  deriving DecidableEq, Repr

/-- An attribute buffer: its name and the map from attribute name to the
attribute's description. -/
structure AttributeBuffer where
  name : String
  glObject : Nat
  attributes : JsMap String AttributeDescription
  deriving DecidableEq, Repr

/-- The value type of an attribute map: `{ buffer: abo, name: bufferAttribute }`. -/
structure AttributeReference where
  buffer : AttributeBuffer
  name : String
  deriving DecidableEq, Repr

/-- One size-carrying attachment of a framebuffer (`x.attachment.width`,
`x.attachment.height`). -/
structure Attachment where
  width : Nat
  height : Nat
  deriving DecidableEq, Repr

/-- A framebuffer.  Framebuffers are immutable values here and the identity
comparison `===` of the source is equality of these values: two framebuffer
objects that are not the same object differ in their `glObject`. -/
structure Framebuffer where
  name : String
  glObject : Nat
  color : List Attachment
  depth : Option Attachment
  stencil : Option Attachment
  deriving DecidableEq, Repr

/-- An image element that has loaded: the address it was given and the size of
the decoded picture (`naturalWidth`, `naturalHeight`). -/
structure Image where
  src : String
  naturalWidth : Nat
  naturalHeight : Nat
  deriving DecidableEq, Repr

/-- The texture targets that the module names. -/
inductive TextureTarget where
  | TEXTURE_2D
  | TEXTURE_3D
  | TEXTURE_CUBE_MAP
  | TEXTURE_2D_ARRAY
  deriving DecidableEq, Repr

/-- The texture filters of WebGL2. -/
inductive TextureFilter where
  | NEAREST
  | LINEAR
  | NEAREST_MIPMAP_NEAREST
  | LINEAR_MIPMAP_NEAREST
  | NEAREST_MIPMAP_LINEAR
  | LINEAR_MIPMAP_LINEAR
  deriving DecidableEq, Repr

/-- The texture wrap modes of WebGL2. -/
inductive TextureWrap where
  | REPEAT
  | CLAMP_TO_EDGE
  | MIRRORED_REPEAT
  deriving DecidableEq, Repr

/-- The internal formats: the two that the module names, and any other by its
device code. -/
inductive TextureInternalFormat where
  | RGBA8
  | R16F
  | other (code : Nat)
  deriving DecidableEq, Repr

/-- The data target of the first cube map face; the face of index `i` is this
number plus `i` (the device constant 0x8515). -/
def TextureDataTarget.TEXTURE_CUBE_MAP_POSITIVE_X : Nat := 34069

/-- A texture object: its name, its device handle, its target and its size. -/
structure Texture where
  name : String
  glObject : Nat
  target : TextureTarget
  width : Nat
  height : Nat
  depth : Nat
  deriving DecidableEq, Repr

/-- The options object handed to `createTexture`; `none` is a property left out
or `undefined`.  One filter or wrap mode, or an array of them, is a list. -/
structure CreateTextureOptions where
  levels : Option Nat
  useAnisotropy : Option Bool
  filter : Option (List TextureFilter)
  wrap : Option (List TextureWrap)
  internalFormat : Option TextureInternalFormat
  deriving DecidableEq, Repr

/-- The options object handed to `updateTexture`; `none` is a property left out. -/
structure UpdateTextureOptions where
  target : Option Nat
  createMipMaps : Option Bool
  flipY : Option Bool
  deriving DecidableEq, Repr

/-- The binding points of `gl.bindFramebuffer`. -/
inductive FramebufferTarget where
  | FRAMEBUFFER
  | READ_FRAMEBUFFER
  | DRAW_FRAMEBUFFER
  deriving DecidableEq, Repr

/-- The device calls the module makes (or has made on its behalf by the
primitives of `core.js`). -/
inductive GlCall where
  /-- A shader object came into being: a compile primitive returned it. -/
  | shaderCompiled (shader : Shader)
  /-- The call `deleteShader(gl, shader)`. -/
  | deleteShader (shader : Shader)
  /-- The call `gl.bindFramebuffer(target, handle)`; `none` is `null`. -/
  | bindFramebuffer (target : FramebufferTarget) (handle : Option Nat)
  /-- The call `gl.viewport(x, y, width, height)`. -/
  | viewport (x y width height : Nat)
  /-- The call `createTexture(gl, name, width, height, target, depth, options)`;
  `none` is an argument left out or `null`. -/
  | createTexture (name : String) (width height : Nat) (target : TextureTarget)
      (depth : Option Nat) (options : Option CreateTextureOptions)
  /-- The call `updateTexture(gl, texture, data, options)`. -/
  | updateTexture (texture : Texture) (data : Image) (options : UpdateTextureOptions)
  /-- The call `gl.deleteTexture(handle)`. -/
  | deleteTexture (handle : Nat)
  /-- The call `gl.bindTexture(target, handle)`; `none` is `null`. -/
  | bindTexture (target : TextureTarget) (handle : Option Nat)
  /-- The call `gl.texSubImage3D(gl.TEXTURE_3D, 0, 0, 0, slice, width, height, 1,
  gl.RED, gl.FLOAT, realData)`. -/
  | texSubImage3D (slice width height : Nat) (realData : List JsNumber)
  deriving DecidableEq, Repr

/-- The canvas of a context. -/
structure Canvas where
  width : Nat
  height : Nat
  deriving DecidableEq, Repr

/-- The WebGL2 context: the canvas and the log of calls, oldest first. -/
structure WebGL2 where
  canvas : Canvas
  calls : List GlCall
  deriving DecidableEq, Repr

/-- Append one call to the log of the context. -/
def WebGL2.record (gl : WebGL2) (call : GlCall) : WebGL2 :=
  { gl with calls := gl.calls ++ [call] }

/-! ## Device primitives (`core.js`) -/

/-- Modelled from the spec: the behaviour of the compile and the link primitives
of `core.js`, which is missing: `compileShader(stage, source) -> handle |
CompilationError` and `linkProgram(vertexHandle, fragmentHandle, uniformInit,
attributeLocations) -> ShaderProgram | LinkError`.  What each primitive answers
is a parameter. -/
structure Device where
  compileVertex : String → Except String VertexShader
  compileFragment : String → Except String FragmentShader
  linkProgram : String → VertexShader → FragmentShader →
    List (String × UniformValue) → List (String × AttributeLocation) →
    Except String ShaderProgram

/-- Modelled from the spec: `createVertexShader` of `core.js`; it returns the
compiled object, which the log records, or raises a compilation error. -/
def createVertexShader (dev : Device) (gl : WebGL2) (source : String) :
    Except GlanceError VertexShader × WebGL2 :=
  match dev.compileVertex source with
  | .ok shader => (.ok shader, gl.record (.shaderCompiled (.vertex shader)))
  | .error msg => (.error (.compilation msg), gl)

/-- Modelled from the spec: `createFragmentShader` of `core.js`; it returns the
compiled object, which the log records, or raises a compilation error. -/
def createFragmentShader (dev : Device) (gl : WebGL2) (source : String) :
    Except GlanceError FragmentShader × WebGL2 :=
  match dev.compileFragment source with
  | .ok shader => (.ok shader, gl.record (.shaderCompiled (.fragment shader)))
  | .error msg => (.error (.compilation msg), gl)

/-- Modelled from the spec: `createShaderProgram` of `core.js`; it returns the
linked program or raises a link error. -/
def createShaderProgram (dev : Device) (gl : WebGL2) (name : String)
    (vertexShader : VertexShader) (fragmentShader : FragmentShader)
    (uniforms : List (String × UniformValue))
    (attributes : List (String × AttributeLocation)) :
    Except GlanceError ShaderProgram × WebGL2 :=
  match dev.linkProgram name vertexShader fragmentShader uniforms attributes with
  | .ok program => (.ok program, gl)
  | .error msg => (.error (.link msg), gl)

/-- Modelled from the spec: `deleteShader` of `core.js`, `releaseShader(handle)`;
it releases the object and does not raise. -/
def deleteShader (gl : WebGL2) (shader : Shader) : WebGL2 :=
  gl.record (.deleteShader shader)

/-! ## Shader -/

/-- The `try` block of `createShader`: the values of the two local variables
`vertexShader` and `fragmentShader` when the block is left, what the block
returned or raised, and the context. -/
def createShaderTry (dev : Device) (gl : WebGL2) (name vertexSource fragmentSource : String)
    (uniforms : List (String × UniformValue))
    (attributes : List (String × AttributeLocation)) :
    Option VertexShader × Option FragmentShader × Except GlanceError ShaderProgram × WebGL2 :=
  match createVertexShader dev gl vertexSource with
  | (.error e, gl1) => (none, none, .error e, gl1)
  | (.ok vertexShader, gl1) =>
    match createFragmentShader dev gl1 fragmentSource with
    | (.error e, gl2) => (some vertexShader, none, .error e, gl2)
    | (.ok fragmentShader, gl2) =>
      let (result, gl3) :=
        createShaderProgram dev gl2 name vertexShader fragmentShader uniforms attributes
      (some vertexShader, some fragmentShader, result, gl3)

/-- The function `createShader`: the `try` block, then the `finally` block, which
deletes each of the two shader objects that is not `null`.  The two optional
parameters `uniforms` and `attributes` (both `{}` by default) are passed through. -/
def createShader (dev : Device) (gl : WebGL2) (name vertexSource fragmentSource : String)
    (uniforms : List (String × UniformValue))
    (attributes : List (String × AttributeLocation)) :
    Except GlanceError ShaderProgram × WebGL2 :=
  match createShaderTry dev gl name vertexSource fragmentSource uniforms attributes with
  | (vertexShader, fragmentShader, result, gl1) =>
    let gl2 := match vertexShader with
      | some shader => deleteShader gl1 (.vertex shader)
      | none => gl1
    let gl3 := match fragmentShader with
      | some shader => deleteShader gl2 (.fragment shader)
      | none => gl2
    (result, gl3)

/-- The shader objects a list of calls brought into being, in order. -/
def compiledShaders : List GlCall → List Shader
  | [] => []
  | .shaderCompiled shader :: rest => shader :: compiledShaders rest
  | _ :: rest => compiledShaders rest

/-- The shader objects a list of calls released, in order. -/
def releasedShaders : List GlCall → List Shader
  | [] => []
  | .deleteShader shader :: rest => shader :: releasedShaders rest
  | _ :: rest => releasedShaders rest

/-! ## Attribute -/

/-- The map type `Map<AttributeLocation, AttributeReference>`. -/
abbrev AttributeMap := JsMap AttributeLocation AttributeReference

/-- A plain object `{ [shaderAttribute: string]: string }`: its own properties
with their values, in the order in which they were created, no key twice. -/
abbrev JsObject := JsMap String String

/-- The number that a string of decimal digits stands for, added to `acc` times
a power of ten; `none` when a character is no digit. -/
def digitsValue : List Char → Nat → Option Nat
  | [], acc => some acc
  | c :: rest, acc =>
    if 48 ≤ c.toNat ∧ c.toNat ≤ 57 then digitsValue rest (acc * 10 + (c.toNat - 48))
    else none

/-- The number of a property key that is an array index: the key is the decimal
numeral, with no sign and no leading zero, of a number below 2^32 - 1; `none`
for every other key. -/
def arrayIndex? (key : String) : Option Nat :=
  match key.data with
  | [] => none
  | c :: rest =>
    if c = '0' ∧ rest ≠ [] then none
    else
      match digitsValue (c :: rest) 0 with
      | some n => if n < 4294967295 then some n else none
      | none => none

/-- The key of the entry is an array index. -/
def JsObject.isIndexEntry (entry : String × String) : Bool :=
  (arrayIndex? entry.1).isSome

/-- The entry `a` does not come after the entry `b` in the order of the numbers
of their keys. -/
def JsObject.IndexLe (a b : String × String) : Prop :=
  (arrayIndex? a.1).getD 0 ≤ (arrayIndex? b.1).getD 0

instance JsObject.decidableIndexLe : DecidableRel JsObject.IndexLe :=
  fun a b => inferInstanceAs (Decidable ((arrayIndex? a.1).getD 0 ≤ (arrayIndex? b.1).getD 0))

/-- The assignment `object[key] = value` of a string to a property of an object
that `{}` has made.  The key `__proto__` reaches the setter of
`Object.prototype`, which ignores a value that is neither an object nor `null`:
no own property is created. -/
def JsObject.assign (object : JsObject) (key value : String) : JsObject :=
  if key = "__proto__" then object else JsMap.set object key value

/-- The list `Object.entries(object)`: the properties whose keys are array
indices come first, by ascending number, then the others in the order of their
creation. -/
def JsObject.entries (object : JsObject) : List (String × String) :=
  (object.filter JsObject.isIndexEntry).insertionSort JsObject.IndexLe ++
    object.filter (fun entry => !JsObject.isIndexEntry entry)

/-- The parameter `mapping` when it is not `null`: an object, given by the list
that `Object.entries` yields for it, or an array of names. -/
inductive AttributeMapping where
  | object (entries : JsObject)
  | array (names : List String)
  deriving DecidableEq, Repr

/-- The parameter `abo`: one attribute buffer or an array of them. -/
inductive AttributeBufferArg where
  | single (abo : AttributeBuffer)
  | array (abos : List AttributeBuffer)
  deriving DecidableEq, Repr

/-- The loop `for (const attributName of abo.attributes.keys())` of
`buildAttributeMap`, which fills the object `mapping`. -/
def buildAttributeMap.discover (shader : ShaderProgram) : JsObject → List String → JsObject
  | mapping, [] => mapping
  | mapping, attributName :: rest =>
    if shader.attributes.has attributName then
      buildAttributeMap.discover shader (mapping.assign attributName attributName) rest
    else
      buildAttributeMap.discover shader mapping rest

/-- The reduction `mapping.reduce((acc, cur) => { acc[cur] = cur; return acc; }, {})`. -/
def buildAttributeMap.ofNames : JsObject → List String → JsObject
  | acc, [] => acc
  | acc, cur :: rest => buildAttributeMap.ofNames (acc.assign cur cur) rest

/-- The loop `for (const [shaderAttribute, bufferAttribute] of Object.entries(mapping))`
of `buildAttributeMap`, which fills `result`. -/
def buildAttributeMap.resolve (shader : ShaderProgram) (abo : AttributeBuffer) :
    AttributeMap → List (String × String) → Except GlanceError AttributeMap
  | result, [] => .ok result
  | result, (shaderAttribute, bufferAttribute) :: rest =>
    match shader.attributes.get shaderAttribute with
    | none => .error (.notFoundInShader shaderAttribute shader.name)
    | some location =>
      match abo.attributes.get bufferAttribute with
      | none => .error (.notFoundInBuffer bufferAttribute abo.name)
      | some _ =>
        buildAttributeMap.resolve shader abo
          (result.set location { buffer := abo, name := bufferAttribute }) rest

/-- The part of `buildAttributeMap` that follows the array branch: `abo` is one
attribute buffer. -/
def buildAttributeMap.one (shader : ShaderProgram) (abo : AttributeBuffer)
    (mapping : Option AttributeMapping) : Except GlanceError AttributeMap :=
  let entries : List (String × String) :=
    match mapping with
    | none => (buildAttributeMap.discover shader [] abo.attributes.keys).entries
    | some (.array names) => (buildAttributeMap.ofNames [] names).entries
    | some (.object entries) => entries
  buildAttributeMap.resolve shader abo [] entries

/-- The loop `for (const [location, reference] of map.entries())` inside the
callback that `buildAttributeMap` hands to `abo.reduce`. -/
def buildAttributeMap.collect :
    AttributeMap → List (AttributeLocation × AttributeReference) →
    Except GlanceError AttributeMap
  | acc, [] => .ok acc
  | acc, (location, reference) :: rest =>
    if acc.has location then .error (.collision location)
    else buildAttributeMap.collect (acc.set location reference) rest

/-- The reduction `abo.reduce((acc, cur) => ..., new Map())` of `buildAttributeMap`:
each buffer is resolved by the call `buildAttributeMap(shader, cur)`, whose
mapping is `null`, and its entries are collected into `acc`. -/
def buildAttributeMap.reduce (shader : ShaderProgram) :
    AttributeMap → List AttributeBuffer → Except GlanceError AttributeMap
  | acc, [] => .ok acc
  | acc, cur :: rest =>
    match buildAttributeMap.one shader cur none with
    | .error e => .error e
    | .ok map =>
      match buildAttributeMap.collect acc map with
      | .error e => .error e
      | .ok acc1 => buildAttributeMap.reduce shader acc1 rest

/-- The function `buildAttributeMap`; the parameter `mapping` is `none` when it
is `null` or left out. -/
def buildAttributeMap (shader : ShaderProgram) (abo : AttributeBufferArg)
    (mapping : Option AttributeMapping) : Except GlanceError AttributeMap :=
  match abo with
  | .array abos =>
    if mapping.isSome then .error .mappingForMultipleBuffers
    else buildAttributeMap.reduce shader [] abos
  | .single abo => buildAttributeMap.one shader abo mapping

/-- The inner loop `for (const [location, reference] of map.entries())` of
`combineAttributeMaps`. -/
def combineAttributeMaps.inner :
    AttributeMap → List (AttributeLocation × AttributeReference) →
    Except GlanceError AttributeMap
  | result, [] => .ok result
  | result, (location, reference) :: rest =>
    if result.has location then .error (.collision location)
    else combineAttributeMaps.inner (result.set location reference) rest

/-- The outer loop `for (const map of maps)` of `combineAttributeMaps`. -/
def combineAttributeMaps.outer :
    AttributeMap → List AttributeMap → Except GlanceError AttributeMap
  | result, [] => .ok result
  | result, map :: rest =>
    match combineAttributeMaps.inner result map with
    | .error e => .error e
    | .ok result1 => combineAttributeMaps.outer result1 rest

/-- The function `combineAttributeMaps(...maps)`. -/
def combineAttributeMaps (maps : List AttributeMap) : Except GlanceError AttributeMap :=
  combineAttributeMaps.outer [] maps

/-- Some input location is a key of two of the maps of a list: of two entries
of the list that stand at different positions. -/
def KeyOfTwo (maps : List AttributeMap) : Prop :=
  ∃ (i j : Nat) (hi : i < maps.length) (hj : j < maps.length), i ≠ j ∧
    ∃ loc : AttributeLocation, maps[i].has loc = true ∧ maps[j].has loc = true

/-- The explicit mapping that sends every name of a list to itself: the object
with one own property `n: n` per name, created in the order in which the names
first stand in the list. -/
def identityMapping : List String → JsObject
  | [] => []
  | name :: rest =>
    (name, name) :: (identityMapping rest).filter (fun entry => decide (entry.1 ≠ name))

/-! ## Framebuffer -/

/-- The function `getFramebufferSize`. -/
def getFramebufferSize (framebuffer : Framebuffer) : Except GlanceError (Nat × Nat) :=
  if h : framebuffer.color.length > 0 then
    let attachment := framebuffer.color[0]
    .ok (attachment.width, attachment.height)
  else
    match framebuffer.depth with
    | some attachment => .ok (attachment.width, attachment.height)
    | none =>
      match framebuffer.stencil with
      | some attachment => .ok (attachment.width, attachment.height)
      | none => .error (.noAttachments framebuffer.name)

/-- The second component of a stack entry and the optional parameter
`drawBuffer`: `Framebuffer | null | undefined`. -/
inductive DrawBuffer where
  | undefined
  | null
  | framebuffer (framebuffer : Framebuffer)
  deriving DecidableEq, Repr

/-- The class `FramebufferStack`: its one field, the array `_stack`, whose last
element is the top of the stack. -/
structure FramebufferStack where
  _stack : List (Framebuffer × DrawBuffer)
  deriving DecidableEq, Repr

/-- What a method of the stack leaves behind: whether it returned or raised, the
stack and the context. -/
structure Outcome where
  result : Except GlanceError Unit
  stack : FramebufferStack
  gl : WebGL2

/-- The method `_bindFramebuffer`.  The size is computed before the first device
call, so when it raises the context is as it was. -/
def FramebufferStack._bindFramebuffer (gl : WebGL2) (readBuffer : Option Framebuffer)
    (drawBuffer : DrawBuffer) : Except GlanceError WebGL2 :=
  match drawBuffer with
  | .undefined =>
    let size : Except GlanceError (Nat × Nat) :=
      match readBuffer with
      | none => .ok (gl.canvas.width, gl.canvas.height)
      | some framebuffer => getFramebufferSize framebuffer
    match size with
    | .error e => .error e
    | .ok (width, height) =>
      let gl1 := gl.record (.bindFramebuffer .FRAMEBUFFER (readBuffer.map (·.glObject)))
      .ok (gl1.record (.viewport 0 0 width height))
  | .null =>
    let gl1 := gl.record (.bindFramebuffer .READ_FRAMEBUFFER (readBuffer.map (·.glObject)))
    let gl2 := gl1.record (.bindFramebuffer .DRAW_FRAMEBUFFER none)
    .ok (gl2.record (.viewport 0 0 gl.canvas.width gl.canvas.height))
  | .framebuffer target =>
    match getFramebufferSize target with
    | .error e => .error e
    | .ok (width, height) =>
      let gl1 := gl.record (.bindFramebuffer .READ_FRAMEBUFFER (readBuffer.map (·.glObject)))
      let gl2 := gl1.record (.bindFramebuffer .DRAW_FRAMEBUFFER (some target.glObject))
      .ok (gl2.record (.viewport 0 0 width height))

/-- The expression `this._stack.at(-1) ?? [null, undefined]`. -/
def FramebufferStack.top (s : FramebufferStack) : Option Framebuffer × DrawBuffer :=
  match s._stack.getLast? with
  | some (readBuffer, drawBuffer) => (some readBuffer, drawBuffer)
  | none => (none, .undefined)

/-- The loop `for (let i = 0; i < count; i++)` of `pop`, by the number of rounds
left.  A rebinding that raises ends the loop with that exception. -/
def FramebufferStack.popLoop : Nat → FramebufferStack → WebGL2 → Outcome
  | 0, s, gl => { result := .ok (), stack := s, gl := gl }
  | rounds + 1, s, gl =>
    let s1 : FramebufferStack := { _stack := s._stack.dropLast }
    match FramebufferStack._bindFramebuffer gl s1.top.1 s1.top.2 with
    | .error e => { result := .error e, stack := s1, gl := gl }
    | .ok gl1 => FramebufferStack.popLoop rounds s1 gl1

/-- The method `pop(gl, count)`; `count = Math.max(0, count)` rounds are made. -/
def FramebufferStack.pop (s : FramebufferStack) (gl : WebGL2) (count : Int) : Outcome :=
  FramebufferStack.popLoop (max 0 count).toNat s gl

/-- The method `push(gl, framebuffer, drawBuffer)`; `drawBuffer` is `.undefined`
when the argument is left out. -/
def FramebufferStack.push (s : FramebufferStack) (gl : WebGL2) (framebuffer : Framebuffer)
    (drawBuffer : DrawBuffer) : Outcome :=
  let drawBuffer : DrawBuffer :=
    if drawBuffer = .framebuffer framebuffer then .undefined else drawBuffer
  if s.top.1 = some framebuffer ∧ s.top.2 = drawBuffer then
    { result := .ok (), stack := s, gl := gl }
  else
    let s1 : FramebufferStack := { _stack := s._stack ++ [(framebuffer, drawBuffer)] }
    match FramebufferStack._bindFramebuffer gl (some framebuffer) drawBuffer with
    | .ok gl1 => { result := .ok (), stack := s1, gl := gl1 }
    | .error e =>
      let rollback := s1.pop gl 1
      match rollback.result with
      | .ok _ => { result := .error e, stack := rollback.stack, gl := rollback.gl }
      | .error e1 => { result := .error e1, stack := rollback.stack, gl := rollback.gl }

/-- The states of a `FramebufferStack` object: the field `_stack` is private and
starts empty, so the stack is always one that `push` and `pop` calls have built
from the empty stack. -/
inductive FramebufferStack.Reachable : FramebufferStack → Prop where
  | fresh : FramebufferStack.Reachable { _stack := [] }
  | push (s : FramebufferStack) (gl : WebGL2) (framebuffer : Framebuffer)
      (drawBuffer : DrawBuffer) :
      FramebufferStack.Reachable s →
      FramebufferStack.Reachable (s.push gl framebuffer drawBuffer).stack
  | pop (s : FramebufferStack) (gl : WebGL2) (count : Int) :
      FramebufferStack.Reachable s →
      FramebufferStack.Reachable (s.pop gl count).stack

/-- The sequence of calls `push(gl, f1, d1); ...; push(gl, fk, dk)`, each made
whether or not the one before it raised (the caller catches); what is left is
the stack and the context. -/
def FramebufferStack.pushAll :
    FramebufferStack → WebGL2 → List (Framebuffer × DrawBuffer) → FramebufferStack × WebGL2
  | s, gl, [] => (s, gl)
  | s, gl, (framebuffer, drawBuffer) :: rest =>
    FramebufferStack.pushAll (s.push gl framebuffer drawBuffer).stack
      (s.push gl framebuffer drawBuffer).gl rest

/-- The sequence of `k` calls `pop(gl)`, each with the default count 1; a call
that raises ends the sequence. -/
def FramebufferStack.popEach : Nat → FramebufferStack → WebGL2 → Outcome
  | 0, s, gl => { result := .ok (), stack := s, gl := gl }
  | k + 1, s, gl =>
    match (s.pop gl 1).result with
    | .error _ => s.pop gl 1
    | .ok _ => FramebufferStack.popEach k (s.pop gl 1).stack (s.pop gl 1).gl

/-- Modelled from the spec: the framebuffer state of the device, which the
context of the source hides: the handle bound for reading, the handle bound for
drawing (`none` is the default surface) and the viewport rectangle. -/
structure BoundState where
  read : Option Nat
  draw : Option Nat
  viewport : Nat × Nat × Nat × Nat
  deriving DecidableEq, Repr

/-- Modelled from the spec: what one device call does to the framebuffer state:
`bindFramebuffer(FRAMEBUFFER, h)` binds `h` for reading and for drawing, the two
other targets bind one side, `viewport` sets the rectangle, and no other call
touches the state. -/
def BoundState.apply (b : BoundState) : GlCall → BoundState
  | .bindFramebuffer .FRAMEBUFFER handle => { b with read := handle, draw := handle }
  | .bindFramebuffer .READ_FRAMEBUFFER handle => { b with read := handle }
  | .bindFramebuffer .DRAW_FRAMEBUFFER handle => { b with draw := handle }
  | .viewport x y width height => { b with viewport := (x, y, width, height) }
  | _ => b

/-- Modelled from the spec: the framebuffer state of a context: a new context
has the default surface bound and the viewport on the whole canvas, and every
call of the log has acted on it in turn. -/
def WebGL2.boundState (gl : WebGL2) : BoundState :=
  gl.calls.foldl BoundState.apply
    { read := none, draw := none, viewport := (0, 0, gl.canvas.width, gl.canvas.height) }

/-- A call that writes the framebuffer binding or the viewport. -/
def GlCall.touchesFramebuffer : GlCall → Bool
  | .bindFramebuffer _ _ => true
  | .viewport _ _ _ _ => true
  | _ => false

/-- The states of a render session: a stack object together with the context it
works on.  The session starts with the empty stack on a new context; the stack
is the only writer of the framebuffer binding and of the viewport, so every
other call on the context is one that does not touch them. -/
inductive FramebufferStack.Session : FramebufferStack → WebGL2 → Prop where
  | fresh (canvas : Canvas) :
      FramebufferStack.Session { _stack := [] } { canvas := canvas, calls := [] }
  | push (s : FramebufferStack) (gl : WebGL2) (framebuffer : Framebuffer)
      (drawBuffer : DrawBuffer) :
      FramebufferStack.Session s gl →
      FramebufferStack.Session (s.push gl framebuffer drawBuffer).stack
        (s.push gl framebuffer drawBuffer).gl
  | pop (s : FramebufferStack) (gl : WebGL2) (count : Int) :
      FramebufferStack.Session s gl →
      FramebufferStack.Session (s.pop gl count).stack (s.pop gl count).gl
  | other (s : FramebufferStack) (gl : WebGL2) (call : GlCall) :
      FramebufferStack.Session s gl → call.touchesFramebuffer = false →
      FramebufferStack.Session s (gl.record call)

/-- A framebuffer has a color, a depth or a stencil attachment. -/
def Framebuffer.hasAttachment (framebuffer : Framebuffer) : Bool :=
  decide (framebuffer.color.length > 0) || framebuffer.depth.isSome ||
    framebuffer.stencil.isSome

/-- The target whose size `_bindFramebuffer` sets the viewport to: the read
buffer when `drawBuffer` is `undefined`, else the draw buffer; `none` is the
canvas. -/
def FramebufferStack.viewportTarget (readBuffer : Option Framebuffer) :
    DrawBuffer → Option Framebuffer
  | .undefined => readBuffer
  | .null => none
  | .framebuffer target => some target

/-- The first statement of `push`: a draw buffer that is the read buffer becomes
`undefined`. -/
def FramebufferStack.normalize (framebuffer : Framebuffer) (drawBuffer : DrawBuffer) :
    DrawBuffer :=
  if drawBuffer = .framebuffer framebuffer then .undefined else drawBuffer

/-! ## Texture -/

/-- Modelled from the spec: `createTexture` of `core.js`, which is missing:
`allocateTexture(width, height, target, depth?, options) -> handle`.  The call is
logged and the texture returned carries a new handle, here the position of the
call in the log. -/
def createTexture (gl : WebGL2) (name : String) (width height : Nat) (target : TextureTarget)
    (depth : Option Nat) (options : Option CreateTextureOptions) : Texture × WebGL2 :=
  ({ name := name, glObject := gl.calls.length, target := target, width := width,
     height := height, depth := depth.getD 1 },
   gl.record (.createTexture name width height target depth options))

/-- Modelled from the spec: `updateTexture` of `core.js`, which is missing:
`uploadTexture(handle, pixelSource, options)`; the call is logged. -/
def updateTexture (gl : WebGL2) (texture : Texture) (data : Image)
    (options : UpdateTextureOptions) : WebGL2 :=
  gl.record (.updateTexture texture data options)

/-- The class `CubeMapStatus`: its one field. -/
structure CubeMapStatus where
  _counter : Nat
  deriving DecidableEq, Repr

/-- The method `increment`. -/
def CubeMapStatus.increment (status : CubeMapStatus) : CubeMapStatus :=
  { _counter := status._counter + 1 }

/-- The method `isComplete`. -/
def CubeMapStatus.isComplete (status : CubeMapStatus) : Bool :=
  decide (status._counter ≥ 6)

/-- A new `CubeMapStatus` object after `n` calls of `increment`. -/
def CubeMapStatus.afterIncrements : Nat → CubeMapStatus
  | 0 => { _counter := 0 }
  | n + 1 => (CubeMapStatus.afterIncrements n).increment

/-- The type `CubemapOptions`. -/
structure CubemapOptions where
  flipY : Option Bool
  deriving DecidableEq, Repr

/-- What reaches a loader from one of its six image elements: the image has
loaded (`onload` runs), or the load has failed (`onerror` runs).  The index is
the one that `urls.forEach` gave the element, of a six-tuple of addresses. -/
inductive FaceEvent where
  | loaded (index : Fin 6) (image : Image)
  | failed (index : Fin 6)
  deriving DecidableEq, Repr

/-- What `loadCubemap` has built when it returns, and what its `onload` handlers
work on later: the context, the texture and the completion sentinel. -/
structure CubemapState where
  gl : WebGL2
  texture : Texture
  completion : CubeMapStatus
  deriving DecidableEq, Repr

/-- The body of `loadCubemap` up to its `return`: the texture is created, the
sentinel is new, and six image elements are set to load. -/
def loadCubemap (gl : WebGL2) (name : String) (width height : Nat) : CubemapState :=
  let (texture, gl1) := createTexture gl name width height .TEXTURE_CUBE_MAP none none
  { gl := gl1, texture := texture, completion := { _counter := 0 } }

/-- The handler `image.onload` that `loadCubemap` gives the image element of
index `index`. -/
def loadCubemap.onload (options : CubemapOptions) (index : Fin 6) (image : Image)
    (st : CubemapState) : CubemapState :=
  let completion := st.completion.increment
  let gl1 := updateTexture st.gl st.texture image
    { target := some (TextureDataTarget.TEXTURE_CUBE_MAP_POSITIVE_X + index.val),
      createMipMaps := some completion.isComplete,
      flipY := some (options.flipY.getD false) }
  { st with gl := gl1, completion := completion }

/-- One event of `loadCubemap`; the function sets no `onerror` handler, so a
failed load runs no code. -/
def loadCubemap.handle (options : CubemapOptions) (st : CubemapState) :
    FaceEvent → CubemapState
  | .loaded index image => loadCubemap.onload options index image st
  | .failed _ => st

/-- The function `loadCubemap` followed by the events that the browser delivers
later, in their order: the state after the last of them. -/
def loadCubemap.run (gl : WebGL2) (name : String) (width height : Nat)
    (options : CubemapOptions) (events : List FaceEvent) : CubemapState :=
  events.foldl (loadCubemap.handle options) (loadCubemap gl name width height)

/-- The value that rejects the promise of `loadCubemapNow`: the string "Images
for faces of cubemap N have different sizes", or the error event of the image
element of one index. -/
inductive Rejection where
  | differentSizes (name : String)
  | errorEvent (index : Fin 6)
  deriving DecidableEq, Repr

/-- The state of a promise of a texture. -/
inductive Settlement where
  | pending
  | fulfilled (texture : Texture)
  | rejected (reason : Rejection)
  deriving DecidableEq, Repr

/-- The function `resolve` of a promise: it settles a pending promise only. -/
def Settlement.resolve (p : Settlement) (texture : Texture) : Settlement :=
  match p with
  | .pending => .fulfilled texture
  | settled => settled

/-- The function `reject` of a promise: it settles a pending promise only. -/
def Settlement.reject (p : Settlement) (reason : Rejection) : Settlement :=
  match p with
  | .pending => .rejected reason
  | settled => settled

/-- The element `xs[i]` of a JavaScript array; `none` is `null`, `undefined` or
an index past the end. -/
def jsArrayGet {α : Type} (xs : List (Option α)) (i : Nat) : Option α :=
  (xs.get? i).join

/-- The assignment `xs[i] = value` of a JavaScript array, which grows the array
when the index is past its end. -/
def jsArraySet {α : Type} : List (Option α) → Nat → α → List (Option α)
  | [], 0, value => [some value]
  | [], i + 1, value => none :: jsArraySet [] i value
  | _ :: rest, 0, value => some value :: rest
  | x :: rest, i + 1, value => x :: jsArraySet rest i value

/-- The variables that the closures of `loadCubemapNow` share: the context, the
counter `facesLoaded`, the array `images` and the promise. -/
structure CubemapNowState where
  gl : WebGL2
  facesLoaded : Nat
  images : List (Option Image)
  promise : Settlement
  deriving DecidableEq, Repr

/-- The body of `loadCubemapNow`: the promise is pending, no face has loaded, and
six image elements are set to load. -/
def loadCubemapNow (gl : WebGL2) : CubemapNowState :=
  { gl := gl, facesLoaded := 0, images := [none, none, none, none, none, none],
    promise := .pending }

/-- The loop `for (let i = 1; i < 6; i++)` of the `onload` handler, over the
indices left: a face whose size is not `width` x `height` makes the handler call
`reject`, and the loop goes on.  The second component is `false` when the loop
ends in a `TypeError`, an element `images[i]` being `null`. -/
def loadCubemapNow.checkSizes (name : String) (images : List (Option Image))
    (width height : Nat) : List Nat → Settlement → Settlement × Bool
  | [], promise => (promise, true)
  | i :: rest, promise =>
    match jsArrayGet images i with
    | none => (promise, false)
    | some image =>
      if image.naturalWidth ≠ width ∨ image.naturalHeight ≠ height then
        loadCubemapNow.checkSizes name images width height rest
          (promise.reject (.differentSizes name))
      else
        loadCubemapNow.checkSizes name images width height rest promise

/-- The loop `for (let i = 0; i < 6; i++)` of the `onload` handler, over the
indices left: one `updateTexture` per face.  The size check has read every
element before, so none is `null` here. -/
def loadCubemapNow.upload (options : CubemapOptions) (texture : Texture)
    (images : List (Option Image)) : List Nat → WebGL2 → WebGL2
  | [], gl => gl
  | i :: rest, gl =>
    match jsArrayGet images i with
    | none => loadCubemapNow.upload options texture images rest gl
    | some image =>
      loadCubemapNow.upload options texture images rest
        (updateTexture gl texture image
          { target := some (TextureDataTarget.TEXTURE_CUBE_MAP_POSITIVE_X + i),
            createMipMaps := some (decide (i = 5)),
            flipY := some (options.flipY.getD false) })

/-- The handler `image.onload` that `loadCubemapNow` gives the image element of
index `index`.  A `TypeError` on an element that is `null` leaves the handler
at once. -/
def loadCubemapNow.onload (name : String) (options : CubemapOptions) (index : Fin 6)
    (image : Image) (st : CubemapNowState) : CubemapNowState :=
  let images := jsArraySet st.images index.val image
  let facesLoaded := st.facesLoaded + 1
  if facesLoaded = 6 then
    match jsArrayGet images 0 with
    | none => { st with images := images, facesLoaded := facesLoaded }
    | some first =>
      let width := first.naturalWidth
      let height := first.naturalHeight
      match loadCubemapNow.checkSizes name images width height [1, 2, 3, 4, 5] st.promise with
      | (promise1, false) =>
        { st with images := images, facesLoaded := facesLoaded, promise := promise1 }
      | (promise1, true) =>
        let (texture, gl1) := createTexture st.gl name width height .TEXTURE_CUBE_MAP none none
        let gl2 := loadCubemapNow.upload options texture images [0, 1, 2, 3, 4, 5] gl1
        { gl := gl2, facesLoaded := facesLoaded, images := [],
          promise := promise1.resolve texture }
  else
    { st with images := images, facesLoaded := facesLoaded }

/-- One event of `loadCubemapNow`: `onload`, or `onerror`, which is `reject`. -/
def loadCubemapNow.handle (name : String) (options : CubemapOptions)
    (st : CubemapNowState) : FaceEvent → CubemapNowState
  | .loaded index image => loadCubemapNow.onload name options index image st
  | .failed index => { st with promise := st.promise.reject (.errorEvent index) }

/-- The function `loadCubemapNow` followed by the events that the browser
delivers later, in their order: the state after the last of them. -/
def loadCubemapNow.run (gl : WebGL2) (name : String) (options : CubemapOptions)
    (events : List FaceEvent) : CubemapNowState :=
  events.foldl (loadCubemapNow.handle name options) (loadCubemapNow gl)

/-- The events of six loads that all succeed: the faces finish in the order
`order 0, ..., order 5`, and the face of index `i` brings the image `faces i`. -/
def allLoaded (faces : Fin 6 → Image) (order : Fin 6 → Fin 6) : List FaceEvent :=
  (List.finRange 6).map (fun k => FaceEvent.loaded (order k) (faces (order k)))

/-- The events of six loads, one per face, of which some may fail: the faces
finish in the order `order 0, ..., order 5`; the face of index `i` brings the
image `image` when `faces i = some image`, and its load fails when
`faces i = none`. -/
def settledFaces (faces : Fin 6 → Option Image) (order : Fin 6 → Fin 6) : List FaceEvent :=
  (List.finRange 6).map (fun k =>
    match faces (order k) with
    | some image => FaceEvent.loaded (order k) image
    | none => FaceEvent.failed (order k))

/-- The event is a load that has succeeded. -/
def FaceEvent.isLoaded : FaceEvent → Bool
  | .loaded _ _ => true
  | .failed _ => false

/-- What the `onerror` handlers of a list of events do to the promise of
`loadCubemapNow`, each being `reject`; the `onload` handlers are left aside. -/
def Settlement.afterErrors : Settlement → List FaceEvent → Settlement
  | p, [] => p
  | p, .loaded _ _ :: rest => Settlement.afterErrors p rest
  | p, .failed index :: rest => Settlement.afterErrors (p.reject (.errorEvent index)) rest

/-- The six faces share one width and one height: each has the size of the face
of index 0. -/
def SameSize (faces : Fin 6 → Image) : Prop :=
  ∀ j : Fin 6, (faces j).naturalWidth = (faces 0).naturalWidth ∧
    (faces j).naturalHeight = (faces 0).naturalHeight

instance SameSize.decidable (faces : Fin 6 → Image) : Decidable (SameSize faces) :=
  inferInstanceAs (Decidable (∀ j : Fin 6, (faces j).naturalWidth = (faces 0).naturalWidth ∧
    (faces j).naturalHeight = (faces 0).naturalHeight))

/-- The type `TextureOptions`; `none` is a property left out. -/
structure TextureOptions where
  name : Option String
  target : Option TextureTarget
  useAnisotropy : Option Bool
  createMipMaps : Option Bool
  filter : Option (List TextureFilter)
  wrap : Option (List TextureWrap)
  flipY : Option Bool
  format : Option TextureInternalFormat
  deriving DecidableEq, Repr

/-- The function `getNameFromURL`. -/
def getNameFromURL (url : String) : String :=
  let segments := url.splitOn "/"
  let filename := segments.getLast?.getD ""
  (filename.splitOn ".").headD ""

/-- The options object that `loadTexture` and `loadTextureNow` hand to
`createTexture`. -/
def TextureOptions.toCreate (options : TextureOptions) : CreateTextureOptions :=
  { levels := if options.createMipMaps.getD false then none else some 1,
    useAnisotropy := some (options.useAnisotropy.getD true),
    filter := options.filter,
    wrap := options.wrap,
    internalFormat := some (options.format.getD .RGBA8) }

/-- What reaches a loader from its one image element, which delivers one event:
the image has loaded (`onload` runs), or the load has failed (`onerror` runs). -/
inductive ImageEvent where
  | loaded (image : Image)
  | failed
  deriving DecidableEq, Repr

/-- What `loadTexture` has built when it returns, and what its `onload` handler
works on later: the context, the texture, which is the value returned, and the
addresses that image elements were set to load (`image.src = url`). -/
structure TextureState where
  gl : WebGL2
  texture : Texture
  requested : List String
  deriving DecidableEq, Repr

/-- The body of `loadTexture` up to its `return`: the texture is created and one
image element is set to load.  (The attribute `crossOrigin` is left out.) -/
def loadTexture (gl : WebGL2) (width height : Nat) (url : String)
    (options : TextureOptions) : TextureState :=
  let name := options.name.getD (getNameFromURL url)
  let target := options.target.getD .TEXTURE_2D
  let (texture, gl1) := createTexture gl name width height target none (some options.toCreate)
  { gl := gl1, texture := texture, requested := [url] }

/-- The handler `image.onload` of `loadTexture`. -/
def loadTexture.onload (options : TextureOptions) (image : Image) (st : TextureState) :
    TextureState :=
  let gl1 := updateTexture st.gl st.texture image
    { target := none, createMipMaps := none, flipY := some (options.flipY.getD true) }
  { st with gl := gl1 }

/-- The event of `loadTexture`; the function sets no `onerror` handler, so a
failed load runs no code. -/
def loadTexture.handle (options : TextureOptions) (st : TextureState) :
    ImageEvent → TextureState
  | .loaded image => loadTexture.onload options image st
  | .failed => st

/-- The function `loadTexture` followed by the event that the browser delivers
later; `none` is a load that has not finished. -/
def loadTexture.run (gl : WebGL2) (width height : Nat) (url : String)
    (options : TextureOptions) (event : Option ImageEvent) : TextureState :=
  match event with
  | none => loadTexture gl width height url options
  | some e => loadTexture.handle options (loadTexture gl width height url options) e

/-- The error event that an image element hands to its `onerror` handler, by the
address that the element was loading. -/
structure ErrorEvent where
  src : String
  deriving DecidableEq, Repr

/-- The state of a promise of a value that an error event can reject. -/
inductive PromiseState (α : Type) where
  | pending
  | fulfilled (value : α)
  | rejected (reason : ErrorEvent)
  deriving DecidableEq, Repr

/-- The function `resolve` of a promise: it settles a pending promise only. -/
def PromiseState.resolve {α : Type} (p : PromiseState α) (value : α) : PromiseState α :=
  match p with
  | .pending => .fulfilled value
  | settled => settled

/-- The function `reject` of a promise: it settles a pending promise only. -/
def PromiseState.reject {α : Type} (p : PromiseState α) (reason : ErrorEvent) :
    PromiseState α :=
  match p with
  | .pending => .rejected reason
  | settled => settled

/-- The variables that the closures of `loadTextureNow` share: the context, the
addresses that image elements were set to load, and the promise. -/
structure TextureNowState where
  gl : WebGL2
  requested : List String
  promise : PromiseState Texture
  deriving DecidableEq, Repr

/-- The body of `loadTextureNow`: the promise is pending and one image element
is set to load.  (The attribute `crossOrigin` is left out.) -/
def loadTextureNow (gl : WebGL2) (url : String) : TextureNowState :=
  { gl := gl, requested := [url], promise := .pending }

/-- The handler `image.onload` of `loadTextureNow`. -/
def loadTextureNow.onload (url : String) (options : TextureOptions) (image : Image)
    (st : TextureNowState) : TextureNowState :=
  let name := options.name.getD (getNameFromURL url)
  let target := options.target.getD .TEXTURE_2D
  let (texture, gl1) := createTexture st.gl name image.naturalWidth image.naturalHeight
    target none (some options.toCreate)
  let gl2 := updateTexture gl1 texture image
    { target := none, createMipMaps := none, flipY := some (options.flipY.getD true) }
  { st with gl := gl2, promise := st.promise.resolve texture }

/-- The event of `loadTextureNow`: `onload`, or `onerror`, which is `reject`. -/
def loadTextureNow.handle (url : String) (options : TextureOptions)
    (st : TextureNowState) : ImageEvent → TextureNowState
  | .loaded image => loadTextureNow.onload url options image st
  | .failed => { st with promise := st.promise.reject (ErrorEvent.mk url) }

/-- The function `loadTextureNow` followed by the event that the browser
delivers later; `none` is a load that has not finished. -/
def loadTextureNow.run (gl : WebGL2) (url : String) (options : TextureOptions)
    (event : Option ImageEvent) : TextureNowState :=
  match event with
  | none => loadTextureNow gl url
  | some e => loadTextureNow.handle url options (loadTextureNow gl url) e

/-! ## Data volume

The numbers of `loadDataVolumeNow` are doubles (`JsNumber`): each operation of
the loop over the pixels rounds its exact result, and the assignment to an
element of the `Float32Array` rounds once more, to a single. -/

/-- Modelled from the spec: `clamp` of `math/common.js`, which is missing: the
value brought into the range from `min` to `max` ("clamp(pixel, input_min,
input_max)", "a pixel value of 300 ... clamps"), as
`Math.min(Math.max(x, min), max)`. -/
def clamp (x min max : JsNumber) : JsNumber :=
  (x.max min).min max

/-- The type `DataVolumeOptions`: the texture options and the two ranges; `none`
is a property left out. -/
structure DataVolumeOptions where
  name : Option String
  target : Option TextureTarget
  useAnisotropy : Option Bool
  createMipMaps : Option Bool
  filter : Option (List TextureFilter)
  wrap : Option (List TextureWrap)
  flipY : Option Bool
  format : Option TextureInternalFormat
  input_min : Option JsNumber
  input_max : Option JsNumber
  output_min : Option JsNumber
  output_max : Option JsNumber

/-- The constant `input_min` of `loadDataVolumeNow`: `options.input_min ?? 0`. -/
def loadDataVolumeNow.inputMin (options : DataVolumeOptions) : JsNumber :=
  options.input_min.getD (.zero false)

/-- The constant `input_max` of `loadDataVolumeNow`: `options.input_max ?? 255`. -/
def loadDataVolumeNow.inputMax (options : DataVolumeOptions) : JsNumber :=
  options.input_max.getD (.finite 255)

/-- The constant `output_min` of `loadDataVolumeNow`: `options.output_min ?? 0`. -/
def loadDataVolumeNow.outputMin (options : DataVolumeOptions) : JsNumber :=
  options.output_min.getD (.zero false)

/-- The constant `output_max` of `loadDataVolumeNow`: `options.output_max ?? 1`. -/
def loadDataVolumeNow.outputMax (options : DataVolumeOptions) : JsNumber :=
  options.output_max.getD (.finite 1)

/-- The body of the loop `for (let i = 0; i < realData.length; i++)` of
`loadDataVolumeNow` for one pixel value `pixelData[i * 4]`, with the constants
that the function sets up from its options: the double that is then stored into
`realData[i]`. -/
def loadDataVolumeNow.normalize (options : DataVolumeOptions) (pixel : JsNumber) : JsNumber :=
  let input_min := loadDataVolumeNow.inputMin options
  let input_max := loadDataVolumeNow.inputMax options
  let output_min := loadDataVolumeNow.outputMin options
  let output_max := loadDataVolumeNow.outputMax options
  let inputRange := input_max.sub input_min
  let outputRange := output_max.sub output_min
  let value := clamp pixel input_min input_max
  output_min.add (((value.sub input_min).div inputRange).mul outputRange)

/-- The element that the assignment `realData[i] = ...` leaves in the
`Float32Array` for one pixel value. -/
def loadDataVolumeNow.stored (options : DataVolumeOptions) (pixel : JsNumber) : JsNumber :=
  (loadDataVolumeNow.normalize options pixel).toFloat32

/-- The value of the product `((value - input_min) / inputRange) * outputRange`
for a pixel value `x` and finite ranges `l` to `h` and `a` to `b`, when no step
overflows: each operation rounds its exact result. -/
def loadDataVolumeNow.scaled (l h a b x : ℚ) : ℚ :=
  binary64.nearest
    (binary64.nearest (binary64.nearest (Min.min (Max.max x l) h - l) / binary64.nearest (h - l))
      * binary64.nearest (b - a))

/-- The part of the `onload` handler of one slice that turns the bytes of the
canvas, four per pixel, into the array `realData`: the length check, then the
loop over the pixels, which reads the byte `pixelData[i * 4]` as a number and
stores the result into the `Float32Array`. -/
def loadDataVolumeNow.sliceData (options : DataVolumeOptions) (width height : Nat)
    (pixelData : List Nat) : Except GlanceError (List JsNumber) :=
  if pixelData.length ≠ width * height * 4 then
    .error (.unexpectedPixelDataLength pixelData.length (width * height * 4))
  else
    .ok ((List.range (width * height)).map
      (fun i => loadDataVolumeNow.stored options (JsNumber.ofNat (pixelData.getD (i * 4) 0))))

/-- The options that `loadDataVolumeNow` hands to `loadTextureNow` for the load
of the first slice, which gives the size of the volume. -/
def loadDataVolumeNow.firstOptions : TextureOptions :=
  { name := none, target := none, useAnisotropy := some false, createMipMaps := some false,
    filter := some [.NEAREST], wrap := some [.CLAMP_TO_EDGE], flipY := some false,
    format := none }

/-- The options object `{ levels, useAnisotropy, filter, wrap, internalFormat }`
that `loadDataVolumeNow` hands to `createTexture`, of the constants that the
function sets up from its options. -/
def loadDataVolumeNow.createOptions (options : DataVolumeOptions) : CreateTextureOptions :=
  { levels := if options.createMipMaps.getD false then none else some 1,
    useAnisotropy := some (options.useAnisotropy.getD false),
    filter := some (options.filter.getD [.LINEAR]),
    wrap := some (options.wrap.getD [.CLAMP_TO_EDGE]),
    internalFormat := some (options.format.getD .R16F) }

/-- What reaches `loadDataVolumeNow` from its image elements, each of which
delivers one event: the event of the element of the first load, the bytes of a
slice that has loaded (what `getImageData` yields for it), or the failure of a
slice. -/
inductive VolumeEvent where
  | first (event : ImageEvent)
  | sliceLoaded (slice : Nat) (pixelData : List Nat)
  | sliceFailed (slice : Nat)
  deriving DecidableEq, Repr

/-- The variables that the closures of `loadDataVolumeNow` share: the context,
the addresses that image elements were set to load, the promise of the first
load, the volume texture and its size once the executor has created it, the
slices whose promise is resolved, and the promise returned. -/
structure VolumeState where
  gl : WebGL2
  requested : List String
  first : PromiseState Texture
  volumeTexture : Option Texture
  width : Nat
  height : Nat
  resolved : List Nat
  promise : PromiseState Texture
  deriving DecidableEq, Repr

/-- The body of `loadDataVolumeNow` up to its `return`, and whether it returned
or raised.  The format is checked before the promise is made.  Then the executor
runs up to its first `await`: `loadTextureNow(gl, urls[0], ...)` sets one image
element to load; with no address at all that call raises a `TypeError` inside
the executor, which ends there. -/
def loadDataVolumeNow (gl : WebGL2) (urls : List String) (options : DataVolumeOptions) :
    Except GlanceError Unit × VolumeState :=
  let internalFormat := options.format.getD .R16F
  let idle : VolumeState :=
    { gl := gl, requested := [], first := .pending, volumeTexture := none, width := 0,
      height := 0, resolved := [], promise := .pending }
  if internalFormat ≠ .R16F then
    (.error .dataVolumeFormat, idle)
  else
    match urls.head? with
    | none => (.ok (), idle)
    | some url =>
      let load := loadTextureNow gl url
      (.ok (), { idle with gl := load.gl, requested := load.requested, first := load.promise })

/-- The executor of `loadDataVolumeNow` from the point where
`await loadTextureNow(...)` has yielded the texture of the first slice up to
`await Promise.all(promises)`: that texture is deleted, the volume texture is
created and bound, and one image element per slice is set to load.  (The
offscreen canvas is left out.) -/
def loadDataVolumeNow.allocate (name : String) (urls : List String)
    (options : DataVolumeOptions) (volumeDefTexture : Texture) (st : VolumeState) :
    VolumeState :=
  let width := volumeDefTexture.width
  let height := volumeDefTexture.height
  let depth := urls.length
  let gl1 := st.gl.record (.deleteTexture volumeDefTexture.glObject)
  let (volumeTexture, gl2) := createTexture gl1 name width height .TEXTURE_3D (some depth)
    (some (loadDataVolumeNow.createOptions options))
  let gl3 := gl2.record (.bindTexture .TEXTURE_3D (some volumeTexture.glObject))
  { st with gl := gl3, requested := st.requested ++ urls, volumeTexture := some volumeTexture,
            width := width, height := height }

/-- One event of `loadDataVolumeNow`.  The event of the first load runs the
handler of `loadTextureNow`, and the executor goes on when that promise is
fulfilled; when it is rejected the `await` raises inside the executor, which
ends without settling the promise returned.  A slice that has loaded is written
into the volume and its promise resolved, and with the last of them the promise
returned is resolved; a handler that raises resolves nothing.  A slice that
fails rejects the promise returned.  An event that no element can deliver has no
handler. -/
def loadDataVolumeNow.handle (name : String) (urls : List String)
    (options : DataVolumeOptions) (st : VolumeState) : VolumeEvent → VolumeState
  | .first event =>
    match urls.head?, st.first with
    | some url, .pending =>
      let load := loadTextureNow.handle url loadDataVolumeNow.firstOptions
        { gl := st.gl, requested := st.requested, promise := st.first } event
      let st1 : VolumeState := { st with gl := load.gl, first := load.promise }
      match load.promise with
      | .fulfilled volumeDefTexture =>
        loadDataVolumeNow.allocate name urls options volumeDefTexture st1
      | _ => st1
    | _, _ => st
  | .sliceLoaded slice pixelData =>
    match st.volumeTexture with
    | none => st
    | some volumeTexture =>
      if slice < urls.length ∧ slice ∉ st.resolved then
        match loadDataVolumeNow.sliceData options st.width st.height pixelData with
        | .error _ => st
        | .ok realData =>
          let gl1 := st.gl.record (.texSubImage3D slice st.width st.height realData)
          let resolved := slice :: st.resolved
          if resolved.length = urls.length then
            { st with gl := gl1.record (.bindTexture .TEXTURE_3D none), resolved := resolved,
                      promise := st.promise.resolve volumeTexture }
          else
            { st with gl := gl1, resolved := resolved }
      else st
  | .sliceFailed slice =>
    match st.volumeTexture, urls.get? slice with
    | some _, some url =>
      if slice ∉ st.resolved then { st with promise := st.promise.reject (ErrorEvent.mk url) }
      else st
    | _, _ => st

/-- The function `loadDataVolumeNow` followed by the events that the browser
delivers later, in their order: the state after the last of them.  A call that
has raised has set no handler. -/
def loadDataVolumeNow.run (gl : WebGL2) (name : String) (urls : List String)
    (options : DataVolumeOptions) (events : List VolumeEvent) : VolumeState :=
  match loadDataVolumeNow gl urls options with
  | (.error _, st) => st
  | (.ok _, st) => events.foldl (loadDataVolumeNow.handle name urls options) st

/-- The call creates a 3D texture. -/
def GlCall.createsVolume : GlCall → Bool
  | .createTexture _ _ _ .TEXTURE_3D _ _ => true
  | _ => false

/-- The internal format that a call of `createTexture` names in its options. -/
def GlCall.internalFormat : GlCall → Option TextureInternalFormat
  | .createTexture _ _ _ _ _ (some options) => options.internalFormat
  | _ => none

/-! ## Example inputs -/

/-- A context with a 640 x 480 canvas on which no call has been made. -/
def freshContext : WebGL2 :=
  { canvas := { width := 640, height := 480 }, calls := [] }

/-- A device on which the vertex stage does not compile. -/
def vertexFailingDevice : Device :=
  { compileVertex := fun _ => .error "vertex stage: syntax error"
    compileFragment := fun source => .ok { glObject := 2, source := source }
    linkProgram := fun name _ _ _ _ => .ok { name := name, glObject := 3, attributes := [] } }

/-- A description of three floats, tightly packed. -/
def vec3Description : AttributeDescription :=
  { componentCount := 3, elementType := 5126, byteOffset := 0, byteStride := 12 }

/-- A program that declares `pos` at location 0 and `color` at location 1. -/
def posColorProgram : ShaderProgram :=
  { name := "posColor", glObject := 10, attributes := [("pos", 0), ("color", 1)] }

/-- A buffer that declares `pos` and `normal`. -/
def posNormalBuffer : AttributeBuffer :=
  { name := "posNormal", glObject := 20,
    attributes := [("pos", vec3Description), ("normal", vec3Description)] }

/-- A program that expects `pos`, at location 0. -/
def posProgram : ShaderProgram :=
  { name := "posOnly", glObject := 11, attributes := [("pos", 0)] }

/-- A first buffer that declares `pos`. -/
def posBufferA : AttributeBuffer :=
  { name := "A", glObject := 21, attributes := [("pos", vec3Description)] }

/-- A second buffer that declares `pos`. -/
def posBufferB : AttributeBuffer :=
  { name := "B", glObject := 22, attributes := [("pos", vec3Description)] }

/-- A program value whose two attributes `a` and `b` carry the same location 0. -/
def aliasedProgram : ShaderProgram :=
  { name := "aliased", glObject := 12, attributes := [("a", 0), ("b", 0)] }

/-- A buffer that declares `a` and `b`. -/
def abBuffer : AttributeBuffer :=
  { name := "ab", glObject := 23,
    attributes := [("a", vec3Description), ("b", vec3Description)] }

/-- A buffer that declares `x` and `y`. -/
def xyBuffer : AttributeBuffer :=
  { name := "xy", glObject := 24,
    attributes := [("x", vec3Description), ("y", vec3Description)] }

/-- A buffer that declares `position` and `tint`. -/
def positionTintBuffer : AttributeBuffer :=
  { name := "positionTint", glObject := 25,
    attributes := [("position", vec3Description), ("tint", vec3Description)] }

/-- The explicit mapping `{ a: "x", b: "y" }`. -/
def abToXy : JsObject :=
  [("a", "x"), ("b", "y")]

/-- The explicit mapping `{ pos: "position", color: "tint" }`. -/
def posColorToPositionTint : JsObject :=
  [("pos", "position"), ("color", "tint")]

/-- Two attribute maps with the keys 0 and 1. -/
def disjointMaps : List AttributeMap :=
  [[(0, { buffer := posBufferA, name := "pos" })],
   [(1, { buffer := posNormalBuffer, name := "normal" })]]

/-- The stack of a fresh `FramebufferStack`. -/
def emptyStack : FramebufferStack :=
  { _stack := [] }

/-- A framebuffer with no color, no depth and no stencil attachment. -/
def bareFramebuffer : Framebuffer :=
  { name := "bare", glObject := 30, color := [], depth := none, stencil := none }

/-- A framebuffer with one 256 x 128 color attachment. -/
def colorFramebuffer : Framebuffer :=
  { name := "color", glObject := 31, color := [{ width := 256, height := 128 }],
    depth := none, stencil := none }

/-- A framebuffer with a 512 x 512 depth attachment only. -/
def depthFramebuffer : Framebuffer :=
  { name := "depth", glObject := 32, color := [],
    depth := some { width := 512, height := 512 }, stencil := none }

/-- The addresses of six faces. -/
def faceUrls : List String :=
  ["px.png", "nx.png", "py.png", "ny.png", "pz.png", "nz.png"]

/-- Six faces of 64 x 64. -/
def faces64 : Fin 6 → Image :=
  fun i => { src := faceUrls.getD i.val "", naturalWidth := 64, naturalHeight := 64 }

/-- Six faces of which the one of index 3 is 64 x 64 and the others are 32 x 32. -/
def facesOddThree : Fin 6 → Image :=
  fun i =>
    if i = 3 then { src := faceUrls.getD i.val "", naturalWidth := 64, naturalHeight := 64 }
    else { src := faceUrls.getD i.val "", naturalWidth := 32, naturalHeight := 32 }

/-- Six faces of which the one of index 1 is 64 x 64 and the others are 32 x 32. -/
def facesOddOne : Fin 6 → Image :=
  fun i =>
    if i = 1 then { src := faceUrls.getD i.val "", naturalWidth := 64, naturalHeight := 64 }
    else { src := faceUrls.getD i.val "", naturalWidth := 32, naturalHeight := 32 }

/-- No option given. -/
def noCubemapOptions : CubemapOptions :=
  { flipY := none }

/-- The order in which the faces of index 3 and of index 0 change places. -/
def swappedOrder : Equiv.Perm (Fin 6) :=
  Equiv.swap 0 3

/-- No option given: the ranges are 0 to 255 and 0 to 1. -/
def noVolumeOptions : DataVolumeOptions :=
  { name := none, target := none, useAnisotropy := none, createMipMaps := none,
    filter := none, wrap := none, flipY := none, format := none,
    input_min := none, input_max := none, output_min := none, output_max := none }

/-- The bytes of a slice of two pixels, red 128 and red 255. -/
def twoPixels : List Nat :=
  [128, 7, 9, 255, 255, 0, 0, 255]

/-- Six faces of which those of index 1 and 3 fail to load; the others are
64 x 64. -/
def facesTwoFail : Fin 6 → Option Image :=
  fun i => if i = 1 ∨ i = 3 then none else some (faces64 i)

/-- No texture option is given. -/
def noTextureOptions : TextureOptions :=
  { name := none, target := none, useAnisotropy := none, createMipMaps := none,
    filter := none, wrap := none, flipY := none, format := none }

/-- Volume options that ask for the internal format RGBA8. -/
def rgbaVolumeOptions : DataVolumeOptions :=
  { noVolumeOptions with format := some .RGBA8 }

/-- The addresses of two slices. -/
def twoSlices : List String :=
  ["ct/slice0.png", "ct/slice1.png"]

/-- Texture options that name the texture. -/
def woodOptions : TextureOptions :=
  { noTextureOptions with name := some "wood" }

/-- A program value that declares `__proto__` at location 0 and `pos` at
location 1. -/
def protoProgram : ShaderProgram :=
  { name := "proto", glObject := 13, attributes := [("__proto__", 0), ("pos", 1)] }

/-- A buffer that declares `__proto__` and `pos`. -/
def protoBuffer : AttributeBuffer :=
  { name := "protoBuffer", glObject := 25,
    attributes := [("__proto__", vec3Description), ("pos", vec3Description)] }

/-- Volume options whose output range goes from the double nearest to -3.66 to
the double nearest to 4.81. -/
def wideOutputOptions : DataVolumeOptions :=
  { noVolumeOptions with
    output_min := some (.finite (-1030198414761001 / 281474976710656)),
    output_max := some (.finite (5415578551913021 / 1125899906842624)) }

/-- Volume options whose output range goes from 0 to the double nearest to
0.1. -/
def tenthOutputOptions : DataVolumeOptions :=
  { noVolumeOptions with
    output_max := some (.finite (3602879701896397 / 36028797018963968)) }

/-- Volume options whose input range is the one value 7. -/
def flatInputOptions : DataVolumeOptions :=
  { noVolumeOptions with input_min := some (.finite 7), input_max := some (.finite 7) }

/-! ## Lemmas: maps -/

theorem JsMap.has_iff_mem_keys {κ α : Type} [DecidableEq κ] (m : JsMap κ α) (key : κ) :
    m.has key = true ↔ key ∈ m.keys := by
  induction m with
  | nil => simp [JsMap.has, JsMap.keys]
  | cons e rest ih =>
    obtain ⟨k, v⟩ := e
    by_cases h : k = key
    · simp [JsMap.has, JsMap.keys, h]
    · have ih1 : JsMap.has rest key = true ↔ key ∈ List.map Prod.fst rest := ih
      simp [JsMap.has, JsMap.keys, h, ih1, Ne.symm h]

theorem JsMap.has_eq_false_iff {κ α : Type} [DecidableEq κ] (m : JsMap κ α) (key : κ) :
    m.has key = false ↔ key ∉ m.keys := by
  rw [← JsMap.has_iff_mem_keys]
  simp

theorem JsMap.get_eq_none_iff {κ α : Type} [DecidableEq κ] (m : JsMap κ α) (key : κ) :
    m.get key = none ↔ m.has key = false := by
  induction m with
  | nil => simp [JsMap.get, JsMap.has]
  | cons e rest ih =>
    obtain ⟨k, v⟩ := e
    by_cases h : k = key
    · simp [JsMap.get, JsMap.has, h]
    · simp [JsMap.get, JsMap.has, h, ih]

theorem JsMap.get_isSome_of_has {κ α : Type} [DecidableEq κ] (m : JsMap κ α) (key : κ)
    (h : m.has key = true) : ∃ v, m.get key = some v := by
  cases hg : m.get key with
  | none => rw [JsMap.get_eq_none_iff] at hg; simp [hg] at h
  | some v => exact ⟨v, rfl⟩

theorem JsMap.has_of_get {κ α : Type} [DecidableEq κ] (m : JsMap κ α) (key : κ) (v : α)
    (h : m.get key = some v) : m.has key = true := by
  cases hh : m.has key with
  | true => rfl
  | false => rw [← JsMap.get_eq_none_iff] at hh; simp [hh] at h

theorem JsMap.mem_of_get {κ α : Type} [DecidableEq κ] (m : JsMap κ α) (key : κ) (v : α)
    (h : m.get key = some v) : (key, v) ∈ m := by
  induction m with
  | nil => simp [JsMap.get] at h
  | cons e rest ih =>
    obtain ⟨k, w⟩ := e
    by_cases hk : k = key
    · simp [JsMap.get, hk] at h
      simp [hk, h]
    · simp [JsMap.get, hk] at h
      exact List.mem_cons_of_mem _ (ih h)

theorem JsMap.get_of_mem {κ α : Type} [DecidableEq κ] (m : JsMap κ α) (hwf : m.WF)
    (key : κ) (v : α) (h : (key, v) ∈ m) : m.get key = some v := by
  induction m with
  | nil => simp at h
  | cons e rest ih =>
    obtain ⟨k, w⟩ := e
    have hwf1 : k ∉ List.map Prod.fst rest ∧ (List.map Prod.fst rest).Nodup := by
      simpa [JsMap.WF, JsMap.keys] using hwf
    rcases List.mem_cons.1 h with heq | hmem
    · simp only [Prod.mk.injEq] at heq
      simp [JsMap.get, heq.1, heq.2]
    · have hne : k ≠ key := by
        intro hk
        apply hwf1.1
        rw [hk]
        exact List.mem_map_of_mem Prod.fst hmem
      simp only [JsMap.get, hne, if_false]
      exact ih hwf1.2 hmem

theorem JsMap.set_of_not_has {κ α : Type} [DecidableEq κ] (m : JsMap κ α) (key : κ) (v : α)
    (h : m.has key = false) : m.set key v = m ++ [(key, v)] := by
  induction m with
  | nil => simp [JsMap.set]
  | cons e rest ih =>
    obtain ⟨k, w⟩ := e
    by_cases hk : k = key
    · simp [JsMap.has, hk] at h
    · simp only [JsMap.has, hk, if_false] at h
      simp [JsMap.set, hk, ih h]

theorem JsMap.get_set {κ α : Type} [DecidableEq κ] (m : JsMap κ α) (key : κ) (v : α)
    (key1 : κ) : (m.set key v).get key1 = if key = key1 then some v else m.get key1 := by
  induction m with
  | nil => simp [JsMap.set, JsMap.get]
  | cons e rest ih =>
    obtain ⟨k, w⟩ := e
    by_cases hk : k = key
    · subst hk
      by_cases h1 : k = key1 <;> simp [JsMap.set, JsMap.get, h1]
    · by_cases h1 : k = key1
      · subst h1
        simp [JsMap.set, JsMap.get, hk, Ne.symm hk]
      · simp [JsMap.set, JsMap.get, hk, h1, ih]

theorem JsMap.keys_set {κ α : Type} [DecidableEq κ] (m : JsMap κ α) (key : κ) (v : α) :
    (m.set key v).keys = if m.has key then m.keys else m.keys ++ [key] := by
  induction m with
  | nil => simp [JsMap.set, JsMap.keys, JsMap.has]
  | cons e rest ih =>
    obtain ⟨k, w⟩ := e
    have ih1 : List.map Prod.fst (JsMap.set rest key v)
        = if JsMap.has rest key = true then List.map Prod.fst rest
          else List.map Prod.fst rest ++ [key] := ih
    by_cases hk : k = key
    · simp [JsMap.set, JsMap.keys, JsMap.has, hk]
    · simp only [JsMap.set, JsMap.keys, JsMap.has, hk, if_false, List.map_cons, ih1]
      split <;> simp

theorem JsMap.wf_set {κ α : Type} [DecidableEq κ] (m : JsMap κ α) (key : κ) (v : α)
    (hwf : m.WF) : (m.set key v).WF := by
  unfold JsMap.WF at *
  rw [JsMap.keys_set]
  cases hh : m.has key with
  | true => simpa using hwf
  | false =>
    have hnot : key ∉ m.keys := (JsMap.has_eq_false_iff m key).1 hh
    simp only [Bool.false_eq_true, if_false]
    rw [List.nodup_append]
    refine ⟨hwf, List.nodup_singleton key, ?_⟩
    intro x hx hx1
    simp only [List.mem_singleton] at hx1
    exact hnot (hx1 ▸ hx)

theorem JsMap.has_set {κ α : Type} [DecidableEq κ] (m : JsMap κ α) (key : κ) (v : α)
    (key1 : κ) : (m.set key v).has key1 = true ↔ key1 = key ∨ m.has key1 = true := by
  rw [JsMap.has_iff_mem_keys, JsMap.keys_set, JsMap.has_iff_mem_keys m key1]
  cases hh : m.has key with
  | true =>
    have hmem : key ∈ m.keys := (JsMap.has_iff_mem_keys m key).1 hh
    simp only [if_true]
    constructor
    · exact fun h => Or.inr h
    · rintro (h | h)
      · exact h ▸ hmem
      · exact h
  | false =>
    simp only [Bool.false_eq_true, if_false, List.mem_append, List.mem_singleton]
    exact Or.comm

theorem JsObject.entries_perm (object : JsObject) : object.entries.Perm object := by
  unfold JsObject.entries
  exact (List.Perm.append_right _ (List.perm_insertionSort _ _)).trans
    (List.filter_append_perm JsObject.isIndexEntry object)

theorem JsObject.mem_entries (object : JsObject) (p : String × String) :
    p ∈ object.entries ↔ p ∈ object :=
  (JsObject.entries_perm object).mem_iff

theorem JsObject.entries_wf (object : JsObject) (h : object.WF) : JsMap.WF object.entries := by
  unfold JsMap.WF JsMap.keys at *
  exact ((JsObject.entries_perm object).map Prod.fst).nodup_iff.2 h

theorem JsObject.entries_of_no_index (object : JsObject)
    (h : ∀ p ∈ object, JsObject.isIndexEntry p = false) : object.entries = object := by
  unfold JsObject.entries
  have h1 : object.filter JsObject.isIndexEntry = [] := by
    rw [List.filter_eq_nil_iff]
    intro p hp
    simp [h p hp]
  have h2 : object.filter (fun entry => !JsObject.isIndexEntry entry) = object := by
    rw [List.filter_eq_self]
    intro p hp
    simp [h p hp]
  rw [h1, h2]
  rfl

theorem JsObject.wf_assign (object : JsObject) (key value : String) (h : object.WF) :
    (object.assign key value).WF := by
  unfold JsObject.assign
  split
  · exact h
  · exact JsMap.wf_set _ _ _ h

theorem JsObject.get_assign (object : JsObject) (key value key1 : String) :
    (object.assign key value).get key1
      = if key = key1 ∧ key ≠ "__proto__" then some value else object.get key1 := by
  unfold JsObject.assign
  by_cases hp : key = "__proto__"
  · simp [hp]
  · simp only [hp, if_false, JsMap.get_set, ne_eq, not_false_eq_true, and_true]

/-! ## Lemmas: merging attribute maps -/

theorem JsMap.keys_append {κ α : Type} (m n : JsMap κ α) :
    JsMap.keys (m ++ n) = m.keys ++ n.keys := by
  simp [JsMap.keys]

theorem combineAttributeMaps.inner_ok :
    ∀ (es : List (AttributeLocation × AttributeReference)) (result : AttributeMap),
      JsMap.WF es → (∀ loc ∈ JsMap.keys es, result.has loc = false) →
      combineAttributeMaps.inner result es = .ok (result ++ es) := by
  intro es
  induction es with
  | nil => intro result _ _; simp [combineAttributeMaps.inner]
  | cons e rest ih =>
    intro result hwf hdisj
    obtain ⟨l, r⟩ := e
    have hwf1 : l ∉ JsMap.keys rest ∧ JsMap.WF rest := by
      simpa [JsMap.WF, JsMap.keys] using hwf
    have hl : result.has l = false := hdisj l (by simp [JsMap.keys])
    have hrest : ∀ loc ∈ JsMap.keys rest, JsMap.has (result ++ [(l, r)]) loc = false := by
      intro loc hloc
      rw [JsMap.has_eq_false_iff, JsMap.keys_append]
      intro hmem
      rcases List.mem_append.1 hmem with h1 | h1
      · have h2 := hdisj loc (by simp only [JsMap.keys, List.map_cons, List.mem_cons]; exact Or.inr hloc)
        rw [JsMap.has_eq_false_iff] at h2
        exact h2 h1
      · simp only [JsMap.keys, List.map_cons, List.map_nil, List.mem_singleton] at h1
        exact hwf1.1 (h1 ▸ hloc)
    simp only [combineAttributeMaps.inner, hl, Bool.false_eq_true, if_false]
    rw [JsMap.set_of_not_has _ _ _ hl, ih _ hwf1.2 hrest]
    simp

theorem combineAttributeMaps.inner_error :
    ∀ (es : List (AttributeLocation × AttributeReference)) (result : AttributeMap),
      ¬ (JsMap.WF es ∧ ∀ loc ∈ JsMap.keys es, result.has loc = false) →
      ∃ loc, combineAttributeMaps.inner result es = .error (.collision loc) := by
  intro es
  induction es with
  | nil => intro result h; exact absurd ⟨by simp [JsMap.WF, JsMap.keys], by simp [JsMap.keys]⟩ h
  | cons e rest ih =>
    intro result h
    obtain ⟨l, r⟩ := e
    cases hl : result.has l with
    | true => exact ⟨l, by simp [combineAttributeMaps.inner, hl]⟩
    | false =>
      simp only [combineAttributeMaps.inner, hl, Bool.false_eq_true, if_false]
      rw [JsMap.set_of_not_has _ _ _ hl]
      apply ih
      rintro ⟨hwf, hdisj⟩
      apply h
      have hlrest : l ∉ JsMap.keys rest := by
        intro hmem
        have h1 := hdisj l hmem
        rw [JsMap.has_eq_false_iff, JsMap.keys_append] at h1
        exact h1 (by simp [JsMap.keys])
      refine ⟨?_, ?_⟩
      · simp only [JsMap.WF, JsMap.keys, List.map_cons, List.nodup_cons]
        exact ⟨hlrest, hwf⟩
      · intro loc hloc
        simp only [JsMap.keys, List.map_cons, List.mem_cons] at hloc
        rcases hloc with h1 | h1
        · rw [h1]; exact hl
        · have h2 := hdisj loc h1
          rw [JsMap.has_eq_false_iff, JsMap.keys_append] at h2
          rw [JsMap.has_eq_false_iff]
          exact fun h3 => h2 (List.mem_append_left _ h3)

theorem combineAttributeMaps.inner_append :
    ∀ (es fs : List (AttributeLocation × AttributeReference)) (result : AttributeMap),
      combineAttributeMaps.inner result (es ++ fs) =
        match combineAttributeMaps.inner result es with
        | .error e => .error e
        | .ok result1 => combineAttributeMaps.inner result1 fs := by
  intro es
  induction es with
  | nil => intro fs result; simp [combineAttributeMaps.inner]
  | cons e rest ih =>
    intro fs result
    obtain ⟨l, r⟩ := e
    cases hl : result.has l with
    | true => simp [combineAttributeMaps.inner, hl]
    | false => simp [combineAttributeMaps.inner, hl, ih]

theorem combineAttributeMaps.outer_eq_inner_flatten :
    ∀ (maps : List AttributeMap) (result : AttributeMap),
      combineAttributeMaps.outer result maps
        = combineAttributeMaps.inner result maps.flatten := by
  intro maps
  induction maps with
  | nil => intro result; simp [combineAttributeMaps.outer, combineAttributeMaps.inner]
  | cons m rest ih =>
    intro result
    simp only [combineAttributeMaps.outer, List.flatten_cons,
      combineAttributeMaps.inner_append]
    cases combineAttributeMaps.inner result m with
    | error e => rfl
    | ok r => exact ih r

theorem buildAttributeMap.collect_eq_inner :
    ∀ (es : List (AttributeLocation × AttributeReference)) (acc : AttributeMap),
      buildAttributeMap.collect acc es = combineAttributeMaps.inner acc es := by
  intro es
  induction es with
  | nil => intro acc; rfl
  | cons e rest ih =>
    intro acc
    obtain ⟨l, r⟩ := e
    simp only [buildAttributeMap.collect, combineAttributeMaps.inner, ih]

theorem keyOfTwo_iff_not_pairwise (maps : List AttributeMap) :
    KeyOfTwo maps ↔
      ¬ maps.Pairwise (fun a b => ∀ loc, a.has loc = true → b.has loc = true → False) := by
  rw [List.pairwise_iff_getElem]
  constructor
  · rintro ⟨i, j, hi, hj, hne, loc, h1, h2⟩ hpw
    rcases Nat.lt_or_gt_of_ne hne with hlt | hgt
    · exact hpw i j hi hj hlt loc h1 h2
    · exact hpw j i hj hi hgt loc h2 h1
  · intro h
    by_contra hno
    apply h
    intro i j hi hj hij loc h1 h2
    exact hno ⟨i, j, hi, hj, Nat.ne_of_lt hij, loc, h1, h2⟩

theorem wf_flatten_iff (maps : List AttributeMap) (hwf : ∀ m ∈ maps, m.WF) :
    JsMap.WF maps.flatten ↔ ¬ KeyOfTwo maps := by
  rw [keyOfTwo_iff_not_pairwise, not_not]
  unfold JsMap.WF JsMap.keys
  rw [List.map_flatten, List.nodup_flatten, List.pairwise_map]
  constructor
  · rintro ⟨_, hpw⟩
    refine hpw.imp ?_
    intro a b hab loc h1 h2
    rw [JsMap.has_iff_mem_keys] at h1 h2
    exact hab h1 h2
  · intro hpw
    refine ⟨?_, hpw.imp ?_⟩
    · intro l hl
      obtain ⟨m, hm, rfl⟩ := List.mem_map.1 hl
      exact hwf m hm
    · intro a b hab loc h1 h2
      exact hab loc ((JsMap.has_iff_mem_keys a loc).2 h1) ((JsMap.has_iff_mem_keys b loc).2 h2)

theorem combineAttributeMaps_ok (maps : List AttributeMap) (hwf : ∀ m ∈ maps, m.WF)
    (h : ¬ KeyOfTwo maps) : combineAttributeMaps maps = .ok maps.flatten := by
  unfold combineAttributeMaps
  rw [combineAttributeMaps.outer_eq_inner_flatten,
    combineAttributeMaps.inner_ok _ _ ((wf_flatten_iff maps hwf).2 h) (by simp [JsMap.has])]
  simp

theorem combineAttributeMaps_error (maps : List AttributeMap) (hwf : ∀ m ∈ maps, m.WF)
    (h : KeyOfTwo maps) : ∃ loc, combineAttributeMaps maps = .error (.collision loc) := by
  unfold combineAttributeMaps
  rw [combineAttributeMaps.outer_eq_inner_flatten]
  apply combineAttributeMaps.inner_error
  rintro ⟨hw, _⟩
  exact (wf_flatten_iff maps hwf).1 hw h

/-! ## Lemmas: resolving one buffer -/

theorem ShaderProgram.location_injective (shader : ShaderProgram)
    (hloc : (shader.attributes.map Prod.snd).Nodup) (a b : String) (loc : AttributeLocation)
    (ha : shader.attributes.get a = some loc) (hb : shader.attributes.get b = some loc) :
    a = b := by
  have h1 := JsMap.mem_of_get _ _ _ ha
  have h2 := JsMap.mem_of_get _ _ _ hb
  have h3 := List.inj_on_of_nodup_map hloc h1 h2 rfl
  exact (Prod.mk.inj h3).1

theorem buildAttributeMap.discover_get (shader : ShaderProgram) :
    ∀ (names : List String) (mapping : JsObject) (key : String),
      (buildAttributeMap.discover shader mapping names).get key
        = if key ∈ names ∧ shader.attributes.has key = true ∧ key ≠ "__proto__" then some key
          else mapping.get key := by
  intro names
  induction names with
  | nil => intro mapping key; simp [buildAttributeMap.discover]
  | cons n rest ih =>
    intro mapping key
    cases hn : shader.attributes.has n with
    | true =>
      simp only [buildAttributeMap.discover, hn, if_true, ih, JsObject.get_assign,
        List.mem_cons]
      by_cases h1 : key ∈ rest ∧ shader.attributes.has key = true ∧ key ≠ "__proto__"
      · simp [h1]
      · by_cases h2 : n = key
        · subst h2
          by_cases h3 : n = "__proto__"
          · simp [h3]
          · simp [hn, h3]
        · have h3 : ¬ key = n := fun h => h2 h.symm
          simp [h1, h2, h3]
    | false =>
      simp only [buildAttributeMap.discover, hn, Bool.false_eq_true, if_false, ih,
        List.mem_cons]
      by_cases h2 : key = n
      · subst h2; simp [hn]
      · simp [h2]

theorem buildAttributeMap.discover_wf (shader : ShaderProgram) :
    ∀ (names : List String) (mapping : JsObject), mapping.WF →
      (buildAttributeMap.discover shader mapping names).WF := by
  intro names
  induction names with
  | nil => intro mapping h; exact h
  | cons n rest ih =>
    intro mapping h
    cases hn : shader.attributes.has n with
    | true =>
      simp only [buildAttributeMap.discover, hn, if_true]
      exact ih _ (JsObject.wf_assign _ _ _ h)
    | false =>
      simp only [buildAttributeMap.discover, hn, Bool.false_eq_true, if_false]
      exact ih _ h

theorem buildAttributeMap.resolve_error_iff (shader : ShaderProgram) (abo : AttributeBuffer) :
    ∀ (es : List (String × String)) (result : AttributeMap),
      (∃ e, buildAttributeMap.resolve shader abo result es = .error e) ↔
        ∃ p ∈ es, shader.attributes.has p.1 = false ∨ abo.attributes.has p.2 = false := by
  intro es
  induction es with
  | nil => intro result; simp [buildAttributeMap.resolve]
  | cons e rest ih =>
    intro result
    obtain ⟨sa, ba⟩ := e
    cases hl : shader.attributes.get sa with
    | none =>
      have hs : shader.attributes.has sa = false := (JsMap.get_eq_none_iff _ _).1 hl
      simp [buildAttributeMap.resolve, hl, hs]
    | some l =>
      have hs : shader.attributes.has sa = true := JsMap.has_of_get _ _ _ hl
      cases hd : abo.attributes.get ba with
      | none =>
        have hb : abo.attributes.has ba = false := (JsMap.get_eq_none_iff _ _).1 hd
        simp [buildAttributeMap.resolve, hl, hd, hb]
      | some d =>
        have hb : abo.attributes.has ba = true := JsMap.has_of_get _ _ _ hd
        simp [buildAttributeMap.resolve, hl, hd, hs, hb, ih]

theorem buildAttributeMap.resolve_spec (shader : ShaderProgram) (abo : AttributeBuffer)
    (hloc : (shader.attributes.map Prod.snd).Nodup) :
    ∀ (es : List (String × String)) (result : AttributeMap),
      JsMap.WF es →
      (∀ p ∈ es, shader.attributes.has p.1 = true ∧ abo.attributes.has p.2 = true) →
      ∃ r, buildAttributeMap.resolve shader abo result es = .ok r ∧ (result.WF → r.WF) ∧
        ∀ loc ref, r.get loc = some ref ↔
          (∃ p ∈ es, shader.attributes.get p.1 = some loc ∧
              ref = { buffer := abo, name := p.2 }) ∨
          ((∀ p ∈ es, shader.attributes.get p.1 ≠ some loc) ∧ result.get loc = some ref) := by
  intro es
  induction es with
  | nil => intro result _ _; exact ⟨result, rfl, id, by simp⟩
  | cons e rest ih =>
    intro result hwf hgood
    obtain ⟨sa, ba⟩ := e
    have hwf1 : sa ∉ JsMap.keys rest ∧ JsMap.WF rest := by
      simpa [JsMap.WF, JsMap.keys] using hwf
    obtain ⟨hs, hb⟩ := hgood (sa, ba) (by simp)
    obtain ⟨l, hl⟩ := JsMap.get_isSome_of_has _ _ hs
    obtain ⟨d, hd⟩ := JsMap.get_isSome_of_has _ _ hb
    obtain ⟨r, hr, hrwf, hrget⟩ := ih (result.set l { buffer := abo, name := ba }) hwf1.2
      (fun p hp => hgood p (List.mem_cons_of_mem _ hp))
    have hnorest : ∀ p ∈ rest, shader.attributes.get p.1 ≠ some l := by
      intro p hp hpl
      have h1 : p.1 = sa := ShaderProgram.location_injective shader hloc _ _ _ hpl hl
      exact hwf1.1 (h1 ▸ List.mem_map_of_mem Prod.fst hp)
    refine ⟨r, ?_, ?_, ?_⟩
    · simp [buildAttributeMap.resolve, hl, hd, hr]
    · intro h; exact hrwf (JsMap.wf_set _ _ _ h)
    · intro loc ref
      rw [hrget, JsMap.get_set]
      by_cases hll : l = loc
      · subst hll
        simp only [if_true]
        constructor
        · rintro (⟨p, hp, hpl, _⟩ | ⟨_, href⟩)
          · exact absurd hpl (hnorest p hp)
          · left
            exact ⟨(sa, ba), by simp, hl, (Option.some.inj href).symm⟩
        · rintro (⟨p, hp, hpl, href⟩ | ⟨hall, _⟩)
          · rcases List.mem_cons.1 hp with h1 | hp1
            · subst h1
              right
              exact ⟨hnorest, by rw [href]⟩
            · exact absurd hpl (hnorest p hp1)
          · exact absurd hl (hall (sa, ba) (by simp))
      · simp only [hll, if_false]
        constructor
        · rintro (⟨p, hp, hpl, href⟩ | ⟨hall, href⟩)
          · left
            exact ⟨p, List.mem_cons_of_mem _ hp, hpl, href⟩
          · right
            refine ⟨?_, href⟩
            intro p hp
            rcases List.mem_cons.1 hp with h1 | hp1
            · subst h1
              simp [hl, hll]
            · exact hall p hp1
        · rintro (⟨p, hp, hpl, href⟩ | ⟨hall, href⟩)
          · rcases List.mem_cons.1 hp with h1 | hp1
            · subst h1
              simp only [hl, Option.some.injEq] at hpl
              exact absurd hpl hll
            · left
              exact ⟨p, hp1, hpl, href⟩
          · right
            exact ⟨fun p hp => hall p (List.mem_cons_of_mem _ hp), href⟩

theorem buildAttributeMap.resolve_sound (shader : ShaderProgram) (abo : AttributeBuffer) :
    ∀ (es : List (String × String)) (result r : AttributeMap),
      buildAttributeMap.resolve shader abo result es = .ok r →
      (∀ loc ref, r.get loc = some ref →
        (∃ p ∈ es, shader.attributes.get p.1 = some loc ∧
            ref = { buffer := abo, name := p.2 }) ∨
        result.get loc = some ref) ∧
      (∀ loc, ((∃ p ∈ es, shader.attributes.get p.1 = some loc) ∨ result.has loc = true) →
        r.has loc = true) := by
  intro es
  induction es with
  | nil =>
    intro result r h
    simp only [buildAttributeMap.resolve, Except.ok.injEq] at h
    subst h
    exact ⟨fun loc ref h1 => Or.inr h1, by simp⟩
  | cons e rest ih =>
    intro result r h
    obtain ⟨sa, ba⟩ := e
    cases hl : shader.attributes.get sa with
    | none => simp [buildAttributeMap.resolve, hl] at h
    | some l =>
      cases hd : abo.attributes.get ba with
      | none => simp [buildAttributeMap.resolve, hl, hd] at h
      | some d =>
        simp only [buildAttributeMap.resolve, hl, hd] at h
        obtain ⟨hsound, hkeys⟩ := ih _ _ h
        constructor
        · intro loc ref hget
          rcases hsound loc ref hget with ⟨p, hp, hpl, href⟩ | hset
          · exact Or.inl ⟨p, List.mem_cons_of_mem _ hp, hpl, href⟩
          · rw [JsMap.get_set] at hset
            by_cases hll : l = loc
            · simp only [hll, if_true, Option.some.injEq] at hset
              exact Or.inl ⟨(sa, ba), by simp, hll ▸ hl, hset.symm⟩
            · simp only [hll, if_false] at hset
              exact Or.inr hset
        · intro loc hloc
          apply hkeys
          rcases hloc with ⟨p, hp, hpl⟩ | hres
          · rcases List.mem_cons.1 hp with h1 | h1
            · subst h1
              right
              rw [JsMap.has_set]
              left
              have h2 : some l = some loc := hl.symm.trans hpl
              exact (Option.some.inj h2).symm
            · exact Or.inl ⟨p, h1, hpl⟩
          · right
            rw [JsMap.has_set]
            exact Or.inr hres

theorem buildAttributeMap.discovered_entry (shader : ShaderProgram) (abo : AttributeBuffer)
    (p : String × String) :
    p ∈ buildAttributeMap.discover shader [] abo.attributes.keys ↔
      p.2 = p.1 ∧ abo.attributes.has p.1 = true ∧ shader.attributes.has p.1 = true ∧
        p.1 ≠ "__proto__" := by
  have hwf : JsMap.WF (buildAttributeMap.discover shader [] abo.attributes.keys) :=
    buildAttributeMap.discover_wf shader _ _ (by simp [JsMap.WF, JsMap.keys])
  have hget := buildAttributeMap.discover_get shader abo.attributes.keys [] p.1
  constructor
  · intro hp
    have h1 := JsMap.get_of_mem _ hwf p.1 p.2 hp
    rw [hget] at h1
    by_cases h2 : p.1 ∈ abo.attributes.keys ∧ shader.attributes.has p.1 = true ∧
        p.1 ≠ "__proto__"
    · rw [if_pos h2] at h1
      exact ⟨(Option.some.inj h1).symm, (JsMap.has_iff_mem_keys _ _).2 h2.1, h2.2.1, h2.2.2⟩
    · rw [if_neg h2] at h1
      simp [JsMap.get] at h1
  · rintro ⟨h1, h2, h3, h4⟩
    have h5 : p.1 ∈ abo.attributes.keys := (JsMap.has_iff_mem_keys _ _).1 h2
    have h6 : (buildAttributeMap.discover shader [] abo.attributes.keys).get p.1 = some p.2 := by
      rw [hget, h1, if_pos ⟨h5, h3, h4⟩]
    exact JsMap.mem_of_get _ _ _ h6

theorem buildAttributeMap.discovered_entries (shader : ShaderProgram) (abo : AttributeBuffer)
    (p : String × String) :
    p ∈ (buildAttributeMap.discover shader [] abo.attributes.keys).entries ↔
      p.2 = p.1 ∧ abo.attributes.has p.1 = true ∧ shader.attributes.has p.1 = true ∧
        p.1 ≠ "__proto__" := by
  rw [JsObject.mem_entries, buildAttributeMap.discovered_entry]

theorem buildAttributeMap.one_auto_ok (shader : ShaderProgram) (abo : AttributeBuffer) :
    ∃ m, buildAttributeMap.one shader abo none = .ok m := by
  cases h : buildAttributeMap.one shader abo none with
  | ok m => exact ⟨m, rfl⟩
  | error e =>
    exfalso
    have h1 : ∃ e, buildAttributeMap.resolve shader abo []
        (buildAttributeMap.discover shader [] abo.attributes.keys).entries = .error e := ⟨e, h⟩
    rw [buildAttributeMap.resolve_error_iff] at h1
    obtain ⟨p, hp, hbad⟩ := h1
    obtain ⟨h2, h3, h4, _⟩ := (buildAttributeMap.discovered_entries shader abo p).1 hp
    rw [h2] at hbad
    rcases hbad with hbad | hbad
    · simp [h4] at hbad
    · simp [h3] at hbad

theorem buildAttributeMap.resolve_wf (shader : ShaderProgram) (abo : AttributeBuffer) :
    ∀ (es : List (String × String)) (result r : AttributeMap),
      buildAttributeMap.resolve shader abo result es = .ok r → result.WF → r.WF := by
  intro es
  induction es with
  | nil =>
    intro result r h hwf
    simp only [buildAttributeMap.resolve, Except.ok.injEq] at h
    exact h ▸ hwf
  | cons e rest ih =>
    intro result r h hwf
    obtain ⟨sa, ba⟩ := e
    cases hl : shader.attributes.get sa with
    | none => simp [buildAttributeMap.resolve, hl] at h
    | some l =>
      cases hd : abo.attributes.get ba with
      | none => simp [buildAttributeMap.resolve, hl, hd] at h
      | some d =>
        simp only [buildAttributeMap.resolve, hl, hd] at h
        exact ih _ _ h (JsMap.wf_set _ _ _ hwf)

theorem buildAttributeMap.reduce_eq_outer (shader : ShaderProgram) :
    ∀ abos : List AttributeBuffer, ∃ maps : List AttributeMap,
      List.Forall₂ (fun abo map => buildAttributeMap.one shader abo none = .ok map) abos maps ∧
      (∀ m ∈ maps, JsMap.WF m) ∧
      ∀ acc, buildAttributeMap.reduce shader acc abos = combineAttributeMaps.outer acc maps := by
  intro abos
  induction abos with
  | nil => exact ⟨[], List.Forall₂.nil, by simp, fun acc => rfl⟩
  | cons abo rest ih =>
    obtain ⟨maps, hall, hwf, heq⟩ := ih
    obtain ⟨m, hm⟩ := buildAttributeMap.one_auto_ok shader abo
    have hmwf : JsMap.WF m :=
      buildAttributeMap.resolve_wf shader abo _ _ _ hm (by simp [JsMap.WF, JsMap.keys])
    refine ⟨m :: maps, List.Forall₂.cons hm hall, ?_, ?_⟩
    · intro x hx
      rcases List.mem_cons.1 hx with h1 | h1
      · exact h1 ▸ hmwf
      · exact hwf x h1
    · intro acc
      simp only [buildAttributeMap.reduce, combineAttributeMaps.outer, hm,
        buildAttributeMap.collect_eq_inner]
      cases combineAttributeMaps.inner acc m with
      | error e => rfl
      | ok acc1 => exact heq acc1

/-! ## Lemmas: framebuffer stack -/

theorem FramebufferStack.pop_one_after_append (s : FramebufferStack) (gl : WebGL2)
    (frame : Framebuffer × DrawBuffer) :
    FramebufferStack.pop { _stack := s._stack ++ [frame] } gl 1 =
      match FramebufferStack._bindFramebuffer gl s.top.1 s.top.2 with
      | .error e => { result := .error e, stack := s, gl := gl }
      | .ok gl1 => { result := .ok (), stack := s, gl := gl1 } := by
  have h1 : (max (0 : Int) 1).toNat = 1 := by decide
  simp only [FramebufferStack.pop, h1, FramebufferStack.popLoop, List.dropLast_concat]

theorem FramebufferStack.top_after_append (s : FramebufferStack)
    (framebuffer : Framebuffer) (drawBuffer : DrawBuffer) :
    FramebufferStack.top { _stack := s._stack ++ [(framebuffer, drawBuffer)] }
      = (some framebuffer, drawBuffer) := by
  simp [FramebufferStack.top]

theorem FramebufferStack.bind_error_is_noAttachments (gl : WebGL2)
    (readBuffer : Option Framebuffer) (drawBuffer : DrawBuffer) (e : GlanceError)
    (h : FramebufferStack._bindFramebuffer gl readBuffer drawBuffer = .error e) :
    ∃ name, e = .noAttachments name := by
  have hsize : ∀ (fb : Framebuffer) (e1 : GlanceError),
      getFramebufferSize fb = .error e1 → e1 = .noAttachments fb.name := by
    intro fb e1 h1
    unfold getFramebufferSize at h1
    split at h1
    · exact Except.noConfusion h1
    · split at h1
      · exact Except.noConfusion h1
      · split at h1
        · exact Except.noConfusion h1
        · exact (Except.error.inj h1).symm
  cases drawBuffer with
  | undefined =>
    cases readBuffer with
    | none => simp [FramebufferStack._bindFramebuffer] at h
    | some fb =>
      cases hs : getFramebufferSize fb with
      | ok size => simp [FramebufferStack._bindFramebuffer, hs] at h
      | error e1 =>
        simp only [FramebufferStack._bindFramebuffer, hs, Except.error.injEq] at h
        exact ⟨fb.name, h ▸ hsize fb e1 hs⟩
  | null => simp [FramebufferStack._bindFramebuffer] at h
  | framebuffer target =>
    cases hs : getFramebufferSize target with
    | ok size => simp [FramebufferStack._bindFramebuffer, hs] at h
    | error e1 =>
      simp only [FramebufferStack._bindFramebuffer, hs, Except.error.injEq] at h
      exact ⟨target.name, h ▸ hsize target e1 hs⟩

theorem FramebufferStack.bind_ok_of_bind_ok (gl gl1 : WebGL2)
    (readBuffer : Option Framebuffer) (drawBuffer : DrawBuffer)
    (h : ∃ g, FramebufferStack._bindFramebuffer gl readBuffer drawBuffer = .ok g) :
    ∃ g, FramebufferStack._bindFramebuffer gl1 readBuffer drawBuffer = .ok g := by
  obtain ⟨g, hg⟩ := h
  cases drawBuffer with
  | undefined =>
    cases readBuffer with
    | none => simp [FramebufferStack._bindFramebuffer]
    | some fb =>
      cases hs : getFramebufferSize fb with
      | ok size => simp [FramebufferStack._bindFramebuffer, hs]
      | error e1 => simp [FramebufferStack._bindFramebuffer, hs] at hg
  | null => simp [FramebufferStack._bindFramebuffer]
  | framebuffer target =>
    cases hs : getFramebufferSize target with
    | ok size => simp [FramebufferStack._bindFramebuffer, hs]
    | error e1 => simp [FramebufferStack._bindFramebuffer, hs] at hg

theorem FramebufferStack.push_stack_cases (s : FramebufferStack) (gl : WebGL2)
    (framebuffer : Framebuffer) (drawBuffer : DrawBuffer) :
    (s.push gl framebuffer drawBuffer).stack = s ∨
    ((s.push gl framebuffer drawBuffer).stack._stack
        = s._stack ++ [(framebuffer,
            if drawBuffer = .framebuffer framebuffer then .undefined else drawBuffer)] ∧
      ∃ g, FramebufferStack._bindFramebuffer gl (some framebuffer)
        (if drawBuffer = .framebuffer framebuffer then .undefined else drawBuffer) = .ok g) := by
  by_cases htop : s.top.1 = some framebuffer ∧
      s.top.2 = (if drawBuffer = .framebuffer framebuffer then .undefined else drawBuffer)
  · left
    simp [FramebufferStack.push, htop]
  · cases hb : FramebufferStack._bindFramebuffer gl (some framebuffer)
        (if drawBuffer = .framebuffer framebuffer then .undefined else drawBuffer) with
    | ok gl1 =>
      right
      exact ⟨by simp [FramebufferStack.push, htop, hb], gl1, rfl⟩
    | error e =>
      left
      simp only [FramebufferStack.push, htop, if_false, hb,
        FramebufferStack.pop_one_after_append]
      cases FramebufferStack._bindFramebuffer gl s.top.1 s.top.2 <;> rfl

theorem FramebufferStack.popLoop_stack_subset :
    ∀ (rounds : Nat) (s : FramebufferStack) (gl : WebGL2),
      ∀ frame ∈ (FramebufferStack.popLoop rounds s gl).stack._stack, frame ∈ s._stack := by
  intro rounds
  induction rounds with
  | zero => intro s gl frame h; exact h
  | succ n ih =>
    intro s gl frame h
    simp only [FramebufferStack.popLoop] at h
    cases hb : FramebufferStack._bindFramebuffer gl
        (FramebufferStack.top { _stack := s._stack.dropLast }).1
        (FramebufferStack.top { _stack := s._stack.dropLast }).2 with
    | error e =>
      rw [hb] at h
      exact List.mem_of_mem_dropLast h
    | ok gl1 =>
      rw [hb] at h
      exact List.mem_of_mem_dropLast (ih _ _ frame h)

theorem FramebufferStack.reachable_frames_bindable (s : FramebufferStack)
    (h : FramebufferStack.Reachable s) :
    ∀ frame ∈ s._stack, ∀ gl : WebGL2,
      ∃ g, FramebufferStack._bindFramebuffer gl (some frame.1) frame.2 = .ok g := by
  induction h with
  | fresh => intro frame hf; simp at hf
  | push s gl framebuffer drawBuffer _ ih =>
    intro frame hf gl1
    rcases FramebufferStack.push_stack_cases s gl framebuffer drawBuffer with h1 | ⟨h1, h2⟩
    · rw [h1] at hf
      exact ih frame hf gl1
    · rw [h1] at hf
      rcases List.mem_append.1 hf with h3 | h3
      · exact ih frame h3 gl1
      · simp only [List.mem_singleton] at h3
        subst h3
        exact FramebufferStack.bind_ok_of_bind_ok gl gl1 _ _ h2
  | pop s gl count _ ih =>
    intro frame hf gl1
    exact ih frame (FramebufferStack.popLoop_stack_subset _ s gl frame hf) gl1

theorem FramebufferStack.reachable_top_bind_ok (s : FramebufferStack)
    (h : FramebufferStack.Reachable s) (gl : WebGL2) :
    ∃ g, FramebufferStack._bindFramebuffer gl s.top.1 s.top.2 = .ok g := by
  cases hl : s._stack.getLast? with
  | none => simp [FramebufferStack.top, hl, FramebufferStack._bindFramebuffer]
  | some frame =>
    have hmem : frame ∈ s._stack := List.mem_of_getLast?_eq_some hl
    have htop : s.top = (some frame.1, frame.2) := by
      simp [FramebufferStack.top, hl]
    rw [htop]
    exact FramebufferStack.reachable_frames_bindable s h frame hmem gl

theorem FramebufferStack.push_of_failed_bind (s : FramebufferStack) (gl : WebGL2)
    (framebuffer : Framebuffer) (drawBuffer : DrawBuffer) (e : GlanceError)
    (hnew : ¬ (s.top.1 = some framebuffer ∧
      s.top.2 = (if drawBuffer = .framebuffer framebuffer then .undefined else drawBuffer)))
    (hbind : FramebufferStack._bindFramebuffer gl (some framebuffer)
      (if drawBuffer = .framebuffer framebuffer then .undefined else drawBuffer) = .error e) :
    s.push gl framebuffer drawBuffer =
      match FramebufferStack._bindFramebuffer gl s.top.1 s.top.2 with
      | .error e1 => { result := .error e1, stack := s, gl := gl }
      | .ok gl1 => { result := .error e, stack := s, gl := gl1 } := by
  simp only [FramebufferStack.push, hnew, if_false, hbind,
    FramebufferStack.pop_one_after_append]
  cases FramebufferStack._bindFramebuffer gl s.top.1 s.top.2 <;> rfl

theorem FramebufferStack.bind_bare_single (gl : WebGL2) (framebuffer : Framebuffer)
    (hbare : framebuffer.color = [] ∧ framebuffer.depth = none ∧ framebuffer.stencil = none) :
    FramebufferStack._bindFramebuffer gl (some framebuffer) .undefined
      = .error (.noAttachments framebuffer.name) := by
  have hsize : getFramebufferSize framebuffer = .error (.noAttachments framebuffer.name) := by
    simp [getFramebufferSize, hbare.1, hbare.2.1, hbare.2.2]
  simp [FramebufferStack._bindFramebuffer, hsize]

/-! ## Theorems: shader -/

/-- C1. Whatever the two compile primitives and the link primitive answer, the
calls that `createShader` adds to the log are the compilations that succeeded
followed by one `deleteShader` for each of the objects so compiled, in the same
order; no object is compiled or released twice, so every shader object compiled
during the call is released exactly once and nothing else is released. -/
theorem createShader_releases_each_compiled_shader_once (dev : Device) (gl : WebGL2)
    (name vertexSource fragmentSource : String)
    (uniforms : List (String × UniformValue))
    (attributes : List (String × AttributeLocation)) :
    ∃ calls : List GlCall,
      (createShader dev gl name vertexSource fragmentSource uniforms attributes).2.calls
        = gl.calls ++ calls ∧
      calls = (compiledShaders calls).map GlCall.shaderCompiled
        ++ (compiledShaders calls).map GlCall.deleteShader ∧
      releasedShaders calls = compiledShaders calls ∧
      (releasedShaders calls).Nodup := by
  unfold createShader createShaderTry createVertexShader createFragmentShader
    createShaderProgram
  cases hv : dev.compileVertex vertexSource with
  | error msg => exact ⟨[], by simp, by simp [compiledShaders], by simp [compiledShaders, releasedShaders], by simp [releasedShaders]⟩
  | ok v =>
    cases hf : dev.compileFragment fragmentSource with
    | error msg =>
      exact ⟨[.shaderCompiled (.vertex v), .deleteShader (.vertex v)],
        by simp [deleteShader, WebGL2.record],
        by simp [compiledShaders], by simp [compiledShaders, releasedShaders],
        by simp [releasedShaders]⟩
    | ok f =>
      refine ⟨[.shaderCompiled (.vertex v), .shaderCompiled (.fragment f),
        .deleteShader (.vertex v), .deleteShader (.fragment f)], ?_,
        by simp [compiledShaders], by simp [compiledShaders, releasedShaders],
        by simp [releasedShaders]⟩
      cases hl : dev.linkProgram name v f uniforms attributes <;>
        simp [deleteShader, WebGL2.record, hl]

/-- C2, as the code has it. The number of `deleteShader` calls that `createShader`
makes is the number of stages that compiled: none when the vertex stage fails,
one when only the fragment stage fails, two when both compile, whether linking
then fails or succeeds. -/
theorem createShader_release_count (dev : Device) (gl : WebGL2)
    (name vertexSource fragmentSource : String)
    (uniforms : List (String × UniformValue))
    (attributes : List (String × AttributeLocation)) :
    ∃ calls : List GlCall,
      (createShader dev gl name vertexSource fragmentSource uniforms attributes).2.calls
        = gl.calls ++ calls ∧
      (releasedShaders calls).length =
        (match dev.compileVertex vertexSource with
          | .error _ => 0
          | .ok _ =>
            match dev.compileFragment fragmentSource with
            | .error _ => 1
            | .ok _ => 2) := by
  unfold createShader createShaderTry createVertexShader createFragmentShader
    createShaderProgram
  cases hv : dev.compileVertex vertexSource with
  | error msg => exact ⟨[], by simp, by simp [releasedShaders]⟩
  | ok v =>
    cases hf : dev.compileFragment fragmentSource with
    | error msg =>
      exact ⟨[.shaderCompiled (.vertex v), .deleteShader (.vertex v)],
        by simp [deleteShader, WebGL2.record], by simp [releasedShaders]⟩
    | ok f =>
      refine ⟨[.shaderCompiled (.vertex v), .shaderCompiled (.fragment f),
        .deleteShader (.vertex v), .deleteShader (.fragment f)], ?_,
        by simp [releasedShaders]⟩
      cases hl : dev.linkProgram name v f uniforms attributes <;>
        simp [deleteShader, WebGL2.record, hl]

/-- C2, refuted as stated. On a device whose vertex stage does not compile the
call raises the compilation error and makes no `deleteShader` call at all, not two. -/
theorem createShader_release_count_not_always_two :
    (createShader vertexFailingDevice freshContext "demo" "void main(" "void main() {}"
        [] []).1 = .error (.compilation "vertex stage: syntax error") ∧
    (releasedShaders (createShader vertexFailingDevice freshContext "demo" "void main("
        "void main() {}" [] []).2.calls).length = 0 ∧
    (releasedShaders (createShader vertexFailingDevice freshContext "demo" "void main("
        "void main() {}" [] []).2.calls).length ≠ 2 := by
  refine ⟨rfl, rfl, ?_⟩
  decide

/-! ## Theorems: attribute -/

/-- C3, as the code has it. For every program and every single buffer,
`buildAttributeMap` without a mapping never raises; every entry of the map it
returns is location(n) -> (buffer, n) for a name `n` that both the buffer and the
program declare, and the location of every such name other than `__proto__` is a
key of the map, so a name that only one side declares gives no entry and no
error.  When the attributes of the program carry pairwise distinct input
locations, the map holds the entry location(n) -> (buffer, n) for every name `n`
other than `__proto__` declared by both.  The name `__proto__` is never bound by
its own: the assignment of that key to the object of the discovered names
creates no property. -/
theorem buildAttributeMap_auto_single (shader : ShaderProgram) (abo : AttributeBuffer) :
    ∃ m, buildAttributeMap shader (.single abo) none = .ok m ∧ m.WF ∧
      (∀ loc ref, m.get loc = some ref →
        ∃ n, n ≠ "__proto__" ∧ abo.attributes.has n = true ∧
          shader.attributes.get n = some loc ∧ ref = { buffer := abo, name := n }) ∧
      (∀ n loc, n ≠ "__proto__" → abo.attributes.has n = true →
        shader.attributes.get n = some loc → m.has loc = true) ∧
      ((shader.attributes.map Prod.snd).Nodup →
        ∀ n loc, n ≠ "__proto__" → abo.attributes.has n = true →
          shader.attributes.get n = some loc →
          m.get loc = some { buffer := abo, name := n }) := by
  obtain ⟨m, hm⟩ := buildAttributeMap.one_auto_ok shader abo
  have hwf : JsMap.WF (buildAttributeMap.discover shader [] abo.attributes.keys).entries :=
    JsObject.entries_wf _
      (buildAttributeMap.discover_wf shader _ _ (by simp [JsMap.WF, JsMap.keys]))
  have hgood : ∀ p ∈ (buildAttributeMap.discover shader [] abo.attributes.keys).entries,
      shader.attributes.has p.1 = true ∧ abo.attributes.has p.2 = true := by
    intro p hp
    obtain ⟨h1, h2, h3, _⟩ := (buildAttributeMap.discovered_entries shader abo p).1 hp
    rw [h1]
    exact ⟨h3, h2⟩
  obtain ⟨hsound, hkeys⟩ := buildAttributeMap.resolve_sound shader abo _ _ _ hm
  refine ⟨m, hm, buildAttributeMap.resolve_wf shader abo _ _ _ hm
    (by simp [JsMap.WF, JsMap.keys]), ?_, ?_, ?_⟩
  · intro loc ref hget
    rcases hsound loc ref hget with ⟨p, hp, hpl, href⟩ | hnone
    · obtain ⟨h1, h2, _, h4⟩ := (buildAttributeMap.discovered_entries shader abo p).1 hp
      exact ⟨p.1, h4, h2, hpl, by rw [href, h1]⟩
    · simp [JsMap.get] at hnone
  · intro n loc hproto hn hnl
    apply hkeys
    left
    exact ⟨(n, n), (buildAttributeMap.discovered_entries shader abo (n, n)).2
      ⟨rfl, hn, JsMap.has_of_get _ _ _ hnl, hproto⟩, hnl⟩
  · intro hloc n loc hproto hn hnl
    obtain ⟨r, hr, _, hrget⟩ := buildAttributeMap.resolve_spec shader abo hloc
      (buildAttributeMap.discover shader [] abo.attributes.keys).entries [] hwf hgood
    have hrm : r = m := Except.ok.inj (hr.symm.trans hm)
    rw [← hrm, hrget]
    left
    exact ⟨(n, n), (buildAttributeMap.discovered_entries shader abo (n, n)).2
      ⟨rfl, hn, JsMap.has_of_get _ _ _ hnl, hproto⟩, hnl, rfl⟩

/-- C3, the instance named in the claim: the buffer declares `pos` and `normal`,
the program `pos` and `color`; the call returns the one binding of `pos`.  And
an instance with the name `__proto__`, which both sides declare and which is not
bound. -/
theorem buildAttributeMap_auto_single_witness :
    (posColorProgram.attributes.map Prod.snd).Nodup ∧
    (∃ m, buildAttributeMap posColorProgram (.single posNormalBuffer) none = .ok m ∧
      m.get 0 = some { buffer := posNormalBuffer, name := "pos" }) ∧
    buildAttributeMap posColorProgram (.single posNormalBuffer) none
      = .ok [(0, { buffer := posNormalBuffer, name := "pos" })] ∧
    buildAttributeMap protoProgram (.single protoBuffer) none
      = .ok [(1, { buffer := protoBuffer, name := "pos" })] := by
  obtain ⟨m, hm, _, _, _, hexact⟩ :=
    buildAttributeMap_auto_single posColorProgram posNormalBuffer
  exact ⟨by decide,
    ⟨m, hm, hexact (by decide) "pos" 0 (by decide) (by decide) (by decide)⟩, rfl, rfl⟩

/-- C3, refuted as stated. The program value declares `a` and `b` at the same
location 0 and the buffer declares both names: the call returns the single entry
0 -> (buffer, b), so the name `a`, declared by both sides, has no entry
location(a) -> (buffer, a). -/
theorem buildAttributeMap_auto_single_aliased :
    buildAttributeMap aliasedProgram (.single abBuffer) none
      = .ok [(0, { buffer := abBuffer, name := "b" })] ∧
    abBuffer.attributes.has "a" = true ∧ aliasedProgram.attributes.get "a" = some 0 ∧
    ¬ ∃ m, buildAttributeMap aliasedProgram (.single abBuffer) none = .ok m ∧
      ∀ loc ref, m.get loc = some ref ↔
        ∃ n, abBuffer.attributes.has n = true ∧ aliasedProgram.attributes.get n = some loc ∧
          ref = { buffer := abBuffer, name := n } := by
  have heval : buildAttributeMap aliasedProgram (.single abBuffer) none
      = .ok [(0, { buffer := abBuffer, name := "b" })] := rfl
  refine ⟨heval, by decide, by decide, ?_⟩
  rintro ⟨m, hm, hall⟩
  rw [heval] at hm
  have hm1 : m = [(0, { buffer := abBuffer, name := "b" })] := (Except.ok.inj hm).symm
  have h1 := (hall 0 { buffer := abBuffer, name := "a" }).2 ⟨"a", by decide, by decide, rfl⟩
  rw [hm1] at h1
  revert h1
  decide

/-- C4. For a list of buffers given without a mapping, `buildAttributeMap` raises
exactly when two entries of the list, at different positions, have auto-discovered
maps with a common location, and what it raises then is the collision error.
Two buffers that both declare `pos`, against a program that expects `pos`, make
the call raise the collision of location 0. -/
theorem buildAttributeMap_array_collision_iff (shader : ShaderProgram)
    (abos : List AttributeBuffer) :
    ((∃ e, buildAttributeMap shader (.array abos) none = .error e) ↔
      ∃ (i j : Nat) (hi : i < abos.length) (hj : j < abos.length), i ≠ j ∧
        ∃ (mi mj : AttributeMap) (loc : AttributeLocation),
          buildAttributeMap shader (.single abos[i]) none = .ok mi ∧
          buildAttributeMap shader (.single abos[j]) none = .ok mj ∧
          mi.has loc = true ∧ mj.has loc = true) ∧
    (∀ e, buildAttributeMap shader (.array abos) none = .error e →
      ∃ loc, e = .collision loc) ∧
    buildAttributeMap posProgram (.array [posBufferA, posBufferB]) none
      = .error (.collision 0) := by
  obtain ⟨maps, hall, hwf, heq⟩ := buildAttributeMap.reduce_eq_outer shader abos
  have hlen : abos.length = maps.length := hall.length_eq
  have hget : ∀ (i : Nat) (hi : i < abos.length) (hi1 : i < maps.length),
      buildAttributeMap.one shader abos[i] none = .ok maps[i] := by
    intro i hi hi1
    exact List.Forall₂.get hall hi hi1
  have hbuild : buildAttributeMap shader (.array abos) none = combineAttributeMaps maps := by
    simp [buildAttributeMap, combineAttributeMaps, heq]
  have hkey : KeyOfTwo maps ↔
      ∃ (i j : Nat) (hi : i < abos.length) (hj : j < abos.length), i ≠ j ∧
        ∃ (mi mj : AttributeMap) (loc : AttributeLocation),
          buildAttributeMap shader (.single abos[i]) none = .ok mi ∧
          buildAttributeMap shader (.single abos[j]) none = .ok mj ∧
          mi.has loc = true ∧ mj.has loc = true := by
    constructor
    · rintro ⟨i, j, hi, hj, hne, loc, h1, h2⟩
      exact ⟨i, j, hlen ▸ hi, hlen ▸ hj, hne, maps[i], maps[j], loc,
        hget i (hlen ▸ hi) hi, hget j (hlen ▸ hj) hj, h1, h2⟩
    · rintro ⟨i, j, hi, hj, hne, mi, mj, loc, h1, h2, h3, h4⟩
      have hi1 : i < maps.length := hlen ▸ hi
      have hj1 : j < maps.length := hlen ▸ hj
      have e1 : mi = maps[i] := Except.ok.inj ((h1.symm.trans (hget i hi hi1)))
      have e2 : mj = maps[j] := Except.ok.inj ((h2.symm.trans (hget j hj hj1)))
      exact ⟨i, j, hi1, hj1, hne, loc, e1 ▸ h3, e2 ▸ h4⟩
  refine ⟨?_, ?_, rfl⟩
  · rw [← hkey, hbuild]
    constructor
    · rintro ⟨e, he⟩
      by_contra hno
      rw [combineAttributeMaps_ok maps hwf hno] at he
      exact Except.noConfusion he
    · intro h
      obtain ⟨loc, hloc⟩ := combineAttributeMaps_error maps hwf h
      exact ⟨_, hloc⟩
  · intro e he
    rw [hbuild] at he
    by_cases h : KeyOfTwo maps
    · obtain ⟨loc, hloc⟩ := combineAttributeMaps_error maps hwf h
      rw [hloc] at he
      exact ⟨loc, (Except.error.inj he).symm⟩
    · rw [combineAttributeMaps_ok maps hwf h] at he
      exact Except.noConfusion he

/-- C5, as the code has it. For a single buffer and an explicit mapping object,
`buildAttributeMap` raises exactly when some shader-side name of the mapping is
not an attribute of the program or some buffer-side name is not an attribute of
the buffer.  Otherwise it returns a map whose every entry sends the location of a
shader-side name of the mapping to the buffer with that name's buffer-side name,
and in which the location of every shader-side name is a key; when the
attributes of the program carry pairwise distinct input locations (and the
mapping, an object, has no key twice), the map sends the location of each
shader-side name to the buffer with its buffer-side name. -/
theorem buildAttributeMap_explicit_single (shader : ShaderProgram) (abo : AttributeBuffer)
    (mapping : JsObject) :
    ((∃ e, buildAttributeMap shader (.single abo) (some (.object mapping)) = .error e) ↔
      ∃ p ∈ mapping, shader.attributes.has p.1 = false ∨ abo.attributes.has p.2 = false) ∧
    ((¬ ∃ p ∈ mapping, shader.attributes.has p.1 = false ∨ abo.attributes.has p.2 = false) →
      ∃ r, buildAttributeMap shader (.single abo) (some (.object mapping)) = .ok r ∧ r.WF ∧
        (∀ loc ref, r.get loc = some ref →
          ∃ p ∈ mapping, shader.attributes.get p.1 = some loc ∧
            ref = { buffer := abo, name := p.2 }) ∧
        (∀ p ∈ mapping, ∀ loc, shader.attributes.get p.1 = some loc → r.has loc = true) ∧
        (mapping.WF → (shader.attributes.map Prod.snd).Nodup →
          ∀ p ∈ mapping, ∀ loc, shader.attributes.get p.1 = some loc →
            r.get loc = some { buffer := abo, name := p.2 })) := by
  refine ⟨buildAttributeMap.resolve_error_iff shader abo mapping [], ?_⟩
  intro hgood
  have hgood1 : ∀ p ∈ mapping,
      shader.attributes.has p.1 = true ∧ abo.attributes.has p.2 = true := by
    intro p hp
    constructor
    · cases h : shader.attributes.has p.1 with
      | true => rfl
      | false => exact absurd ⟨p, hp, Or.inl h⟩ hgood
    · cases h : abo.attributes.has p.2 with
      | true => rfl
      | false => exact absurd ⟨p, hp, Or.inr h⟩ hgood
  cases hm : buildAttributeMap shader (.single abo) (some (.object mapping)) with
  | error e =>
    exact absurd ((buildAttributeMap.resolve_error_iff shader abo mapping []).1 ⟨e, hm⟩) hgood
  | ok m =>
    have hm1 : buildAttributeMap.resolve shader abo [] mapping = .ok m := hm
    obtain ⟨hsound, hkeys⟩ := buildAttributeMap.resolve_sound shader abo _ _ _ hm1
    refine ⟨m, rfl, buildAttributeMap.resolve_wf shader abo _ _ _ hm1
      (by simp [JsMap.WF, JsMap.keys]), ?_, ?_, ?_⟩
    · intro loc ref hget
      rcases hsound loc ref hget with h | hnone
      · exact h
      · simp [JsMap.get] at hnone
    · intro p hp loc hpl
      exact hkeys loc (Or.inl ⟨p, hp, hpl⟩)
    · intro hobj hloc p hp loc hpl
      obtain ⟨r, hr, _, hrget⟩ :=
        buildAttributeMap.resolve_spec shader abo hloc mapping [] hobj hgood1
      have hrm : r = m := Except.ok.inj (hr.symm.trans hm1)
      rw [← hrm, hrget]
      exact Or.inl ⟨p, hp, hpl, rfl⟩

/-- C5, an instance: the mapping `{ pos: "position", color: "tint" }` on a program
with `pos` at 0 and `color` at 1 and a buffer with `position` and `tint`. -/
theorem buildAttributeMap_explicit_single_witness :
    posColorToPositionTint.WF ∧ (posColorProgram.attributes.map Prod.snd).Nodup ∧
    (∃ r, buildAttributeMap posColorProgram (.single positionTintBuffer)
          (some (.object posColorToPositionTint)) = .ok r ∧
        r.get 1 = some { buffer := positionTintBuffer, name := "tint" }) ∧
    buildAttributeMap posColorProgram (.single positionTintBuffer)
        (some (.object posColorToPositionTint))
      = .ok [(0, { buffer := positionTintBuffer, name := "position" }),
             (1, { buffer := positionTintBuffer, name := "tint" })] := by
  obtain ⟨r, hr, _, _, _, hexact⟩ :=
    (buildAttributeMap_explicit_single posColorProgram positionTintBuffer
      posColorToPositionTint).2 (by decide)
  exact ⟨by decide, by decide,
    ⟨r, hr, hexact (by decide) (by decide) ("color", "tint") (by decide) 1 (by decide)⟩, rfl⟩

/-- C5, refuted as stated. The program value declares `a` and `b` at the same
location 0; with the mapping `{ a: "x", b: "y" }` no name is unknown and the call
returns the single entry 0 -> (buffer, y): the location of the shader-side name
`a` is not sent to (buffer, x). -/
theorem buildAttributeMap_explicit_single_aliased :
    buildAttributeMap aliasedProgram (.single xyBuffer) (some (.object abToXy))
      = .ok [(0, { buffer := xyBuffer, name := "y" })] ∧
    (¬ ∃ p ∈ abToXy, aliasedProgram.attributes.has p.1 = false ∨
        xyBuffer.attributes.has p.2 = false) ∧
    ¬ ∃ r, buildAttributeMap aliasedProgram (.single xyBuffer) (some (.object abToXy)) = .ok r ∧
      ∀ p ∈ abToXy, ∀ loc, aliasedProgram.attributes.get p.1 = some loc →
        r.get loc = some { buffer := xyBuffer, name := p.2 } := by
  have heval : buildAttributeMap aliasedProgram (.single xyBuffer) (some (.object abToXy))
      = .ok [(0, { buffer := xyBuffer, name := "y" })] := rfl
  refine ⟨heval, by decide, ?_⟩
  rintro ⟨r, hr, hall⟩
  rw [heval] at hr
  have hr1 : r = [(0, { buffer := xyBuffer, name := "y" })] := (Except.ok.inj hr).symm
  have h1 := hall ("a", "x") (by decide) 0 (by decide)
  rw [hr1] at h1
  revert h1
  decide

/-- C6. For maps that each hold no key twice, `combineAttributeMaps` raises
exactly when some location is a key of two of the maps, and it raises the
collision error then; otherwise it returns a map whose keys are exactly the keys
of the given maps and that holds, for each location, the reference of the map
that has it.  For no map at all the result is the empty map. -/
theorem combineAttributeMaps_spec (maps : List AttributeMap) (hwf : ∀ m ∈ maps, m.WF) :
    ((∃ e, combineAttributeMaps maps = .error e) ↔ KeyOfTwo maps) ∧
    (KeyOfTwo maps → ∃ loc, combineAttributeMaps maps = .error (.collision loc)) ∧
    (¬ KeyOfTwo maps →
      ∃ r, combineAttributeMaps maps = .ok r ∧ r.WF ∧
        (∀ loc, r.has loc = true ↔ ∃ m ∈ maps, m.has loc = true) ∧
        (∀ m ∈ maps, ∀ loc ref, m.get loc = some ref → r.get loc = some ref)) ∧
    combineAttributeMaps [] = .ok [] := by
  refine ⟨?_, combineAttributeMaps_error maps hwf, ?_, rfl⟩
  · constructor
    · rintro ⟨e, he⟩
      by_contra hno
      rw [combineAttributeMaps_ok maps hwf hno] at he
      exact Except.noConfusion he
    · intro h
      obtain ⟨loc, hloc⟩ := combineAttributeMaps_error maps hwf h
      exact ⟨_, hloc⟩
  · intro hno
    have hflat : JsMap.WF maps.flatten := (wf_flatten_iff maps hwf).2 hno
    refine ⟨maps.flatten, combineAttributeMaps_ok maps hwf hno, hflat, ?_, ?_⟩
    · intro loc
      rw [JsMap.has_iff_mem_keys]
      unfold JsMap.keys
      rw [List.map_flatten, List.mem_flatten]
      constructor
      · rintro ⟨l, hl, hmem⟩
        obtain ⟨m, hm, rfl⟩ := List.mem_map.1 hl
        exact ⟨m, hm, (JsMap.has_iff_mem_keys m loc).2 hmem⟩
      · rintro ⟨m, hm, hhas⟩
        exact ⟨m.keys, List.mem_map_of_mem _ hm, (JsMap.has_iff_mem_keys m loc).1 hhas⟩
    · intro m hm loc ref hget
      apply JsMap.get_of_mem _ hflat
      exact List.mem_flatten.2 ⟨m, hm, JsMap.mem_of_get _ _ _ hget⟩

/-- C6, an instance: two maps with the keys 0 and 1 combine into the map with
both entries. -/
theorem combineAttributeMaps_spec_witness :
    (∀ m ∈ disjointMaps, JsMap.WF m) ∧
    ((∃ e, combineAttributeMaps disjointMaps = .error e) ↔ KeyOfTwo disjointMaps) ∧
    combineAttributeMaps disjointMaps
      = .ok [(0, { buffer := posBufferA, name := "pos" }),
             (1, { buffer := posNormalBuffer, name := "normal" })] :=
  ⟨by decide, (combineAttributeMaps_spec disjointMaps (by decide)).1, rfl⟩

/-- C7. For a list of buffers given without a mapping, every buffer on its own
is resolved without an error, and `buildAttributeMap` on the list is
`combineAttributeMaps` on the maps of the single buffers, in order: the two give
the same map or raise the same error, which is a collision. -/
theorem buildAttributeMap_array_eq_combine (shader : ShaderProgram)
    (abos : List AttributeBuffer) :
    ∃ maps : List AttributeMap,
      List.Forall₂ (fun abo map => buildAttributeMap shader (.single abo) none = .ok map)
        abos maps ∧
      buildAttributeMap shader (.array abos) none = combineAttributeMaps maps ∧
      ∀ e, combineAttributeMaps maps = .error e → ∃ loc, e = .collision loc := by
  obtain ⟨maps, hall, hwf, heq⟩ := buildAttributeMap.reduce_eq_outer shader abos
  refine ⟨maps, hall, by simp [buildAttributeMap, combineAttributeMaps, heq], ?_⟩
  intro e he
  by_cases h : KeyOfTwo maps
  · obtain ⟨loc, hloc⟩ := combineAttributeMaps_error maps hwf h
    rw [hloc] at he
    exact ⟨loc, (Except.error.inj he).symm⟩
  · rw [combineAttributeMaps_ok maps hwf h] at he
    exact Except.noConfusion he

/-! ## Theorems: framebuffer stack -/

/-- C8, as the code has it. A push whose pair, after a draw buffer identical to
the frame has been replaced by `undefined`, is the top of the stack returns at
once: the stack and the context, hence the log of device calls, are as before.
So after a push that returned normally, a second push of the identical pair
leaves the stack as the first push left it and makes no device call. -/
theorem push_of_bound_configuration_is_noop (s : FramebufferStack) (gl : WebGL2)
    (framebuffer : Framebuffer) (drawBuffer : DrawBuffer) :
    (s.top = (some framebuffer,
        if drawBuffer = .framebuffer framebuffer then .undefined else drawBuffer) →
      (s.push gl framebuffer drawBuffer).result = .ok () ∧
      (s.push gl framebuffer drawBuffer).stack = s ∧
      (s.push gl framebuffer drawBuffer).gl = gl) ∧
    ((s.push gl framebuffer drawBuffer).result = .ok () →
      ((s.push gl framebuffer drawBuffer).stack.push (s.push gl framebuffer drawBuffer).gl
          framebuffer drawBuffer).result = .ok () ∧
      ((s.push gl framebuffer drawBuffer).stack.push (s.push gl framebuffer drawBuffer).gl
          framebuffer drawBuffer).stack = (s.push gl framebuffer drawBuffer).stack ∧
      ((s.push gl framebuffer drawBuffer).stack.push (s.push gl framebuffer drawBuffer).gl
          framebuffer drawBuffer).gl = (s.push gl framebuffer drawBuffer).gl) := by
  have hnoop : ∀ (t : FramebufferStack) (g : WebGL2),
      t.top = (some framebuffer,
        if drawBuffer = .framebuffer framebuffer then .undefined else drawBuffer) →
      (t.push g framebuffer drawBuffer).result = .ok () ∧
      (t.push g framebuffer drawBuffer).stack = t ∧
      (t.push g framebuffer drawBuffer).gl = g := by
    intro t g ht
    simp [FramebufferStack.push, ht]
  refine ⟨hnoop s gl, ?_⟩
  intro hok
  apply hnoop
  by_cases htop : s.top.1 = some framebuffer ∧
      s.top.2 = (if drawBuffer = .framebuffer framebuffer then .undefined else drawBuffer)
  · have hst : (s.push gl framebuffer drawBuffer).stack = s := by
      simp [FramebufferStack.push, htop]
    rw [hst]
    exact Prod.ext htop.1 htop.2
  · cases hb : FramebufferStack._bindFramebuffer gl (some framebuffer)
        (if drawBuffer = .framebuffer framebuffer then .undefined else drawBuffer) with
    | ok gl1 =>
      have hst : (s.push gl framebuffer drawBuffer).stack
          = { _stack := s._stack ++ [(framebuffer,
              if drawBuffer = .framebuffer framebuffer then .undefined else drawBuffer)] } := by
        simp [FramebufferStack.push, htop, hb]
      rw [hst]
      exact FramebufferStack.top_after_append s framebuffer _
    | error e =>
      exfalso
      have hres : ∃ e1, (s.push gl framebuffer drawBuffer).result = .error e1 := by
        simp only [FramebufferStack.push, htop, if_false, hb,
          FramebufferStack.pop_one_after_append]
        cases FramebufferStack._bindFramebuffer gl s.top.1 s.top.2 with
        | error e1 => exact ⟨e1, rfl⟩
        | ok gl1 => exact ⟨e, rfl⟩
      obtain ⟨e1, he1⟩ := hres
      rw [he1] at hok
      exact Except.noConfusion hok

/-- C8, an instance: on the empty stack the push of a framebuffer with a color
attachment returns normally, and the second push of the same pair changes
neither the stack nor the context. -/
theorem push_of_bound_configuration_is_noop_witness :
    (emptyStack.push freshContext colorFramebuffer .undefined).result = .ok () ∧
    (emptyStack.push freshContext colorFramebuffer .undefined).gl.calls
      = [.bindFramebuffer .FRAMEBUFFER (some 31), .viewport 0 0 256 128] ∧
    ((emptyStack.push freshContext colorFramebuffer .undefined).stack.push
        (emptyStack.push freshContext colorFramebuffer .undefined).gl
        colorFramebuffer .undefined).result = .ok () ∧
    ((emptyStack.push freshContext colorFramebuffer .undefined).stack.push
        (emptyStack.push freshContext colorFramebuffer .undefined).gl
        colorFramebuffer .undefined).stack
      = (emptyStack.push freshContext colorFramebuffer .undefined).stack ∧
    ((emptyStack.push freshContext colorFramebuffer .undefined).stack.push
        (emptyStack.push freshContext colorFramebuffer .undefined).gl
        colorFramebuffer .undefined).gl
      = (emptyStack.push freshContext colorFramebuffer .undefined).gl :=
  ⟨rfl, rfl,
    (push_of_bound_configuration_is_noop emptyStack freshContext colorFramebuffer
      .undefined).2 rfl⟩

/-- C8, refuted as stated. On the empty stack the push of a framebuffer without
attachments raises, after the rollback has bound the default surface; the stack
is empty again, so the second push of the identical pair does the same once
more: it adds one `bindFramebuffer` and one `viewport` call to the log. -/
theorem push_twice_of_bare_framebuffer_rebinds :
    (emptyStack.push freshContext bareFramebuffer .undefined).result
      = .error (.noAttachments "bare") ∧
    (emptyStack.push freshContext bareFramebuffer .undefined).stack = emptyStack ∧
    (emptyStack.push freshContext bareFramebuffer .undefined).gl.calls
      = [.bindFramebuffer .FRAMEBUFFER none, .viewport 0 0 640 480] ∧
    ((emptyStack.push freshContext bareFramebuffer .undefined).stack.push
        (emptyStack.push freshContext bareFramebuffer .undefined).gl
        bareFramebuffer .undefined).gl.calls
      = (emptyStack.push freshContext bareFramebuffer .undefined).gl.calls
        ++ [.bindFramebuffer .FRAMEBUFFER none, .viewport 0 0 640 480] ∧
    ((emptyStack.push freshContext bareFramebuffer .undefined).stack.push
        (emptyStack.push freshContext bareFramebuffer .undefined).gl
        bareFramebuffer .undefined).gl
      ≠ (emptyStack.push freshContext bareFramebuffer .undefined).gl := by
  refine ⟨rfl, rfl, rfl, rfl, ?_⟩
  decide

/-- C9. When the pair to push is not the top of the stack, so that it is bound,
and binding it raises `e`, the push raises and the stack after the call is the
stack before it: the frame appended before the binding has been removed again.
The exception that reaches the caller is `e` itself on every stack that push and
pop calls have built, and more generally whenever the rollback can bind the
configuration below. -/
theorem push_failure_restores_stack (s : FramebufferStack) (gl : WebGL2)
    (framebuffer : Framebuffer) (drawBuffer : DrawBuffer) (e : GlanceError)
    (hnew : ¬ (s.top.1 = some framebuffer ∧
      s.top.2 = (if drawBuffer = .framebuffer framebuffer then .undefined else drawBuffer)))
    (hbind : FramebufferStack._bindFramebuffer gl (some framebuffer)
      (if drawBuffer = .framebuffer framebuffer then .undefined else drawBuffer) = .error e) :
    (s.push gl framebuffer drawBuffer).stack = s ∧
    (s.push gl framebuffer drawBuffer).stack._stack = s._stack ∧
    (s.push gl framebuffer drawBuffer).stack.top = s.top ∧
    (∃ e1, (s.push gl framebuffer drawBuffer).result = .error e1) ∧
    (FramebufferStack.Reachable s → (s.push gl framebuffer drawBuffer).result = .error e) ∧
    ((∃ gl1, FramebufferStack._bindFramebuffer gl s.top.1 s.top.2 = .ok gl1) →
      (s.push gl framebuffer drawBuffer).result = .error e) := by
  have hpush := FramebufferStack.push_of_failed_bind s gl framebuffer drawBuffer e hnew hbind
  have hstack : (s.push gl framebuffer drawBuffer).stack = s := by
    rw [hpush]
    cases FramebufferStack._bindFramebuffer gl s.top.1 s.top.2 <;> rfl
  have hok : (∃ gl1, FramebufferStack._bindFramebuffer gl s.top.1 s.top.2 = .ok gl1) →
      (s.push gl framebuffer drawBuffer).result = .error e := by
    rintro ⟨gl1, h1⟩
    rw [hpush, h1]
  refine ⟨hstack, by rw [hstack], by rw [hstack], ?_,
    fun hreach => hok (FramebufferStack.reachable_top_bind_ok s hreach gl), hok⟩
  rw [hpush]
  cases FramebufferStack._bindFramebuffer gl s.top.1 s.top.2 with
  | error e1 => exact ⟨e1, rfl⟩
  | ok gl1 => exact ⟨e, rfl⟩

/-- C9, an instance: a framebuffer without attachments pushed on the stack that
one successful push has built; the stack is as before and the exception is the
one of the binding. -/
theorem push_failure_restores_stack_witness :
    (FramebufferStack.push (emptyStack.push freshContext colorFramebuffer .undefined).stack
        freshContext bareFramebuffer .undefined).stack
      = { _stack := [(colorFramebuffer, .undefined)] } ∧
    (FramebufferStack.push (emptyStack.push freshContext colorFramebuffer .undefined).stack
        freshContext bareFramebuffer .undefined).result = .error (.noAttachments "bare") :=
  ⟨(push_failure_restores_stack
      (emptyStack.push freshContext colorFramebuffer .undefined).stack freshContext
      bareFramebuffer .undefined (.noAttachments "bare") (by decide) rfl).1,
    (push_failure_restores_stack
      (emptyStack.push freshContext colorFramebuffer .undefined).stack freshContext
      bareFramebuffer .undefined (.noAttachments "bare") (by decide) rfl).2.2.2.2.1
      (FramebufferStack.Reachable.push _ _ _ _ FramebufferStack.Reachable.fresh)⟩

/-- C10, as the code has it. On every stack that push and pop calls have built, a
framebuffer without any attachment, pushed with no draw buffer or with itself as
the draw buffer, makes the push raise the no-attachments error that names it, and
the stack, hence its top, is as before the call. -/
theorem push_without_attachments_raises (s : FramebufferStack) (gl : WebGL2)
    (framebuffer : Framebuffer) (drawBuffer : DrawBuffer)
    (hreach : FramebufferStack.Reachable s)
    (hbare : framebuffer.color = [] ∧ framebuffer.depth = none ∧ framebuffer.stencil = none)
    (hsingle : drawBuffer = .undefined ∨ drawBuffer = .framebuffer framebuffer) :
    (s.push gl framebuffer drawBuffer).result = .error (.noAttachments framebuffer.name) ∧
    (s.push gl framebuffer drawBuffer).stack = s ∧
    (s.push gl framebuffer drawBuffer).stack.top = s.top := by
  have hnorm : (if drawBuffer = .framebuffer framebuffer then DrawBuffer.undefined
      else drawBuffer) = .undefined := by
    rcases hsingle with h | h <;> simp [h]
  have hbind : FramebufferStack._bindFramebuffer gl (some framebuffer)
      (if drawBuffer = .framebuffer framebuffer then .undefined else drawBuffer)
      = .error (.noAttachments framebuffer.name) := by
    rw [hnorm]
    exact FramebufferStack.bind_bare_single gl framebuffer hbare
  obtain ⟨g, hg⟩ := FramebufferStack.reachable_top_bind_ok s hreach gl
  have hnew : ¬ (s.top.1 = some framebuffer ∧
      s.top.2 = (if drawBuffer = .framebuffer framebuffer then .undefined else drawBuffer)) := by
    rw [hnorm]
    rintro ⟨h1, h2⟩
    rw [h1, h2, FramebufferStack.bind_bare_single gl framebuffer hbare] at hg
    exact Except.noConfusion hg
  have hpush := FramebufferStack.push_of_failed_bind s gl framebuffer drawBuffer _ hnew hbind
  rw [hg] at hpush
  rw [hpush]
  exact ⟨rfl, rfl, rfl⟩

/-- C10, an instance: the framebuffer without attachments pushed on the stack
that one successful push has built, once with no draw buffer and once with
itself as draw buffer. -/
theorem push_without_attachments_raises_witness :
    ((FramebufferStack.push (emptyStack.push freshContext colorFramebuffer .undefined).stack
        freshContext bareFramebuffer .undefined).result = .error (.noAttachments "bare") ∧
      (FramebufferStack.push (emptyStack.push freshContext colorFramebuffer .undefined).stack
        freshContext bareFramebuffer .undefined).stack
        = (emptyStack.push freshContext colorFramebuffer .undefined).stack ∧
      (FramebufferStack.push (emptyStack.push freshContext colorFramebuffer .undefined).stack
        freshContext bareFramebuffer .undefined).stack.top
        = (emptyStack.push freshContext colorFramebuffer .undefined).stack.top) ∧
    (FramebufferStack.push (emptyStack.push freshContext colorFramebuffer .undefined).stack
        freshContext bareFramebuffer (.framebuffer bareFramebuffer)).result
      = .error (.noAttachments "bare") :=
  ⟨push_without_attachments_raises
      (emptyStack.push freshContext colorFramebuffer .undefined).stack
      freshContext bareFramebuffer .undefined
      (FramebufferStack.Reachable.push _ _ _ _ FramebufferStack.Reachable.fresh)
      ⟨rfl, rfl, rfl⟩ (Or.inl rfl),
    (push_without_attachments_raises
      (emptyStack.push freshContext colorFramebuffer .undefined).stack
      freshContext bareFramebuffer (.framebuffer bareFramebuffer)
      (FramebufferStack.Reachable.push _ _ _ _ FramebufferStack.Reachable.fresh)
      ⟨rfl, rfl, rfl⟩ (Or.inr rfl)).1⟩

/-- C10, refuted as stated. The framebuffer without attachments pushed as the
read target, with `null` or with another framebuffer as the draw target: the push
returns normally, the frame is on the stack and the top of the stack has
changed; the attachments of the read target are never looked at. -/
theorem push_bare_read_target_succeeds :
    (emptyStack.push freshContext bareFramebuffer .null).result = .ok () ∧
    (emptyStack.push freshContext bareFramebuffer .null).stack
      = { _stack := [(bareFramebuffer, .null)] } ∧
    (emptyStack.push freshContext bareFramebuffer .null).stack.top ≠ emptyStack.top ∧
    (emptyStack.push freshContext bareFramebuffer .null).gl.calls
      = [.bindFramebuffer .READ_FRAMEBUFFER (some 30), .bindFramebuffer .DRAW_FRAMEBUFFER none,
         .viewport 0 0 640 480] ∧
    (emptyStack.push freshContext bareFramebuffer (.framebuffer colorFramebuffer)).result
      = .ok () ∧
    (emptyStack.push freshContext bareFramebuffer (.framebuffer colorFramebuffer)).stack
      = { _stack := [(bareFramebuffer, .framebuffer colorFramebuffer)] } := by
  refine ⟨rfl, rfl, ?_, rfl, rfl, rfl⟩
  decide

/-- C13. A push that takes effect (its pair is not the top of the stack and the
call returns normally) adds exactly these calls to the log, in this order.  With
no draw buffer, or the frame itself as draw buffer: one `bindFramebuffer` of
`FRAMEBUFFER` to the handle of the frame, then `viewport(0, 0, w, h)` with the
size of the frame.  With the draw buffer `null`: `READ_FRAMEBUFFER` to the frame,
`DRAW_FRAMEBUFFER` to `null`, then the viewport of the canvas size.  With another
framebuffer as draw buffer: `READ_FRAMEBUFFER` to the frame, `DRAW_FRAMEBUFFER`
to the draw buffer, then the viewport of the size of the draw buffer.  The size
of a framebuffer is that of its first color attachment if it has one, else of
its depth attachment, else of its stencil attachment. -/
theorem push_device_calls (s : FramebufferStack) (gl : WebGL2)
    (framebuffer : Framebuffer) (drawBuffer : DrawBuffer)
    (hnew : ¬ (s.top.1 = some framebuffer ∧
      s.top.2 = (if drawBuffer = .framebuffer framebuffer then .undefined else drawBuffer)))
    (hok : (s.push gl framebuffer drawBuffer).result = .ok ()) :
    ((drawBuffer = .undefined ∨ drawBuffer = .framebuffer framebuffer) →
      ∃ w h, getFramebufferSize framebuffer = .ok (w, h) ∧
        (s.push gl framebuffer drawBuffer).gl.calls = gl.calls ++
          [.bindFramebuffer .FRAMEBUFFER (some framebuffer.glObject), .viewport 0 0 w h]) ∧
    (drawBuffer = .null →
      (s.push gl framebuffer drawBuffer).gl.calls = gl.calls ++
        [.bindFramebuffer .READ_FRAMEBUFFER (some framebuffer.glObject),
         .bindFramebuffer .DRAW_FRAMEBUFFER none,
         .viewport 0 0 gl.canvas.width gl.canvas.height]) ∧
    (∀ target, drawBuffer = .framebuffer target → target ≠ framebuffer →
      ∃ w h, getFramebufferSize target = .ok (w, h) ∧
        (s.push gl framebuffer drawBuffer).gl.calls = gl.calls ++
          [.bindFramebuffer .READ_FRAMEBUFFER (some framebuffer.glObject),
           .bindFramebuffer .DRAW_FRAMEBUFFER (some target.glObject),
           .viewport 0 0 w h]) ∧
    (∀ (fb : Framebuffer) (first : Attachment) (others : List Attachment),
      fb.color = first :: others → getFramebufferSize fb = .ok (first.width, first.height)) ∧
    (∀ (fb : Framebuffer) (a : Attachment), fb.color = [] → fb.depth = some a →
      getFramebufferSize fb = .ok (a.width, a.height)) ∧
    (∀ (fb : Framebuffer) (a : Attachment), fb.color = [] → fb.depth = none →
      fb.stencil = some a → getFramebufferSize fb = .ok (a.width, a.height)) := by
  have hpush : ∀ e, FramebufferStack._bindFramebuffer gl (some framebuffer)
      (if drawBuffer = .framebuffer framebuffer then .undefined else drawBuffer) ≠ .error e := by
    intro e he
    rw [FramebufferStack.push_of_failed_bind s gl framebuffer drawBuffer e hnew he] at hok
    cases hb : FramebufferStack._bindFramebuffer gl s.top.1 s.top.2 <;>
      rw [hb] at hok <;> exact Except.noConfusion hok
  have hgl : ∀ g, FramebufferStack._bindFramebuffer gl (some framebuffer)
      (if drawBuffer = .framebuffer framebuffer then .undefined else drawBuffer) = .ok g →
      (s.push gl framebuffer drawBuffer).gl = g := by
    intro g hg
    simp [FramebufferStack.push, hnew, hg]
  refine ⟨?_, ?_, ?_, ?_, ?_, ?_⟩
  · intro hsingle
    have hnorm : (if drawBuffer = .framebuffer framebuffer then DrawBuffer.undefined
        else drawBuffer) = .undefined := by
      rcases hsingle with h | h <;> simp [h]
    rw [hnorm] at hpush hgl
    cases hs : getFramebufferSize framebuffer with
    | error e =>
      exact absurd (by simp [FramebufferStack._bindFramebuffer, hs]) (hpush e)
    | ok size =>
      obtain ⟨w, h⟩ := size
      refine ⟨w, h, rfl, ?_⟩
      have hb : FramebufferStack._bindFramebuffer gl (some framebuffer) .undefined
          = .ok ((gl.record (.bindFramebuffer .FRAMEBUFFER (some framebuffer.glObject))).record
              (.viewport 0 0 w h)) := by
        simp [FramebufferStack._bindFramebuffer, hs]
      rw [hgl _ hb]
      simp [WebGL2.record]
  · intro hnull
    subst hnull
    have hb : FramebufferStack._bindFramebuffer gl (some framebuffer)
        (if DrawBuffer.null = .framebuffer framebuffer then .undefined else .null)
        = .ok (((gl.record (.bindFramebuffer .READ_FRAMEBUFFER (some framebuffer.glObject))).record
            (.bindFramebuffer .DRAW_FRAMEBUFFER none)).record
            (.viewport 0 0 gl.canvas.width gl.canvas.height)) := by
      simp [FramebufferStack._bindFramebuffer]
    rw [hgl _ hb]
    simp [WebGL2.record]
  · intro target htarget hne
    subst htarget
    have hnorm : (if DrawBuffer.framebuffer target = .framebuffer framebuffer
        then DrawBuffer.undefined else .framebuffer target) = .framebuffer target := by
      simp [hne]
    rw [hnorm] at hpush hgl
    cases hs : getFramebufferSize target with
    | error e =>
      exact absurd (by simp [FramebufferStack._bindFramebuffer, hs]) (hpush e)
    | ok size =>
      obtain ⟨w, h⟩ := size
      refine ⟨w, h, rfl, ?_⟩
      have hb : FramebufferStack._bindFramebuffer gl (some framebuffer) (.framebuffer target)
          = .ok (((gl.record (.bindFramebuffer .READ_FRAMEBUFFER
              (some framebuffer.glObject))).record
              (.bindFramebuffer .DRAW_FRAMEBUFFER (some target.glObject))).record
              (.viewport 0 0 w h)) := by
        simp [FramebufferStack._bindFramebuffer, hs]
      rw [hgl _ hb]
      simp [WebGL2.record]
  · intro fb first others hc
    simp [getFramebufferSize, hc]
  · intro fb a hc hd
    simp [getFramebufferSize, hc, hd]
  · intro fb a hc hd hst
    simp [getFramebufferSize, hc, hd, hst]

/-- C13, an instance: the framebuffer with a 256 x 128 color attachment pushed on
the empty stack, alone and as the draw buffer of another read target. -/
theorem push_device_calls_witness :
    (∃ w h, getFramebufferSize colorFramebuffer = .ok (w, h) ∧
      (emptyStack.push freshContext colorFramebuffer .undefined).gl.calls = freshContext.calls ++
        [.bindFramebuffer .FRAMEBUFFER (some colorFramebuffer.glObject), .viewport 0 0 w h]) ∧
    (emptyStack.push freshContext colorFramebuffer .undefined).gl.calls
      = [.bindFramebuffer .FRAMEBUFFER (some 31), .viewport 0 0 256 128] ∧
    (emptyStack.push freshContext bareFramebuffer (.framebuffer colorFramebuffer)).gl.calls
      = [.bindFramebuffer .READ_FRAMEBUFFER (some 30),
         .bindFramebuffer .DRAW_FRAMEBUFFER (some 31), .viewport 0 0 256 128] :=
  ⟨(push_device_calls emptyStack freshContext colorFramebuffer .undefined (by decide) rfl).1
      (Or.inl rfl), rfl, rfl⟩

/-- C14. For every stack, context and framebuffer `f`, `push(f, f)` is `push(f)`:
the two calls return or raise alike and leave the same stack and the same
context, hence the same device calls; both do nothing exactly when the top of
the stack is the frame `f` in single-target mode, and a frame that either call
stores is `f` with the draw buffer `undefined`. -/
theorem push_same_draw_buffer_eq_push (s : FramebufferStack) (gl : WebGL2)
    (f : Framebuffer) :
    s.push gl f (.framebuffer f) = s.push gl f .undefined ∧
    (s.top = (some f, .undefined) →
      (s.push gl f (.framebuffer f)).stack = s ∧ (s.push gl f (.framebuffer f)).gl = gl ∧
      (s.push gl f .undefined).stack = s ∧ (s.push gl f .undefined).gl = gl) ∧
    ((s.push gl f (.framebuffer f)).stack = s ∨
      (s.push gl f (.framebuffer f)).stack._stack = s._stack ++ [(f, .undefined)]) := by
  have heq : s.push gl f (.framebuffer f) = s.push gl f .undefined := by
    simp [FramebufferStack.push]
  refine ⟨heq, ?_, ?_⟩
  · intro htop
    have h1 : (s.push gl f .undefined).stack = s ∧ (s.push gl f .undefined).gl = gl := by
      simp [FramebufferStack.push, htop]
    rw [heq]
    exact ⟨h1.1, h1.2, h1.1, h1.2⟩
  · rcases FramebufferStack.push_stack_cases s gl f (.framebuffer f) with h | ⟨h, _⟩
    · exact Or.inl h
    · right
      simpa using h

/-! ## Lemmas: popping and the bound state -/

theorem WebGL2.boundState_record (gl : WebGL2) (call : GlCall) :
    (gl.record call).boundState = gl.boundState.apply call := by
  simp [WebGL2.boundState, WebGL2.record, List.foldl_append]

theorem FramebufferStack.bind_extends (gl g : WebGL2) (readBuffer : Option Framebuffer)
    (drawBuffer : DrawBuffer)
    (h : FramebufferStack._bindFramebuffer gl readBuffer drawBuffer = .ok g) :
    g.canvas = gl.canvas ∧ ∃ extra, g.calls = gl.calls ++ extra := by
  cases drawBuffer with
  | undefined =>
    cases readBuffer with
    | none =>
      simp only [FramebufferStack._bindFramebuffer, Except.ok.injEq] at h
      subst h
      exact ⟨rfl, _, by simp only [WebGL2.record, List.append_assoc]; rfl⟩
    | some fb =>
      cases hs : getFramebufferSize fb with
      | error e => simp [FramebufferStack._bindFramebuffer, hs] at h
      | ok size =>
        simp only [FramebufferStack._bindFramebuffer, hs, Except.ok.injEq] at h
        subst h
        exact ⟨rfl, _, by simp only [WebGL2.record, List.append_assoc]; rfl⟩
  | null =>
    simp only [FramebufferStack._bindFramebuffer, Except.ok.injEq] at h
    subst h
    exact ⟨rfl, _, by simp only [WebGL2.record, List.append_assoc]; rfl⟩
  | framebuffer target =>
    cases hs : getFramebufferSize target with
    | error e => simp [FramebufferStack._bindFramebuffer, hs] at h
    | ok size =>
      simp only [FramebufferStack._bindFramebuffer, hs, Except.ok.injEq] at h
      subst h
      exact ⟨rfl, _, by simp only [WebGL2.record, List.append_assoc]; rfl⟩

theorem FramebufferStack.bind_boundState_eq (g1 g2 h1 h2 : WebGL2)
    (readBuffer : Option Framebuffer) (drawBuffer : DrawBuffer)
    (hcanvas : g1.canvas = g2.canvas)
    (hb1 : FramebufferStack._bindFramebuffer g1 readBuffer drawBuffer = .ok h1)
    (hb2 : FramebufferStack._bindFramebuffer g2 readBuffer drawBuffer = .ok h2) :
    h1.boundState = h2.boundState := by
  cases drawBuffer with
  | undefined =>
    cases readBuffer with
    | none =>
      simp only [FramebufferStack._bindFramebuffer, Except.ok.injEq] at hb1 hb2
      subst hb1 hb2
      simp [WebGL2.boundState_record, BoundState.apply, hcanvas]
    | some fb =>
      cases hs : getFramebufferSize fb with
      | error e => simp [FramebufferStack._bindFramebuffer, hs] at hb1
      | ok size =>
        simp only [FramebufferStack._bindFramebuffer, hs, Except.ok.injEq] at hb1 hb2
        subst hb1 hb2
        simp [WebGL2.boundState_record, BoundState.apply]
  | null =>
    simp only [FramebufferStack._bindFramebuffer, Except.ok.injEq] at hb1 hb2
    subst hb1 hb2
    simp [WebGL2.boundState_record, BoundState.apply, hcanvas]
  | framebuffer target =>
    cases hs : getFramebufferSize target with
    | error e => simp [FramebufferStack._bindFramebuffer, hs] at hb1
    | ok size =>
      simp only [FramebufferStack._bindFramebuffer, hs, Except.ok.injEq] at hb1 hb2
      subst hb1 hb2
      simp [WebGL2.boundState_record, BoundState.apply]

theorem FramebufferStack.top_bind_ok_of_frames (stack : List (Framebuffer × DrawBuffer))
    (h : ∀ frame ∈ stack, ∀ g : WebGL2,
      ∃ g1, FramebufferStack._bindFramebuffer g (some frame.1) frame.2 = .ok g1)
    (gl : WebGL2) :
    ∃ g1, FramebufferStack._bindFramebuffer gl
      (FramebufferStack.top { _stack := stack }).1
      (FramebufferStack.top { _stack := stack }).2 = .ok g1 := by
  cases hl : stack.getLast? with
  | none => simp [FramebufferStack.top, hl, FramebufferStack._bindFramebuffer]
  | some frame =>
    have hmem : frame ∈ stack := List.mem_of_getLast?_eq_some hl
    have htop : FramebufferStack.top { _stack := stack } = (some frame.1, frame.2) := by
      simp [FramebufferStack.top, hl]
    rw [htop]
    exact h frame hmem gl

theorem FramebufferStack.popLoop_of_bindable :
    ∀ (rounds : Nat) (stack : List (Framebuffer × DrawBuffer)) (gl : WebGL2),
      (∀ frame ∈ stack, ∀ g : WebGL2,
        ∃ g1, FramebufferStack._bindFramebuffer g (some frame.1) frame.2 = .ok g1) →
      (FramebufferStack.popLoop rounds { _stack := stack } gl).result = .ok () ∧
      (FramebufferStack.popLoop rounds { _stack := stack } gl).stack._stack
        = stack.take (stack.length - rounds) ∧
      (FramebufferStack.popLoop rounds { _stack := stack } gl).gl.canvas = gl.canvas ∧
      (0 < rounds → ∃ g0 : WebGL2, g0.canvas = gl.canvas ∧
        (∃ extra, g0.calls = gl.calls ++ extra) ∧
        FramebufferStack._bindFramebuffer g0
          (FramebufferStack.popLoop rounds { _stack := stack } gl).stack.top.1
          (FramebufferStack.popLoop rounds { _stack := stack } gl).stack.top.2
          = .ok (FramebufferStack.popLoop rounds { _stack := stack } gl).gl) := by
  intro rounds
  induction rounds with
  | zero =>
    intro stack gl _
    exact ⟨rfl, by simp [FramebufferStack.popLoop], rfl, fun h => absurd h (Nat.lt_irrefl 0)⟩
  | succ n ih =>
    intro stack gl hbind
    have hsub : ∀ frame ∈ stack.dropLast, ∀ g : WebGL2,
        ∃ g1, FramebufferStack._bindFramebuffer g (some frame.1) frame.2 = .ok g1 :=
      fun frame hf => hbind frame (List.mem_of_mem_dropLast hf)
    obtain ⟨gl1, hgl1⟩ := FramebufferStack.top_bind_ok_of_frames stack.dropLast hsub gl
    obtain ⟨hcanvas1, extra1, hextra1⟩ := FramebufferStack.bind_extends _ _ _ _ hgl1
    have hstep : FramebufferStack.popLoop (n + 1) { _stack := stack } gl
        = FramebufferStack.popLoop n { _stack := stack.dropLast } gl1 := by
      simp only [FramebufferStack.popLoop, hgl1]
    obtain ⟨hres, hstack, hcanvas, hlast⟩ := ih stack.dropLast gl1 hsub
    rw [hstep]
    refine ⟨hres, ?_, hcanvas.trans hcanvas1, ?_⟩
    · rw [hstack, List.dropLast_eq_take, List.take_take, List.length_take]
      congr 1
      omega
    · intro _
      by_cases hn : 0 < n
      · obtain ⟨g0, hc0, ⟨extra, hextra⟩, hb0⟩ := hlast hn
        exact ⟨g0, hc0.trans hcanvas1, ⟨extra1 ++ extra, by
          rw [hextra, hextra1, List.append_assoc]⟩, hb0⟩
      · have hn0 : n = 0 := by omega
        subst hn0
        exact ⟨gl, rfl, ⟨[], by simp⟩, by simpa [FramebufferStack.popLoop] using hgl1⟩

theorem FramebufferStack.popEach_eq_popLoop :
    ∀ (k : Nat) (s : FramebufferStack) (gl : WebGL2),
      FramebufferStack.popEach k s gl = FramebufferStack.popLoop k s gl := by
  intro k
  induction k with
  | zero => intro s gl; rfl
  | succ n ih =>
    intro s gl
    have h1 : (max (0 : Int) 1).toNat = 1 := by decide
    simp only [FramebufferStack.popEach, FramebufferStack.pop, h1, FramebufferStack.popLoop]
    cases hb : FramebufferStack._bindFramebuffer gl
        (FramebufferStack.top { _stack := s._stack.dropLast }).1
        (FramebufferStack.top { _stack := s._stack.dropLast }).2 with
    | error e => rfl
    | ok gl1 => exact ih _ _

theorem FramebufferStack.pop_eq_popLoop (s : FramebufferStack) (gl : WebGL2) (count : Int) :
    s.pop gl count = FramebufferStack.popLoop count.toNat { _stack := s._stack } gl := by
  have h : (max 0 count).toNat = count.toNat := by
    rcases le_total 0 count with h1 | h1
    · rw [max_eq_right h1]
    · rw [max_eq_left h1, Int.toNat_of_nonpos h1]
      rfl
  simp [FramebufferStack.pop, h]

/-! ## Theorems: popping -/

/-- C12. On every stack that push and pop calls have built, `pop(c)` returns
normally and leaves the stack without its top min(c, n) frames, `n` being the
depth: the frames below stay as they were, in order (a negative count removes
nothing).  For `c >= 1` the last thing the call does to the device is the binding
of the configuration then on top: the log ends with the calls of that binding,
which for the empty stack, also when the stack was empty before, are
`bindFramebuffer(FRAMEBUFFER, null)` and the viewport of the canvas size. -/
theorem pop_removes_clamped_count (s : FramebufferStack) (gl : WebGL2) (count : Int)
    (hreach : FramebufferStack.Reachable s) :
    (s.pop gl count).result = .ok () ∧
    (∃ removed, s._stack = (s.pop gl count).stack._stack ++ removed ∧
      removed.length = min count.toNat s._stack.length) ∧
    (1 ≤ count → ∃ g0 : WebGL2, g0.canvas = gl.canvas ∧
      (∃ extra, g0.calls = gl.calls ++ extra) ∧
      FramebufferStack._bindFramebuffer g0 (s.pop gl count).stack.top.1
        (s.pop gl count).stack.top.2 = .ok (s.pop gl count).gl) ∧
    (1 ≤ count → (s.pop gl count).stack._stack = [] →
      ∃ earlier, (s.pop gl count).gl.calls = earlier ++
        [.bindFramebuffer .FRAMEBUFFER none,
         .viewport 0 0 gl.canvas.width gl.canvas.height]) := by
  obtain ⟨hres, hstack, _, hlast⟩ := FramebufferStack.popLoop_of_bindable count.toNat s._stack gl
    (FramebufferStack.reachable_frames_bindable s hreach)
  rw [← FramebufferStack.pop_eq_popLoop] at hres hstack hlast
  have hpos : 1 ≤ count → 0 < count.toNat := by
    intro h
    omega
  refine ⟨hres, ⟨s._stack.drop (s._stack.length - count.toNat), ?_, ?_⟩,
    fun h => hlast (hpos h), ?_⟩
  · rw [hstack, List.take_append_drop]
  · rw [List.length_drop]
    omega
  · intro h hempty
    obtain ⟨g0, hc0, _, hb0⟩ := hlast (hpos h)
    have htop : (s.pop gl count).stack.top = (none, .undefined) := by
      simp [FramebufferStack.top, hempty]
    rw [htop] at hb0
    simp only [FramebufferStack._bindFramebuffer, Except.ok.injEq] at hb0
    refine ⟨g0.calls, ?_⟩
    rw [← hb0, ← hc0]
    simp [WebGL2.record]

/-- C12, an instance: three frames popped off the stack that one push has built;
the one frame is removed, the count being clamped, and the default surface is
bound last. -/
theorem pop_removes_clamped_count_witness :
    (FramebufferStack.pop (emptyStack.push freshContext colorFramebuffer .undefined).stack
        (emptyStack.push freshContext colorFramebuffer .undefined).gl 3).result = .ok () ∧
    (FramebufferStack.pop (emptyStack.push freshContext colorFramebuffer .undefined).stack
        (emptyStack.push freshContext colorFramebuffer .undefined).gl 3).stack
      = emptyStack ∧
    (FramebufferStack.pop (emptyStack.push freshContext colorFramebuffer .undefined).stack
        (emptyStack.push freshContext colorFramebuffer .undefined).gl 3).gl.calls
      = [.bindFramebuffer .FRAMEBUFFER (some 31), .viewport 0 0 256 128,
         .bindFramebuffer .FRAMEBUFFER none, .viewport 0 0 640 480,
         .bindFramebuffer .FRAMEBUFFER none, .viewport 0 0 640 480,
         .bindFramebuffer .FRAMEBUFFER none, .viewport 0 0 640 480] :=
  ⟨(pop_removes_clamped_count
      (emptyStack.push freshContext colorFramebuffer .undefined).stack
      (emptyStack.push freshContext colorFramebuffer .undefined).gl 3
      (FramebufferStack.Reachable.push _ _ _ _ FramebufferStack.Reachable.fresh)).1,
    rfl, rfl⟩

/-! ## Lemmas: sessions -/

theorem FramebufferStack.Session.reachable (s : FramebufferStack) (gl : WebGL2)
    (h : FramebufferStack.Session s gl) : FramebufferStack.Reachable s := by
  induction h with
  | fresh canvas => exact FramebufferStack.Reachable.fresh
  | push s gl framebuffer drawBuffer _ ih =>
    exact FramebufferStack.Reachable.push s gl framebuffer drawBuffer ih
  | pop s gl count _ ih => exact FramebufferStack.Reachable.pop s gl count ih
  | other s gl call _ _ ih => exact ih

theorem FramebufferStack.push_outcome_cases (s : FramebufferStack) (gl : WebGL2)
    (framebuffer : Framebuffer) (drawBuffer : DrawBuffer) :
    ((s.push gl framebuffer drawBuffer).stack = s ∧ (s.push gl framebuffer drawBuffer).gl = gl) ∨
    ((s.push gl framebuffer drawBuffer).stack = s ∧
      FramebufferStack._bindFramebuffer gl s.top.1 s.top.2
        = .ok (s.push gl framebuffer drawBuffer).gl) ∨
    ((s.push gl framebuffer drawBuffer).stack.top = (some framebuffer,
        if drawBuffer = .framebuffer framebuffer then .undefined else drawBuffer) ∧
      FramebufferStack._bindFramebuffer gl (some framebuffer)
        (if drawBuffer = .framebuffer framebuffer then .undefined else drawBuffer)
        = .ok (s.push gl framebuffer drawBuffer).gl) := by
  by_cases htop : s.top.1 = some framebuffer ∧
      s.top.2 = (if drawBuffer = .framebuffer framebuffer then .undefined else drawBuffer)
  · left
    simp [FramebufferStack.push, htop]
  · cases hb : FramebufferStack._bindFramebuffer gl (some framebuffer)
        (if drawBuffer = .framebuffer framebuffer then .undefined else drawBuffer) with
    | ok gl1 =>
      right; right
      have hpush : s.push gl framebuffer drawBuffer
          = { result := .ok (), stack := { _stack := s._stack ++ [(framebuffer,
                if drawBuffer = .framebuffer framebuffer then .undefined else drawBuffer)] },
              gl := gl1 } := by
        simp [FramebufferStack.push, htop, hb]
      rw [hpush]
      exact ⟨FramebufferStack.top_after_append s framebuffer _, rfl⟩
    | error e =>
      rw [FramebufferStack.push_of_failed_bind s gl framebuffer drawBuffer e htop hb]
      cases hprev : FramebufferStack._bindFramebuffer gl s.top.1 s.top.2 with
      | error e1 => exact Or.inl ⟨rfl, rfl⟩
      | ok gl1 => exact Or.inr (Or.inl ⟨rfl, rfl⟩)

theorem FramebufferStack.Session.in_sync (s : FramebufferStack) (gl : WebGL2)
    (h : FramebufferStack.Session s gl) :
    ∀ g0 g1 : WebGL2, g0.canvas = gl.canvas →
      FramebufferStack._bindFramebuffer g0 s.top.1 s.top.2 = .ok g1 →
      g1.boundState = gl.boundState := by
  induction h with
  | fresh canvas =>
    intro g0 g1 hc hb
    have hc1 : g0.canvas = canvas := hc
    simp only [FramebufferStack.top, List.getLast?_nil, FramebufferStack._bindFramebuffer,
      Except.ok.injEq] at hb
    subst hb
    rw [WebGL2.boundState_record, WebGL2.boundState_record]
    simp [BoundState.apply, WebGL2.boundState, hc1]
  | push s gl framebuffer drawBuffer hs ih =>
    intro g0 g1 hc hb
    rcases FramebufferStack.push_outcome_cases s gl framebuffer drawBuffer with
      ⟨h1, h2⟩ | ⟨h1, h2⟩ | ⟨h1, h2⟩
    · rw [h1] at hb
      rw [h2] at hc ⊢
      exact ih g0 g1 hc hb
    · rw [h1] at hb
      have hc2 := (FramebufferStack.bind_extends _ _ _ _ h2).1
      exact FramebufferStack.bind_boundState_eq g0 gl g1 _ _ _ (hc.trans hc2) hb h2
    · rw [h1] at hb
      have hc2 := (FramebufferStack.bind_extends _ _ _ _ h2).1
      exact FramebufferStack.bind_boundState_eq g0 gl g1 _ _ _ (hc.trans hc2) hb h2
  | pop s gl count hs ih =>
    intro g0 g1 hc hb
    have hreach := FramebufferStack.Session.reachable s gl hs
    obtain ⟨_, hstack, hcanvas, hlast⟩ :=
      FramebufferStack.popLoop_of_bindable count.toNat s._stack gl
        (FramebufferStack.reachable_frames_bindable s hreach)
    rw [← FramebufferStack.pop_eq_popLoop] at hstack hcanvas hlast
    by_cases hn : 0 < count.toNat
    · obtain ⟨g2, hc2, _, hb2⟩ := hlast hn
      exact FramebufferStack.bind_boundState_eq g0 g2 g1 _ _ _
        ((hc.trans hcanvas).trans hc2.symm) hb hb2
    · have hn0 : count.toNat = 0 := by omega
      have hpop : s.pop gl count = { result := .ok (), stack := s, gl := gl } := by
        rw [FramebufferStack.pop_eq_popLoop, hn0]
        rfl
      rw [hpop] at hb hc ⊢
      exact ih g0 g1 hc hb
  | other s gl call hs hcall ih =>
    intro g0 g1 hc hb
    have h1 : (gl.record call).boundState = gl.boundState := by
      rw [WebGL2.boundState_record]
      cases call with
      | bindFramebuffer t h => simp [GlCall.touchesFramebuffer] at hcall
      | viewport x y w h => simp [GlCall.touchesFramebuffer] at hcall
      | shaderCompiled sh => rfl
      | deleteShader sh => rfl
      | createTexture name width height target depth options => rfl
      | updateTexture texture data options => rfl
      | deleteTexture handle => rfl
      | bindTexture target handle => rfl
      | texSubImage3D slice width height realData => rfl
    rw [h1]
    exact ih g0 g1 hc hb

theorem FramebufferStack.pushAll_session :
    ∀ (pushes : List (Framebuffer × DrawBuffer)) (s : FramebufferStack) (gl : WebGL2),
      FramebufferStack.Session s gl →
      FramebufferStack.Session (FramebufferStack.pushAll s gl pushes).1
        (FramebufferStack.pushAll s gl pushes).2 := by
  intro pushes
  induction pushes with
  | nil => intro s gl h; exact h
  | cons p rest ih =>
    intro s gl h
    obtain ⟨f, d⟩ := p
    exact ih _ _ (FramebufferStack.Session.push s gl f d h)

theorem FramebufferStack.pushAll_stack :
    ∀ (pushes : List (Framebuffer × DrawBuffer)) (s : FramebufferStack) (gl : WebGL2),
      ∃ frames, (FramebufferStack.pushAll s gl pushes).1._stack = s._stack ++ frames ∧
        frames.length ≤ pushes.length := by
  intro pushes
  induction pushes with
  | nil => intro s gl; exact ⟨[], by simp [FramebufferStack.pushAll], Nat.le_refl _⟩
  | cons p rest ih =>
    intro s gl
    obtain ⟨f, d⟩ := p
    obtain ⟨frames, h1, h2⟩ := ih (s.push gl f d).stack (s.push gl f d).gl
    rcases FramebufferStack.push_stack_cases s gl f d with h | ⟨h, _⟩
    · refine ⟨frames, ?_, Nat.le_succ_of_le h2⟩
      simp only [FramebufferStack.pushAll]
      rw [h1, h]
    · refine ⟨(f, if d = .framebuffer f then .undefined else d) :: frames, ?_,
        Nat.succ_le_succ h2⟩
      simp only [FramebufferStack.pushAll]
      rw [h1, h]
      simp

theorem FramebufferStack.pushAll_canvas :
    ∀ (pushes : List (Framebuffer × DrawBuffer)) (s : FramebufferStack) (gl : WebGL2),
      (FramebufferStack.pushAll s gl pushes).2.canvas = gl.canvas := by
  intro pushes
  induction pushes with
  | nil => intro s gl; rfl
  | cons p rest ih =>
    intro s gl
    obtain ⟨f, d⟩ := p
    simp only [FramebufferStack.pushAll]
    rw [ih]
    rcases FramebufferStack.push_outcome_cases s gl f d with ⟨_, h2⟩ | ⟨_, h2⟩ | ⟨_, h2⟩
    · rw [h2]
    · exact (FramebufferStack.bind_extends _ _ _ _ h2).1
    · exact (FramebufferStack.bind_extends _ _ _ _ h2).1

theorem FramebufferStack.eq_of_stack_eq (a b : FramebufferStack) (h : a._stack = b._stack) :
    a = b := by
  cases a
  cases b
  simp_all

theorem FramebufferStack.popLoop_after_pushAll (s : FramebufferStack) (gl : WebGL2)
    (pushes : List (Framebuffer × DrawBuffer))
    (hsession : FramebufferStack.Session s gl)
    (heff : (FramebufferStack.pushAll s gl pushes).1._stack.length
      = s._stack.length + pushes.length) :
    (FramebufferStack.popLoop pushes.length (FramebufferStack.pushAll s gl pushes).1
        (FramebufferStack.pushAll s gl pushes).2).result = .ok () ∧
    (FramebufferStack.popLoop pushes.length (FramebufferStack.pushAll s gl pushes).1
        (FramebufferStack.pushAll s gl pushes).2).stack = s ∧
    (FramebufferStack.popLoop pushes.length (FramebufferStack.pushAll s gl pushes).1
        (FramebufferStack.pushAll s gl pushes).2).gl.boundState = gl.boundState := by
  have hsess := FramebufferStack.pushAll_session pushes s gl hsession
  have hreach := FramebufferStack.Session.reachable _ _ hsess
  obtain ⟨frames, hframes, hlen⟩ := FramebufferStack.pushAll_stack pushes s gl
  have hk : frames.length = pushes.length := by
    rw [hframes, List.length_append] at heff
    omega
  obtain ⟨hres, hstack, _, hlast⟩ := FramebufferStack.popLoop_of_bindable pushes.length
    (FramebufferStack.pushAll s gl pushes).1._stack (FramebufferStack.pushAll s gl pushes).2
    (FramebufferStack.reachable_frames_bindable _ hreach)
  have hstack1 : (FramebufferStack.popLoop pushes.length (FramebufferStack.pushAll s gl pushes).1
      (FramebufferStack.pushAll s gl pushes).2).stack = s := by
    apply FramebufferStack.eq_of_stack_eq
    rw [hstack, hframes, List.length_append, hk, Nat.add_sub_cancel, List.take_left]
  refine ⟨hres, hstack1, ?_⟩
  cases pushes with
  | nil => rfl
  | cons p rest =>
    obtain ⟨g0, hc0, _, hb0⟩ := hlast (Nat.succ_pos _)
    have hstack2 : (FramebufferStack.popLoop (p :: rest).length
        { _stack := (FramebufferStack.pushAll s gl (p :: rest)).1._stack }
        (FramebufferStack.pushAll s gl (p :: rest)).2).stack = s := hstack1
    rw [hstack2] at hb0
    exact FramebufferStack.Session.in_sync s gl hsession g0 _
      (hc0.trans (FramebufferStack.pushAll_canvas _ s gl)) hb0

/-! ## Theorems: stack discipline -/

/-- C11, as the code has it. In a render session, after `k` push calls of which
each one has appended its frame (none found its pair on top already, none
raised), popping `k` frames, by `pop(k)` or by `k` calls of `pop()`, returns
normally and leaves the stack and the bound state of the device (the targets
bound for reading and for drawing, and the viewport) as they were before the
pushes. -/
theorem push_pop_lifo (s : FramebufferStack) (gl : WebGL2)
    (pushes : List (Framebuffer × DrawBuffer))
    (hsession : FramebufferStack.Session s gl)
    (heff : (FramebufferStack.pushAll s gl pushes).1._stack.length
      = s._stack.length + pushes.length) :
    (FramebufferStack.pop (FramebufferStack.pushAll s gl pushes).1
        (FramebufferStack.pushAll s gl pushes).2 (pushes.length : Int)).result = .ok () ∧
    (FramebufferStack.pop (FramebufferStack.pushAll s gl pushes).1
        (FramebufferStack.pushAll s gl pushes).2 (pushes.length : Int)).stack = s ∧
    (FramebufferStack.pop (FramebufferStack.pushAll s gl pushes).1
        (FramebufferStack.pushAll s gl pushes).2 (pushes.length : Int)).gl.boundState
      = gl.boundState ∧
    (FramebufferStack.popEach pushes.length (FramebufferStack.pushAll s gl pushes).1
        (FramebufferStack.pushAll s gl pushes).2).result = .ok () ∧
    (FramebufferStack.popEach pushes.length (FramebufferStack.pushAll s gl pushes).1
        (FramebufferStack.pushAll s gl pushes).2).stack = s ∧
    (FramebufferStack.popEach pushes.length (FramebufferStack.pushAll s gl pushes).1
        (FramebufferStack.pushAll s gl pushes).2).gl.boundState = gl.boundState := by
  have h := FramebufferStack.popLoop_after_pushAll s gl pushes hsession heff
  have hpop : FramebufferStack.pop (FramebufferStack.pushAll s gl pushes).1
      (FramebufferStack.pushAll s gl pushes).2 (pushes.length : Int)
      = FramebufferStack.popLoop pushes.length (FramebufferStack.pushAll s gl pushes).1
        (FramebufferStack.pushAll s gl pushes).2 := by
    rw [FramebufferStack.pop_eq_popLoop, Int.toNat_ofNat]
  rw [hpop, FramebufferStack.popEach_eq_popLoop]
  exact ⟨h.1, h.2.1, h.2.2, h.1, h.2.1, h.2.2⟩

/-- C11, an instance: on the stack that one push has built, two more pushes,
one of them with separate targets, then `pop(2)`. -/
theorem push_pop_lifo_witness :
    FramebufferStack.Session (emptyStack.push freshContext colorFramebuffer .undefined).stack
      (emptyStack.push freshContext colorFramebuffer .undefined).gl ∧
    (FramebufferStack.pop
        (FramebufferStack.pushAll (emptyStack.push freshContext colorFramebuffer .undefined).stack
          (emptyStack.push freshContext colorFramebuffer .undefined).gl
          [(bareFramebuffer, .null), (depthFramebuffer, .undefined)]).1
        (FramebufferStack.pushAll (emptyStack.push freshContext colorFramebuffer .undefined).stack
          (emptyStack.push freshContext colorFramebuffer .undefined).gl
          [(bareFramebuffer, .null), (depthFramebuffer, .undefined)]).2 2).stack
      = (emptyStack.push freshContext colorFramebuffer .undefined).stack ∧
    (FramebufferStack.pop
        (FramebufferStack.pushAll (emptyStack.push freshContext colorFramebuffer .undefined).stack
          (emptyStack.push freshContext colorFramebuffer .undefined).gl
          [(bareFramebuffer, .null), (depthFramebuffer, .undefined)]).1
        (FramebufferStack.pushAll (emptyStack.push freshContext colorFramebuffer .undefined).stack
          (emptyStack.push freshContext colorFramebuffer .undefined).gl
          [(bareFramebuffer, .null), (depthFramebuffer, .undefined)]).2 2).gl.boundState
      = { read := some 31, draw := some 31, viewport := (0, 0, 256, 128) } :=
  ⟨FramebufferStack.Session.push _ _ _ _ (FramebufferStack.Session.fresh _),
    (push_pop_lifo (emptyStack.push freshContext colorFramebuffer .undefined).stack
      (emptyStack.push freshContext colorFramebuffer .undefined).gl
      [(bareFramebuffer, .null), (depthFramebuffer, .undefined)]
      (FramebufferStack.Session.push _ _ _ _ (FramebufferStack.Session.fresh _)) rfl).2.1,
    rfl⟩

/-- C11, refuted as stated. On the stack that holds the one frame `color`, the
push of `color` again finds its pair on top and appends nothing; the pop of the
same count 1 then removes the frame that was there before: the stack is empty
and the default surface is bound, not `color`. -/
theorem push_pop_count_lifo_fails :
    (FramebufferStack.pushAll (emptyStack.push freshContext colorFramebuffer .undefined).stack
      (emptyStack.push freshContext colorFramebuffer .undefined).gl
      [(colorFramebuffer, .undefined)]).1
      = (emptyStack.push freshContext colorFramebuffer .undefined).stack ∧
    (FramebufferStack.pop
        (FramebufferStack.pushAll (emptyStack.push freshContext colorFramebuffer .undefined).stack
          (emptyStack.push freshContext colorFramebuffer .undefined).gl
          [(colorFramebuffer, .undefined)]).1
        (FramebufferStack.pushAll (emptyStack.push freshContext colorFramebuffer .undefined).stack
          (emptyStack.push freshContext colorFramebuffer .undefined).gl
          [(colorFramebuffer, .undefined)]).2 1).stack
      ≠ (emptyStack.push freshContext colorFramebuffer .undefined).stack ∧
    (FramebufferStack.pop
        (FramebufferStack.pushAll (emptyStack.push freshContext colorFramebuffer .undefined).stack
          (emptyStack.push freshContext colorFramebuffer .undefined).gl
          [(colorFramebuffer, .undefined)]).1
        (FramebufferStack.pushAll (emptyStack.push freshContext colorFramebuffer .undefined).stack
          (emptyStack.push freshContext colorFramebuffer .undefined).gl
          [(colorFramebuffer, .undefined)]).2 1).gl.boundState
      ≠ (emptyStack.push freshContext colorFramebuffer .undefined).gl.boundState := by
  refine ⟨rfl, ?_, ?_⟩ <;> decide

/-! ## Lemmas: cubemap loading -/

theorem finRange_six : List.finRange 6 = [0, 1, 2, 3, 4, 5] := by
  decide

theorem jsArrayGet_nil {α : Type} (j : Nat) : jsArrayGet ([] : List (Option α)) j = none := by
  simp [jsArrayGet]

theorem jsArrayGet_cons_zero {α : Type} (x : Option α) (xs : List (Option α)) :
    jsArrayGet (x :: xs) 0 = x := by
  simp [jsArrayGet]

theorem jsArrayGet_cons_succ {α : Type} (x : Option α) (xs : List (Option α)) (j : Nat) :
    jsArrayGet (x :: xs) (j + 1) = jsArrayGet xs j := by
  simp [jsArrayGet]

theorem jsArrayGet_set {α : Type} :
    ∀ (xs : List (Option α)) (i : Nat) (value : α) (j : Nat),
      jsArrayGet (jsArraySet xs i value) j = if j = i then some value else jsArrayGet xs j := by
  intro xs
  induction xs with
  | nil =>
    intro i
    induction i with
    | zero =>
      intro value j
      cases j with
      | zero => simp [jsArraySet, jsArrayGet_cons_zero]
      | succ k => simp [jsArraySet, jsArrayGet_cons_succ, jsArrayGet_nil]
    | succ n ih =>
      intro value j
      cases j with
      | zero => simp [jsArraySet, jsArrayGet_cons_zero, jsArrayGet_nil]
      | succ k =>
        simp only [jsArraySet, jsArrayGet_cons_succ, ih, jsArrayGet_nil, Nat.succ_inj']
  | cons x rest ih =>
    intro i value j
    cases i with
    | zero =>
      cases j with
      | zero => simp [jsArraySet, jsArrayGet_cons_zero]
      | succ k => simp [jsArraySet, jsArrayGet_cons_succ]
    | succ n =>
      cases j with
      | zero => simp [jsArraySet, jsArrayGet_cons_zero]
      | succ k => simp only [jsArraySet, jsArrayGet_cons_succ, ih, Nat.succ_inj']

theorem loadCubemapNow.onload_early (name : String) (options : CubemapOptions)
    (index : Fin 6) (image : Image) (st : CubemapNowState) (h : st.facesLoaded + 1 ≠ 6) :
    loadCubemapNow.onload name options index image st
      = { st with images := jsArraySet st.images index.val image,
                  facesLoaded := st.facesLoaded + 1 } := by
  simp [loadCubemapNow.onload, h]

theorem loadCubemapNow.run_early (name : String) (options : CubemapOptions)
    (faces : Fin 6 → Image) :
    ∀ (order : List (Fin 6)) (st : CubemapNowState), st.facesLoaded + order.length < 6 →
      ((order.map (fun i => FaceEvent.loaded i (faces i))).foldl
          (loadCubemapNow.handle name options) st).gl = st.gl ∧
      ((order.map (fun i => FaceEvent.loaded i (faces i))).foldl
          (loadCubemapNow.handle name options) st).facesLoaded
        = st.facesLoaded + order.length ∧
      ((order.map (fun i => FaceEvent.loaded i (faces i))).foldl
          (loadCubemapNow.handle name options) st).promise = st.promise ∧
      (∀ j : Nat, (∀ i ∈ order, i.val ≠ j) →
        jsArrayGet ((order.map (fun i => FaceEvent.loaded i (faces i))).foldl
          (loadCubemapNow.handle name options) st).images j = jsArrayGet st.images j) ∧
      (∀ i ∈ order,
        jsArrayGet ((order.map (fun i => FaceEvent.loaded i (faces i))).foldl
          (loadCubemapNow.handle name options) st).images i.val = some (faces i)) := by
  intro order
  induction order with
  | nil => intro st _; simp
  | cons i rest ih =>
    intro st hlen
    simp only [List.length_cons] at hlen
    have hstep : loadCubemapNow.handle name options st (FaceEvent.loaded i (faces i))
        = { st with images := jsArraySet st.images i.val (faces i),
                    facesLoaded := st.facesLoaded + 1 } := by
      simp only [loadCubemapNow.handle]
      exact loadCubemapNow.onload_early name options i (faces i) st (by omega)
    simp only [List.map_cons, List.foldl_cons, hstep]
    obtain ⟨h1, h2, h3, h4, h5⟩ := ih
      { st with images := jsArraySet st.images i.val (faces i),
                facesLoaded := st.facesLoaded + 1 } (by simp only; omega)
    refine ⟨h1, ?_, h3, ?_, ?_⟩
    · rw [h2]
      simp only [List.length_cons]
      omega
    · intro j hj
      rw [h4 j (fun i1 hi1 => hj i1 (List.mem_cons_of_mem _ hi1))]
      simp only [jsArrayGet_set]
      have hne : j ≠ i.val := fun h => hj i (List.mem_cons_self _ _) h.symm
      simp [hne]
    · intro i1 hi1
      by_cases hrest : i1 ∈ rest
      · exact h5 i1 hrest
      · have hi : i1 = i := by
          rcases List.mem_cons.1 hi1 with h | h
          · exact h
          · exact absurd h hrest
        subst hi
        rw [h4 i1.val (fun i2 hi2 hval => hrest (by
          have : i2 = i1 := Fin.ext hval
          exact this ▸ hi2))]
        simp [jsArrayGet_set]

theorem Settlement.reject_reject (p : Settlement) (reason : Rejection) :
    (p.reject reason).reject reason = p.reject reason := by
  cases p <;> rfl

theorem loadCubemapNow.checkSizes_spec (name : String) (images : List (Option Image))
    (width height : Nat) :
    ∀ (idxs : List Nat) (p : Settlement),
      (∀ i ∈ idxs, ∃ image, jsArrayGet images i = some image) →
      (loadCubemapNow.checkSizes name images width height idxs p).2 = true ∧
      ((∀ i ∈ idxs, ∀ image, jsArrayGet images i = some image →
          image.naturalWidth = width ∧ image.naturalHeight = height) →
        (loadCubemapNow.checkSizes name images width height idxs p).1 = p) ∧
      ((∃ i ∈ idxs, ∃ image, jsArrayGet images i = some image ∧
          ¬ (image.naturalWidth = width ∧ image.naturalHeight = height)) →
        (loadCubemapNow.checkSizes name images width height idxs p).1
          = p.reject (.differentSizes name)) := by
  intro idxs
  induction idxs with
  | nil =>
    intro p _
    exact ⟨rfl, fun _ => rfl, fun ⟨i, hi, _⟩ => absurd hi (List.not_mem_nil i)⟩
  | cons i rest ih =>
    intro p hget
    obtain ⟨image, himage⟩ := hget i (List.mem_cons_self _ _)
    have hrest : ∀ i1 ∈ rest, ∃ image, jsArrayGet images i1 = some image :=
      fun i1 h => hget i1 (List.mem_cons_of_mem _ h)
    by_cases hsize : image.naturalWidth = width ∧ image.naturalHeight = height
    · have hstep : loadCubemapNow.checkSizes name images width height (i :: rest) p
          = loadCubemapNow.checkSizes name images width height rest p := by
        simp [loadCubemapNow.checkSizes, himage, hsize.1, hsize.2]
      rw [hstep]
      obtain ⟨h1, h2, h3⟩ := ih p hrest
      refine ⟨h1, fun hall => h2 (fun i1 h => hall i1 (List.mem_cons_of_mem _ h)), ?_⟩
      rintro ⟨i1, hi1, image1, himage1, hbad⟩
      rcases List.mem_cons.1 hi1 with h | h
      · subst h
        rw [himage] at himage1
        exact absurd hsize ((Option.some.inj himage1) ▸ hbad)
      · exact h3 ⟨i1, h, image1, himage1, hbad⟩
    · have hcond : image.naturalWidth ≠ width ∨ image.naturalHeight ≠ height := by
        by_cases hw : image.naturalWidth = width
        · exact Or.inr (fun hh => hsize ⟨hw, hh⟩)
        · exact Or.inl hw
      have hstep : loadCubemapNow.checkSizes name images width height (i :: rest) p
          = loadCubemapNow.checkSizes name images width height rest
              (p.reject (.differentSizes name)) := by
        simp only [loadCubemapNow.checkSizes, himage]
        rw [if_pos hcond]
      rw [hstep]
      obtain ⟨h1, h2, h3⟩ := ih (p.reject (.differentSizes name)) hrest
      refine ⟨h1, ?_, ?_⟩
      · intro hall
        exact absurd (hall i (List.mem_cons_self _ _) image himage) hsize
      · intro _
        by_cases hall : ∀ i1 ∈ rest, ∀ image, jsArrayGet images i1 = some image →
            image.naturalWidth = width ∧ image.naturalHeight = height
        · exact h2 hall
        · have hex : ∃ i1 ∈ rest, ∃ image, jsArrayGet images i1 = some image ∧
              ¬ (image.naturalWidth = width ∧ image.naturalHeight = height) := by
            by_contra hno
            apply hall
            intro i1 hi1 image1 himage1
            by_contra hbad
            exact hno ⟨i1, hi1, image1, himage1, hbad⟩
          rw [h3 hex, Settlement.reject_reject]

theorem loadCubemapNow.upload_six (options : CubemapOptions) (texture : Texture)
    (images : List (Option Image)) (gl : WebGL2) (faces : Fin 6 → Image)
    (hall : ∀ j : Fin 6, jsArrayGet images j.val = some (faces j)) :
    loadCubemapNow.upload options texture images [0, 1, 2, 3, 4, 5] gl
      = { canvas := gl.canvas,
          calls := gl.calls ++
            [.updateTexture texture (faces 0)
               { target := some (TextureDataTarget.TEXTURE_CUBE_MAP_POSITIVE_X + 0),
                 createMipMaps := some false, flipY := some (options.flipY.getD false) },
             .updateTexture texture (faces 1)
               { target := some (TextureDataTarget.TEXTURE_CUBE_MAP_POSITIVE_X + 1),
                 createMipMaps := some false, flipY := some (options.flipY.getD false) },
             .updateTexture texture (faces 2)
               { target := some (TextureDataTarget.TEXTURE_CUBE_MAP_POSITIVE_X + 2),
                 createMipMaps := some false, flipY := some (options.flipY.getD false) },
             .updateTexture texture (faces 3)
               { target := some (TextureDataTarget.TEXTURE_CUBE_MAP_POSITIVE_X + 3),
                 createMipMaps := some false, flipY := some (options.flipY.getD false) },
             .updateTexture texture (faces 4)
               { target := some (TextureDataTarget.TEXTURE_CUBE_MAP_POSITIVE_X + 4),
                 createMipMaps := some false, flipY := some (options.flipY.getD false) },
             .updateTexture texture (faces 5)
               { target := some (TextureDataTarget.TEXTURE_CUBE_MAP_POSITIVE_X + 5),
                 createMipMaps := some true, flipY := some (options.flipY.getD false) }] } := by
  have h0 : jsArrayGet images 0 = some (faces 0) := hall 0
  have h1 : jsArrayGet images 1 = some (faces 1) := hall 1
  have h2 : jsArrayGet images 2 = some (faces 2) := hall 2
  have h3 : jsArrayGet images 3 = some (faces 3) := hall 3
  have h4 : jsArrayGet images 4 = some (faces 4) := hall 4
  have h5 : jsArrayGet images 5 = some (faces 5) := hall 5
  simp [loadCubemapNow.upload, h0, h1, h2, h3, h4, h5, updateTexture, WebGL2.record]

theorem loadCubemapNow.onload_sixth (name : String) (options : CubemapOptions)
    (index : Fin 6) (image : Image) (st : CubemapNowState) (faces : Fin 6 → Image)
    (hcount : st.facesLoaded = 5)
    (hall : ∀ j : Fin 6,
      jsArrayGet (jsArraySet st.images index.val image) j.val = some (faces j)) :
    loadCubemapNow.onload name options index image st
      = { gl := loadCubemapNow.upload options
            (createTexture st.gl name (faces 0).naturalWidth (faces 0).naturalHeight
              .TEXTURE_CUBE_MAP none none).1
            (jsArraySet st.images index.val image) [0, 1, 2, 3, 4, 5]
            (createTexture st.gl name (faces 0).naturalWidth (faces 0).naturalHeight
              .TEXTURE_CUBE_MAP none none).2,
          facesLoaded := 6,
          images := [],
          promise := (loadCubemapNow.checkSizes name (jsArraySet st.images index.val image)
              (faces 0).naturalWidth (faces 0).naturalHeight [1, 2, 3, 4, 5] st.promise).1.resolve
            (createTexture st.gl name (faces 0).naturalWidth (faces 0).naturalHeight
              .TEXTURE_CUBE_MAP none none).1 } := by
  have h0 : jsArrayGet (jsArraySet st.images index.val image) 0 = some (faces 0) := hall 0
  have hget : ∀ i ∈ [1, 2, 3, 4, 5],
      ∃ img, jsArrayGet (jsArraySet st.images index.val image) i = some img := by
    intro i hi
    simp only [List.mem_cons, List.mem_singleton, List.not_mem_nil, or_false] at hi
    rcases hi with rfl | rfl | rfl | rfl | rfl
    · exact ⟨faces 1, hall 1⟩
    · exact ⟨faces 2, hall 2⟩
    · exact ⟨faces 3, hall 3⟩
    · exact ⟨faces 4, hall 4⟩
    · exact ⟨faces 5, hall 5⟩
  have hsnd := (loadCubemapNow.checkSizes_spec name (jsArraySet st.images index.val image)
    (faces 0).naturalWidth (faces 0).naturalHeight [1, 2, 3, 4, 5] st.promise hget).1
  have hpair : loadCubemapNow.checkSizes name (jsArraySet st.images index.val image)
      (faces 0).naturalWidth (faces 0).naturalHeight [1, 2, 3, 4, 5] st.promise
      = ((loadCubemapNow.checkSizes name (jsArraySet st.images index.val image)
          (faces 0).naturalWidth (faces 0).naturalHeight [1, 2, 3, 4, 5] st.promise).1, true) :=
    Prod.ext rfl hsnd
  simp only [loadCubemapNow.onload, hcount, h0]
  rw [hpair]
  rfl

theorem loadCubemapNow.run_all_loaded (gl : WebGL2) (name : String) (options : CubemapOptions)
    (faces : Fin 6 → Image) (order : Equiv.Perm (Fin 6)) :
    ∃ images : List (Option Image),
      (∀ j : Fin 6, jsArrayGet images j.val = some (faces j)) ∧
      loadCubemapNow.run gl name options (allLoaded faces order)
        = { gl := loadCubemapNow.upload options
              (createTexture gl name (faces 0).naturalWidth (faces 0).naturalHeight
                .TEXTURE_CUBE_MAP none none).1 images [0, 1, 2, 3, 4, 5]
              (createTexture gl name (faces 0).naturalWidth (faces 0).naturalHeight
                .TEXTURE_CUBE_MAP none none).2,
            facesLoaded := 6,
            images := [],
            promise := (loadCubemapNow.checkSizes name images
                (faces 0).naturalWidth (faces 0).naturalHeight [1, 2, 3, 4, 5]
                .pending).1.resolve
              (createTexture gl name (faces 0).naturalWidth (faces 0).naturalHeight
                .TEXTURE_CUBE_MAP none none).1 } := by
  obtain ⟨hgl, hcount, hpromise, _, hloaded⟩ := loadCubemapNow.run_early name options faces
    [order 0, order 1, order 2, order 3, order 4] (loadCubemapNow gl)
    (by simp [loadCubemapNow])
  have hsplit : loadCubemapNow.run gl name options (allLoaded faces order)
      = loadCubemapNow.onload name options (order 5) (faces (order 5))
          (([order 0, order 1, order 2, order 3, order 4].map
              (fun i => FaceEvent.loaded i (faces i))).foldl
            (loadCubemapNow.handle name options) (loadCubemapNow gl)) := by
    simp only [loadCubemapNow.run, allLoaded, finRange_six, List.map, List.foldl,
      loadCubemapNow.handle]
    rfl
  have hall : ∀ j : Fin 6,
      jsArrayGet (jsArraySet (([order 0, order 1, order 2, order 3, order 4].map
              (fun i => FaceEvent.loaded i (faces i))).foldl
            (loadCubemapNow.handle name options) (loadCubemapNow gl)).images
          (order 5).val (faces (order 5))) j.val = some (faces j) := by
    intro j
    rw [jsArrayGet_set]
    by_cases hj : j.val = (order 5).val
    · have hj1 : j = order 5 := Fin.ext hj
      simp [hj1]
    · rw [if_neg hj]
      have hk : order (order.symm j) = j := Equiv.apply_symm_apply order j
      have hmem : j ∈ [order 0, order 1, order 2, order 3, order 4] := by
        generalize order.symm j = k at hk
        have hk5 : k ≠ 5 := by
          intro h
          rw [h] at hk
          exact hj (by rw [hk])
        rw [← hk]
        fin_cases k
        · simp
        · simp
        · simp
        · simp
        · simp
        · exact absurd rfl hk5
      exact hloaded j hmem
  refine ⟨_, hall, ?_⟩
  rw [hsplit, loadCubemapNow.onload_sixth name options (order 5) (faces (order 5)) _ faces
    (by rw [hcount]; rfl) hall, hgl, hpromise]
  rfl

theorem loadCubemapNow.promise_of_mismatch (gl : WebGL2) (name : String)
    (options : CubemapOptions) (faces : Fin 6 → Image) (order : Equiv.Perm (Fin 6))
    (hdiff : ¬ SameSize faces) :
    (loadCubemapNow.run gl name options (allLoaded faces order)).promise
      = .rejected (.differentSizes name) := by
  obtain ⟨images, hall, hrun⟩ := loadCubemapNow.run_all_loaded gl name options faces order
  have hget : ∀ i ∈ [1, 2, 3, 4, 5], ∃ img, jsArrayGet images i = some img := by
    intro i hi
    simp only [List.mem_cons, List.mem_singleton, List.not_mem_nil, or_false] at hi
    rcases hi with rfl | rfl | rfl | rfl | rfl
    · exact ⟨faces 1, hall 1⟩
    · exact ⟨faces 2, hall 2⟩
    · exact ⟨faces 3, hall 3⟩
    · exact ⟨faces 4, hall 4⟩
    · exact ⟨faces 5, hall 5⟩
  have hbad : ∃ i ∈ [1, 2, 3, 4, 5], ∃ img, jsArrayGet images i = some img ∧
      ¬ (img.naturalWidth = (faces 0).naturalWidth ∧
        img.naturalHeight = (faces 0).naturalHeight) := by
    unfold SameSize at hdiff
    rw [not_forall] at hdiff
    obtain ⟨j, hj⟩ := hdiff
    refine ⟨j.val, ?_, faces j, hall j, hj⟩
    fin_cases j
    · exact absurd ⟨rfl, rfl⟩ hj
    · simp
    · simp
    · simp
    · simp
    · simp
  have hcheck := (loadCubemapNow.checkSizes_spec name images (faces 0).naturalWidth
    (faces 0).naturalHeight [1, 2, 3, 4, 5] .pending hget).2.2 hbad
  rw [hrun, hcheck]
  rfl

theorem loadCubemapNow.calls_all_loaded (gl : WebGL2) (name : String)
    (options : CubemapOptions) (faces : Fin 6 → Image) (order : Equiv.Perm (Fin 6)) :
    ∃ images : List (Option Image),
      (∀ j : Fin 6, jsArrayGet images j.val = some (faces j)) ∧
      (loadCubemapNow.run gl name options (allLoaded faces order)).gl
        = loadCubemapNow.upload options
            (createTexture gl name (faces 0).naturalWidth (faces 0).naturalHeight
              .TEXTURE_CUBE_MAP none none).1 images [0, 1, 2, 3, 4, 5]
            (createTexture gl name (faces 0).naturalWidth (faces 0).naturalHeight
              .TEXTURE_CUBE_MAP none none).2 := by
  obtain ⟨images, hall, hrun⟩ := loadCubemapNow.run_all_loaded gl name options faces order
  exact ⟨images, hall, by rw [hrun]⟩

/-! ## Theorems: cubemap loading -/

/-- C20. In `loadCubemap`, whatever the order in which the six faces finish
loading, the calls made are the creation of the one texture and then one upload
per completing face, into the slot `TEXTURE_CUBE_MAP_POSITIVE_X + index` of the
face's own index and into that one texture; the first five uploads ask for no
mipmaps and the sixth, at which the counter has reached 6, asks for them. -/
theorem loadCubemap_uploads (gl : WebGL2) (name : String) (width height : Nat)
    (options : CubemapOptions) (faces : Fin 6 → Image) (order : Equiv.Perm (Fin 6)) :
    (loadCubemap.run gl name width height options (allLoaded faces order)).texture
      = (createTexture gl name width height .TEXTURE_CUBE_MAP none none).1 ∧
    (loadCubemap.run gl name width height options (allLoaded faces order)).completion._counter
      = 6 ∧
    (loadCubemap.run gl name width height options (allLoaded faces order)).gl.calls
      = gl.calls ++
        [.createTexture name width height .TEXTURE_CUBE_MAP none none,
         .updateTexture (createTexture gl name width height .TEXTURE_CUBE_MAP none none).1
            (faces (order 0))
            { target := some (TextureDataTarget.TEXTURE_CUBE_MAP_POSITIVE_X + (order 0).val),
              createMipMaps := some false, flipY := some (options.flipY.getD false) },
         .updateTexture (createTexture gl name width height .TEXTURE_CUBE_MAP none none).1
            (faces (order 1))
            { target := some (TextureDataTarget.TEXTURE_CUBE_MAP_POSITIVE_X + (order 1).val),
              createMipMaps := some false, flipY := some (options.flipY.getD false) },
         .updateTexture (createTexture gl name width height .TEXTURE_CUBE_MAP none none).1
            (faces (order 2))
            { target := some (TextureDataTarget.TEXTURE_CUBE_MAP_POSITIVE_X + (order 2).val),
              createMipMaps := some false, flipY := some (options.flipY.getD false) },
         .updateTexture (createTexture gl name width height .TEXTURE_CUBE_MAP none none).1
            (faces (order 3))
            { target := some (TextureDataTarget.TEXTURE_CUBE_MAP_POSITIVE_X + (order 3).val),
              createMipMaps := some false, flipY := some (options.flipY.getD false) },
         .updateTexture (createTexture gl name width height .TEXTURE_CUBE_MAP none none).1
            (faces (order 4))
            { target := some (TextureDataTarget.TEXTURE_CUBE_MAP_POSITIVE_X + (order 4).val),
              createMipMaps := some false, flipY := some (options.flipY.getD false) },
         .updateTexture (createTexture gl name width height .TEXTURE_CUBE_MAP none none).1
            (faces (order 5))
            { target := some (TextureDataTarget.TEXTURE_CUBE_MAP_POSITIVE_X + (order 5).val),
              createMipMaps := some true, flipY := some (options.flipY.getD false) }] := by
  simp [loadCubemap.run, allLoaded, finRange_six, loadCubemap.handle, loadCubemap.onload,
    loadCubemap, createTexture, updateTexture, WebGL2.record, CubeMapStatus.increment,
    CubeMapStatus.isComplete]

/-- C19. When the six faces share one width and one height, then, whatever the
order in which they finish loading, the promise of `loadCubemapNow` is fulfilled
with the one texture, and the calls made are: `createTexture` once, with that
width and height and the cube map target, then six `updateTexture` calls, the
face of index `i` into the slot `TEXTURE_CUBE_MAP_POSITIVE_X + i` for
`i = 0, ..., 5` in this order, mipmaps being asked for by the last one only. -/
theorem loadCubemapNow_same_size (gl : WebGL2) (name : String) (options : CubemapOptions)
    (faces : Fin 6 → Image) (order : Equiv.Perm (Fin 6)) (hsame : SameSize faces) :
    (loadCubemapNow.run gl name options (allLoaded faces order)).promise
      = .fulfilled (createTexture gl name (faces 0).naturalWidth (faces 0).naturalHeight
          .TEXTURE_CUBE_MAP none none).1 ∧
    (loadCubemapNow.run gl name options (allLoaded faces order)).gl.calls
      = gl.calls ++
        [.createTexture name (faces 0).naturalWidth (faces 0).naturalHeight
            .TEXTURE_CUBE_MAP none none,
         .updateTexture (createTexture gl name (faces 0).naturalWidth (faces 0).naturalHeight
              .TEXTURE_CUBE_MAP none none).1 (faces 0)
            { target := some (TextureDataTarget.TEXTURE_CUBE_MAP_POSITIVE_X + 0),
              createMipMaps := some false, flipY := some (options.flipY.getD false) },
         .updateTexture (createTexture gl name (faces 0).naturalWidth (faces 0).naturalHeight
              .TEXTURE_CUBE_MAP none none).1 (faces 1)
            { target := some (TextureDataTarget.TEXTURE_CUBE_MAP_POSITIVE_X + 1),
              createMipMaps := some false, flipY := some (options.flipY.getD false) },
         .updateTexture (createTexture gl name (faces 0).naturalWidth (faces 0).naturalHeight
              .TEXTURE_CUBE_MAP none none).1 (faces 2)
            { target := some (TextureDataTarget.TEXTURE_CUBE_MAP_POSITIVE_X + 2),
              createMipMaps := some false, flipY := some (options.flipY.getD false) },
         .updateTexture (createTexture gl name (faces 0).naturalWidth (faces 0).naturalHeight
              .TEXTURE_CUBE_MAP none none).1 (faces 3)
            { target := some (TextureDataTarget.TEXTURE_CUBE_MAP_POSITIVE_X + 3),
              createMipMaps := some false, flipY := some (options.flipY.getD false) },
         .updateTexture (createTexture gl name (faces 0).naturalWidth (faces 0).naturalHeight
              .TEXTURE_CUBE_MAP none none).1 (faces 4)
            { target := some (TextureDataTarget.TEXTURE_CUBE_MAP_POSITIVE_X + 4),
              createMipMaps := some false, flipY := some (options.flipY.getD false) },
         .updateTexture (createTexture gl name (faces 0).naturalWidth (faces 0).naturalHeight
              .TEXTURE_CUBE_MAP none none).1 (faces 5)
            { target := some (TextureDataTarget.TEXTURE_CUBE_MAP_POSITIVE_X + 5),
              createMipMaps := some true, flipY := some (options.flipY.getD false) }] := by
  obtain ⟨images, hall, hrun⟩ := loadCubemapNow.run_all_loaded gl name options faces order
  have hget : ∀ i ∈ [1, 2, 3, 4, 5], ∃ img, jsArrayGet images i = some img := by
    intro i hi
    simp only [List.mem_cons, List.mem_singleton, List.not_mem_nil, or_false] at hi
    rcases hi with rfl | rfl | rfl | rfl | rfl
    · exact ⟨faces 1, hall 1⟩
    · exact ⟨faces 2, hall 2⟩
    · exact ⟨faces 3, hall 3⟩
    · exact ⟨faces 4, hall 4⟩
    · exact ⟨faces 5, hall 5⟩
  have hmatch : ∀ i ∈ [1, 2, 3, 4, 5], ∀ img, jsArrayGet images i = some img →
      img.naturalWidth = (faces 0).naturalWidth ∧
      img.naturalHeight = (faces 0).naturalHeight := by
    intro i hi img himg
    simp only [List.mem_cons, List.mem_singleton, List.not_mem_nil, or_false] at hi
    rcases hi with rfl | rfl | rfl | rfl | rfl
    · rw [show jsArrayGet images 1 = some (faces 1) from hall 1] at himg
      exact (Option.some.inj himg) ▸ hsame 1
    · rw [show jsArrayGet images 2 = some (faces 2) from hall 2] at himg
      exact (Option.some.inj himg) ▸ hsame 2
    · rw [show jsArrayGet images 3 = some (faces 3) from hall 3] at himg
      exact (Option.some.inj himg) ▸ hsame 3
    · rw [show jsArrayGet images 4 = some (faces 4) from hall 4] at himg
      exact (Option.some.inj himg) ▸ hsame 4
    · rw [show jsArrayGet images 5 = some (faces 5) from hall 5] at himg
      exact (Option.some.inj himg) ▸ hsame 5
  have hcheck := (loadCubemapNow.checkSizes_spec name images (faces 0).naturalWidth
    (faces 0).naturalHeight [1, 2, 3, 4, 5] .pending hget).2.1 hmatch
  rw [hrun, hcheck, loadCubemapNow.upload_six options _ images _ faces hall]
  simp [Settlement.resolve, createTexture, WebGL2.record]

/-- C19, the instance named in the claim: six faces of 64 x 64, of which the
faces 3 and 0 finish in each other's place. -/
theorem loadCubemapNow_same_size_witness :
    SameSize faces64 ∧
    (loadCubemapNow.run freshContext "sky" noCubemapOptions
        (allLoaded faces64 swappedOrder)).promise
      = .fulfilled { name := "sky", glObject := 0, target := .TEXTURE_CUBE_MAP,
                     width := 64, height := 64, depth := 1 } :=
  ⟨by decide, (loadCubemapNow_same_size freshContext "sky" noCubemapOptions faces64
    swappedOrder (by decide)).1⟩

/-- C17, as the code has it. When the six faces have loaded and do not all share
one width and one height, then, whatever the order in which they finished, the
promise of `loadCubemapNow` is rejected with the message that the faces of the
cubemap of this name have different sizes: the value names the cubemap and no
face, and is the same whichever faces differ. -/
theorem loadCubemapNow_size_mismatch (gl : WebGL2) (name : String) (options : CubemapOptions)
    (faces : Fin 6 → Image) (order : Equiv.Perm (Fin 6)) (hdiff : ¬ SameSize faces) :
    (loadCubemapNow.run gl name options (allLoaded faces order)).promise
      = .rejected (.differentSizes name) :=
  loadCubemapNow.promise_of_mismatch gl name options faces order hdiff

/-- C17, the instance named in the claim: the face of index 3 is 64 x 64 and the
others are 32 x 32. -/
theorem loadCubemapNow_size_mismatch_witness :
    ¬ SameSize facesOddThree ∧
    (loadCubemapNow.run freshContext "sky" noCubemapOptions
        (allLoaded facesOddThree swappedOrder)).promise
      = .rejected (.differentSizes "sky") :=
  ⟨by decide, loadCubemapNow_size_mismatch freshContext "sky" noCubemapOptions
    facesOddThree swappedOrder (by decide)⟩

/-- C17, refuted as stated. With the face of index 3 as the odd one and with the
face of index 1 as the odd one the promise is rejected with one and the same
value, the message that carries the name of the cubemap: the error does not name
the face of index 3, nor any face. -/
theorem loadCubemapNow_error_names_no_face :
    (loadCubemapNow.run freshContext "sky" noCubemapOptions
        (allLoaded facesOddThree (Equiv.refl (Fin 6)))).promise
      = .rejected (.differentSizes "sky") ∧
    (loadCubemapNow.run freshContext "sky" noCubemapOptions
        (allLoaded facesOddOne (Equiv.refl (Fin 6)))).promise
      = .rejected (.differentSizes "sky") ∧
    (loadCubemapNow.run freshContext "sky" noCubemapOptions
        (allLoaded facesOddThree (Equiv.refl (Fin 6)))).promise
      = (loadCubemapNow.run freshContext "sky" noCubemapOptions
        (allLoaded facesOddOne (Equiv.refl (Fin 6)))).promise := by
  have h3 := loadCubemapNow.promise_of_mismatch freshContext "sky" noCubemapOptions
    facesOddThree (Equiv.refl (Fin 6)) (by decide)
  have h1 := loadCubemapNow.promise_of_mismatch freshContext "sky" noCubemapOptions
    facesOddOne (Equiv.refl (Fin 6)) (by decide)
  exact ⟨h3, h1, h3.trans h1.symm⟩

/-- C18, the code at the failing input. The face of index 3 is 64 x 64 and the
others are 32 x 32: the handler of the sixth load calls `reject` and goes on, so
the texture is created, with the size of the face of index 0, and all six faces
are uploaded. -/
theorem loadCubemapNow_mismatch_still_allocates :
    ¬ SameSize facesOddThree ∧
    (loadCubemapNow.run freshContext "sky" noCubemapOptions
        (allLoaded facesOddThree (Equiv.refl (Fin 6)))).promise
      = .rejected (.differentSizes "sky") ∧
    (loadCubemapNow.run freshContext "sky" noCubemapOptions
        (allLoaded facesOddThree (Equiv.refl (Fin 6)))).gl.calls
      = [.createTexture "sky" 32 32 .TEXTURE_CUBE_MAP none none,
         .updateTexture { name := "sky", glObject := 0, target := .TEXTURE_CUBE_MAP,
                          width := 32, height := 32, depth := 1 }
            { src := "px.png", naturalWidth := 32, naturalHeight := 32 }
            { target := some 34069, createMipMaps := some false, flipY := some false },
         .updateTexture { name := "sky", glObject := 0, target := .TEXTURE_CUBE_MAP,
                          width := 32, height := 32, depth := 1 }
            { src := "nx.png", naturalWidth := 32, naturalHeight := 32 }
            { target := some 34070, createMipMaps := some false, flipY := some false },
         .updateTexture { name := "sky", glObject := 0, target := .TEXTURE_CUBE_MAP,
                          width := 32, height := 32, depth := 1 }
            { src := "py.png", naturalWidth := 32, naturalHeight := 32 }
            { target := some 34071, createMipMaps := some false, flipY := some false },
         .updateTexture { name := "sky", glObject := 0, target := .TEXTURE_CUBE_MAP,
                          width := 32, height := 32, depth := 1 }
            { src := "ny.png", naturalWidth := 64, naturalHeight := 64 }
            { target := some 34072, createMipMaps := some false, flipY := some false },
         .updateTexture { name := "sky", glObject := 0, target := .TEXTURE_CUBE_MAP,
                          width := 32, height := 32, depth := 1 }
            { src := "pz.png", naturalWidth := 32, naturalHeight := 32 }
            { target := some 34073, createMipMaps := some false, flipY := some false },
         .updateTexture { name := "sky", glObject := 0, target := .TEXTURE_CUBE_MAP,
                          width := 32, height := 32, depth := 1 }
            { src := "nz.png", naturalWidth := 32, naturalHeight := 32 }
            { target := some 34074, createMipMaps := some true, flipY := some false }] := by
  refine ⟨by decide, ?_, ?_⟩
  · exact loadCubemapNow.promise_of_mismatch freshContext "sky" noCubemapOptions
      facesOddThree (Equiv.refl (Fin 6)) (by decide)
  · obtain ⟨images, hall, hgl⟩ := loadCubemapNow.calls_all_loaded freshContext "sky"
      noCubemapOptions facesOddThree (Equiv.refl (Fin 6))
    rw [hgl, loadCubemapNow.upload_six noCubemapOptions _ images _ facesOddThree hall]
    rfl

/-! ## Theorems: mappings of `buildAttributeMap` -/

theorem identityMapping_mem :
    ∀ (names : List String) (k v : String),
      (k, v) ∈ identityMapping names ↔ (k ∈ names ∧ v = k) := by
  intro names
  induction names with
  | nil => intro k v; simp [identityMapping]
  | cons name rest ih =>
    intro k v
    simp only [identityMapping, List.mem_cons, List.mem_filter, Prod.mk.injEq, ih,
      decide_eq_true_eq]
    constructor
    · rintro (⟨rfl, rfl⟩ | ⟨⟨hk, rfl⟩, _⟩)
      · exact ⟨Or.inl rfl, rfl⟩
      · exact ⟨Or.inr hk, rfl⟩
    · rintro ⟨hk | hk, rfl⟩
      · exact Or.inl ⟨hk, hk⟩
      · by_cases hkn : v = name
        · exact Or.inl ⟨hkn, hkn⟩
        · exact Or.inr ⟨⟨hk, rfl⟩, hkn⟩

theorem identityMapping_keys_mem (names : List String) (k : String) :
    k ∈ JsMap.keys (identityMapping names) ↔ k ∈ names := by
  simp only [JsMap.keys, List.mem_map, Prod.exists, exists_and_right, exists_eq_right]
  constructor
  · rintro ⟨v, hv⟩
    exact ((identityMapping_mem names k v).1 hv).1
  · intro hk
    exact ⟨k, (identityMapping_mem names k k).2 ⟨hk, rfl⟩⟩

theorem JsMap.keys_filter_nodup {κ α : Type} (m : JsMap κ α) (p : κ × α → Bool)
    (h : m.WF) : JsMap.WF (m.filter p) := by
  unfold JsMap.WF JsMap.keys at *
  exact List.Nodup.sublist (List.Sublist.map _ (List.filter_sublist m)) h

theorem identityMapping_wf : ∀ names : List String, (identityMapping names).WF := by
  intro names
  induction names with
  | nil => simp [identityMapping, JsMap.WF, JsMap.keys]
  | cons name rest ih =>
    have h1 := JsMap.keys_filter_nodup (identityMapping rest)
      (fun entry => decide (entry.1 ≠ name)) ih
    unfold JsMap.WF JsMap.keys at *
    simp only [identityMapping, List.map_cons, List.nodup_cons]
    refine ⟨?_, h1⟩
    simp only [List.mem_map, List.mem_filter, decide_eq_true_eq, Prod.exists,
      exists_and_right, exists_eq_right, not_exists, not_and, not_not]
    intro _
    trivial

theorem JsMap.set_same_of_diagonal :
    ∀ (m : JsObject) (key : String), (∀ p ∈ m, p.2 = p.1) → m.has key = true →
      m.set key key = m := by
  intro m
  induction m with
  | nil => intro key _ h; simp [JsMap.has] at h
  | cons p rest ih =>
    intro key hd h
    obtain ⟨k, v⟩ := p
    have hkv : v = k := hd (k, v) (by simp)
    by_cases hk : k = key
    · subst hk
      simp [JsMap.set, hkv]
    · simp only [JsMap.has, hk, if_false] at h
      have hrest : ∀ p ∈ rest, p.2 = p.1 := fun p hp => hd p (List.mem_cons_of_mem _ hp)
      simp only [JsMap.set, hk, if_false]
      rw [ih key hrest h]

theorem buildAttributeMap.ofNames_of_names :
    ∀ (names : List String) (acc : JsObject), (∀ p ∈ acc, p.2 = p.1) →
      (∀ n ∈ names, n ≠ "__proto__") →
      buildAttributeMap.ofNames acc names
        = acc ++ (identityMapping names).filter (fun entry => !acc.has entry.1) := by
  intro names
  induction names with
  | nil => intro acc _ _; simp [buildAttributeMap.ofNames, identityMapping]
  | cons name rest ih =>
    intro acc hd hnames
    have hname : name ≠ "__proto__" := hnames name (by simp)
    have hrest : ∀ n ∈ rest, n ≠ "__proto__" :=
      fun n hn => hnames n (List.mem_cons_of_mem _ hn)
    have hassign : acc.assign name name = JsMap.set acc name name := by
      simp [JsObject.assign, hname]
    simp only [buildAttributeMap.ofNames, identityMapping, hassign]
    cases hh : acc.has name with
    | true =>
      rw [JsMap.set_same_of_diagonal acc name hd hh, ih acc hd hrest]
      simp only [List.filter_cons, hh, Bool.not_true, Bool.false_eq_true, if_false,
        List.filter_filter]
      congr 1
      apply List.filter_congr
      intro entry _
      by_cases he : entry.1 = name
      · simp [he, hh]
      · simp [he]
    | false =>
      rw [JsMap.set_of_not_has acc name name hh]
      have hd1 : ∀ p ∈ acc ++ [(name, name)], p.2 = p.1 := by
        intro p hp
        rcases List.mem_append.1 hp with h1 | h1
        · exact hd p h1
        · simp only [List.mem_singleton] at h1
          rw [h1]
      rw [ih _ hd1 hrest]
      simp only [List.filter_cons, hh, Bool.not_false, if_true, List.filter_filter,
        List.append_assoc, List.singleton_append]
      congr 2
      apply List.filter_congr
      intro entry _
      have hhas : JsMap.has (acc ++ [(name, name)]) entry.1
          = (acc.has entry.1 || decide (entry.1 = name)) := by
        rw [Bool.eq_iff_iff]
        simp only [Bool.or_eq_true, decide_eq_true_eq]
        rw [JsMap.has_iff_mem_keys, JsMap.has_iff_mem_keys acc entry.1, JsMap.keys_append]
        simp [JsMap.keys]
      rw [hhas]
      by_cases he : entry.1 = name <;> cases acc.has entry.1 <;> simp [he]

theorem buildAttributeMap.ofNames_skips_proto :
    ∀ (names : List String) (acc : JsObject),
      buildAttributeMap.ofNames acc names
        = buildAttributeMap.ofNames acc (names.filter (fun n => decide (n ≠ "__proto__"))) := by
  intro names
  induction names with
  | nil => intro acc; rfl
  | cons name rest ih =>
    intro acc
    by_cases hname : name = "__proto__"
    · simp only [buildAttributeMap.ofNames, List.filter_cons, hname, ne_eq, not_true_eq_false,
        decide_False, Bool.false_eq_true, if_false, JsObject.assign, if_true]
      exact ih acc
    · simp only [buildAttributeMap.ofNames, List.filter_cons, hname, ne_eq, not_false_eq_true,
        decide_True, if_true]
      exact ih _

theorem buildAttributeMap.ofNames_eq_identity (names : List String) :
    buildAttributeMap.ofNames [] names
      = identityMapping (names.filter (fun n => decide (n ≠ "__proto__"))) := by
  rw [buildAttributeMap.ofNames_skips_proto]
  have h := buildAttributeMap.ofNames_of_names
    (names.filter (fun n => decide (n ≠ "__proto__"))) [] (by simp)
    (by intro n hn; simpa using (List.mem_filter.1 hn).2)
  simpa [JsMap.has] using h

theorem List.filter_eq_self_of_not_mem_proto (names : List String)
    (h : "__proto__" ∉ names) :
    names.filter (fun n => decide (n ≠ "__proto__")) = names := by
  rw [List.filter_eq_self]
  intro n hn
  have : n ≠ "__proto__" := fun he => h (he ▸ hn)
  simpa using this

/-- C24. When the buffer argument of `buildAttributeMap` is an array and the
mapping is not `null`, the call raises "Cannot specify mapping for multiple
buffers" and returns no map: whatever the program, the buffers and the mapping,
be it an object or an array of names; so also for no buffer or one buffer, and
for the empty object and the empty array of names. -/
theorem buildAttributeMap_array_with_mapping_raises (shader : ShaderProgram)
    (abos : List AttributeBuffer) (mapping : AttributeMapping) (abo : AttributeBuffer) :
    buildAttributeMap shader (.array abos) (some mapping)
      = .error .mappingForMultipleBuffers ∧
    buildAttributeMap shader (.array []) (some (.array []))
      = .error .mappingForMultipleBuffers ∧
    buildAttributeMap shader (.array [abo]) (some (.object []))
      = .error .mappingForMultipleBuffers := by
  refine ⟨?_, ?_, ?_⟩ <;> simp [buildAttributeMap]

/-- C23, as the code has it. For every program, every single buffer and every
array of names, the call `buildAttributeMap(shader, buffer, names)` has the
result, or raises the exception, of the call with the explicit mapping that
sends every name of the array other than `__proto__` to itself; the name
`__proto__` is dropped, since its assignment to the object that the array is
reduced to creates no property.  So for an array without the name `__proto__`
the call agrees with the call for the mapping that sends every name of the array
to itself.  That mapping is the object with one own property `n: n` per name, no
key twice, whose entries are listed as `Object.entries` lists them. -/
theorem buildAttributeMap_names_eq_identity_mapping (shader : ShaderProgram)
    (abo : AttributeBuffer) (names : List String) :
    buildAttributeMap shader (.single abo) (some (.array names))
      = buildAttributeMap shader (.single abo)
          (some (.object
            (identityMapping (names.filter (fun n => decide (n ≠ "__proto__")))).entries)) ∧
    ("__proto__" ∉ names →
      buildAttributeMap shader (.single abo) (some (.array names))
        = buildAttributeMap shader (.single abo)
            (some (.object (identityMapping names).entries))) ∧
    (identityMapping names).WF ∧
    (∀ k v : String, (k, v) ∈ identityMapping names ↔ (k ∈ names ∧ v = k)) ∧
    (∀ p : String × String, p ∈ (identityMapping names).entries ↔ p ∈ identityMapping names) := by
  have hmain : buildAttributeMap shader (.single abo) (some (.array names))
      = buildAttributeMap shader (.single abo)
          (some (.object
            (identityMapping (names.filter (fun n => decide (n ≠ "__proto__")))).entries)) := by
    simp only [buildAttributeMap, buildAttributeMap.one,
      buildAttributeMap.ofNames_eq_identity names]
  refine ⟨hmain, ?_, identityMapping_wf names, identityMapping_mem names,
    JsObject.mem_entries _⟩
  intro hproto
  rw [hmain, List.filter_eq_self_of_not_mem_proto names hproto]

/-- C23, an instance: the array that names `pos` twice, against the program that
expects `pos` and a buffer that declares it. -/
theorem buildAttributeMap_names_eq_identity_mapping_witness :
    "__proto__" ∉ ["pos", "pos"] ∧
    buildAttributeMap posProgram (.single posBufferA) (some (.array ["pos", "pos"]))
      = buildAttributeMap posProgram (.single posBufferA)
          (some (.object (identityMapping ["pos", "pos"]).entries)) ∧
    buildAttributeMap posProgram (.single posBufferA) (some (.array ["pos", "pos"]))
      = .ok [(0, { buffer := posBufferA, name := "pos" })] :=
  ⟨by decide,
    (buildAttributeMap_names_eq_identity_mapping posProgram posBufferA ["pos", "pos"]).2.1
      (by decide),
    rfl⟩

/-- C23, refuted as stated. For the array that holds the one name `__proto__`
the call returns the empty map, while the mapping that sends `__proto__` to
itself, an object with that own property, makes the call raise that the program
has no attribute `__proto__`; and against a program and a buffer that both
declare `__proto__` the first call returns the empty map and the second the
binding of `__proto__`. -/
theorem buildAttributeMap_names_proto_dropped :
    buildAttributeMap posProgram (.single posBufferA) (some (.array ["__proto__"]))
      = .ok [] ∧
    (identityMapping ["__proto__"]).entries = [("__proto__", "__proto__")] ∧
    buildAttributeMap posProgram (.single posBufferA)
        (some (.object (identityMapping ["__proto__"]).entries))
      = .error (.notFoundInShader "__proto__" "posOnly") ∧
    buildAttributeMap protoProgram (.single protoBuffer) (some (.array ["__proto__"]))
      = .ok [] ∧
    buildAttributeMap protoProgram (.single protoBuffer)
        (some (.object (identityMapping ["__proto__"]).entries))
      = .ok [(0, { buffer := protoBuffer, name := "__proto__" })] :=
  ⟨rfl, rfl, rfl, rfl, rfl⟩

/-! ## Theorems: the completion sentinel -/

theorem CubeMapStatus.afterIncrements_counter :
    ∀ n : Nat, (CubeMapStatus.afterIncrements n)._counter = n := by
  intro n
  induction n with
  | zero => rfl
  | succ k ih => simp [CubeMapStatus.afterIncrements, CubeMapStatus.increment, ih]

/-- C21, as the code has it. After `n` calls of `increment` on a new
`CubeMapStatus` the counter is `n`, with no upper bound, and `isComplete()` is
true exactly when the counter is at least 6.  For up to six calls, one per face
of a cubemap, the counter stays within 0..6 and `isComplete()` is true exactly
when the counter is 6. -/
theorem cubeMapStatus_counts_increments (n : Nat) :
    (CubeMapStatus.afterIncrements n)._counter = n ∧
    ((CubeMapStatus.afterIncrements n).isComplete = true ↔
      6 ≤ (CubeMapStatus.afterIncrements n)._counter) ∧
    (n ≤ 6 → (CubeMapStatus.afterIncrements n)._counter ≤ 6 ∧
      ((CubeMapStatus.afterIncrements n).isComplete = true ↔
        (CubeMapStatus.afterIncrements n)._counter = 6)) := by
  have hc := CubeMapStatus.afterIncrements_counter n
  refine ⟨hc, ?_, ?_⟩
  · simp [CubeMapStatus.isComplete]
  · intro hn
    rw [hc]
    refine ⟨hn, ?_⟩
    simp only [CubeMapStatus.isComplete, hc, ge_iff_le, decide_eq_true_eq]
    omega

/-- C21, an instance: five and six calls of `increment`. -/
theorem cubeMapStatus_counts_increments_witness :
    5 ≤ 6 ∧ (CubeMapStatus.afterIncrements 5)._counter ≤ 6 ∧
    ((CubeMapStatus.afterIncrements 5).isComplete = true ↔
      (CubeMapStatus.afterIncrements 5)._counter = 6) ∧
    (CubeMapStatus.afterIncrements 6).isComplete = true :=
  ⟨by decide, ((cubeMapStatus_counts_increments 5).2.2 (by decide)).1,
    ((cubeMapStatus_counts_increments 5).2.2 (by decide)).2, by decide⟩

/-- C21, refuted as stated. After seven calls of `increment` the counter is 7,
outside the range 0..6, and `isComplete()` is true although the counter is not
6. -/
theorem cubeMapStatus_seventh_increment :
    (CubeMapStatus.afterIncrements 7)._counter = 7 ∧
    ¬ (CubeMapStatus.afterIncrements 7)._counter ≤ 6 ∧
    (CubeMapStatus.afterIncrements 7).isComplete = true ∧
    (CubeMapStatus.afterIncrements 7)._counter ≠ 6 := by
  decide

/-! ## Lemmas: attachments and the shape of the stack -/

theorem getFramebufferSize_error_iff (framebuffer : Framebuffer) :
    (∃ e, getFramebufferSize framebuffer = .error e) ↔ framebuffer.hasAttachment = false := by
  unfold getFramebufferSize Framebuffer.hasAttachment
  by_cases hc : framebuffer.color.length > 0
  · simp [hc]
  · cases hd : framebuffer.depth with
    | some a => simp [hc, hd]
    | none =>
      cases hs : framebuffer.stencil with
      | some a => simp [hc, hd, hs]
      | none => simp [hc, hd, hs]

theorem FramebufferStack.bind_error_iff (gl : WebGL2) (readBuffer : Option Framebuffer)
    (drawBuffer : DrawBuffer) :
    (∃ e, FramebufferStack._bindFramebuffer gl readBuffer drawBuffer = .error e) ↔
      ∃ target, FramebufferStack.viewportTarget readBuffer drawBuffer = some target ∧
        target.hasAttachment = false := by
  cases drawBuffer with
  | undefined =>
    cases readBuffer with
    | none => simp [FramebufferStack._bindFramebuffer, FramebufferStack.viewportTarget]
    | some fb =>
      simp only [FramebufferStack.viewportTarget, Option.some.injEq, exists_eq_left']
      rw [← getFramebufferSize_error_iff]
      cases hs : getFramebufferSize fb with
      | error e => simp [FramebufferStack._bindFramebuffer, hs]
      | ok size => simp [FramebufferStack._bindFramebuffer, hs]
  | null => simp [FramebufferStack._bindFramebuffer, FramebufferStack.viewportTarget]
  | framebuffer target =>
    simp only [FramebufferStack.viewportTarget, Option.some.injEq, exists_eq_left']
    rw [← getFramebufferSize_error_iff]
    cases hs : getFramebufferSize target with
    | error e => simp [FramebufferStack._bindFramebuffer, hs]
    | ok size => simp [FramebufferStack._bindFramebuffer, hs]

theorem FramebufferStack.bind_ok_or_error (gl : WebGL2) (readBuffer : Option Framebuffer)
    (drawBuffer : DrawBuffer) :
    (∃ g, FramebufferStack._bindFramebuffer gl readBuffer drawBuffer = .ok g) ∨
    (∃ e, FramebufferStack._bindFramebuffer gl readBuffer drawBuffer = .error e) := by
  cases h : FramebufferStack._bindFramebuffer gl readBuffer drawBuffer with
  | ok g => exact Or.inl ⟨g, rfl⟩
  | error e => exact Or.inr ⟨e, rfl⟩

theorem FramebufferStack.top_ne_iff (s : FramebufferStack) (framebuffer : Framebuffer)
    (drawBuffer : DrawBuffer) :
    s.top ≠ (some framebuffer, drawBuffer) ↔
      ¬ (s.top.1 = some framebuffer ∧ s.top.2 = drawBuffer) := by
  rw [Ne, Prod.ext_iff]

theorem FramebufferStack.push_error_iff_bind_error (s : FramebufferStack) (gl : WebGL2)
    (framebuffer : Framebuffer) (drawBuffer : DrawBuffer) :
    (∃ e, (s.push gl framebuffer drawBuffer).result = .error e) ↔
      (s.top ≠ (some framebuffer, FramebufferStack.normalize framebuffer drawBuffer) ∧
        ∃ e, FramebufferStack._bindFramebuffer gl (some framebuffer)
          (FramebufferStack.normalize framebuffer drawBuffer) = .error e) := by
  rw [FramebufferStack.top_ne_iff]
  unfold FramebufferStack.normalize
  by_cases htop : s.top.1 = some framebuffer ∧
      s.top.2 = (if drawBuffer = .framebuffer framebuffer then .undefined else drawBuffer)
  · simp [FramebufferStack.push, htop]
  · cases hb : FramebufferStack._bindFramebuffer gl (some framebuffer)
        (if drawBuffer = .framebuffer framebuffer then .undefined else drawBuffer) with
    | ok g => simp [FramebufferStack.push, htop, hb]
    | error e =>
      rw [FramebufferStack.push_of_failed_bind s gl framebuffer drawBuffer e htop hb]
      cases FramebufferStack._bindFramebuffer gl s.top.1 s.top.2 with
      | ok g => simp [htop]
      | error e1 => simp [htop]

theorem FramebufferStack.push_appends_new (s : FramebufferStack) (gl : WebGL2)
    (framebuffer : Framebuffer) (drawBuffer : DrawBuffer) :
    (s.push gl framebuffer drawBuffer).stack = s ∨
    ((s.push gl framebuffer drawBuffer).stack._stack
        = s._stack ++ [(framebuffer, FramebufferStack.normalize framebuffer drawBuffer)] ∧
      s.top ≠ (some framebuffer, FramebufferStack.normalize framebuffer drawBuffer)) := by
  rw [FramebufferStack.top_ne_iff]
  unfold FramebufferStack.normalize
  by_cases htop : s.top.1 = some framebuffer ∧
      s.top.2 = (if drawBuffer = .framebuffer framebuffer then .undefined else drawBuffer)
  · left
    simp [FramebufferStack.push, htop]
  · cases hb : FramebufferStack._bindFramebuffer gl (some framebuffer)
        (if drawBuffer = .framebuffer framebuffer then .undefined else drawBuffer) with
    | ok g =>
      right
      simp [FramebufferStack.push, htop, hb]
    | error e =>
      left
      rw [FramebufferStack.push_of_failed_bind s gl framebuffer drawBuffer e htop hb]
      cases FramebufferStack._bindFramebuffer gl s.top.1 s.top.2 <;> rfl

theorem List.dropLast_initial {α : Type} (l : List α) : ∃ rest, l = l.dropLast ++ rest := by
  rcases List.eq_nil_or_concat l with h | ⟨front, last, h⟩
  · exact ⟨[], by simp [h]⟩
  · exact ⟨[last], by rw [h]; simp [List.concat_eq_append]⟩

theorem FramebufferStack.popLoop_stack_initial :
    ∀ (rounds : Nat) (s : FramebufferStack) (gl : WebGL2),
      ∃ rest, s._stack = (FramebufferStack.popLoop rounds s gl).stack._stack ++ rest := by
  intro rounds
  induction rounds with
  | zero => intro s gl; exact ⟨[], by simp [FramebufferStack.popLoop]⟩
  | succ n ih =>
    intro s gl
    obtain ⟨rest0, h0⟩ := List.dropLast_initial s._stack
    simp only [FramebufferStack.popLoop]
    cases hb : FramebufferStack._bindFramebuffer gl
        (FramebufferStack.top { _stack := s._stack.dropLast }).1
        (FramebufferStack.top { _stack := s._stack.dropLast }).2 with
    | error e => exact ⟨rest0, h0⟩
    | ok g =>
      obtain ⟨rest1, h1⟩ := ih { _stack := s._stack.dropLast } g
      refine ⟨rest1 ++ rest0, ?_⟩
      simp only [] at h1
      rw [← List.append_assoc, ← h1]
      exact h0

theorem FramebufferStack.normalize_ne (framebuffer : Framebuffer) (drawBuffer : DrawBuffer) :
    FramebufferStack.normalize framebuffer drawBuffer ≠ .framebuffer framebuffer := by
  unfold FramebufferStack.normalize
  by_cases h : drawBuffer = .framebuffer framebuffer
  · simp [h]
  · simp [h]

theorem FramebufferStack.reachable_structure (s : FramebufferStack)
    (h : FramebufferStack.Reachable s) :
    List.Chain' (fun a b => a ≠ b) s._stack ∧
    ∀ frame ∈ s._stack, frame.2 ≠ .framebuffer frame.1 := by
  induction h with
  | fresh => exact ⟨List.chain'_nil, by simp⟩
  | push s gl framebuffer drawBuffer _ ih =>
    rcases FramebufferStack.push_appends_new s gl framebuffer drawBuffer with h1 | ⟨h1, h2⟩
    · rw [h1]; exact ih
    · rw [h1]
      refine ⟨?_, ?_⟩
      · rw [List.chain'_append]
        refine ⟨ih.1, List.chain'_singleton _, ?_⟩
        intro x hx y hy
        simp only [List.head?_cons, Option.mem_def, Option.some.injEq] at hy
        subst hy
        intro hxy
        apply h2
        have hx1 : s._stack.getLast? = some x := hx
        simp [FramebufferStack.top, hx1, hxy]
      · intro frame hf
        rcases List.mem_append.1 hf with h3 | h3
        · exact ih.2 frame h3
        · simp only [List.mem_singleton] at h3
          subst h3
          exact FramebufferStack.normalize_ne framebuffer drawBuffer
  | pop s gl count _ ih =>
    obtain ⟨rest, hp⟩ : ∃ rest, s._stack = (s.pop gl count).stack._stack ++ rest :=
      FramebufferStack.popLoop_stack_initial _ s gl
    rw [hp] at ih
    exact ⟨(List.chain'_append.1 ih.1).1,
      fun frame hf => ih.2 frame (List.mem_append_left _ hf)⟩

theorem Except.eq_ok_of_no_error (r : Except GlanceError Unit)
    (h : ¬ ∃ e, r = .error e) : r = .ok () := by
  cases r with
  | ok u => rfl
  | error e => exact absurd ⟨e, rfl⟩ h

theorem FramebufferStack.push_raises_outcome (s : FramebufferStack) (gl : WebGL2)
    (framebuffer : Framebuffer) (drawBuffer : DrawBuffer) (e : GlanceError)
    (h : (s.push gl framebuffer drawBuffer).result = .error e) :
    ∃ e0, FramebufferStack._bindFramebuffer gl (some framebuffer)
        (FramebufferStack.normalize framebuffer drawBuffer) = .error e0 ∧
      s.push gl framebuffer drawBuffer =
        match FramebufferStack._bindFramebuffer gl s.top.1 s.top.2 with
        | .error e1 => { result := .error e1, stack := s, gl := gl }
        | .ok gl1 => { result := .error e0, stack := s, gl := gl1 } := by
  obtain ⟨htop, e0, hb⟩ :=
    (FramebufferStack.push_error_iff_bind_error s gl framebuffer drawBuffer).1 ⟨e, h⟩
  rw [FramebufferStack.top_ne_iff] at htop
  refine ⟨e0, hb, ?_⟩
  have hp := FramebufferStack.push_of_failed_bind s gl framebuffer drawBuffer e0 htop hb
  rw [hp]

/-! ## Theorems: failure of push and the shape of the stack -/

/-- C27. For every stack, `push(gl, frame, drawFrame)` raises exactly when the
pair, after the draw target that is the read target has become `undefined`,
differs from the top of the stack and the target that sets the viewport has no
color, depth or stencil attachment.  That target is `frame` when the draw target
is `undefined` and the draw target otherwise, the canvas for `null`: a push with
`null` never raises, and a push with a draw target that has an attachment never
raises, whatever the attachments of the read target.  When the push raises, the
bind that failed has made no device call: the context is the one that the
rollback leaves, the rebinding of the former top applied to the context as it
was before the push. -/
theorem push_raises_iff (s : FramebufferStack) (gl : WebGL2) (framebuffer : Framebuffer)
    (drawBuffer : DrawBuffer) :
    ((∃ e, (s.push gl framebuffer drawBuffer).result = .error e) ↔
      (s.top ≠ (some framebuffer, FramebufferStack.normalize framebuffer drawBuffer) ∧
        ∃ target, FramebufferStack.viewportTarget (some framebuffer)
            (FramebufferStack.normalize framebuffer drawBuffer) = some target ∧
          target.hasAttachment = false)) ∧
    FramebufferStack.viewportTarget (some framebuffer) .undefined = some framebuffer ∧
    FramebufferStack.viewportTarget (some framebuffer) .null = none ∧
    (∀ target, FramebufferStack.viewportTarget (some framebuffer) (.framebuffer target)
      = some target) ∧
    (s.push gl framebuffer .null).result = .ok () ∧
    (∀ target, target ≠ framebuffer → target.hasAttachment = true →
      (s.push gl framebuffer (.framebuffer target)).result = .ok ()) ∧
    (∀ e, (s.push gl framebuffer drawBuffer).result = .error e →
      (s.push gl framebuffer drawBuffer).gl =
        match FramebufferStack._bindFramebuffer gl s.top.1 s.top.2 with
        | .error _ => gl
        | .ok gl1 => gl1) := by
  have hiff : ∀ d : DrawBuffer, (∃ e, (s.push gl framebuffer d).result = .error e) ↔
      (s.top ≠ (some framebuffer, FramebufferStack.normalize framebuffer d) ∧
        ∃ target, FramebufferStack.viewportTarget (some framebuffer)
            (FramebufferStack.normalize framebuffer d) = some target ∧
          target.hasAttachment = false) := by
    intro d
    rw [FramebufferStack.push_error_iff_bind_error, FramebufferStack.bind_error_iff]
  refine ⟨hiff drawBuffer, rfl, rfl, fun _ => rfl, ?_, ?_, ?_⟩
  · apply Except.eq_ok_of_no_error
    rw [hiff]
    rintro ⟨_, target, h1, _⟩
    simp [FramebufferStack.normalize, FramebufferStack.viewportTarget] at h1
  · intro target hne hatt
    apply Except.eq_ok_of_no_error
    rw [hiff]
    rintro ⟨_, target1, h1, h2⟩
    have hd : (DrawBuffer.framebuffer target) ≠ .framebuffer framebuffer := by
      intro h
      injection h with h
      exact hne h
    simp only [FramebufferStack.normalize, hd, if_false, FramebufferStack.viewportTarget,
      Option.some.injEq] at h1
    subst h1
    rw [hatt] at h2
    exact absurd h2 (by decide)
  · intro e he
    obtain ⟨e0, _, hp⟩ := FramebufferStack.push_raises_outcome s gl framebuffer drawBuffer e he
    rw [hp]
    cases FramebufferStack._bindFramebuffer gl s.top.1 s.top.2 <;> rfl

/-- C27, an instance: on the empty stack the push of a framebuffer without
attachments raises and leaves the calls that rebind the canvas; the push of the
same framebuffer as read target with a draw target that has a color attachment
returns. -/
theorem push_raises_iff_witness :
    (∃ e, (emptyStack.push freshContext bareFramebuffer .undefined).result = .error e) ∧
    (emptyStack.push freshContext bareFramebuffer .undefined).gl.calls
      = [.bindFramebuffer .FRAMEBUFFER none, .viewport 0 0 640 480] ∧
    colorFramebuffer ≠ bareFramebuffer ∧ colorFramebuffer.hasAttachment = true ∧
    (emptyStack.push freshContext bareFramebuffer (.framebuffer colorFramebuffer)).result
      = .ok () := by
  have h := push_raises_iff emptyStack freshContext bareFramebuffer .undefined
  have hraise : ∃ e, (emptyStack.push freshContext bareFramebuffer .undefined).result
      = .error e :=
    h.1.2 ⟨by decide, bareFramebuffer, rfl, by decide⟩
  refine ⟨hraise, ?_, by decide, by decide, ?_⟩
  · obtain ⟨e, he⟩ := hraise
    rw [h.2.2.2.2.2.2 e he]
    rfl
  · exact (push_raises_iff emptyStack freshContext bareFramebuffer .undefined).2.2.2.2.2.1
      colorFramebuffer (by decide) (by decide)

/-- C28. On every stack that push and pop calls have built from the empty stack
(framebuffers being immutable values), the target that sets the viewport of each
frame has a color, a depth or a stencil attachment.  So `pop` returns for every
count, and when a push raises, its rollback has not: the exception is the one of
the bind of the new frame, the stack is as before and the former top is bound
again. -/
theorem reachable_frames_have_attachment (s : FramebufferStack)
    (hreach : FramebufferStack.Reachable s) :
    (∀ frame ∈ s._stack, ∀ target,
      FramebufferStack.viewportTarget (some frame.1) frame.2 = some target →
        target.hasAttachment = true) ∧
    (∀ (gl : WebGL2) (count : Int), (s.pop gl count).result = .ok ()) ∧
    (∀ (gl : WebGL2) (framebuffer : Framebuffer) (drawBuffer : DrawBuffer) (e : GlanceError),
      (s.push gl framebuffer drawBuffer).result = .error e →
        FramebufferStack._bindFramebuffer gl (some framebuffer)
          (FramebufferStack.normalize framebuffer drawBuffer) = .error e ∧
        (s.push gl framebuffer drawBuffer).stack = s ∧
        FramebufferStack._bindFramebuffer gl s.top.1 s.top.2
          = .ok (s.push gl framebuffer drawBuffer).gl) := by
  have hbind := FramebufferStack.reachable_frames_bindable s hreach
  refine ⟨?_, ?_, ?_⟩
  · intro frame hf target ht
    cases hatt : target.hasAttachment with
    | true => rfl
    | false =>
      obtain ⟨e, he⟩ := (FramebufferStack.bind_error_iff freshContext (some frame.1) frame.2).2
        ⟨target, ht, hatt⟩
      obtain ⟨g, hg⟩ := hbind frame hf freshContext
      rw [hg] at he
      cases he
  · intro gl count
    rw [FramebufferStack.pop_eq_popLoop]
    exact (FramebufferStack.popLoop_of_bindable count.toNat s._stack gl hbind).1
  · intro gl framebuffer drawBuffer e he
    obtain ⟨e0, hb, hp⟩ := FramebufferStack.push_raises_outcome s gl framebuffer drawBuffer e he
    obtain ⟨g, hg⟩ := FramebufferStack.reachable_top_bind_ok s hreach gl
    rw [hg] at hp
    rw [hp] at he
    simp only [Except.error.injEq] at he
    subst he
    refine ⟨hb, ?_, ?_⟩
    · rw [hp]
    · rw [hp, hg]

/-- C28, an instance: the stack that holds the framebuffer with one color
attachment; a pop of three frames returns, and a push of the framebuffer without
attachments raises the exception of its own bind. -/
theorem reachable_frames_have_attachment_witness :
    (∀ frame ∈ (emptyStack.push freshContext colorFramebuffer .undefined).stack._stack,
      ∀ target, FramebufferStack.viewportTarget (some frame.1) frame.2 = some target →
        target.hasAttachment = true) ∧
    (FramebufferStack.pop (emptyStack.push freshContext colorFramebuffer .undefined).stack
      freshContext 3).result = .ok () :=
  ⟨(reachable_frames_have_attachment
      (emptyStack.push freshContext colorFramebuffer .undefined).stack
      (FramebufferStack.Reachable.push emptyStack freshContext colorFramebuffer .undefined
        FramebufferStack.Reachable.fresh)).1,
    (reachable_frames_have_attachment
      (emptyStack.push freshContext colorFramebuffer .undefined).stack
      (FramebufferStack.Reachable.push emptyStack freshContext colorFramebuffer .undefined
        FramebufferStack.Reachable.fresh)).2.1 freshContext 3⟩

/-- C29. On every stack that push calls, be they successful, redundant or
failed, and pop calls have built from the empty stack, no two adjacent frames
are the same pair of read target and draw target, and no frame stores a draw
target that is its read target. -/
theorem reachable_stack_structure (s : FramebufferStack)
    (hreach : FramebufferStack.Reachable s) :
    List.Chain' (fun a b => a ≠ b) s._stack ∧
    ∀ frame ∈ s._stack, frame.2 ≠ .framebuffer frame.1 :=
  FramebufferStack.reachable_structure s hreach

/-- C29, an instance: after the push of one framebuffer as read and as draw
target, made twice, the stack holds one frame, whose draw target is
`undefined`. -/
theorem reachable_stack_structure_witness :
    (FramebufferStack.pushAll emptyStack freshContext
      [(colorFramebuffer, .framebuffer colorFramebuffer),
       (colorFramebuffer, .framebuffer colorFramebuffer)]).1._stack
      = [(colorFramebuffer, .undefined)] ∧
    List.Chain' (fun a b => a ≠ b)
      (FramebufferStack.pushAll emptyStack freshContext
        [(colorFramebuffer, .framebuffer colorFramebuffer),
         (colorFramebuffer, .framebuffer colorFramebuffer)]).1._stack :=
  ⟨by decide, (reachable_stack_structure _
    (FramebufferStack.Reachable.push _ freshContext colorFramebuffer
      (.framebuffer colorFramebuffer)
      (FramebufferStack.Reachable.push emptyStack freshContext colorFramebuffer
        (.framebuffer colorFramebuffer) FramebufferStack.Reachable.fresh))).1⟩

/-! ## Lemmas: the fan-in of `loadCubemapNow` -/

theorem Settlement.afterErrors_settled :
    ∀ (events : List FaceEvent) (p : Settlement), p ≠ .pending →
      Settlement.afterErrors p events = p := by
  intro events
  induction events with
  | nil => intro p _; rfl
  | cons e rest ih =>
    intro p hp
    cases e with
    | loaded index image => simpa [Settlement.afterErrors] using ih p hp
    | failed index =>
      have h1 : p.reject (.errorEvent index) = p := by
        cases p with
        | pending => exact absurd rfl hp
        | fulfilled t => rfl
        | rejected r => rfl
      simp only [Settlement.afterErrors, h1]
      exact ih p hp

theorem Settlement.afterErrors_first :
    ∀ (events : List FaceEvent) (k : Nat) (index : Fin 6),
      events[k]? = some (.failed index) →
      (∀ j, j < k → ∀ e, events[j]? = some e → e.isLoaded = true) →
      Settlement.afterErrors .pending events = .rejected (.errorEvent index) := by
  intro events
  induction events with
  | nil => intro k index h; simp at h
  | cons e rest ih =>
    intro k index hk hbefore
    cases k with
    | zero =>
      simp only [List.getElem?_cons_zero, Option.some.injEq] at hk
      subst hk
      simp only [Settlement.afterErrors, Settlement.reject]
      exact Settlement.afterErrors_settled rest _ (by simp)
    | succ n =>
      have he : e.isLoaded = true := hbefore 0 (Nat.succ_pos n) e (by simp)
      cases e with
      | failed i => simp [FaceEvent.isLoaded] at he
      | loaded i image =>
        simp only [Settlement.afterErrors]
        simp only [List.getElem?_cons_succ] at hk
        apply ih n index hk
        intro j hj e1 he1
        exact hbefore (j + 1) (Nat.succ_lt_succ hj) e1 (by simpa using he1)

theorem loadCubemapNow.run_few :
    ∀ (name : String) (options : CubemapOptions) (events : List FaceEvent)
      (st : CubemapNowState),
      st.facesLoaded + events.countP FaceEvent.isLoaded < 6 →
      (events.foldl (loadCubemapNow.handle name options) st).gl = st.gl ∧
      (events.foldl (loadCubemapNow.handle name options) st).promise
        = Settlement.afterErrors st.promise events := by
  intro name options events
  induction events with
  | nil => intro st _; exact ⟨rfl, rfl⟩
  | cons e rest ih =>
    intro st hlt
    cases e with
    | loaded index image =>
      simp only [List.countP_cons, FaceEvent.isLoaded, if_true] at hlt
      have hne : st.facesLoaded + 1 ≠ 6 := by omega
      simp only [List.foldl_cons, loadCubemapNow.handle,
        loadCubemapNow.onload_early name options index image st hne, Settlement.afterErrors]
      exact ih _ (by simp only []; omega)
    | failed index =>
      simp only [List.countP_cons, FaceEvent.isLoaded, Bool.false_eq_true, if_false,
        Nat.add_zero] at hlt
      simp only [List.foldl_cons, loadCubemapNow.handle, Settlement.afterErrors]
      exact ih _ hlt

theorem Settlement.afterErrors_not_fulfilled :
    ∀ (events : List FaceEvent) (p : Settlement), (∀ t, p ≠ .fulfilled t) →
      ∀ t, Settlement.afterErrors p events ≠ .fulfilled t := by
  intro events
  induction events with
  | nil => intro p hp t; exact hp t
  | cons e rest ih =>
    intro p hp t
    cases e with
    | loaded index image => exact ih p hp t
    | failed index =>
      apply ih (p.reject (.errorEvent index)) _ t
      intro t1
      cases p with
      | pending => simp [Settlement.reject]
      | fulfilled t2 => exact absurd rfl (hp t2)
      | rejected r => simp [Settlement.reject]

theorem loadCubemapNow.checkSizes_settled (name : String) (images : List (Option Image))
    (width height : Nat) :
    ∀ (idxs : List Nat) (p : Settlement), p ≠ .pending →
      (loadCubemapNow.checkSizes name images width height idxs p).1 = p := by
  intro idxs
  induction idxs with
  | nil => intro p _; rfl
  | cons i rest ih =>
    intro p hp
    have hrej : p.reject (.differentSizes name) = p := by
      cases p with
      | pending => exact absurd rfl hp
      | fulfilled t => rfl
      | rejected r => rfl
    simp only [loadCubemapNow.checkSizes]
    cases hget : jsArrayGet images i with
    | none => rfl
    | some image =>
      simp only []
      split
      · rw [hrej]; exact ih p hp
      · exact ih p hp

theorem loadCubemapNow.checkSizes_pending (name : String) (images : List (Option Image))
    (width height : Nat) :
    ∀ (idxs : List Nat) (p : Settlement),
      (p = .pending ∨ p = .rejected (.differentSizes name)) →
      ((loadCubemapNow.checkSizes name images width height idxs p).1 = .pending ∨
        (loadCubemapNow.checkSizes name images width height idxs p).1
          = .rejected (.differentSizes name)) := by
  intro idxs
  induction idxs with
  | nil => intro p hp; exact hp
  | cons i rest ih =>
    intro p hp
    simp only [loadCubemapNow.checkSizes]
    cases hget : jsArrayGet images i with
    | none => exact hp
    | some image =>
      simp only []
      split
      · apply ih
        right
        rcases hp with rfl | rfl <;> rfl
      · exact ih p hp

theorem loadCubemapNow.handle_settled (name : String) (options : CubemapOptions)
    (st : CubemapNowState) (e : FaceEvent) (hp : st.promise ≠ .pending) :
    (loadCubemapNow.handle name options st e).promise = st.promise := by
  have hresolve : ∀ t, st.promise.resolve t = st.promise := by
    intro t
    cases h : st.promise with
    | pending => exact absurd h hp
    | fulfilled t1 => rfl
    | rejected r => rfl
  cases e with
  | failed index =>
    simp only [loadCubemapNow.handle]
    cases h : st.promise with
    | pending => exact absurd h hp
    | fulfilled t1 => rfl
    | rejected r => rfl
  | loaded index image =>
    simp only [loadCubemapNow.handle, loadCubemapNow.onload]
    split
    · split
      · rfl
      · rename_i first _
        have hc := loadCubemapNow.checkSizes_settled name
          (jsArraySet st.images index.val image) first.naturalWidth first.naturalHeight
          [1, 2, 3, 4, 5] st.promise hp
        split
        · rename_i promise1 heq
          rw [heq] at hc
          exact hc
        · rename_i promise1 heq
          rw [heq] at hc
          simp only [] at hc
          subst hc
          exact hresolve _
    · rfl

theorem loadCubemapNow.fold_settled (name : String) (options : CubemapOptions) :
    ∀ (events : List FaceEvent) (st : CubemapNowState), st.promise ≠ .pending →
      (events.foldl (loadCubemapNow.handle name options) st).promise = st.promise := by
  intro events
  induction events with
  | nil => intro st _; rfl
  | cons e rest ih =>
    intro st hp
    have h1 := loadCubemapNow.handle_settled name options st e hp
    simp only [List.foldl_cons]
    rw [ih _ (by rw [h1]; exact hp), h1]

theorem settledFaces_getElem (faces : Fin 6 → Option Image) (order : Fin 6 → Fin 6)
    (k : Fin 6) :
    (settledFaces faces order)[k.val]? = some
      (match faces (order k) with
        | some image => FaceEvent.loaded (order k) image
        | none => FaceEvent.failed (order k)) := by
  unfold settledFaces
  rw [finRange_six]
  fin_cases k <;> rfl

theorem settledFaces_length (faces : Fin 6 → Option Image) (order : Fin 6 → Fin 6) :
    (settledFaces faces order).length = 6 := by
  simp [settledFaces]

theorem settledFaces_of_loaded (faces : Fin 6 → Image) (order : Fin 6 → Fin 6) :
    settledFaces (fun i => some (faces i)) order = allLoaded faces order := by
  simp [settledFaces, allLoaded]

theorem settledFaces_count_of_failure (faces : Fin 6 → Option Image) (order : Fin 6 → Fin 6)
    (k : Fin 6) (hk : faces (order k) = none) :
    (settledFaces faces order).countP FaceEvent.isLoaded < 6 := by
  have hle : (settledFaces faces order).countP FaceEvent.isLoaded
      ≤ (settledFaces faces order).length := List.countP_le_length _
  rw [settledFaces_length] at hle
  rcases Nat.lt_or_ge ((settledFaces faces order).countP FaceEvent.isLoaded) 6 with h | h
  · exact h
  · have heq : (settledFaces faces order).countP FaceEvent.isLoaded
        = (settledFaces faces order).length := by
      rw [settledFaces_length]; omega
    rw [List.countP_eq_length] at heq
    have hget := settledFaces_getElem faces order k
    rw [hk] at hget
    have hmem : FaceEvent.failed (order k) ∈ settledFaces faces order :=
      List.mem_iff_getElem?.2 ⟨k.val, hget⟩
    have := heq _ hmem
    simp [FaceEvent.isLoaded] at this

theorem loadCubemapNow.run_with_failure (gl : WebGL2) (name : String)
    (options : CubemapOptions) (faces : Fin 6 → Option Image) (order : Fin 6 → Fin 6)
    (k : Fin 6) (hk : faces (order k) = none)
    (hfirst : ∀ j : Fin 6, j < k → faces (order j) ≠ none) :
    (loadCubemapNow.run gl name options (settledFaces faces order)).promise
      = .rejected (.errorEvent (order k)) ∧
    (loadCubemapNow.run gl name options (settledFaces faces order)).gl = gl := by
  have hcount := settledFaces_count_of_failure faces order k hk
  obtain ⟨hgl, hpromise⟩ := loadCubemapNow.run_few name options (settledFaces faces order)
    (loadCubemapNow gl) (by simpa [loadCubemapNow] using hcount)
  refine ⟨?_, hgl⟩
  unfold loadCubemapNow.run
  rw [hpromise]
  apply Settlement.afterErrors_first _ k.val (order k)
  · rw [settledFaces_getElem, hk]
  · intro j hj e he
    have hj6 : j < 6 := lt_trans hj k.isLt
    have hget := settledFaces_getElem faces order ⟨j, hj6⟩
    simp only [] at hget
    rw [hget] at he
    have hsome := hfirst ⟨j, hj6⟩ (by exact hj)
    cases hf : faces (order ⟨j, hj6⟩) with
    | none => exact absurd hf hsome
    | some image =>
      rw [hf] at he
      simp only [Option.some.injEq] at he
      rw [← he]
      rfl

theorem loadCubemapNow.promise_all_loaded (gl : WebGL2) (name : String)
    (options : CubemapOptions) (faces : Fin 6 → Image) (order : Equiv.Perm (Fin 6)) :
    (loadCubemapNow.run gl name options (allLoaded faces order)).promise
      = .fulfilled (createTexture gl name (faces 0).naturalWidth (faces 0).naturalHeight
          .TEXTURE_CUBE_MAP none none).1 ∨
    (loadCubemapNow.run gl name options (allLoaded faces order)).promise
      = .rejected (.differentSizes name) := by
  obtain ⟨images, _, hrun⟩ := loadCubemapNow.run_all_loaded gl name options faces order
  rw [hrun]
  rcases loadCubemapNow.checkSizes_pending name images (faces 0).naturalWidth
    (faces 0).naturalHeight [1, 2, 3, 4, 5] .pending (Or.inl rfl) with h | h
  · left
    simp only [h, Settlement.resolve]
  · right
    simp only [h, Settlement.resolve]

/-! ## Theorems: the fan-in of `loadCubemapNow` -/

/-- C22. The one promise of `loadCubemapNow` under the load and error events of
its six image elements.  It settles at most once: once it is settled, no later
event changes it.  While fewer than six faces have loaded it is not fulfilled
and no device call has been made.  When the six events are one per face, in any
order: if some face fails, the promise is rejected with the error event of the
face that failed first and no texture is created; if all six load, the promise
is fulfilled with the texture or rejected with the message of faces of different
sizes. -/
theorem loadCubemapNow_fan_in (gl : WebGL2) (name : String) (options : CubemapOptions)
    (faces : Fin 6 → Option Image) (order : Equiv.Perm (Fin 6)) :
    (∀ events more : List FaceEvent,
      (loadCubemapNow.run gl name options events).promise ≠ .pending →
        (loadCubemapNow.run gl name options (events ++ more)).promise
          = (loadCubemapNow.run gl name options events).promise) ∧
    (∀ events : List FaceEvent, events.countP FaceEvent.isLoaded < 6 →
      (∀ texture, (loadCubemapNow.run gl name options events).promise
        ≠ .fulfilled texture) ∧
      (loadCubemapNow.run gl name options events).gl = gl) ∧
    (∀ k : Fin 6, faces (order k) = none → (∀ j : Fin 6, j < k → faces (order j) ≠ none) →
      (loadCubemapNow.run gl name options (settledFaces faces order)).promise
        = .rejected (.errorEvent (order k)) ∧
      (loadCubemapNow.run gl name options (settledFaces faces order)).gl = gl) ∧
    (∀ images : Fin 6 → Image, (∀ i, faces i = some (images i)) →
      (loadCubemapNow.run gl name options (settledFaces faces order)).promise
        = .fulfilled (createTexture gl name (images 0).naturalWidth
            (images 0).naturalHeight .TEXTURE_CUBE_MAP none none).1 ∨
      (loadCubemapNow.run gl name options (settledFaces faces order)).promise
        = .rejected (.differentSizes name)) := by
  refine ⟨?_, ?_, ?_, ?_⟩
  · intro events more hp
    unfold loadCubemapNow.run at *
    rw [List.foldl_append]
    exact loadCubemapNow.fold_settled name options more _ hp
  · intro events hcount
    obtain ⟨hgl, hpromise⟩ := loadCubemapNow.run_few name options events
      (loadCubemapNow gl) (by simpa [loadCubemapNow] using hcount)
    refine ⟨?_, hgl⟩
    intro texture
    unfold loadCubemapNow.run
    rw [hpromise]
    exact Settlement.afterErrors_not_fulfilled events _ (by simp [loadCubemapNow]) texture
  · intro k hk hfirst
    exact loadCubemapNow.run_with_failure gl name options faces order k hk hfirst
  · intro images hall
    have hf : faces = fun i => some (images i) := funext hall
    subst hf
    rw [settledFaces_of_loaded]
    exact loadCubemapNow.promise_all_loaded gl name options images order

/-- C22, an instance: the faces of index 1 and 3 fail, and the face of index 3
is the first to finish; the promise is rejected with the error event of the face
of index 3 and the call log stays empty. -/
theorem loadCubemapNow_fan_in_witness :
    facesTwoFail (swappedOrder 0) = none ∧
    (loadCubemapNow.run freshContext "sky" noCubemapOptions
      (settledFaces facesTwoFail swappedOrder)).promise = .rejected (.errorEvent 3) ∧
    (loadCubemapNow.run freshContext "sky" noCubemapOptions
      (settledFaces facesTwoFail swappedOrder)).gl.calls = [] := by
  have h := (loadCubemapNow_fan_in freshContext "sky" noCubemapOptions facesTwoFail
    swappedOrder).2.2.1 0 (by decide) (by decide)
  refine ⟨by decide, ?_, ?_⟩
  · rw [h.1]
    decide
  · rw [h.2]
    rfl

/-! ## Theorems: load errors of a single texture -/

/-- C26, as the code has it. When the image fails to load, the promise of
`loadTextureNow` is rejected with the error event of the image element and no
texture is created.  `loadTexture` sets no `onerror` handler: it has returned
its texture at once, and a load that fails later runs no code, so that the state
is the one of a load that has not finished, the one call made being the
`createTexture` of the body. -/
theorem loadTexture_error_reporting (gl : WebGL2) (width height : Nat) (url : String)
    (options : TextureOptions) :
    (loadTextureNow.run gl url options (some .failed)).promise
      = .rejected (ErrorEvent.mk url) ∧
    (loadTextureNow.run gl url options (some .failed)).gl = gl ∧
    loadTexture.run gl width height url options (some .failed)
      = loadTexture.run gl width height url options none ∧
    (loadTexture.run gl width height url options (some .failed)).gl.calls
      = gl.calls ++ [.createTexture (options.name.getD (getNameFromURL url)) width height
          (options.target.getD .TEXTURE_2D) none (some options.toCreate)] := by
  refine ⟨rfl, rfl, rfl, ?_⟩
  simp [loadTexture.run, loadTexture.handle, loadTexture, createTexture, WebGL2.record]

/-- C26, refuted as stated. For `loadTexture` a load that fails leaves the very
state of a load that has not finished: the caller holds the texture that the
function returned, of which nothing was uploaded, and no exception and no value
reports the failure. -/
theorem loadTexture_swallows_load_error :
    loadTexture.run freshContext 4 4 "img/wood.png" woodOptions (some .failed)
      = loadTexture.run freshContext 4 4 "img/wood.png" woodOptions none ∧
    (loadTexture.run freshContext 4 4 "img/wood.png" woodOptions (some .failed)).texture
      = { name := "wood", glObject := 0, target := .TEXTURE_2D, width := 4, height := 4,
          depth := 1 } ∧
    (loadTexture.run freshContext 4 4 "img/wood.png" woodOptions (some .failed)).gl.calls
      = [.createTexture "wood" 4 4 .TEXTURE_2D none
          (some { levels := some 1, useAnisotropy := some true, filter := none, wrap := none,
                  internalFormat := some .RGBA8 })] ∧
    (loadTextureNow.run freshContext "img/wood.png" woodOptions (some .failed)).promise
      = .rejected (ErrorEvent.mk "img/wood.png") := by
  refine ⟨rfl, rfl, rfl, rfl⟩

/-! ## Lemmas: the format of a data volume -/

theorem loadDataVolumeNow.handle_calls (name : String) (urls : List String)
    (options : DataVolumeOptions) (st : VolumeState) (e : VolumeEvent)
    (hformat : options.format.getD .R16F = .R16F) :
    ∃ extra, (loadDataVolumeNow.handle name urls options st e).gl.calls
        = st.gl.calls ++ extra ∧
      ∀ call ∈ extra, call.createsVolume = true → call.internalFormat = some .R16F := by
  cases e with
  | first event =>
    simp only [loadDataVolumeNow.handle]
    cases hu : urls.head? with
    | none => exact ⟨[], by simp, by simp⟩
    | some url =>
      cases hf : st.first with
      | fulfilled t => exact ⟨[], by simp, by simp⟩
      | rejected r => exact ⟨[], by simp, by simp⟩
      | pending =>
        cases event with
        | failed =>
          refine ⟨[], ?_, by simp⟩
          simp [loadTextureNow.handle, PromiseState.reject]
        | loaded image =>
          refine ⟨[.createTexture (getNameFromURL url) image.naturalWidth image.naturalHeight
              .TEXTURE_2D none (some loadDataVolumeNow.firstOptions.toCreate),
            .updateTexture
              { name := getNameFromURL url, glObject := st.gl.calls.length,
                target := .TEXTURE_2D, width := image.naturalWidth,
                height := image.naturalHeight, depth := 1 } image
              { target := none, createMipMaps := none, flipY := some false },
            .deleteTexture st.gl.calls.length,
            .createTexture name image.naturalWidth image.naturalHeight .TEXTURE_3D
              (some urls.length) (some (loadDataVolumeNow.createOptions options)),
            .bindTexture .TEXTURE_3D (some (st.gl.calls.length + 3))], ?_, ?_⟩
          · simp [loadTextureNow.handle, loadTextureNow.onload, PromiseState.resolve,
              loadDataVolumeNow.allocate, createTexture, updateTexture, WebGL2.record,
              loadDataVolumeNow.firstOptions]
          · intro call hcall hvol
            simp only [List.mem_cons, List.mem_singleton, List.not_mem_nil, or_false] at hcall
            rcases hcall with rfl | rfl | rfl | rfl | rfl
            · simp [GlCall.createsVolume] at hvol
            · simp [GlCall.createsVolume] at hvol
            · simp [GlCall.createsVolume] at hvol
            · simp [GlCall.internalFormat, loadDataVolumeNow.createOptions, hformat]
            · simp [GlCall.createsVolume] at hvol
  | sliceLoaded slice pixelData =>
    simp only [loadDataVolumeNow.handle]
    cases hv : st.volumeTexture with
    | none => exact ⟨[], by simp, by simp⟩
    | some volumeTexture =>
      simp only []
      split
      · cases hs : loadDataVolumeNow.sliceData options st.width st.height pixelData with
        | error err => exact ⟨[], by simp, by simp⟩
        | ok realData =>
          simp only []
          split
          · refine ⟨[.texSubImage3D slice st.width st.height realData,
              .bindTexture .TEXTURE_3D none], by simp [WebGL2.record], ?_⟩
            intro call hcall hvol
            simp only [List.mem_cons, List.mem_singleton, List.not_mem_nil, or_false] at hcall
            rcases hcall with rfl | rfl <;> simp [GlCall.createsVolume] at hvol
          · refine ⟨[.texSubImage3D slice st.width st.height realData],
              by simp [WebGL2.record], ?_⟩
            intro call hcall hvol
            simp only [List.mem_singleton] at hcall
            subst hcall
            simp [GlCall.createsVolume] at hvol
      · exact ⟨[], by simp, by simp⟩
  | sliceFailed slice =>
    simp only [loadDataVolumeNow.handle]
    refine ⟨[], ?_, by simp⟩
    split
    · split <;> simp
    · simp

theorem loadDataVolumeNow.fold_calls (name : String) (urls : List String)
    (options : DataVolumeOptions) (hformat : options.format.getD .R16F = .R16F) :
    ∀ (events : List VolumeEvent) (st : VolumeState),
      ∃ extra, (events.foldl (loadDataVolumeNow.handle name urls options) st).gl.calls
          = st.gl.calls ++ extra ∧
        ∀ call ∈ extra, call.createsVolume = true → call.internalFormat = some .R16F := by
  intro events
  induction events with
  | nil => intro st; exact ⟨[], by simp, by simp⟩
  | cons e rest ih =>
    intro st
    obtain ⟨extra1, h1, hq1⟩ := loadDataVolumeNow.handle_calls name urls options st e hformat
    obtain ⟨extra2, h2, hq2⟩ := ih (loadDataVolumeNow.handle name urls options st e)
    refine ⟨extra1 ++ extra2, ?_, ?_⟩
    · simp only [List.foldl_cons]
      rw [h2, h1, List.append_assoc]
    · intro call hcall
      rcases List.mem_append.1 hcall with h | h
      · exact hq1 call h
      · exact hq2 call h

theorem loadDataVolumeNow.raises_iff (gl : WebGL2) (urls : List String)
    (options : DataVolumeOptions) :
    ((loadDataVolumeNow gl urls options).1 = .error .dataVolumeFormat ↔
      options.format.getD .R16F ≠ .R16F) ∧
    ((loadDataVolumeNow gl urls options).1 = .ok () ↔ options.format.getD .R16F = .R16F) := by
  by_cases h : options.format.getD .R16F = .R16F
  · cases hu : urls.head? <;> simp [loadDataVolumeNow, h, hu]
  · simp [loadDataVolumeNow, h]

theorem loadDataVolumeNow.start_calls (gl : WebGL2) (urls : List String)
    (options : DataVolumeOptions) :
    (loadDataVolumeNow gl urls options).2.gl = gl := by
  by_cases h : options.format.getD .R16F = .R16F
  · cases hu : urls.head? <;> simp [loadDataVolumeNow, h, hu, loadTextureNow]
  · simp [loadDataVolumeNow, h]

/-! ## Theorems: the format of a data volume -/

/-- C25. `loadDataVolumeNow` raises exactly when `options.format` is given and is
not R16F; a format left out stands for R16F and the call returns.  The call that
raises has made no device call and set no image element to load, and no later
event changes that.  Whatever events follow a call, every 3D texture among the
calls that it adds is created with the internal format R16F; and when the first
slice has loaded, the volume texture is created, with that format. -/
theorem loadDataVolumeNow_format (gl : WebGL2) (name : String) (urls : List String)
    (options : DataVolumeOptions) :
    ((loadDataVolumeNow gl urls options).1 = .error .dataVolumeFormat ↔
      ∃ format, options.format = some format ∧ format ≠ .R16F) ∧
    (∀ e, (loadDataVolumeNow gl urls options).1 = .error e →
      e = .dataVolumeFormat ∧
      ∀ events, (loadDataVolumeNow.run gl name urls options events).gl = gl ∧
        (loadDataVolumeNow.run gl name urls options events).requested = []) ∧
    (options.format = none →
      (loadDataVolumeNow gl urls options).1 = .ok () ∧
      (loadDataVolumeNow.createOptions options).internalFormat = some .R16F) ∧
    (∀ events, ∃ extra,
      (loadDataVolumeNow.run gl name urls options events).gl.calls = gl.calls ++ extra ∧
      ∀ call ∈ extra, call.createsVolume = true → call.internalFormat = some .R16F) ∧
    (∀ (url : String) (rest : List String) (image : Image), urls = url :: rest →
      (loadDataVolumeNow gl urls options).1 = .ok () →
      GlCall.createTexture name image.naturalWidth image.naturalHeight .TEXTURE_3D
          (some urls.length)
          (some { levels := if options.createMipMaps.getD false then none else some 1,
                  useAnisotropy := some (options.useAnisotropy.getD false),
                  filter := some (options.filter.getD [.LINEAR]),
                  wrap := some (options.wrap.getD [.CLAMP_TO_EDGE]),
                  internalFormat := some .R16F })
        ∈ (loadDataVolumeNow.run gl name urls options [.first (.loaded image)]).gl.calls) := by
  obtain ⟨hraise, hok⟩ := loadDataVolumeNow.raises_iff gl urls options
  refine ⟨?_, ?_, ?_, ?_, ?_⟩
  · rw [hraise]
    cases hf : options.format with
    | none => simp
    | some format => simp
  · intro e he
    have hne : options.format.getD .R16F ≠ .R16F := by
      intro h
      rw [hok.2 h] at he
      cases he
    have hstart : loadDataVolumeNow gl urls options
        = (.error .dataVolumeFormat,
            { gl := gl, requested := [], first := .pending, volumeTexture := none, width := 0,
              height := 0, resolved := [], promise := .pending }) := by
      simp [loadDataVolumeNow, hne]
    refine ⟨?_, ?_⟩
    · rw [hstart] at he
      simp only [Except.error.injEq] at he
      exact he.symm
    · intro events
      simp [loadDataVolumeNow.run, hstart]
  · intro hnone
    refine ⟨hok.2 (by simp [hnone]), ?_⟩
    simp [loadDataVolumeNow.createOptions, hnone]
  · intro events
    by_cases h : options.format.getD .R16F = .R16F
    · have hstart := loadDataVolumeNow.start_calls gl urls options
      have hres := hok.2 h
      obtain ⟨extra, hextra, hq⟩ := loadDataVolumeNow.fold_calls name urls options h events
        (loadDataVolumeNow gl urls options).2
      refine ⟨extra, ?_, hq⟩
      rw [hstart] at hextra
      rw [← hextra]
      unfold loadDataVolumeNow.run
      cases hl : loadDataVolumeNow gl urls options with
      | mk result st =>
        rw [hl] at hres
        simp only [] at hres
        subst hres
        rfl
    · refine ⟨[], ?_, by simp⟩
      simp [loadDataVolumeNow.run, loadDataVolumeNow, h]
  · intro url rest image hurls hres
    have h : options.format.getD .R16F = .R16F := hok.1 hres
    subst hurls
    simp [loadDataVolumeNow.run, loadDataVolumeNow, h, loadDataVolumeNow.handle,
      loadTextureNow, loadTextureNow.handle, loadTextureNow.onload, PromiseState.resolve,
      loadDataVolumeNow.allocate, createTexture, updateTexture, WebGL2.record,
      loadDataVolumeNow.firstOptions, loadDataVolumeNow.createOptions]

/-- C25, an instance: with the format RGBA8 the call raises and leaves the
context and the requests empty; with no format the call for two slices
returns. -/
theorem loadDataVolumeNow_format_witness :
    (loadDataVolumeNow freshContext twoSlices rgbaVolumeOptions).1
      = .error .dataVolumeFormat ∧
    (loadDataVolumeNow.run freshContext "ct" twoSlices rgbaVolumeOptions
      [.first (.loaded { src := "ct/slice0.png", naturalWidth := 2, naturalHeight := 1 })]).gl
      = freshContext ∧
    (loadDataVolumeNow.run freshContext "ct" twoSlices rgbaVolumeOptions
      [.first (.loaded { src := "ct/slice0.png", naturalWidth := 2,
                         naturalHeight := 1 })]).requested = [] ∧
    noVolumeOptions.format = none ∧
    (loadDataVolumeNow freshContext twoSlices noVolumeOptions).1 = .ok () := by
  have h := loadDataVolumeNow_format freshContext "ct" twoSlices rgbaVolumeOptions
  have hraise : (loadDataVolumeNow freshContext twoSlices rgbaVolumeOptions).1
      = .error .dataVolumeFormat :=
    h.1.2 ⟨.RGBA8, rfl, by decide⟩
  have hrun := (h.2.1 _ hraise).2
    [.first (.loaded { src := "ct/slice0.png", naturalWidth := 2, naturalHeight := 1 })]
  exact ⟨hraise, hrun.1, hrun.2, rfl,
    ((loadDataVolumeNow_format freshContext "ct" twoSlices noVolumeOptions).2.2.1 rfl).1⟩

/-! ## Lemmas: rounding to an integer -/

theorem roundHalfEven_intCast (n : Int) : roundHalfEven (n : ℚ) = n := by
  simp [roundHalfEven]

theorem roundHalfEven_floor_le (x : ℚ) : ⌊x⌋ ≤ roundHalfEven x := by
  unfold roundHalfEven
  split_ifs <;> omega

theorem roundHalfEven_le_floor_succ (x : ℚ) : roundHalfEven x ≤ ⌊x⌋ + 1 := by
  unfold roundHalfEven
  split_ifs <;> omega

theorem roundHalfEven_mono {x y : ℚ} (h : x ≤ y) : roundHalfEven x ≤ roundHalfEven y := by
  have hf : ⌊x⌋ ≤ ⌊y⌋ := Int.floor_mono h
  rcases lt_or_eq_of_le hf with hlt | heq
  · calc roundHalfEven x ≤ ⌊x⌋ + 1 := roundHalfEven_le_floor_succ x
      _ ≤ ⌊y⌋ := hlt
      _ ≤ roundHalfEven y := roundHalfEven_floor_le y
  · have hfr : x - ⌊x⌋ ≤ y - ⌊y⌋ := by
      rw [heq]
      linarith
    unfold roundHalfEven
    rw [heq] at hfr ⊢
    split_ifs <;> first | omega | (exfalso; linarith)

theorem roundHalfEven_eq_of_abs_lt (x : ℚ) (k : Int) (h : |x - k| < 1 / 2) :
    roundHalfEven x = k := by
  rw [abs_lt] at h
  obtain ⟨h1, h2⟩ := h
  rcases le_or_lt (k : ℚ) x with hk | hk
  · have hfloor : ⌊x⌋ = k := by
      rw [Int.floor_eq_iff]
      constructor
      · exact hk
      · linarith
    unfold roundHalfEven
    rw [hfloor]
    rw [if_pos h2]
  · have hfloor : ⌊x⌋ = k - 1 := by
      rw [Int.floor_eq_iff]
      push_cast
      constructor
      · linarith
      · linarith
    unfold roundHalfEven
    rw [hfloor]
    push_cast
    have h3 : ¬ x - ((k : ℚ) - 1) < 1 / 2 := by linarith
    have h4 : 1 / 2 < x - ((k : ℚ) - 1) := by linarith
    simp only [h3, h4, if_false, if_true]
    omega

theorem roundHalfEven_nonneg {x : ℚ} (h : 0 ≤ x) : 0 ≤ roundHalfEven x := by
  have := roundHalfEven_mono h
  rwa [show roundHalfEven (0 : ℚ) = 0 from by simpa using roundHalfEven_intCast 0] at this

/-! ## Lemmas: rounding to a format -/

theorem two_zpow_pos (z : Int) : (0 : ℚ) < (2 : ℚ) ^ z :=
  zpow_pos (by norm_num) z

theorem two_zpow_mono {m n : Int} (h : m ≤ n) : (2 : ℚ) ^ m ≤ (2 : ℚ) ^ n :=
  zpow_le_zpow_right₀ (by norm_num) h

theorem two_zpow_add (m n : Int) : (2 : ℚ) ^ (m + n) = (2 : ℚ) ^ m * (2 : ℚ) ^ n :=
  zpow_add₀ (by norm_num) m n

theorem log_two_bounds {q : ℚ} (hq : 0 < q) :
    (2 : ℚ) ^ Int.log 2 q ≤ q ∧ q < (2 : ℚ) ^ (Int.log 2 q + 1) := by
  have h1 := Int.zpow_log_le_self (b := 2) (r := q) (by norm_num) hq
  have h2 := Int.lt_zpow_succ_log_self (b := 2) (by norm_num) q
  exact ⟨by simpa using h1, by simpa using h2⟩

theorem log_two_eq {q : ℚ} {e : Int} (h1 : (2 : ℚ) ^ e ≤ q) (h2 : q < (2 : ℚ) ^ (e + 1)) :
    Int.log 2 q = e := by
  have hq : 0 < q := lt_of_lt_of_le (two_zpow_pos e) h1
  have ha : e ≤ Int.log 2 q :=
    (Int.zpow_le_iff_le_log (b := 2) (by norm_num) hq).1 (by simpa using h1)
  have hb : Int.log 2 q < e + 1 :=
    (Int.lt_zpow_iff_log_lt (b := 2) (by norm_num) hq).1 (by simpa using h2)
  omega

theorem FloatFormat.ulp_pos (fmt : FloatFormat) (q : ℚ) : 0 < fmt.ulp q :=
  two_zpow_pos _

theorem FloatFormat.emin_le_exponent (fmt : FloatFormat) (q : ℚ) :
    fmt.emin ≤ fmt.exponent q :=
  le_max_right _ _

theorem FloatFormat.pow_mul_ulp (fmt : FloatFormat) (q : ℚ) (z : Int) :
    (2 : ℚ) ^ z * fmt.ulp q = (2 : ℚ) ^ (z + fmt.exponent q - ((fmt.precision : Int) - 1)) := by
  unfold FloatFormat.ulp
  rw [← two_zpow_add]
  congr 1
  ring

theorem FloatFormat.lt_pow_exponent_succ (fmt : FloatFormat) {q : ℚ} (hq : 0 ≤ q) :
    q < (2 : ℚ) ^ (fmt.exponent q + 1) := by
  rcases eq_or_lt_of_le hq with h0 | hpos
  · rw [← h0]; exact two_zpow_pos _
  · exact lt_of_lt_of_le (log_two_bounds hpos).2
      (two_zpow_mono (by unfold FloatFormat.exponent; have := le_max_left (Int.log 2 q) fmt.emin; omega))

theorem FloatFormat.pow_exponent_le (fmt : FloatFormat) {q : ℚ} (hq : 0 < q)
    (h : fmt.emin < fmt.exponent q) : (2 : ℚ) ^ fmt.exponent q ≤ q := by
  have he : fmt.exponent q = Int.log 2 q := by
    unfold FloatFormat.exponent at h ⊢
    rcases le_total (Int.log 2 q) fmt.emin with h1 | h1
    · rw [max_eq_right h1] at h; exact absurd h (lt_irrefl _)
    · exact max_eq_left h1
  rw [he]
  exact (log_two_bounds hq).1

theorem FloatFormat.quotient_lt (fmt : FloatFormat) {q : ℚ} (hq : 0 ≤ q) :
    q / fmt.ulp q < (2 : ℚ) ^ (fmt.precision : Int) := by
  rw [div_lt_iff₀ (fmt.ulp_pos q), fmt.pow_mul_ulp]
  have h := fmt.lt_pow_exponent_succ hq
  have he : (fmt.precision : Int) + fmt.exponent q - ((fmt.precision : Int) - 1)
      = fmt.exponent q + 1 := by ring
  rw [he]
  exact h

theorem two_zpow_natCast (n : Nat) : (2 : ℚ) ^ (n : Int) = (((2 : Int) ^ n : Int) : ℚ) := by
  rw [zpow_natCast]
  push_cast
  rfl

theorem FloatFormat.roundHalfEven_quotient_le (fmt : FloatFormat) {q : ℚ} (hq : 0 ≤ q) :
    (roundHalfEven (q / fmt.ulp q) : ℚ) ≤ (2 : ℚ) ^ (fmt.precision : Int) := by
  have h1 : roundHalfEven (q / fmt.ulp q) ≤ roundHalfEven ((((2 : Int) ^ fmt.precision : Int)) : ℚ) := by
    apply roundHalfEven_mono
    rw [← two_zpow_natCast]
    exact le_of_lt (fmt.quotient_lt hq)
  rw [roundHalfEven_intCast] at h1
  rw [two_zpow_natCast]
  exact_mod_cast h1

theorem FloatFormat.nearestPos_nonneg (fmt : FloatFormat) {q : ℚ} (hq : 0 ≤ q) :
    0 ≤ fmt.nearestPos q := by
  unfold FloatFormat.nearestPos
  apply mul_nonneg
  · exact_mod_cast roundHalfEven_nonneg (div_nonneg hq (le_of_lt (fmt.ulp_pos q)))
  · exact le_of_lt (fmt.ulp_pos q)

theorem FloatFormat.nearestPos_zero (fmt : FloatFormat) : fmt.nearestPos 0 = 0 := by
  unfold FloatFormat.nearestPos
  have h : roundHalfEven (0 / fmt.ulp 0) = 0 := by
    rw [zero_div]
    simpa using roundHalfEven_intCast 0
  rw [h]
  simp

theorem FloatFormat.nearestPos_le_pow (fmt : FloatFormat) {q : ℚ} (hq : 0 ≤ q) :
    fmt.nearestPos q ≤ (2 : ℚ) ^ (fmt.exponent q + 1) := by
  unfold FloatFormat.nearestPos
  have h1 := fmt.roundHalfEven_quotient_le hq
  have h2 := mul_le_mul_of_nonneg_right h1 (le_of_lt (fmt.ulp_pos q))
  rw [fmt.pow_mul_ulp] at h2
  have he : (fmt.precision : Int) + fmt.exponent q - ((fmt.precision : Int) - 1)
      = fmt.exponent q + 1 := by ring
  rw [he] at h2
  exact h2

theorem FloatFormat.pow_le_nearestPos (fmt : FloatFormat) (hp : 1 ≤ fmt.precision) {q : ℚ}
    (h : (2 : ℚ) ^ fmt.exponent q ≤ q) : (2 : ℚ) ^ fmt.exponent q ≤ fmt.nearestPos q := by
  unfold FloatFormat.nearestPos
  have hcast : ((fmt.precision : Int) - 1) = ((fmt.precision - 1 : Nat) : Int) := by omega
  have hq : (2 : ℚ) ^ ((fmt.precision : Int) - 1) ≤ q / fmt.ulp q := by
    rw [le_div_iff₀ (fmt.ulp_pos q), fmt.pow_mul_ulp]
    have he : (fmt.precision : Int) - 1 + fmt.exponent q - ((fmt.precision : Int) - 1)
        = fmt.exponent q := by ring
    rw [he]
    exact h
  have h1 : roundHalfEven ((((2 : Int) ^ (fmt.precision - 1) : Int)) : ℚ)
      ≤ roundHalfEven (q / fmt.ulp q) := by
    apply roundHalfEven_mono
    rw [← two_zpow_natCast, ← hcast]
    exact hq
  rw [roundHalfEven_intCast] at h1
  have h2 : (2 : ℚ) ^ ((fmt.precision : Int) - 1) ≤ (roundHalfEven (q / fmt.ulp q) : ℚ) := by
    rw [hcast, two_zpow_natCast]
    exact_mod_cast h1
  have h3 := mul_le_mul_of_nonneg_right h2 (le_of_lt (fmt.ulp_pos q))
  rw [fmt.pow_mul_ulp] at h3
  have he : (fmt.precision : Int) - 1 + fmt.exponent q - ((fmt.precision : Int) - 1)
      = fmt.exponent q := by ring
  rw [he] at h3
  exact h3

theorem FloatFormat.exponent_mono (fmt : FloatFormat) {q1 q2 : ℚ} (h1 : 0 < q1)
    (h : q1 ≤ q2) : fmt.exponent q1 ≤ fmt.exponent q2 := by
  unfold FloatFormat.exponent
  exact max_le_max (Int.log_mono_right h1 h) le_rfl

theorem FloatFormat.nearestPos_mono (fmt : FloatFormat) (hp : 1 ≤ fmt.precision)
    {q1 q2 : ℚ} (h1 : 0 ≤ q1) (h : q1 ≤ q2) : fmt.nearestPos q1 ≤ fmt.nearestPos q2 := by
  rcases eq_or_lt_of_le h1 with h0 | hpos
  · rw [← h0, fmt.nearestPos_zero]
    exact fmt.nearestPos_nonneg (le_trans h1 h)
  · have he := fmt.exponent_mono hpos h
    rcases eq_or_lt_of_le he with heq | hlt
    · have hu : fmt.ulp q1 = fmt.ulp q2 := by unfold FloatFormat.ulp; rw [heq]
      unfold FloatFormat.nearestPos
      rw [hu]
      apply mul_le_mul_of_nonneg_right _ (le_of_lt (fmt.ulp_pos q2))
      have : roundHalfEven (q1 / fmt.ulp q2) ≤ roundHalfEven (q2 / fmt.ulp q2) :=
        roundHalfEven_mono (div_le_div_of_nonneg_right h (le_of_lt (fmt.ulp_pos q2)))
      exact_mod_cast this
    · have hq2 : 0 < q2 := lt_of_lt_of_le hpos h
      have hlow := fmt.pow_le_nearestPos hp
        (fmt.pow_exponent_le hq2 (lt_of_le_of_lt (fmt.emin_le_exponent q1) hlt))
      have hup := fmt.nearestPos_le_pow h1
      have hmid : (2 : ℚ) ^ (fmt.exponent q1 + 1) ≤ (2 : ℚ) ^ fmt.exponent q2 :=
        two_zpow_mono (by omega)
      exact le_trans hup (le_trans hmid hlow)

theorem FloatFormat.nearest_of_nonneg (fmt : FloatFormat) {q : ℚ} (h : 0 ≤ q) :
    fmt.nearest q = fmt.nearestPos q := by
  unfold FloatFormat.nearest
  rw [if_neg (not_lt.2 h)]

theorem FloatFormat.nearest_of_neg (fmt : FloatFormat) {q : ℚ} (h : q < 0) :
    fmt.nearest q = -fmt.nearestPos (-q) := by
  unfold FloatFormat.nearest
  rw [if_pos h]

theorem FloatFormat.nearest_zero (fmt : FloatFormat) : fmt.nearest 0 = 0 := by
  rw [fmt.nearest_of_nonneg le_rfl, fmt.nearestPos_zero]

theorem FloatFormat.nearest_nonneg (fmt : FloatFormat) {q : ℚ} (h : 0 ≤ q) :
    0 ≤ fmt.nearest q := by
  rw [fmt.nearest_of_nonneg h]
  exact fmt.nearestPos_nonneg h

theorem FloatFormat.nearest_nonpos (fmt : FloatFormat) {q : ℚ} (h : q ≤ 0) :
    fmt.nearest q ≤ 0 := by
  rcases eq_or_lt_of_le h with h0 | hneg
  · rw [h0, fmt.nearest_zero]
  · rw [fmt.nearest_of_neg hneg]
    have := fmt.nearestPos_nonneg (q := -q) (by linarith)
    linarith

theorem FloatFormat.nearest_mono (fmt : FloatFormat) (hp : 1 ≤ fmt.precision)
    {q1 q2 : ℚ} (h : q1 ≤ q2) : fmt.nearest q1 ≤ fmt.nearest q2 := by
  rcases lt_or_le q1 0 with h1 | h1
  · rcases lt_or_le q2 0 with h2 | h2
    · rw [fmt.nearest_of_neg h1, fmt.nearest_of_neg h2]
      have := @FloatFormat.nearestPos_mono fmt hp (-q2) (-q1) (by linarith) (by linarith)
      linarith
    · exact le_trans (fmt.nearest_nonpos (le_of_lt h1)) (fmt.nearest_nonneg h2)
  · rw [fmt.nearest_of_nonneg h1, fmt.nearest_of_nonneg (le_trans h1 h)]
    exact fmt.nearestPos_mono hp h1 h

theorem FloatFormat.nearestPos_of_int_quotient (fmt : FloatFormat) (q : ℚ) (n : Int)
    (h : q / fmt.ulp q = n) : fmt.nearestPos q = q := by
  unfold FloatFormat.nearestPos
  rw [h, roundHalfEven_intCast, ← h]
  exact div_mul_cancel₀ q (ne_of_gt (fmt.ulp_pos q))

theorem FloatFormat.exponent_eq (fmt : FloatFormat) {q : ℚ} {e : Int}
    (h1 : (2 : ℚ) ^ e ≤ q) (h2 : q < (2 : ℚ) ^ (e + 1)) (he : fmt.emin ≤ e) :
    fmt.exponent q = e := by
  unfold FloatFormat.exponent
  rw [log_two_eq h1 h2]
  exact max_eq_left he

theorem FloatFormat.nearestPos_eq (fmt : FloatFormat) (q : ℚ) (e k : Int)
    (h1 : (2 : ℚ) ^ e ≤ q) (h2 : q < (2 : ℚ) ^ (e + 1)) (he : fmt.emin ≤ e)
    (hk : |q / (2 : ℚ) ^ (e - ((fmt.precision : Int) - 1)) - k| < 1 / 2) :
    fmt.nearestPos q = k * (2 : ℚ) ^ (e - ((fmt.precision : Int) - 1)) := by
  have hu : fmt.ulp q = (2 : ℚ) ^ (e - ((fmt.precision : Int) - 1)) := by
    unfold FloatFormat.ulp
    rw [fmt.exponent_eq h1 h2 he]
  unfold FloatFormat.nearestPos
  rw [hu, roundHalfEven_eq_of_abs_lt _ k hk]

theorem FloatFormat.nearest_neg (fmt : FloatFormat) (q : ℚ) :
    fmt.nearest (-q) = -fmt.nearest q := by
  rcases lt_trichotomy q 0 with h | h | h
  · rw [fmt.nearest_of_neg h, fmt.nearest_of_nonneg (by linarith : (0 : ℚ) ≤ -q), neg_neg]
  · rw [h, neg_zero, fmt.nearest_zero, neg_zero]
  · rw [fmt.nearest_of_neg (by linarith : -q < 0), fmt.nearest_of_nonneg (le_of_lt h), neg_neg]

theorem FloatFormat.nearestPos_idem (fmt : FloatFormat) (hp : 1 ≤ fmt.precision) {q : ℚ}
    (hq : 0 ≤ q) : fmt.nearestPos (fmt.nearestPos q) = fmt.nearestPos q := by
  have hr0 : 0 ≤ fmt.nearestPos q := fmt.nearestPos_nonneg hq
  rcases eq_or_lt_of_le hr0 with hz | hrpos
  · rw [← hz, fmt.nearestPos_zero]
  have hdef : fmt.nearestPos q = (roundHalfEven (q / fmt.ulp q) : ℚ) * fmt.ulp q := rfl
  have hkle : (roundHalfEven (q / fmt.ulp q) : ℚ) ≤ (2 : ℚ) ^ (fmt.precision : Int) :=
    fmt.roundHalfEven_quotient_le hq
  have hu := fmt.ulp_pos q
  rcases eq_or_lt_of_le hkle with hkeq | hklt
  · -- the multiple is the power of two that opens the next binade
    have hr : fmt.nearestPos q = (2 : ℚ) ^ (fmt.exponent q + 1) := by
      rw [hdef, hkeq, fmt.pow_mul_ulp]
      congr 1
      ring
    have he : fmt.exponent ((2 : ℚ) ^ (fmt.exponent q + 1)) = fmt.exponent q + 1 := by
      apply fmt.exponent_eq le_rfl
      · exact zpow_lt_zpow_right₀ (by norm_num) (by omega)
      · have := fmt.emin_le_exponent q
        omega
    rw [hr]
    apply fmt.nearestPos_of_int_quotient _ (((2 : Int) ^ (fmt.precision - 1) : Int))
    have hcast : ((fmt.precision : Int) - 1) = ((fmt.precision - 1 : Nat) : Int) := by omega
    rw [div_eq_iff (ne_of_gt (fmt.ulp_pos _)), ← two_zpow_natCast, ← hcast]
    unfold FloatFormat.ulp
    rw [he, ← two_zpow_add]
    congr 1
    ring
  · -- the multiple stays in the binade, or falls below it
    have hrlt : fmt.nearestPos q < (2 : ℚ) ^ (fmt.exponent q + 1) := by
      rw [hdef]
      have := mul_lt_mul_of_pos_right hklt hu
      rw [fmt.pow_mul_ulp] at this
      have he : (fmt.precision : Int) + fmt.exponent q - ((fmt.precision : Int) - 1)
          = fmt.exponent q + 1 := by ring
      rw [he] at this
      exact this
    have hlog : Int.log 2 (fmt.nearestPos q) < fmt.exponent q + 1 :=
      (Int.lt_zpow_iff_log_lt (b := 2) (by norm_num) hrpos).1 (by simpa using hrlt)
    have hexp : fmt.exponent (fmt.nearestPos q) ≤ fmt.exponent q := by
      have h1 := fmt.emin_le_exponent q
      unfold FloatFormat.exponent at h1 ⊢
      exact max_le (by unfold FloatFormat.exponent at hlog; omega) (le_max_right _ _)
    obtain ⟨n, hn⟩ : ∃ n : Nat, fmt.exponent q = fmt.exponent (fmt.nearestPos q) + n :=
      ⟨(fmt.exponent q - fmt.exponent (fmt.nearestPos q)).toNat, by omega⟩
    apply fmt.nearestPos_of_int_quotient _
      (roundHalfEven (q / fmt.ulp q) * ((2 : Int) ^ n : Int))
    have hulp : fmt.ulp q = (2 : ℚ) ^ n * fmt.ulp (fmt.nearestPos q) := by
      unfold FloatFormat.ulp
      rw [← zpow_natCast, ← two_zpow_add, hn]
      congr 1
      ring
    rw [div_eq_iff (ne_of_gt (fmt.ulp_pos _))]
    push_cast
    rw [mul_assoc, ← hulp]
    exact hdef

theorem FloatFormat.nearest_idem (fmt : FloatFormat) (hp : 1 ≤ fmt.precision) (q : ℚ) :
    fmt.nearest (fmt.nearest q) = fmt.nearest q := by
  rcases lt_or_le q 0 with h | h
  · rw [fmt.nearest_of_neg h, fmt.nearest_neg,
      fmt.nearest_of_nonneg (fmt.nearestPos_nonneg (by linarith : (0 : ℚ) ≤ -q)),
      fmt.nearestPos_idem hp (by linarith : (0 : ℚ) ≤ -q)]
  · rw [fmt.nearest_of_nonneg h, fmt.nearest_of_nonneg (fmt.nearestPos_nonneg h),
      fmt.nearestPos_idem hp h]

theorem FloatFormat.nearestPos_two_zpow (fmt : FloatFormat) (hp : 1 ≤ fmt.precision) (z : Int)
    (hz : fmt.emin ≤ z) : fmt.nearestPos ((2 : ℚ) ^ z) = (2 : ℚ) ^ z := by
  have he : fmt.exponent ((2 : ℚ) ^ z) = z :=
    fmt.exponent_eq le_rfl (zpow_lt_zpow_right₀ (by norm_num) (by omega)) hz
  apply fmt.nearestPos_of_int_quotient _ (((2 : Int) ^ (fmt.precision - 1) : Int))
  have hcast : ((fmt.precision : Int) - 1) = ((fmt.precision - 1 : Nat) : Int) := by omega
  rw [div_eq_iff (ne_of_gt (fmt.ulp_pos _)), ← two_zpow_natCast, ← hcast]
  unfold FloatFormat.ulp
  rw [he, ← two_zpow_add]
  congr 1
  ring

theorem FloatFormat.nearest_one (fmt : FloatFormat) (hp : 1 ≤ fmt.precision)
    (hemin : fmt.emin ≤ 0) : fmt.nearest 1 = 1 := by
  rw [fmt.nearest_of_nonneg (by norm_num)]
  have := fmt.nearestPos_two_zpow hp 0 hemin
  simpa using this

/-- The smallest positive value of a format. -/
theorem FloatFormat.nearestPos_least (fmt : FloatFormat) (hp : 1 ≤ fmt.precision) :
    fmt.nearestPos ((2 : ℚ) ^ (fmt.emin - ((fmt.precision : Int) - 1)))
      = (2 : ℚ) ^ (fmt.emin - ((fmt.precision : Int) - 1)) := by
  have he : fmt.exponent ((2 : ℚ) ^ (fmt.emin - ((fmt.precision : Int) - 1))) = fmt.emin := by
    unfold FloatFormat.exponent
    rw [show ((2 : ℚ) ^ (fmt.emin - ((fmt.precision : Int) - 1)))
      = (((2 : Nat) : ℚ) ^ (fmt.emin - ((fmt.precision : Int) - 1))) from by norm_num,
      Int.log_zpow (by norm_num)]
    apply max_eq_right
    omega
  apply fmt.nearestPos_of_int_quotient _ 1
  rw [div_eq_iff (ne_of_gt (fmt.ulp_pos _))]
  unfold FloatFormat.ulp
  rw [he]
  simp

theorem FloatFormat.nearestPos_on_grid (fmt : FloatFormat) (q : ℚ) :
    ∃ n : Int, fmt.nearestPos q = n * (2 : ℚ) ^ (fmt.emin - ((fmt.precision : Int) - 1)) := by
  obtain ⟨m, hm⟩ : ∃ m : Nat, fmt.exponent q = fmt.emin + m :=
    ⟨(fmt.exponent q - fmt.emin).toNat, by have := fmt.emin_le_exponent q; omega⟩
  refine ⟨roundHalfEven (q / fmt.ulp q) * ((2 : Int) ^ m : Int), ?_⟩
  have hulp : fmt.ulp q = (2 : ℚ) ^ m * (2 : ℚ) ^ (fmt.emin - ((fmt.precision : Int) - 1)) := by
    unfold FloatFormat.ulp
    rw [← zpow_natCast, ← two_zpow_add, hm]
    congr 1
    ring
  push_cast
  rw [mul_assoc, ← hulp]
  rfl

theorem FloatFormat.nearest_on_grid (fmt : FloatFormat) (q : ℚ) :
    ∃ n : Int, fmt.nearest q = n * (2 : ℚ) ^ (fmt.emin - ((fmt.precision : Int) - 1)) := by
  rcases lt_or_le q 0 with h | h
  · obtain ⟨n, hn⟩ := fmt.nearestPos_on_grid (-q)
    exact ⟨-n, by rw [fmt.nearest_of_neg h, hn]; push_cast; ring⟩
  · obtain ⟨n, hn⟩ := fmt.nearestPos_on_grid q
    exact ⟨n, by rw [fmt.nearest_of_nonneg h, hn]⟩

theorem FloatFormat.nearest_pos_of_grid (fmt : FloatFormat) (hp : 1 ≤ fmt.precision) (q : ℚ)
    (n : Int) (hq : q = n * (2 : ℚ) ^ (fmt.emin - ((fmt.precision : Int) - 1))) (hpos : 0 < q) :
    0 < fmt.nearest q := by
  have hη := two_zpow_pos (fmt.emin - ((fmt.precision : Int) - 1))
  have hn : (1 : ℚ) ≤ n := by
    have h1 : (0 : ℚ) < n := by
      by_contra hcon
      have : (n : ℚ) ≤ 0 := not_lt.1 hcon
      have := mul_nonpos_of_nonpos_of_nonneg this (le_of_lt hη)
      rw [← hq] at this
      linarith
    have h2 : (0 : Int) < n := by exact_mod_cast h1
    exact_mod_cast h2
  have hge : (2 : ℚ) ^ (fmt.emin - ((fmt.precision : Int) - 1)) ≤ q := by
    rw [hq]
    have := mul_le_mul_of_nonneg_right hn (le_of_lt hη)
    linarith
  rw [fmt.nearest_of_nonneg (le_of_lt hpos)]
  have := fmt.nearestPos_mono hp (le_of_lt hη) hge
  rw [fmt.nearestPos_least hp] at this
  linarith

/-! ## Lemmas: the numbers of a format -/

theorem FloatFormat.round_ext (fmt : FloatFormat) (q : ℚ) :
    (fmt.round q).ext = fmt.place (fmt.nearest q) := by
  have hT := two_zpow_pos (fmt.emax + 1)
  unfold FloatFormat.round FloatFormat.place
  by_cases hq : q = 0
  · rw [if_pos hq, hq, fmt.nearest_zero]
    rw [if_neg (by linarith), if_neg (by linarith)]
    rfl
  · rw [if_neg hq]
    by_cases hr : fmt.nearest q = 0
    · rw [if_pos hr, hr, if_neg (by linarith), if_neg (by linarith)]
      rfl
    · rw [if_neg hr]
      rcases lt_or_gt_of_ne hq with hneg | hpos
      · have hle : fmt.nearest q ≤ 0 := fmt.nearest_nonpos (le_of_lt hneg)
        rw [abs_of_nonpos hle]
        by_cases hbig : (2 : ℚ) ^ (fmt.emax + 1) ≤ -fmt.nearest q
        · rw [if_pos hbig, if_neg (by linarith), if_pos (by linarith)]
          simp [hneg, JsNumber.ext]
        · rw [if_neg hbig, if_neg (by linarith), if_neg (by linarith)]
          rfl
      · have hge : 0 ≤ fmt.nearest q := fmt.nearest_nonneg (le_of_lt hpos)
        rw [abs_of_nonneg hge]
        by_cases hbig : (2 : ℚ) ^ (fmt.emax + 1) ≤ fmt.nearest q
        · rw [if_pos hbig, if_pos hbig]
          simp [not_lt.2 (le_of_lt hpos), JsNumber.ext]
        · rw [if_neg hbig, if_neg hbig, if_neg (by linarith)]
          rfl

theorem FloatFormat.place_mono (fmt : FloatFormat) {r1 r2 : ℚ} (h : r1 ≤ r2) :
    fmt.place r1 ≤ fmt.place r2 := by
  have hT := two_zpow_pos (fmt.emax + 1)
  unfold FloatFormat.place
  by_cases h2 : (2 : ℚ) ^ (fmt.emax + 1) ≤ r2
  · rw [if_pos h2]
    exact le_top.trans_eq WithBot.coe_top.symm
  · rw [if_neg h2, if_neg (fun h1 => h2 (le_trans h1 h))]
    by_cases h1 : r1 ≤ -(2 : ℚ) ^ (fmt.emax + 1)
    · rw [if_pos h1]
      exact bot_le
    · rw [if_neg h1, if_neg (fun h3 => h1 (le_trans h h3))]
      exact WithBot.coe_le_coe.2 (WithTop.coe_le_coe.2 h)

theorem FloatFormat.round_ext_mono (fmt : FloatFormat) (hp : 1 ≤ fmt.precision) {q1 q2 : ℚ}
    (h : q1 ≤ q2) : (fmt.round q1).ext ≤ (fmt.round q2).ext := by
  rw [fmt.round_ext, fmt.round_ext]
  exact fmt.place_mono (fmt.nearest_mono hp h)

theorem FloatFormat.round_ne_nan (fmt : FloatFormat) (q : ℚ) : fmt.round q ≠ .nan := by
  unfold FloatFormat.round
  split_ifs <;> simp

theorem FloatFormat.round_of_lt (fmt : FloatFormat) (q : ℚ)
    (h : |fmt.nearest q| < (2 : ℚ) ^ (fmt.emax + 1)) :
    (fmt.round q).isFinite = true ∧ (fmt.round q).val = fmt.nearest q := by
  unfold FloatFormat.round
  by_cases hq : q = 0
  · rw [if_pos hq, hq, fmt.nearest_zero]
    exact ⟨rfl, rfl⟩
  · rw [if_neg hq]
    by_cases hr : fmt.nearest q = 0
    · rw [if_pos hr, hr]
      exact ⟨rfl, rfl⟩
    · rw [if_neg hr, if_neg (not_le.2 h)]
      exact ⟨rfl, rfl⟩

theorem FloatFormat.lt_of_round_isFinite (fmt : FloatFormat) (q : ℚ)
    (h : (fmt.round q).isFinite = true) : |fmt.nearest q| < (2 : ℚ) ^ (fmt.emax + 1) := by
  have hT := two_zpow_pos (fmt.emax + 1)
  unfold FloatFormat.round at h
  by_cases hq : q = 0
  · rw [hq, fmt.nearest_zero, abs_zero]
    exact hT
  · rw [if_neg hq] at h
    by_cases hr : fmt.nearest q = 0
    · rw [hr, abs_zero]
      exact hT
    · rw [if_neg hr] at h
      by_contra hcon
      rw [if_pos (not_lt.1 hcon)] at h
      simp [JsNumber.isFinite] at h

theorem FloatFormat.round_eq_finite_iff (fmt : FloatFormat) (q r : ℚ) :
    fmt.round q = .finite r ↔
      (fmt.nearest q = r ∧ r ≠ 0 ∧ |r| < (2 : ℚ) ^ (fmt.emax + 1)) := by
  unfold FloatFormat.round
  constructor
  · intro h
    by_cases hq : q = 0
    · rw [if_pos hq] at h; cases h
    · rw [if_neg hq] at h
      by_cases hr : fmt.nearest q = 0
      · rw [if_pos hr] at h; cases h
      · rw [if_neg hr] at h
        by_cases hbig : (2 : ℚ) ^ (fmt.emax + 1) ≤ |fmt.nearest q|
        · rw [if_pos hbig] at h; cases h
        · rw [if_neg hbig] at h
          injection h with h
          subst h
          exact ⟨rfl, hr, not_le.1 hbig⟩
  · rintro ⟨h1, h2, h3⟩
    have hq : q ≠ 0 := by
      intro hq
      rw [hq, fmt.nearest_zero] at h1
      exact h2 h1.symm
    rw [if_neg hq, h1, if_neg h2, if_neg (not_le.2 h3)]

theorem FloatFormat.round_round (fmt : FloatFormat) (hp : 1 ≤ fmt.precision) (q r : ℚ)
    (h : fmt.round q = .finite r) : fmt.round r = .finite r := by
  obtain ⟨h1, h2, h3⟩ := (fmt.round_eq_finite_iff q r).1 h
  rw [fmt.round_eq_finite_iff]
  refine ⟨?_, h2, h3⟩
  rw [← h1, fmt.nearest_idem hp]

theorem FloatFormat.round_zero (fmt : FloatFormat) : fmt.round 0 = .zero false := by
  simp [FloatFormat.round]

theorem FloatFormat.round_isDouble (q : ℚ) : (binary64.round q).IsDouble := by
  cases h : binary64.round q with
  | finite r => exact binary64.round_round (by decide) q r h
  | nan => trivial
  | infinity s => trivial
  | zero s => trivial

theorem JsNumber.IsDouble.nearest_eq_self {q : ℚ} (h : (JsNumber.finite q).IsDouble) :
    binary64.nearest q = q ∧ q ≠ 0 ∧ |q| < (2 : ℚ) ^ (binary64.emax + 1) :=
  (binary64.round_eq_finite_iff q q).1 h

theorem JsNumber.IsDouble.neg_isDouble {a : JsNumber} (h : a.IsDouble) : a.neg.IsDouble := by
  cases a with
  | finite q =>
    obtain ⟨h1, h2, h3⟩ := JsNumber.IsDouble.nearest_eq_self h
    show binary64.round (-q) = .finite (-q)
    rw [binary64.round_eq_finite_iff]
    exact ⟨by rw [binary64.nearest_neg, h1], neg_ne_zero.2 h2, by rwa [abs_neg]⟩
  | nan => trivial
  | infinity s => trivial
  | zero s => trivial

theorem JsNumber.Is.nearest {a : JsNumber} {q : ℚ} (h : a.Is q) :
    binary64.nearest q = q ∧ |q| < (2 : ℚ) ^ (binary64.emax + 1) := by
  obtain ⟨hf, hv, hd⟩ := h
  cases a with
  | finite r =>
    obtain ⟨h1, _, h3⟩ := JsNumber.IsDouble.nearest_eq_self hd
    simp only [JsNumber.val] at hv
    subst hv
    exact ⟨h1, h3⟩
  | zero s =>
    simp only [JsNumber.val] at hv
    subst hv
    exact ⟨binary64.nearest_zero, by rw [abs_zero]; exact two_zpow_pos _⟩
  | nan => simp [JsNumber.isFinite] at hf
  | infinity s => simp [JsNumber.isFinite] at hf

theorem JsNumber.Is.round {a : JsNumber} {q : ℚ} (h : a.Is q) : (binary64.round q).Is q := by
  obtain ⟨h1, h2⟩ := h.nearest
  obtain ⟨h3, h4⟩ := binary64.round_of_lt q (by rw [h1]; exact h2)
  exact ⟨h3, by rw [h4, h1], FloatFormat.round_isDouble q⟩

theorem FloatFormat.round_is (q : ℚ)
    (h : |binary64.nearest q| < (2 : ℚ) ^ (binary64.emax + 1)) :
    (binary64.round q).Is (binary64.nearest q) := by
  obtain ⟨h3, h4⟩ := binary64.round_of_lt q h
  exact ⟨h3, h4, FloatFormat.round_isDouble q⟩

theorem JsNumber.Is.ext {a : JsNumber} {q : ℚ} (h : a.Is q) :
    a.ext = ((q : WithTop ℚ) : WithBot (WithTop ℚ)) ∧ a ≠ .nan := by
  obtain ⟨hf, hv, _⟩ := h
  cases a with
  | finite r => simp only [JsNumber.val] at hv; subst hv; exact ⟨rfl, by simp⟩
  | zero s => simp only [JsNumber.val] at hv; subst hv; exact ⟨rfl, by simp⟩
  | nan => simp [JsNumber.isFinite] at hf
  | infinity s => simp [JsNumber.isFinite] at hf

theorem JsNumber.Is.ext_round {a : JsNumber} {q : ℚ} (h : a.Is q) :
    a.ext = (binary64.round q).ext := by
  rw [h.ext.1, h.round.ext.1]

theorem JsNumber.Is.cases {a : JsNumber} {q : ℚ} (h : a.Is q) :
    (q = 0 ∧ ∃ s, a = .zero s) ∨ (q ≠ 0 ∧ a = .finite q) := by
  obtain ⟨hf, hv, hd⟩ := h
  cases a with
  | finite r =>
    simp only [JsNumber.val] at hv
    subst hv
    exact Or.inr ⟨(JsNumber.IsDouble.nearest_eq_self hd).2.1, rfl⟩
  | zero s =>
    simp only [JsNumber.val] at hv
    exact Or.inl ⟨hv.symm, s, rfl⟩
  | nan => simp [JsNumber.isFinite] at hf
  | infinity s => simp [JsNumber.isFinite] at hf

/-! ## Lemmas: the operators on finite doubles -/

theorem one_lt_binary64_top : (1 : ℚ) < (2 : ℚ) ^ (binary64.emax + 1) := by
  have h : (2 : ℚ) ^ (1 : Int) ≤ (2 : ℚ) ^ (binary64.emax + 1) :=
    two_zpow_mono (by decide)
  have h1 : (2 : ℚ) ^ (1 : Int) = 2 := by norm_num
  linarith

theorem JsNumber.is_zero (s : Bool) : (JsNumber.zero s).Is 0 :=
  ⟨rfl, rfl, trivial⟩

theorem JsNumber.is_finite {q : ℚ} (h : (JsNumber.finite q).IsDouble) : (JsNumber.finite q).Is q :=
  ⟨rfl, rfl, h⟩

theorem JsNumber.Is.neg {a : JsNumber} {q : ℚ} (h : a.Is q) : a.neg.Is (-q) := by
  rcases h.cases with ⟨hq, s, rfl⟩ | ⟨_, rfl⟩
  · rw [hq, neg_zero]; exact JsNumber.is_zero _
  · exact JsNumber.is_finite (JsNumber.IsDouble.neg_isDouble h.2.2)

theorem JsNumber.add_of_is {a b : JsNumber} {p q : ℚ} (ha : a.Is p) (hb : b.Is q)
    (hne : ¬ (p = 0 ∧ q = 0)) : a.add b = binary64.round (p + q) := by
  rcases ha.cases with ⟨hp, s, rfl⟩ | ⟨hp, rfl⟩
  · rcases hb.cases with ⟨hq, t, rfl⟩ | ⟨hq, rfl⟩
    · exact absurd ⟨hp, hq⟩ hne
    · rw [hp, zero_add]
      exact (show binary64.round q = .finite q from hb.2.2).symm
  · rcases hb.cases with ⟨hq, t, rfl⟩ | ⟨hq, rfl⟩
    · rw [hq, add_zero]
      exact (show binary64.round p = .finite p from ha.2.2).symm
    · rfl

theorem JsNumber.add_of_zeros {a b : JsNumber} (ha : a.Is 0) (hb : b.Is 0) :
    ∃ s, a.add b = .zero s := by
  rcases ha.cases with ⟨_, s, rfl⟩ | ⟨hp, _⟩
  · rcases hb.cases with ⟨_, t, rfl⟩ | ⟨hq, _⟩
    · exact ⟨s && t, rfl⟩
    · exact absurd rfl hq
  · exact absurd rfl hp

theorem JsNumber.add_ext {a b : JsNumber} {p q : ℚ} (ha : a.Is p) (hb : b.Is q) :
    (a.add b).ext = (binary64.round (p + q)).ext ∧ a.add b ≠ .nan ∧ (a.add b).IsDouble := by
  by_cases hz : p = 0 ∧ q = 0
  · obtain ⟨hp, hq⟩ := hz
    subst hp hq
    obtain ⟨s, hs⟩ := JsNumber.add_of_zeros ha hb
    rw [hs, add_zero, binary64.round_zero]
    exact ⟨rfl, by simp, trivial⟩
  · rw [JsNumber.add_of_is ha hb hz]
    exact ⟨rfl, binary64.round_ne_nan _, FloatFormat.round_isDouble _⟩

theorem JsNumber.add_is {a b : JsNumber} {p q : ℚ} (ha : a.Is p) (hb : b.Is q)
    (h : |binary64.nearest (p + q)| < (2 : ℚ) ^ (binary64.emax + 1)) :
    (a.add b).Is (binary64.nearest (p + q)) := by
  by_cases hz : p = 0 ∧ q = 0
  · obtain ⟨hp, hq⟩ := hz
    subst hp hq
    obtain ⟨s, hs⟩ := JsNumber.add_of_zeros ha hb
    rw [hs, add_zero, binary64.nearest_zero]
    exact JsNumber.is_zero s
  · rw [JsNumber.add_of_is ha hb hz]
    exact FloatFormat.round_is _ h

theorem JsNumber.sub_of_is {a b : JsNumber} {p q : ℚ} (ha : a.Is p) (hb : b.Is q)
    (hne : ¬ (p = 0 ∧ q = 0)) : a.sub b = binary64.round (p - q) := by
  unfold JsNumber.sub
  rw [JsNumber.add_of_is ha hb.neg (by
    rintro ⟨h1, h2⟩
    exact hne ⟨h1, neg_eq_zero.1 h2⟩), sub_eq_add_neg]

theorem JsNumber.sub_is {a b : JsNumber} {p q : ℚ} (ha : a.Is p) (hb : b.Is q)
    (h : |binary64.nearest (p - q)| < (2 : ℚ) ^ (binary64.emax + 1)) :
    (a.sub b).Is (binary64.nearest (p - q)) := by
  unfold JsNumber.sub
  rw [sub_eq_add_neg] at h ⊢
  exact JsNumber.add_is ha hb.neg h

theorem JsNumber.sub_is_of_isFinite {a b : JsNumber} {p q : ℚ} (ha : a.Is p) (hb : b.Is q)
    (h : (a.sub b).isFinite = true) : (a.sub b).Is (binary64.nearest (p - q)) := by
  apply JsNumber.sub_is ha hb
  by_cases hz : p = 0 ∧ q = 0
  · obtain ⟨hp, hq⟩ := hz
    rw [hp, hq, sub_zero, binary64.nearest_zero, abs_zero]
    exact two_zpow_pos _
  · rw [JsNumber.sub_of_is ha hb hz] at h
    exact binary64.lt_of_round_isFinite _ h

theorem JsNumber.mul_is {a b : JsNumber} {p q : ℚ} (ha : a.Is p) (hb : b.Is q)
    (h : |binary64.nearest (p * q)| < (2 : ℚ) ^ (binary64.emax + 1)) :
    (a.mul b).Is (binary64.nearest (p * q)) := by
  rcases ha.cases with ⟨hp, s, rfl⟩ | ⟨hp, rfl⟩
  · rw [hp, zero_mul, binary64.nearest_zero]
    rcases hb.cases with ⟨_, t, rfl⟩ | ⟨_, rfl⟩ <;> exact JsNumber.is_zero _
  · rcases hb.cases with ⟨hq, t, rfl⟩ | ⟨hq, rfl⟩
    · rw [hq, mul_zero, binary64.nearest_zero]
      exact JsNumber.is_zero _
    · exact FloatFormat.round_is _ h

theorem JsNumber.div_is {a b : JsNumber} {p q : ℚ} (ha : a.Is p) (hb : b.Is q) (hq : q ≠ 0)
    (h : |binary64.nearest (p / q)| < (2 : ℚ) ^ (binary64.emax + 1)) :
    (a.div b).Is (binary64.nearest (p / q)) := by
  rcases hb.cases with ⟨hq0, _⟩ | ⟨_, rfl⟩
  · exact absurd hq0 hq
  · rcases ha.cases with ⟨hp, s, rfl⟩ | ⟨hp, rfl⟩
    · rw [hp, zero_div, binary64.nearest_zero]
      exact JsNumber.is_zero _
    · exact FloatFormat.round_is _ h

theorem JsNumber.lt_of_is {a b : JsNumber} {p q : ℚ} (ha : a.Is p) (hb : b.Is q) :
    a.lt b = decide (p < q) := by
  rcases ha.cases with ⟨hp, s, rfl⟩ | ⟨hp, rfl⟩ <;>
    rcases hb.cases with ⟨hq, t, rfl⟩ | ⟨hq, rfl⟩ <;>
    simp [JsNumber.lt, JsNumber.val, hp, hq]

theorem JsNumber.max_is {a b : JsNumber} {p q : ℚ} (ha : a.Is p) (hb : b.Is q) :
    (a.max b).Is (Max.max p q) := by
  have hlt := JsNumber.lt_of_is ha hb
  by_cases hpq : p < q
  · have hmax : Max.max p q = q := max_eq_right (le_of_lt hpq)
    have hres : a.max b = b := by
      rcases ha.cases with ⟨hp, s, rfl⟩ | ⟨hp, rfl⟩ <;>
        rcases hb.cases with ⟨hq, t, rfl⟩ | ⟨hq, rfl⟩
      · rw [hp, hq] at hpq; exact absurd hpq (lt_irrefl _)
      all_goals simp [JsNumber.max, hlt, hpq]
    rw [hmax, hres]
    exact hb
  · have hmax : Max.max p q = p := max_eq_left (not_lt.1 hpq)
    rw [hmax]
    rcases ha.cases with ⟨hp, s, rfl⟩ | ⟨hp, rfl⟩ <;>
      rcases hb.cases with ⟨hq, t, rfl⟩ | ⟨hq, rfl⟩
    · rw [hp]; exact JsNumber.is_zero _
    all_goals
      simp only [JsNumber.max, hlt, hpq, decide_False, Bool.false_eq_true, if_false]
      exact ha

theorem JsNumber.min_is {a b : JsNumber} {p q : ℚ} (ha : a.Is p) (hb : b.Is q) :
    (a.min b).Is (Min.min p q) := by
  have hlt := JsNumber.lt_of_is hb ha
  by_cases hqp : q < p
  · have hmin : Min.min p q = q := min_eq_right (le_of_lt hqp)
    have hres : a.min b = b := by
      rcases ha.cases with ⟨hp, s, rfl⟩ | ⟨hp, rfl⟩ <;>
        rcases hb.cases with ⟨hq, t, rfl⟩ | ⟨hq, rfl⟩
      · rw [hp, hq] at hqp; exact absurd hqp (lt_irrefl _)
      all_goals simp [JsNumber.min, hlt, hqp]
    rw [hmin, hres]
    exact hb
  · have hmin : Min.min p q = p := min_eq_left (not_lt.1 hqp)
    rw [hmin]
    rcases ha.cases with ⟨hp, s, rfl⟩ | ⟨hp, rfl⟩ <;>
      rcases hb.cases with ⟨hq, t, rfl⟩ | ⟨hq, rfl⟩
    · rw [hp]; exact JsNumber.is_zero _
    all_goals
      simp only [JsNumber.min, hlt, hqp, decide_False, Bool.false_eq_true, if_false]
      exact ha

/-! ## Lemmas: the volume normalization -/

theorem binary64_round_one : binary64.round 1 = .finite 1 := by
  rw [binary64.round_eq_finite_iff]
  refine ⟨binary64.nearest_one (by decide) (by decide), one_ne_zero, ?_⟩
  rw [abs_one]
  exact one_lt_binary64_top

theorem JsNumber.isDouble_natCast (n : Nat) (h0 : 0 < n) (hn : n < 2 ^ 53) :
    (JsNumber.finite (n : ℚ)).IsDouble := by
  show binary64.round (n : ℚ) = .finite (n : ℚ)
  have hpos : (0 : ℚ) < n := by exact_mod_cast h0
  have hlog : Nat.log 2 n < 53 := Nat.log_lt_of_lt_pow (Nat.pos_iff_ne_zero.1 h0) hn
  have hexp : binary64.exponent (n : ℚ) = (Nat.log 2 n : Int) := by
    unfold FloatFormat.exponent
    rw [Int.log_natCast]
    apply max_eq_left
    have : binary64.emin = -1022 := rfl
    omega
  obtain ⟨m, hm⟩ : ∃ m : Nat, Nat.log 2 n + m = 52 := ⟨52 - Nat.log 2 n, by omega⟩
  have hnear : binary64.nearestPos (n : ℚ) = n := by
    apply binary64.nearestPos_of_int_quotient _ ((n : Int) * ((2 : Int) ^ m : Int))
    rw [div_eq_iff (ne_of_gt (binary64.ulp_pos _))]
    push_cast
    unfold FloatFormat.ulp
    rw [hexp, mul_assoc, ← zpow_natCast, ← two_zpow_add]
    have he : (m : Int) + ((Nat.log 2 n : Int) - ((binary64.precision : Int) - 1)) = 0 := by
      have : (binary64.precision : Int) = 53 := rfl
      omega
    rw [he]
    simp
  rw [binary64.round_eq_finite_iff]
  refine ⟨by rw [binary64.nearest_of_nonneg (le_of_lt hpos), hnear], ne_of_gt hpos, ?_⟩
  rw [abs_of_pos hpos]
  have h1 : (n : ℚ) < (2 : ℚ) ^ (53 : Int) := by
    have h2 : (n : ℚ) < ((2 ^ 53 : Nat) : ℚ) := by exact_mod_cast hn
    have h3 : ((2 ^ 53 : Nat) : ℚ) = (2 : ℚ) ^ (53 : Int) := by norm_num
    rw [h3] at h2
    exact h2
  exact lt_of_lt_of_le h1 (two_zpow_mono (by decide))

theorem JsNumber.ofNat_is (n : Nat) (hn : n < 2 ^ 53) : (JsNumber.ofNat n).Is (n : ℚ) := by
  unfold JsNumber.ofNat
  by_cases h0 : n = 0
  · rw [if_pos h0, h0]
    simpa using JsNumber.is_zero false
  · rw [if_neg h0]
    exact JsNumber.is_finite (JsNumber.isDouble_natCast n (Nat.pos_of_ne_zero h0) hn)

theorem clamp_is {x lo hi : JsNumber} {p l h : ℚ} (hx : x.Is p) (hlo : lo.Is l)
    (hhi : hi.Is h) : (clamp x lo hi).Is (Min.min (Max.max p l) h) :=
  JsNumber.min_is (JsNumber.max_is hx hlo) hhi

theorem JsNumber.Is.sub_pos {a b : JsNumber} {p q : ℚ} (ha : a.Is p) (hb : b.Is q)
    (h : q < p) : 0 < binary64.nearest (p - q) := by
  obtain ⟨n1, h1⟩ := binary64.nearest_on_grid p
  obtain ⟨n2, h2⟩ := binary64.nearest_on_grid q
  rw [ha.nearest.1] at h1
  rw [hb.nearest.1] at h2
  apply binary64.nearest_pos_of_grid (by decide) (p - q) (n1 - n2)
  · rw [h1, h2]
    push_cast
    ring
  · linarith

theorem loadDataVolumeNow.scaled_nonneg (l h a b x : ℚ) (hlh : l ≤ h) (hab : a ≤ b) :
    0 ≤ loadDataVolumeNow.scaled l h a b x := by
  unfold loadDataVolumeNow.scaled
  apply binary64.nearest_nonneg
  apply mul_nonneg
  · apply binary64.nearest_nonneg
    apply div_nonneg
    · apply binary64.nearest_nonneg
      have : l ≤ Min.min (Max.max x l) h := le_min (le_max_right _ _) hlh
      linarith
    · exact binary64.nearest_nonneg (by linarith)
  · exact binary64.nearest_nonneg (by linarith)

theorem loadDataVolumeNow.quotient_bounds (l h x : ℚ) (hlh : l ≤ h) :
    0 ≤ binary64.nearest (binary64.nearest (Min.min (Max.max x l) h - l) / binary64.nearest (h - l)) ∧
    binary64.nearest (binary64.nearest (Min.min (Max.max x l) h - l) / binary64.nearest (h - l)) ≤ 1 := by
  have hc1 : l ≤ Min.min (Max.max x l) h := le_min (le_max_right _ _) hlh
  have hc2 : Min.min (Max.max x l) h ≤ h := min_le_right _ _
  have hn0 : 0 ≤ binary64.nearest (Min.min (Max.max x l) h - l) :=
    binary64.nearest_nonneg (by linarith)
  have hr0 : 0 ≤ binary64.nearest (h - l) := binary64.nearest_nonneg (by linarith)
  have hnr : binary64.nearest (Min.min (Max.max x l) h - l) ≤ binary64.nearest (h - l) :=
    binary64.nearest_mono (by decide) (by linarith)
  constructor
  · exact binary64.nearest_nonneg (div_nonneg hn0 hr0)
  · have hq : binary64.nearest (Min.min (Max.max x l) h - l) / binary64.nearest (h - l) ≤ 1 :=
      div_le_one_of_le₀ hnr hr0
    have := binary64.nearest_mono (by decide) hq
    rwa [binary64.nearest_one (by decide) (by decide)] at this

theorem loadDataVolumeNow.scaled_le (l h a b x : ℚ) (hlh : l ≤ h) (hab : a ≤ b) :
    loadDataVolumeNow.scaled l h a b x ≤ binary64.nearest (b - a) := by
  unfold loadDataVolumeNow.scaled
  have hs0 : 0 ≤ binary64.nearest (b - a) := binary64.nearest_nonneg (by linarith)
  have hq := (loadDataVolumeNow.quotient_bounds l h x hlh).2
  have hm : binary64.nearest (binary64.nearest (Min.min (Max.max x l) h - l) / binary64.nearest (h - l))
      * binary64.nearest (b - a) ≤ binary64.nearest (b - a) := by
    have := mul_le_mul_of_nonneg_right hq hs0
    linarith
  have := binary64.nearest_mono (by decide) hm
  rwa [binary64.nearest_idem (by decide)] at this

theorem loadDataVolumeNow.scaled_mono (l h a b : ℚ) (hlh : l ≤ h) (hab : a ≤ b) {x y : ℚ}
    (hxy : x ≤ y) :
    loadDataVolumeNow.scaled l h a b x ≤ loadDataVolumeNow.scaled l h a b y := by
  unfold loadDataVolumeNow.scaled
  have hs0 : 0 ≤ binary64.nearest (b - a) := binary64.nearest_nonneg (by linarith)
  have hr0 : 0 ≤ binary64.nearest (h - l) := binary64.nearest_nonneg (by linarith)
  have hc : Min.min (Max.max x l) h ≤ Min.min (Max.max y l) h :=
    min_le_min (max_le_max hxy le_rfl) le_rfl
  apply binary64.nearest_mono (by decide)
  apply mul_le_mul_of_nonneg_right _ hs0
  apply binary64.nearest_mono (by decide)
  apply div_le_div_of_nonneg_right _ hr0
  apply binary64.nearest_mono (by decide)
  linarith

theorem loadDataVolumeNow.normalize_core (options : DataVolumeOptions) (pixel : JsNumber)
    (l h a b x : ℚ)
    (hlo : (loadDataVolumeNow.inputMin options).Is l)
    (hhi : (loadDataVolumeNow.inputMax options).Is h)
    (ha : (loadDataVolumeNow.outputMin options).Is a)
    (hb : (loadDataVolumeNow.outputMax options).Is b)
    (hx : pixel.Is x) (hlh : l < h) (hab : a ≤ b)
    (hR : ((loadDataVolumeNow.inputMax options).sub
      (loadDataVolumeNow.inputMin options)).isFinite = true)
    (hS : ((loadDataVolumeNow.outputMax options).sub
      (loadDataVolumeNow.outputMin options)).isFinite = true) :
    ∃ d, loadDataVolumeNow.normalize options pixel = (loadDataVolumeNow.outputMin options).add d ∧
      d.Is (loadDataVolumeNow.scaled l h a b x) := by
  have hT := one_lt_binary64_top
  have hRis := JsNumber.sub_is_of_isFinite hhi hlo hR
  have hSis := JsNumber.sub_is_of_isFinite hb ha hS
  have hrpos : 0 < binary64.nearest (h - l) := JsNumber.Is.sub_pos hhi hlo hlh
  have hv := clamp_is hx hlo hhi
  have hc1 : l ≤ Min.min (Max.max x l) h := le_min (le_max_right _ _) (le_of_lt hlh)
  have hc2 : Min.min (Max.max x l) h ≤ h := min_le_right _ _
  have hn0 : 0 ≤ binary64.nearest (Min.min (Max.max x l) h - l) :=
    binary64.nearest_nonneg (by linarith)
  have hnr : binary64.nearest (Min.min (Max.max x l) h - l) ≤ binary64.nearest (h - l) :=
    binary64.nearest_mono (by decide) (by linarith)
  have hd1 := JsNumber.sub_is hv hlo (by
    rw [abs_of_nonneg hn0]
    have := hRis.nearest.2
    rw [abs_of_pos hrpos] at this
    linarith)
  obtain ⟨hq0, hq1⟩ := loadDataVolumeNow.quotient_bounds l h x (le_of_lt hlh)
  have hd2 := JsNumber.div_is hd1 hRis (ne_of_gt hrpos) (by
    rw [abs_of_nonneg hq0]
    linarith)
  have hs0 : 0 ≤ binary64.nearest (b - a) := binary64.nearest_nonneg (by linarith)
  have hm0 := loadDataVolumeNow.scaled_nonneg l h a b x (le_of_lt hlh) hab
  have hm1 := loadDataVolumeNow.scaled_le l h a b x (le_of_lt hlh) hab
  have hd3 := JsNumber.mul_is hd2 hSis (by
    have hb1 := hSis.nearest.2
    rw [abs_of_nonneg hs0] at hb1
    unfold loadDataVolumeNow.scaled at hm0 hm1
    rw [abs_of_nonneg hm0]
    linarith)
  exact ⟨_, rfl, hd3⟩

theorem JsNumber.toFloat32_ne_nan {a : JsNumber} (h : a ≠ .nan) : a.toFloat32 ≠ .nan := by
  cases a with
  | nan => exact absurd rfl h
  | infinity s => simp [JsNumber.toFloat32]
  | zero s => simp [JsNumber.toFloat32]
  | finite q => exact binary32.round_ne_nan q

theorem JsNumber.toFloat32_ext_of_finite {a : JsNumber} (h : a.isFinite = true) :
    a.toFloat32.ext = (binary32.round a.val).ext := by
  cases a with
  | nan => simp [JsNumber.isFinite] at h
  | infinity s => simp [JsNumber.isFinite] at h
  | zero s => simp [JsNumber.toFloat32, JsNumber.val, binary32.round_zero, JsNumber.ext]
  | finite q => rfl

theorem JsNumber.ext_of_finite {a : JsNumber} (h : a.isFinite = true) :
    a.ext = ((a.val : WithTop ℚ) : WithBot (WithTop ℚ)) := by
  cases a with
  | nan => simp [JsNumber.isFinite] at h
  | infinity s => simp [JsNumber.isFinite] at h
  | zero s => rfl
  | finite q => rfl

theorem JsNumber.toFloat32_ext_mono {a b : JsNumber} (ha : a ≠ .nan) (hb : b ≠ .nan)
    (h : a.ext ≤ b.ext) : a.toFloat32.ext ≤ b.toFloat32.ext := by
  cases a with
  | nan => exact absurd rfl ha
  | infinity s =>
    cases s with
    | true => exact bot_le
    | false =>
      cases b with
      | nan => exact absurd rfl hb
      | infinity t =>
        cases t with
        | true => simp [JsNumber.ext] at h
        | false => exact le_rfl
      | zero t =>
        exfalso
        have h1 : ((⊤ : WithTop ℚ) : WithBot (WithTop ℚ)) ≤ (((0 : ℚ) : WithTop ℚ) : WithBot (WithTop ℚ)) := h
        rw [WithBot.coe_le_coe, top_le_iff] at h1
        exact WithTop.coe_ne_top h1
      | finite q =>
        exfalso
        have h1 : ((⊤ : WithTop ℚ) : WithBot (WithTop ℚ)) ≤ (((q : ℚ) : WithTop ℚ) : WithBot (WithTop ℚ)) := h
        rw [WithBot.coe_le_coe, top_le_iff] at h1
        exact WithTop.coe_ne_top h1
  | zero s =>
    cases b with
    | nan => exact absurd rfl hb
    | infinity t =>
      cases t with
      | true =>
        exfalso
        have h1 : (((0 : ℚ) : WithTop ℚ) : WithBot (WithTop ℚ)) ≤ ⊥ := h
        rw [le_bot_iff] at h1
        exact WithBot.coe_ne_bot h1
      | false => exact le_top.trans_eq WithBot.coe_top.symm
    | zero t => exact le_rfl
    | finite q =>
      have h1 : (((0 : ℚ) : WithTop ℚ) : WithBot (WithTop ℚ)) ≤ (((q : ℚ) : WithTop ℚ) : WithBot (WithTop ℚ)) := h
      rw [WithBot.coe_le_coe, WithTop.coe_le_coe] at h1
      rw [JsNumber.toFloat32_ext_of_finite (a := .zero s) rfl,
        JsNumber.toFloat32_ext_of_finite (a := .finite q) rfl]
      exact binary32.round_ext_mono (by decide) h1
  | finite p =>
    cases b with
    | nan => exact absurd rfl hb
    | infinity t =>
      cases t with
      | true =>
        exfalso
        have h1 : (((p : ℚ) : WithTop ℚ) : WithBot (WithTop ℚ)) ≤ ⊥ := h
        rw [le_bot_iff] at h1
        exact WithBot.coe_ne_bot h1
      | false => exact le_top.trans_eq WithBot.coe_top.symm
    | zero t =>
      have h1 : (((p : ℚ) : WithTop ℚ) : WithBot (WithTop ℚ)) ≤ (((0 : ℚ) : WithTop ℚ) : WithBot (WithTop ℚ)) := h
      rw [WithBot.coe_le_coe, WithTop.coe_le_coe] at h1
      rw [JsNumber.toFloat32_ext_of_finite (a := .zero t) rfl,
        JsNumber.toFloat32_ext_of_finite (a := .finite p) rfl]
      exact binary32.round_ext_mono (by decide) h1
    | finite q =>
      have h1 : (((p : ℚ) : WithTop ℚ) : WithBot (WithTop ℚ)) ≤ (((q : ℚ) : WithTop ℚ) : WithBot (WithTop ℚ)) := h
      rw [WithBot.coe_le_coe, WithTop.coe_le_coe] at h1
      exact binary32.round_ext_mono (by decide) h1

theorem loadDataVolumeNow.normalize_ext (options : DataVolumeOptions) (pixel : JsNumber)
    (l h a b x : ℚ)
    (hlo : (loadDataVolumeNow.inputMin options).Is l)
    (hhi : (loadDataVolumeNow.inputMax options).Is h)
    (ha : (loadDataVolumeNow.outputMin options).Is a)
    (hb : (loadDataVolumeNow.outputMax options).Is b)
    (hx : pixel.Is x) (hlh : l < h) (hab : a ≤ b)
    (hR : ((loadDataVolumeNow.inputMax options).sub
      (loadDataVolumeNow.inputMin options)).isFinite = true)
    (hS : ((loadDataVolumeNow.outputMax options).sub
      (loadDataVolumeNow.outputMin options)).isFinite = true) :
    (loadDataVolumeNow.normalize options pixel).ext
      = (binary64.round (a + loadDataVolumeNow.scaled l h a b x)).ext ∧
    loadDataVolumeNow.normalize options pixel ≠ .nan := by
  obtain ⟨d, hd, hdis⟩ := loadDataVolumeNow.normalize_core options pixel l h a b x
    hlo hhi ha hb hx hlh hab hR hS
  rw [hd]
  exact ⟨(JsNumber.add_ext ha hdis).1, (JsNumber.add_ext ha hdis).2.1⟩

theorem loadDataVolumeNow.stored_mono (options : DataVolumeOptions) (p q : JsNumber)
    (l h a b x y : ℚ)
    (hlo : (loadDataVolumeNow.inputMin options).Is l)
    (hhi : (loadDataVolumeNow.inputMax options).Is h)
    (ha : (loadDataVolumeNow.outputMin options).Is a)
    (hb : (loadDataVolumeNow.outputMax options).Is b)
    (hx : p.Is x) (hy : q.Is y) (hxy : x ≤ y) (hlh : l < h) (hab : a ≤ b)
    (hR : ((loadDataVolumeNow.inputMax options).sub
      (loadDataVolumeNow.inputMin options)).isFinite = true)
    (hS : ((loadDataVolumeNow.outputMax options).sub
      (loadDataVolumeNow.outputMin options)).isFinite = true) :
    loadDataVolumeNow.stored options p ≠ .nan ∧ loadDataVolumeNow.stored options q ≠ .nan ∧
    (loadDataVolumeNow.stored options p).ext ≤ (loadDataVolumeNow.stored options q).ext := by
  obtain ⟨h1, h2⟩ := loadDataVolumeNow.normalize_ext options p l h a b x
    hlo hhi ha hb hx hlh hab hR hS
  obtain ⟨h3, h4⟩ := loadDataVolumeNow.normalize_ext options q l h a b y
    hlo hhi ha hb hy hlh hab hR hS
  refine ⟨JsNumber.toFloat32_ne_nan h2, JsNumber.toFloat32_ne_nan h4, ?_⟩
  apply JsNumber.toFloat32_ext_mono h2 h4
  rw [h1, h3]
  apply binary64.round_ext_mono (by decide)
  have := loadDataVolumeNow.scaled_mono l h a b (le_of_lt hlh) hab hxy
  linarith

theorem loadDataVolumeNow.stored_range (options : DataVolumeOptions) (p : JsNumber)
    (l h a b x : ℚ)
    (hlo : (loadDataVolumeNow.inputMin options).Is l)
    (hhi : (loadDataVolumeNow.inputMax options).Is h)
    (ha : (loadDataVolumeNow.outputMin options).Is a)
    (hb : (loadDataVolumeNow.outputMax options).Is b)
    (hx : p.Is x) (hlh : l < h) (hab : a ≤ b)
    (hR : ((loadDataVolumeNow.inputMax options).sub
      (loadDataVolumeNow.inputMin options)).isFinite = true)
    (hS : ((loadDataVolumeNow.outputMax options).sub
      (loadDataVolumeNow.outputMin options)).isFinite = true) :
    (loadDataVolumeNow.outputMin options).toFloat32.ext
      ≤ (loadDataVolumeNow.stored options p).ext ∧
    (loadDataVolumeNow.stored options p).ext
      ≤ ((loadDataVolumeNow.outputMin options).add
          ((loadDataVolumeNow.outputMax options).sub
            (loadDataVolumeNow.outputMin options))).toFloat32.ext := by
  obtain ⟨h1, h2⟩ := loadDataVolumeNow.normalize_ext options p l h a b x
    hlo hhi ha hb hx hlh hab hR hS
  have hSis := JsNumber.sub_is_of_isFinite hb ha hS
  have hsat := JsNumber.add_ext ha hSis
  have hm0 := loadDataVolumeNow.scaled_nonneg l h a b x (le_of_lt hlh) hab
  have hm1 := loadDataVolumeNow.scaled_le l h a b x (le_of_lt hlh) hab
  constructor
  · apply JsNumber.toFloat32_ext_mono ha.ext.2 h2
    rw [h1, ha.ext_round]
    exact binary64.round_ext_mono (by decide) (by linarith)
  · apply JsNumber.toFloat32_ext_mono h2 hsat.2.1
    rw [h1, hsat.1]
    exact binary64.round_ext_mono (by decide) (by linarith)

theorem JsNumber.add_isDouble {a b : JsNumber} (ha : a.IsDouble) (hb : b.IsDouble) :
    (a.add b).IsDouble := by
  cases a <;> cases b <;>
    first
    | trivial
    | exact ha
    | exact hb
    | exact FloatFormat.round_isDouble _
    | (simp only [JsNumber.add]; split <;> trivial)

theorem JsNumber.one_mul_of_isDouble (s : JsNumber) (h : s.IsDouble) :
    (JsNumber.finite 1).mul s = s := by
  cases s with
  | nan => rfl
  | infinity t => norm_num [JsNumber.mul, JsNumber.negative]
  | zero t => norm_num [JsNumber.mul, JsNumber.negative]
  | finite q =>
    show binary64.round (1 * q) = .finite q
    rw [one_mul]
    exact h

theorem loadDataVolumeNow.normalize_saturated (options : DataVolumeOptions) (pixel : JsNumber)
    (l h x : ℚ)
    (hlo : (loadDataVolumeNow.inputMin options).Is l)
    (hhi : (loadDataVolumeNow.inputMax options).Is h)
    (ha : (loadDataVolumeNow.outputMin options).IsDouble)
    (hb : (loadDataVolumeNow.outputMax options).IsDouble)
    (hx : pixel.Is x) (hlh : l < h) (hhx : h ≤ x)
    (hR : ((loadDataVolumeNow.inputMax options).sub
      (loadDataVolumeNow.inputMin options)).isFinite = true) :
    loadDataVolumeNow.normalize options pixel
      = (loadDataVolumeNow.outputMin options).add
          ((loadDataVolumeNow.outputMax options).sub (loadDataVolumeNow.outputMin options)) := by
  have hRis := JsNumber.sub_is_of_isFinite hhi hlo hR
  have hrpos : 0 < binary64.nearest (h - l) := JsNumber.Is.sub_pos hhi hlo hlh
  have hne : ¬ (h = 0 ∧ l = 0) := by
    rintro ⟨h1, h2⟩
    rw [h1, h2] at hlh
    exact lt_irrefl _ hlh
  have hv := clamp_is hx hlo hhi
  have hc : Min.min (Max.max x l) h = h :=
    min_eq_right (le_trans hhx (le_max_left _ _))
  rw [hc] at hv
  have hd1 : (clamp pixel (loadDataVolumeNow.inputMin options)
      (loadDataVolumeNow.inputMax options)).sub (loadDataVolumeNow.inputMin options)
      = (loadDataVolumeNow.inputMax options).sub (loadDataVolumeNow.inputMin options) := by
    rw [JsNumber.sub_of_is hv hlo hne, JsNumber.sub_of_is hhi hlo hne]
  have hRfin : (loadDataVolumeNow.inputMax options).sub (loadDataVolumeNow.inputMin options)
      = .finite (binary64.nearest (h - l)) := by
    rcases hRis.cases with ⟨h0, _⟩ | ⟨_, h1⟩
    · exact absurd h0 (ne_of_gt hrpos)
    · exact h1
  have hd2 : ((loadDataVolumeNow.inputMax options).sub (loadDataVolumeNow.inputMin options)).div
      ((loadDataVolumeNow.inputMax options).sub (loadDataVolumeNow.inputMin options))
      = .finite 1 := by
    rw [hRfin]
    show binary64.round (binary64.nearest (h - l) / binary64.nearest (h - l)) = .finite 1
    rw [div_self (ne_of_gt hrpos)]
    exact binary64_round_one
  have hSd : ((loadDataVolumeNow.outputMax options).sub
      (loadDataVolumeNow.outputMin options)).IsDouble :=
    JsNumber.add_isDouble hb (JsNumber.IsDouble.neg_isDouble ha)
  unfold loadDataVolumeNow.normalize
  simp only []
  rw [hd1, hd2, JsNumber.one_mul_of_isDouble _ hSd]

theorem loadDataVolumeNow.normalize_floor (options : DataVolumeOptions) (pixel : JsNumber)
    (l h a b x : ℚ)
    (hlo : (loadDataVolumeNow.inputMin options).Is l)
    (hhi : (loadDataVolumeNow.inputMax options).Is h)
    (ha : (loadDataVolumeNow.outputMin options).Is a)
    (hb : (loadDataVolumeNow.outputMax options).Is b)
    (hx : pixel.Is x) (hlh : l < h) (hxl : x ≤ l)
    (hR : ((loadDataVolumeNow.inputMax options).sub
      (loadDataVolumeNow.inputMin options)).isFinite = true)
    (hS : ((loadDataVolumeNow.outputMax options).sub
      (loadDataVolumeNow.outputMin options)).isFinite = true) :
    (loadDataVolumeNow.normalize options pixel).Is a := by
  have hT := two_zpow_pos (binary64.emax + 1)
  have hRis := JsNumber.sub_is_of_isFinite hhi hlo hR
  have hSis := JsNumber.sub_is_of_isFinite hb ha hS
  have hrpos : 0 < binary64.nearest (h - l) := JsNumber.Is.sub_pos hhi hlo hlh
  have hv := clamp_is hx hlo hhi
  have hc : Min.min (Max.max x l) h = l := by
    rw [max_eq_right hxl, min_eq_left (le_of_lt hlh)]
  rw [hc] at hv
  have hd1 := JsNumber.sub_is hv hlo (by
    rw [sub_self, binary64.nearest_zero, abs_zero]; exact hT)
  rw [sub_self, binary64.nearest_zero] at hd1
  have hd2 := JsNumber.div_is hd1 hRis (ne_of_gt hrpos) (by
    rw [zero_div, binary64.nearest_zero, abs_zero]; exact hT)
  rw [zero_div, binary64.nearest_zero] at hd2
  have hd3 := JsNumber.mul_is hd2 hSis (by
    rw [zero_mul, binary64.nearest_zero, abs_zero]; exact hT)
  rw [zero_mul, binary64.nearest_zero] at hd3
  have hfin := JsNumber.add_is ha hd3 (by
    rw [add_zero, ha.nearest.1]; exact ha.nearest.2)
  rw [add_zero, ha.nearest.1] at hfin
  exact hfin

theorem roundHalfEven_eq_of_tie (x : ℚ) (k : Int) (h : x = k + 1 / 2 ∨ x = k - 1 / 2)
    (hk : k % 2 = 0) : roundHalfEven x = k := by
  rcases h with h | h
  · have hfloor : ⌊x⌋ = k := by
      rw [Int.floor_eq_iff]
      constructor <;> linarith
    unfold roundHalfEven
    rw [hfloor]
    have h1 : ¬ x - (k : ℚ) < 1 / 2 := by linarith
    have h2 : ¬ 1 / 2 < x - (k : ℚ) := by linarith
    rw [if_neg h1, if_neg h2, if_pos hk]
  · have hfloor : ⌊x⌋ = k - 1 := by
      rw [Int.floor_eq_iff]
      push_cast
      constructor <;> linarith
    unfold roundHalfEven
    rw [hfloor]
    push_cast
    have h1 : ¬ x - ((k : ℚ) - 1) < 1 / 2 := by linarith
    have h2 : ¬ 1 / 2 < x - ((k : ℚ) - 1) := by linarith
    have h3 : ¬ (k - 1) % 2 = 0 := by omega
    rw [if_neg h1, if_neg h2, if_neg h3]
    omega

theorem FloatFormat.round_eq_of_quotient (fmt : FloatFormat) (q : ℚ) (e k : Int)
    (h1 : (2 : ℚ) ^ e ≤ q) (h2 : q < (2 : ℚ) ^ (e + 1)) (he : fmt.emin ≤ e)
    (hk : roundHalfEven (q / (2 : ℚ) ^ (e - ((fmt.precision : Int) - 1))) = k) (hk0 : k ≠ 0)
    (hT : (k : ℚ) * (2 : ℚ) ^ (e - ((fmt.precision : Int) - 1)) < (2 : ℚ) ^ (fmt.emax + 1)) :
    fmt.round q = .finite ((k : ℚ) * (2 : ℚ) ^ (e - ((fmt.precision : Int) - 1))) := by
  have hq : 0 < q := lt_of_lt_of_le (two_zpow_pos e) h1
  have hu : fmt.ulp q = (2 : ℚ) ^ (e - ((fmt.precision : Int) - 1)) := by
    unfold FloatFormat.ulp
    rw [fmt.exponent_eq h1 h2 he]
  have hnear : fmt.nearest q = (k : ℚ) * (2 : ℚ) ^ (e - ((fmt.precision : Int) - 1)) := by
    rw [fmt.nearest_of_nonneg (le_of_lt hq)]
    unfold FloatFormat.nearestPos
    rw [hu, hk]
  have hnn : 0 ≤ (k : ℚ) * (2 : ℚ) ^ (e - ((fmt.precision : Int) - 1)) := by
    rw [← hnear]
    exact fmt.nearest_nonneg (le_of_lt hq)
  rw [fmt.round_eq_finite_iff]
  refine ⟨hnear, ?_, ?_⟩
  · apply mul_ne_zero
    · exact_mod_cast hk0
    · exact ne_of_gt (two_zpow_pos _)
  · rw [abs_of_nonneg hnn]
    exact hT

theorem binary32_round_one : binary32.round 1 = .finite 1 := by
  rw [binary32.round_eq_finite_iff]
  refine ⟨binary32.nearest_one (by decide) (by decide), one_ne_zero, ?_⟩
  rw [abs_one]
  have h : (2 : ℚ) ^ (1 : Int) ≤ (2 : ℚ) ^ (binary32.emax + 1) := two_zpow_mono (by decide)
  have h1 : (2 : ℚ) ^ (1 : Int) = 2 := by norm_num
  linarith

theorem binary64_round_128_255 :
    binary64.round (128 / 255) = .finite (282578800148737 / 562949953421312) := by
  have h := binary64.round_eq_of_quotient (128 / 255) (-1) 4521260802379792
    (by norm_num) (by norm_num) (by decide)
    (roundHalfEven_eq_of_abs_lt _ _ (by
      rw [abs_lt]
      constructor <;> norm_num [binary64]))
    (by norm_num) (by norm_num [binary64])
  rw [h]
  congr 1
  norm_num [binary64]

theorem binary32_round_128_255 :
    binary32.round (282578800148737 / 562949953421312) = .finite (8421505 / 16777216) := by
  have h := binary32.round_eq_of_quotient (282578800148737 / 562949953421312) (-1) 8421505
    (by norm_num) (by norm_num) (by decide)
    (roundHalfEven_eq_of_abs_lt _ _ (by
      rw [abs_lt]
      constructor <;> norm_num [binary32]))
    (by norm_num) (by norm_num [binary32])
  rw [h]
  congr 1
  norm_num [binary32]

theorem JsNumber.nan_add (x : JsNumber) : JsNumber.nan.add x = .nan := by
  cases x <;> rfl

theorem JsNumber.add_nan (x : JsNumber) : x.add .nan = .nan := by
  cases x <;> rfl

theorem JsNumber.nan_mul (x : JsNumber) : JsNumber.nan.mul x = .nan := by
  cases x <;> rfl

theorem JsNumber.mul_nan (x : JsNumber) : x.mul .nan = .nan := by
  cases x <;> rfl

theorem loadDataVolumeNow.default_ranges :
    (loadDataVolumeNow.inputMin noVolumeOptions).Is 0 ∧
    (loadDataVolumeNow.inputMax noVolumeOptions).Is 255 ∧
    (loadDataVolumeNow.outputMin noVolumeOptions).Is 0 ∧
    (loadDataVolumeNow.outputMax noVolumeOptions).Is 1 := by
  refine ⟨JsNumber.is_zero false, ?_, JsNumber.is_zero false, ?_⟩
  · have h := JsNumber.ofNat_is 255 (by norm_num)
    simpa [JsNumber.ofNat] using h
  · have h := JsNumber.ofNat_is 1 (by norm_num)
    simpa [JsNumber.ofNat] using h

theorem loadDataVolumeNow.default_input_finite (options : DataVolumeOptions)
    (hmin : options.input_min = none) (hmax : options.input_max = none) :
    (loadDataVolumeNow.inputMin options).Is 0 ∧ (loadDataVolumeNow.inputMax options).Is 255 ∧
    ((loadDataVolumeNow.inputMax options).sub (loadDataVolumeNow.inputMin options)).isFinite
      = true := by
  obtain ⟨h1, h2, _, _⟩ := loadDataVolumeNow.default_ranges
  have e1 : loadDataVolumeNow.inputMin options = loadDataVolumeNow.inputMin noVolumeOptions := by
    simp [loadDataVolumeNow.inputMin, hmin, noVolumeOptions]
  have e2 : loadDataVolumeNow.inputMax options = loadDataVolumeNow.inputMax noVolumeOptions := by
    simp [loadDataVolumeNow.inputMax, hmax, noVolumeOptions]
  rw [e1, e2]
  exact ⟨h1, h2, rfl⟩

theorem loadDataVolumeNow.normalize_default (n : Nat) (hn : n ≤ 255) :
    loadDataVolumeNow.normalize noVolumeOptions (JsNumber.ofNat n)
      = binary64.round ((n : ℚ) / 255) := by
  by_cases h0 : n = 0
  · subst h0
    norm_num [loadDataVolumeNow.normalize, loadDataVolumeNow.inputMin,
      loadDataVolumeNow.inputMax, loadDataVolumeNow.outputMin, loadDataVolumeNow.outputMax,
      noVolumeOptions, JsNumber.ofNat, clamp, JsNumber.max, JsNumber.min, JsNumber.lt,
      JsNumber.val, JsNumber.sub, JsNumber.neg, JsNumber.add, JsNumber.div, JsNumber.mul,
      JsNumber.negative, FloatFormat.round_zero]
  · have hpos : (0 : ℚ) < n := by exact_mod_cast Nat.pos_of_ne_zero h0
    have hle : (n : ℚ) ≤ 255 := by exact_mod_cast hn
    have hq1 : (2 : ℚ) ^ (-8 : Int) ≤ (n : ℚ) / 255 := by
      rw [le_div_iff₀ (by norm_num)]
      have : (1 : ℚ) ≤ n := by exact_mod_cast Nat.pos_of_ne_zero h0
      norm_num
      linarith
    have hq2 : (n : ℚ) / 255 ≤ 1 := by
      rw [div_le_one (by norm_num)]
      exact hle
    have hlow : (2 : ℚ) ^ (-8 : Int) ≤ binary64.nearest ((n : ℚ) / 255) := by
      have h1 := binary64.nearest_mono (by decide) hq1
      rw [binary64.nearest_of_nonneg (le_of_lt (two_zpow_pos _)),
        binary64.nearestPos_two_zpow (by decide) (-8) (by decide)] at h1
      exact h1
    have hup : binary64.nearest ((n : ℚ) / 255) ≤ 1 := by
      have h1 := binary64.nearest_mono (by decide) hq2
      rwa [binary64.nearest_one (by decide) (by decide)] at h1
    have hnpos : 0 < binary64.nearest ((n : ℚ) / 255) :=
      lt_of_lt_of_le (two_zpow_pos _) hlow
    have hround : binary64.round ((n : ℚ) / 255)
        = .finite (binary64.nearest ((n : ℚ) / 255)) := by
      rw [binary64.round_eq_finite_iff]
      refine ⟨rfl, ne_of_gt hnpos, ?_⟩
      rw [abs_of_pos hnpos]
      exact lt_of_le_of_lt hup one_lt_binary64_top
    have hidem := binary64.round_round (by decide) _ _ hround
    have hn0 : ¬ (n : ℚ) < 0 := not_lt.2 (le_of_lt hpos)
    have hn255 : ¬ (255 : ℚ) < n := not_lt.2 hle
    have hstep : loadDataVolumeNow.normalize noVolumeOptions (JsNumber.ofNat n)
        = (JsNumber.zero false).add
            ((binary64.round ((n : ℚ) / 255)).mul (JsNumber.finite 1)) := by
      simp [loadDataVolumeNow.normalize, loadDataVolumeNow.inputMin,
        loadDataVolumeNow.inputMax, loadDataVolumeNow.outputMin, loadDataVolumeNow.outputMax,
        noVolumeOptions, JsNumber.ofNat, h0, clamp, JsNumber.max, JsNumber.min, JsNumber.lt,
        JsNumber.val, JsNumber.sub, JsNumber.neg, JsNumber.add, JsNumber.div, hn0, hn255]
    rw [hstep, hround]
    show (JsNumber.zero false).add (binary64.round (binary64.nearest ((n : ℚ) / 255) * 1)) = _
    rw [mul_one, hidem]
    rfl

theorem loadDataVolumeNow.stored_default_128 :
    loadDataVolumeNow.normalize noVolumeOptions (JsNumber.ofNat 128)
      = .finite (282578800148737 / 562949953421312) ∧
    loadDataVolumeNow.stored noVolumeOptions (JsNumber.ofNat 128)
      = .finite (8421505 / 16777216) := by
  have h := loadDataVolumeNow.normalize_default 128 (by norm_num)
  have h1 : ((128 : Nat) : ℚ) / 255 = 128 / 255 := by norm_num
  rw [h1, binary64_round_128_255] at h
  refine ⟨h, ?_⟩
  unfold loadDataVolumeNow.stored
  rw [h]
  exact binary32_round_128_255

theorem loadDataVolumeNow.stored_default_ends :
    loadDataVolumeNow.stored noVolumeOptions (JsNumber.ofNat 0) = .zero false ∧
    loadDataVolumeNow.stored noVolumeOptions (JsNumber.ofNat 255) = .finite 1 := by
  constructor
  · unfold loadDataVolumeNow.stored
    rw [loadDataVolumeNow.normalize_default 0 (by norm_num)]
    norm_num [FloatFormat.round_zero, JsNumber.toFloat32]
  · unfold loadDataVolumeNow.stored
    rw [loadDataVolumeNow.normalize_default 255 (by norm_num)]
    have h1 : ((255 : Nat) : ℚ) / 255 = 1 := by norm_num
    rw [h1, binary64_round_one]
    exact binary32_round_one

theorem loadDataVolumeNow.normalize_default_300 :
    loadDataVolumeNow.normalize noVolumeOptions (JsNumber.ofNat 300) = .finite 1 ∧
    loadDataVolumeNow.stored noVolumeOptions (JsNumber.ofNat 300) = .finite 1 := by
  obtain ⟨h1, h2, h3, h4⟩ := loadDataVolumeNow.default_ranges
  have h := loadDataVolumeNow.normalize_saturated noVolumeOptions (JsNumber.ofNat 300)
    0 255 300 h1 h2 h3.2.2 h4.2.2
    (by simpa using JsNumber.ofNat_is 300 (by norm_num)) (by norm_num) (by norm_num) rfl
  have hval : (loadDataVolumeNow.outputMin noVolumeOptions).add
      ((loadDataVolumeNow.outputMax noVolumeOptions).sub
        (loadDataVolumeNow.outputMin noVolumeOptions)) = .finite 1 := rfl
  rw [hval] at h
  refine ⟨h, ?_⟩
  unfold loadDataVolumeNow.stored
  rw [h]
  exact binary32_round_one

theorem loadDataVolumeNow.normalize_nan_of_flat_input (options : DataVolumeOptions)
    (pixel : JsNumber) (l x : ℚ)
    (hlo : (loadDataVolumeNow.inputMin options).Is l)
    (hhi : (loadDataVolumeNow.inputMax options).Is l) (hx : pixel.Is x) :
    loadDataVolumeNow.normalize options pixel = .nan ∧
    loadDataVolumeNow.stored options pixel = .nan := by
  have hT := two_zpow_pos (binary64.emax + 1)
  have hv := clamp_is hx hlo hhi
  have hc : Min.min (Max.max x l) l = l := min_eq_right (le_max_right _ _)
  rw [hc] at hv
  have hd1 := JsNumber.sub_is hv hlo (by
    rw [sub_self, binary64.nearest_zero, abs_zero]; exact hT)
  rw [sub_self, binary64.nearest_zero] at hd1
  have hR := JsNumber.sub_is hhi hlo (by
    rw [sub_self, binary64.nearest_zero, abs_zero]; exact hT)
  rw [sub_self, binary64.nearest_zero] at hR
  have hnorm : loadDataVolumeNow.normalize options pixel = .nan := by
    unfold loadDataVolumeNow.normalize
    simp only []
    rcases hd1.cases with ⟨_, s, hs⟩ | ⟨h0, _⟩
    · rcases hR.cases with ⟨_, t, ht⟩ | ⟨h0, _⟩
      · rw [hs, ht]
        show (loadDataVolumeNow.outputMin options).add (JsNumber.nan.mul _) = _
        rw [JsNumber.nan_mul, JsNumber.add_nan]
      · exact absurd rfl h0
    · exact absurd rfl h0
  refine ⟨hnorm, ?_⟩
  unfold loadDataVolumeNow.stored
  rw [hnorm]
  rfl

theorem FloatFormat.round_of_grid (fmt : FloatFormat) (q : ℚ) (e k : Int)
    (h1 : (2 : ℚ) ^ e ≤ q) (h2 : q < (2 : ℚ) ^ (e + 1)) (he : fmt.emin ≤ e)
    (hk : q = (k : ℚ) * (2 : ℚ) ^ (e - ((fmt.precision : Int) - 1)))
    (hT : q < (2 : ℚ) ^ (fmt.emax + 1)) : fmt.round q = .finite q := by
  have hq : 0 < q := lt_of_lt_of_le (two_zpow_pos e) h1
  have hu : (0 : ℚ) < (2 : ℚ) ^ (e - ((fmt.precision : Int) - 1)) := two_zpow_pos _
  have hk0 : k ≠ 0 := by
    rintro rfl
    rw [hk] at hq
    simp at hq
  have hquot : q / (2 : ℚ) ^ (e - ((fmt.precision : Int) - 1)) = (k : ℚ) := by
    rw [div_eq_iff (ne_of_gt hu)]
    exact hk
  have h := fmt.round_eq_of_quotient q e k h1 h2 he
    (by rw [hquot]; exact roundHalfEven_intCast k) hk0 (by rw [← hk]; exact hT)
  rw [h, ← hk]

theorem binary64_top_gt_16 : (16 : ℚ) < (2 : ℚ) ^ (binary64.emax + 1) := by
  have h : (2 : ℚ) ^ (5 : Int) ≤ (2 : ℚ) ^ (binary64.emax + 1) := two_zpow_mono (by decide)
  have h1 : (2 : ℚ) ^ (5 : Int) = 32 := by norm_num
  linarith

theorem binary32_top_gt_16 : (16 : ℚ) < (2 : ℚ) ^ (binary32.emax + 1) := by
  have h : (2 : ℚ) ^ (5 : Int) ≤ (2 : ℚ) ^ (binary32.emax + 1) := two_zpow_mono (by decide)
  have h1 : (2 : ℚ) ^ (5 : Int) = 32 := by norm_num
  linarith

theorem loadDataVolumeNow.wideOutput_is :
    (loadDataVolumeNow.outputMin wideOutputOptions).Is (-1030198414761001 / 281474976710656) ∧
    (loadDataVolumeNow.outputMax wideOutputOptions).Is
      (5415578551913021 / 1125899906842624) := by
  constructor
  · have hpos : (JsNumber.finite (1030198414761001 / 281474976710656)).IsDouble :=
      binary64.round_of_grid _ 1 8241587318088008 (by norm_num) (by norm_num) (by decide)
        (by norm_num [binary64]) (lt_trans (by norm_num) binary64_top_gt_16)
    have hneg := JsNumber.IsDouble.neg_isDouble hpos
    have e : (-1030198414761001 / 281474976710656 : ℚ)
        = -(1030198414761001 / 281474976710656) := by norm_num
    show (JsNumber.finite (-1030198414761001 / 281474976710656)).Is _
    rw [e]
    exact JsNumber.is_finite hneg
  · exact JsNumber.is_finite
      (binary64.round_of_grid _ 2 5415578551913021 (by norm_num) (by norm_num) (by decide)
        (by norm_num [binary64]) (lt_trans (by norm_num) binary64_top_gt_16))

theorem loadDataVolumeNow.wideOutput_range :
    (loadDataVolumeNow.outputMax wideOutputOptions).sub
      (loadDataVolumeNow.outputMin wideOutputOptions)
      = .finite (298011631592407 / 35184372088832) := by
  obtain ⟨ha, hb⟩ := loadDataVolumeNow.wideOutput_is
  rw [JsNumber.sub_of_is hb ha (by norm_num)]
  have h := binary64.round_eq_of_quotient
    (5415578551913021 / 1125899906842624 - -1030198414761001 / 281474976710656) 3
    4768186105478512 (by norm_num) (by norm_num) (by decide)
    (roundHalfEven_eq_of_tie _ _ (Or.inl (by norm_num [binary64])) (by decide))
    (by norm_num) (lt_trans (by norm_num [binary64]) binary64_top_gt_16)
  rw [h]
  congr 1
  norm_num [binary64]

theorem loadDataVolumeNow.normalize_wide_255 :
    loadDataVolumeNow.normalize wideOutputOptions (JsNumber.ofNat 255)
      = .finite (1353894637978255 / 281474976710656) ∧
    loadDataVolumeNow.stored wideOutputOptions (JsNumber.ofNat 255)
      = .finite (10087301 / 2097152) := by
  obtain ⟨ha, hb⟩ := loadDataVolumeNow.wideOutput_is
  obtain ⟨hl, hh, hR⟩ := loadDataVolumeNow.default_input_finite wideOutputOptions rfl rfl
  have hx : (JsNumber.ofNat 255).Is 255 := by
    simpa using JsNumber.ofNat_is 255 (by norm_num)
  have h := loadDataVolumeNow.normalize_saturated wideOutputOptions (JsNumber.ofNat 255)
    0 255 255 hl hh ha.2.2 hb.2.2 hx (by norm_num) (le_refl _) hR
  have hS : (JsNumber.finite (298011631592407 / 35184372088832)).Is
      (298011631592407 / 35184372088832) := by
    refine JsNumber.is_finite ?_
    have hd := FloatFormat.round_isDouble
      (5415578551913021 / 1125899906842624 - -1030198414761001 / 281474976710656)
    rw [← JsNumber.sub_of_is hb ha (by norm_num), loadDataVolumeNow.wideOutput_range] at hd
    exact hd
  have hnorm : loadDataVolumeNow.normalize wideOutputOptions (JsNumber.ofNat 255)
      = .finite (1353894637978255 / 281474976710656) := by
    rw [h, loadDataVolumeNow.wideOutput_range, JsNumber.add_of_is ha hS (by norm_num)]
    have e : (-1030198414761001 / 281474976710656 + 298011631592407 / 35184372088832 : ℚ)
        = 1353894637978255 / 281474976710656 := by norm_num
    rw [e]
    exact binary64.round_of_grid _ 2 5415578551913020 (by norm_num) (by norm_num) (by decide)
      (by norm_num [binary64]) (lt_trans (by norm_num) binary64_top_gt_16)
  refine ⟨hnorm, ?_⟩
  unfold loadDataVolumeNow.stored
  rw [hnorm]
  show binary32.round _ = _
  have h32 := binary32.round_eq_of_quotient (1353894637978255 / 281474976710656) 2 10087301
    (by norm_num) (by norm_num) (by decide)
    (roundHalfEven_eq_of_abs_lt _ _ (by
      rw [abs_lt]
      constructor <;> norm_num [binary32]))
    (by norm_num) (lt_trans (by norm_num [binary32]) binary32_top_gt_16)
  rw [h32]
  congr 1
  norm_num [binary32]

theorem loadDataVolumeNow.tenthOutput_is :
    (loadDataVolumeNow.outputMin tenthOutputOptions).Is 0 ∧
    (loadDataVolumeNow.outputMax tenthOutputOptions).Is
      (3602879701896397 / 36028797018963968) := by
  refine ⟨JsNumber.is_zero false, ?_⟩
  exact JsNumber.is_finite
    (binary64.round_of_grid _ (-4) 7205759403792794 (by norm_num) (by norm_num) (by decide)
      (by norm_num [binary64]) (lt_trans (by norm_num) binary64_top_gt_16))

theorem loadDataVolumeNow.stored_tenth_255 :
    loadDataVolumeNow.normalize tenthOutputOptions (JsNumber.ofNat 255)
      = .finite (3602879701896397 / 36028797018963968) ∧
    loadDataVolumeNow.stored tenthOutputOptions (JsNumber.ofNat 255)
      = .finite (13421773 / 134217728) := by
  obtain ⟨ha, hb⟩ := loadDataVolumeNow.tenthOutput_is
  obtain ⟨hl, hh, hR⟩ := loadDataVolumeNow.default_input_finite tenthOutputOptions rfl rfl
  have hx : (JsNumber.ofNat 255).Is 255 := by
    simpa using JsNumber.ofNat_is 255 (by norm_num)
  have h := loadDataVolumeNow.normalize_saturated tenthOutputOptions (JsNumber.ofNat 255)
    0 255 255 hl hh ha.2.2 hb.2.2 hx (by norm_num) (le_refl _) hR
  have hval : (loadDataVolumeNow.outputMin tenthOutputOptions).add
      ((loadDataVolumeNow.outputMax tenthOutputOptions).sub
        (loadDataVolumeNow.outputMin tenthOutputOptions))
      = .finite (3602879701896397 / 36028797018963968) := rfl
  rw [hval] at h
  refine ⟨h, ?_⟩
  unfold loadDataVolumeNow.stored
  rw [h]
  show binary32.round _ = _
  have h32 := binary32.round_eq_of_quotient (3602879701896397 / 36028797018963968) (-4) 13421773
    (by norm_num) (by norm_num) (by decide)
    (roundHalfEven_eq_of_abs_lt _ _ (by
      rw [abs_lt]
      constructor <;> norm_num [binary32]))
    (by norm_num) (lt_trans (by norm_num [binary32]) binary32_top_gt_16)
  rw [h32]
  congr 1
  norm_num [binary32]

theorem loadDataVolumeNow.flatInput_nan (n : Nat) (hn : n < 2 ^ 53) :
    loadDataVolumeNow.normalize flatInputOptions (JsNumber.ofNat n) = .nan ∧
    loadDataVolumeNow.stored flatInputOptions (JsNumber.ofNat n) = .nan := by
  have h7 : (JsNumber.finite 7).Is 7 := by
    have h := JsNumber.ofNat_is 7 (by norm_num)
    simpa [JsNumber.ofNat] using h
  exact loadDataVolumeNow.normalize_nan_of_flat_input flatInputOptions _ 7 n h7 h7
    (JsNumber.ofNat_is n hn)

theorem loadDataVolumeNow.normalize_mono (options : DataVolumeOptions) (p q : JsNumber)
    (l h a b x y : ℚ)
    (hlo : (loadDataVolumeNow.inputMin options).Is l)
    (hhi : (loadDataVolumeNow.inputMax options).Is h)
    (ha : (loadDataVolumeNow.outputMin options).Is a)
    (hb : (loadDataVolumeNow.outputMax options).Is b)
    (hx : p.Is x) (hy : q.Is y) (hxy : x ≤ y) (hlh : l < h) (hab : a ≤ b)
    (hR : ((loadDataVolumeNow.inputMax options).sub
      (loadDataVolumeNow.inputMin options)).isFinite = true)
    (hS : ((loadDataVolumeNow.outputMax options).sub
      (loadDataVolumeNow.outputMin options)).isFinite = true) :
    (loadDataVolumeNow.normalize options p).ext ≤ (loadDataVolumeNow.normalize options q).ext := by
  obtain ⟨h1, _⟩ := loadDataVolumeNow.normalize_ext options p l h a b x
    hlo hhi ha hb hx hlh hab hR hS
  obtain ⟨h3, _⟩ := loadDataVolumeNow.normalize_ext options q l h a b y
    hlo hhi ha hb hy hlh hab hR hS
  rw [h1, h3]
  apply binary64.round_ext_mono (by decide)
  have := loadDataVolumeNow.scaled_mono l h a b (le_of_lt hlh) hab hxy
  linarith

theorem loadDataVolumeNow.normalize_range (options : DataVolumeOptions) (p : JsNumber)
    (l h a b x : ℚ)
    (hlo : (loadDataVolumeNow.inputMin options).Is l)
    (hhi : (loadDataVolumeNow.inputMax options).Is h)
    (ha : (loadDataVolumeNow.outputMin options).Is a)
    (hb : (loadDataVolumeNow.outputMax options).Is b)
    (hx : p.Is x) (hlh : l < h) (hab : a ≤ b)
    (hR : ((loadDataVolumeNow.inputMax options).sub
      (loadDataVolumeNow.inputMin options)).isFinite = true)
    (hS : ((loadDataVolumeNow.outputMax options).sub
      (loadDataVolumeNow.outputMin options)).isFinite = true) :
    (loadDataVolumeNow.outputMin options).ext ≤ (loadDataVolumeNow.normalize options p).ext ∧
    (loadDataVolumeNow.normalize options p).ext
      ≤ ((loadDataVolumeNow.outputMin options).add
          ((loadDataVolumeNow.outputMax options).sub
            (loadDataVolumeNow.outputMin options))).ext := by
  obtain ⟨h1, h2⟩ := loadDataVolumeNow.normalize_ext options p l h a b x
    hlo hhi ha hb hx hlh hab hR hS
  have hSis := JsNumber.sub_is_of_isFinite hb ha hS
  have hsat := JsNumber.add_ext ha hSis
  have hm0 := loadDataVolumeNow.scaled_nonneg l h a b x (le_of_lt hlh) hab
  have hm1 := loadDataVolumeNow.scaled_le l h a b x (le_of_lt hlh) hab
  constructor
  · rw [h1, ha.ext_round]
    exact binary64.round_ext_mono (by decide) (by linarith)
  · rw [h1, hsat.1]
    exact binary64.round_ext_mono (by decide) (by linarith)

theorem loadDataVolumeNow.sliceData_ok (options : DataVolumeOptions) (width height : Nat)
    (pixelData : List Nat) (hlen : pixelData.length = width * height * 4) :
    loadDataVolumeNow.sliceData options width height pixelData
      = .ok ((List.range (width * height)).map
          (fun i => loadDataVolumeNow.stored options
            (JsNumber.ofNat (pixelData.getD (i * 4) 0)))) := by
  simp [loadDataVolumeNow.sliceData, hlen]

theorem loadDataVolumeNow.normalize_zero_based (options : DataVolumeOptions)
    (pixel : JsNumber) (l h b x : ℚ)
    (hlo : (loadDataVolumeNow.inputMin options).Is l)
    (hhi : (loadDataVolumeNow.inputMax options).Is h)
    (ha : (loadDataVolumeNow.outputMin options).Is 0)
    (hb : (loadDataVolumeNow.outputMax options).Is b) (hb0 : b ≠ 0)
    (hx : pixel.Is x) (hlh : l < h) (hhx : h ≤ x)
    (hR : ((loadDataVolumeNow.inputMax options).sub
      (loadDataVolumeNow.inputMin options)).isFinite = true) :
    loadDataVolumeNow.normalize options pixel = loadDataVolumeNow.outputMax options := by
  rw [loadDataVolumeNow.normalize_saturated options pixel l h x hlo hhi ha.2.2 hb.2.2 hx hlh hhx hR]
  rcases ha.cases with ⟨_, s, hs⟩ | ⟨h0, _⟩
  · rcases hb.cases with ⟨hb1, _⟩ | ⟨_, hbf⟩
    · exact absurd hb1 hb0
    · rw [hs, hbf]
      cases s <;> rfl
  · exact absurd rfl h0

/-! ## Theorems: data volume -/

/-- C15, as the code has it. For a slice whose byte array has four bytes per
pixel, the array written has one element per pixel, and the element of pixel `i`
is the single nearest to the double `output_min + ((clamp(r, input_min,
input_max) - input_min) / (input_max - input_min)) * (output_max - output_min)`,
each operation of which rounds to a double, for the byte `r` at index `4 * i`,
the red channel; a byte array that has the same bytes at these indices gives the
same array, so the green, blue and alpha bytes have no influence.  With the
default ranges the double for the byte 128 is the one nearest to 128/255, and
the element written is 8421505/16777216. -/
theorem sliceData_formula (options : DataVolumeOptions) (width height : Nat)
    (pixelData : List Nat) (hlen : pixelData.length = width * height * 4) :
    ∃ realData, loadDataVolumeNow.sliceData options width height pixelData = .ok realData ∧
      realData.length = width * height ∧
      (∀ i, i < width * height →
        realData.get? i = some
          ((loadDataVolumeNow.outputMin options).add
            ((((clamp (JsNumber.ofNat (pixelData.getD (4 * i) 0))
                  (loadDataVolumeNow.inputMin options) (loadDataVolumeNow.inputMax options)).sub
                (loadDataVolumeNow.inputMin options)).div
              ((loadDataVolumeNow.inputMax options).sub (loadDataVolumeNow.inputMin options))).mul
              ((loadDataVolumeNow.outputMax options).sub
                (loadDataVolumeNow.outputMin options)))).toFloat32) ∧
      (∀ other : List Nat, other.length = pixelData.length →
        (∀ i, i < width * height → other.getD (4 * i) 0 = pixelData.getD (4 * i) 0) →
        loadDataVolumeNow.sliceData options width height other = .ok realData) ∧
      loadDataVolumeNow.normalize noVolumeOptions (JsNumber.ofNat 128)
        = binary64.round (128 / 255) ∧
      loadDataVolumeNow.stored noVolumeOptions (JsNumber.ofNat 128)
        = .finite (8421505 / 16777216) := by
  refine ⟨(List.range (width * height)).map
      (fun i => loadDataVolumeNow.stored options (JsNumber.ofNat (pixelData.getD (i * 4) 0))),
    loadDataVolumeNow.sliceData_ok options width height pixelData hlen, by simp, ?_, ?_, ?_, ?_⟩
  · intro i hi
    simp [List.get?_eq_getElem?, hi, loadDataVolumeNow.stored, loadDataVolumeNow.normalize,
      Nat.mul_comm]
  · intro other hother hsame
    rw [loadDataVolumeNow.sliceData_ok options width height other (hother.trans hlen)]
    congr 1
    apply List.map_congr_left
    intro i hi
    rw [List.mem_range] at hi
    have h := hsame i hi
    rw [Nat.mul_comm 4 i] at h
    rw [h]
  · rw [loadDataVolumeNow.stored_default_128.1, binary64_round_128_255]
  · exact loadDataVolumeNow.stored_default_128.2

/-- C15, an instance: a slice of two pixels, red 128 and red 255, with the
default ranges. -/
theorem sliceData_formula_witness :
    twoPixels.length = 2 * 1 * 4 ∧
    ∃ realData, loadDataVolumeNow.sliceData noVolumeOptions 2 1 twoPixels = .ok realData ∧
      realData.length = 2 * 1 := by
  obtain ⟨realData, hreal, hlength, _⟩ :=
    sliceData_formula noVolumeOptions 2 1 twoPixels (by decide)
  exact ⟨by decide, realData, hreal, hlength⟩

/-- C15, the counterexample. With the default ranges the slice of the two pixels
red 128 and red 255 is written as 8421505/16777216 and 1: the element for the
byte 128 is not 128/255.  With an input range of the one value 7 the division is
0/0 and every element written is a NaN. -/
theorem sliceData_not_exact :
    loadDataVolumeNow.sliceData noVolumeOptions 2 1 twoPixels
      = .ok [.finite (8421505 / 16777216), .finite 1] ∧
    (8421505 / 16777216 : ℚ) ≠ 128 / 255 ∧
    loadDataVolumeNow.sliceData flatInputOptions 2 1 twoPixels = .ok [.nan, .nan] := by
  have h1 : loadDataVolumeNow.sliceData noVolumeOptions 2 1 twoPixels
      = .ok [loadDataVolumeNow.stored noVolumeOptions (JsNumber.ofNat 128),
          loadDataVolumeNow.stored noVolumeOptions (JsNumber.ofNat 255)] := rfl
  have h2 : loadDataVolumeNow.sliceData flatInputOptions 2 1 twoPixels
      = .ok [loadDataVolumeNow.stored flatInputOptions (JsNumber.ofNat 128),
          loadDataVolumeNow.stored flatInputOptions (JsNumber.ofNat 255)] := rfl
  refine ⟨?_, by norm_num, ?_⟩
  · rw [h1, loadDataVolumeNow.stored_default_128.2, loadDataVolumeNow.stored_default_ends.2]
  · rw [h2, (loadDataVolumeNow.flatInput_nan 128 (by norm_num)).2,
      (loadDataVolumeNow.flatInput_nan 255 (by norm_num)).2]

/-- C16, as the code has it. The value is clamped before it is mapped.  For
finite doubles `input_min < input_max` whose difference is finite, a pixel value
at or above `input_max` gives the double `output_min + (output_max -
output_min)`, each operation rounded, which is `output_max` when `output_min`
is zero and `output_max` is not; a pixel value at or below `input_min` gives,
when `output_max - output_min` is finite, the value of `output_min`, and
`output_min` itself when that is not zero.  With the default ranges the pixel
value 300 gives 1, as a double and as the element written. -/
theorem normalize_clamps_first (options : DataVolumeOptions) (pixel : JsNumber)
    (l h a b x : ℚ)
    (hlo : (loadDataVolumeNow.inputMin options).Is l)
    (hhi : (loadDataVolumeNow.inputMax options).Is h)
    (ha : (loadDataVolumeNow.outputMin options).Is a)
    (hb : (loadDataVolumeNow.outputMax options).Is b)
    (hx : pixel.Is x) (hrange : l < h)
    (hR : ((loadDataVolumeNow.inputMax options).sub
      (loadDataVolumeNow.inputMin options)).isFinite = true) :
    (h ≤ x →
      loadDataVolumeNow.normalize options pixel
        = (loadDataVolumeNow.outputMin options).add
            ((loadDataVolumeNow.outputMax options).sub (loadDataVolumeNow.outputMin options))) ∧
    (h ≤ x → a = 0 → b ≠ 0 →
      loadDataVolumeNow.normalize options pixel = loadDataVolumeNow.outputMax options) ∧
    (x ≤ l →
      ((loadDataVolumeNow.outputMax options).sub
        (loadDataVolumeNow.outputMin options)).isFinite = true →
      (loadDataVolumeNow.normalize options pixel).Is a ∧
      (a ≠ 0 →
        loadDataVolumeNow.normalize options pixel = loadDataVolumeNow.outputMin options)) ∧
    loadDataVolumeNow.normalize noVolumeOptions (JsNumber.ofNat 300) = .finite 1 ∧
    loadDataVolumeNow.stored noVolumeOptions (JsNumber.ofNat 300) = .finite 1 := by
  refine ⟨?_, ?_, ?_, loadDataVolumeNow.normalize_default_300.1,
    loadDataVolumeNow.normalize_default_300.2⟩
  · intro hhx
    exact loadDataVolumeNow.normalize_saturated options pixel l h x hlo hhi ha.2.2 hb.2.2 hx
      hrange hhx hR
  · intro hhx ha0 hb0
    subst ha0
    exact loadDataVolumeNow.normalize_zero_based options pixel l h b x hlo hhi ha hb hb0 hx
      hrange hhx hR
  · intro hxl hS
    have hfloor := loadDataVolumeNow.normalize_floor options pixel l h a b x hlo hhi ha hb hx
      hrange hxl hR hS
    refine ⟨hfloor, ?_⟩
    intro ha0
    rcases hfloor.cases with ⟨h0, _⟩ | ⟨_, hn⟩
    · exact absurd h0 ha0
    · rcases ha.cases with ⟨h0, _⟩ | ⟨_, hm⟩
      · exact absurd h0 ha0
      · rw [hn, hm]

/-- C16, the instance named in the claim: the pixel values 300 and 0 with the
ranges 0 to 255 and 0 to 1. -/
theorem normalize_clamps_first_witness :
    (loadDataVolumeNow.inputMin noVolumeOptions).Is 0 ∧
    (loadDataVolumeNow.inputMax noVolumeOptions).Is 255 ∧
    (loadDataVolumeNow.outputMin noVolumeOptions).Is 0 ∧
    (loadDataVolumeNow.outputMax noVolumeOptions).Is 1 ∧
    (JsNumber.ofNat 300).Is 300 ∧
    loadDataVolumeNow.normalize noVolumeOptions (JsNumber.ofNat 300)
      = loadDataVolumeNow.outputMax noVolumeOptions ∧
    (loadDataVolumeNow.normalize noVolumeOptions (JsNumber.ofNat 0)).Is 0 := by
  obtain ⟨h1, h2, h3, h4⟩ := loadDataVolumeNow.default_ranges
  have h300 : (JsNumber.ofNat 300).Is 300 := by
    simpa using JsNumber.ofNat_is 300 (by norm_num)
  have h0 : (JsNumber.ofNat 0).Is 0 := by
    simpa using JsNumber.ofNat_is 0 (by norm_num)
  exact ⟨h1, h2, h3, h4, h300,
    (normalize_clamps_first noVolumeOptions (JsNumber.ofNat 300) 0 255 0 1 300
      h1 h2 h3 h4 h300 (by norm_num) rfl).2.1 (by norm_num) rfl (by norm_num),
    ((normalize_clamps_first noVolumeOptions (JsNumber.ofNat 0) 0 255 0 1 0
      h1 h2 h3 h4 h0 (by norm_num) rfl).2.2.1 (le_refl _) rfl).1⟩

/-- C16, the counterexample. With the input range 0 to 255 and the output range
from the double nearest to -3.66 to the double nearest to 4.81, the pixel value
255, which is `input_max`, gives the double 1353894637978255/281474976710656,
the one just below `output_max`, and the element written is the single
10087301/2097152; neither is `output_max`. -/
theorem normalize_full_scale_below_output_max :
    (loadDataVolumeNow.inputMin wideOutputOptions).Is 0 ∧
    (loadDataVolumeNow.inputMax wideOutputOptions).Is 255 ∧
    (loadDataVolumeNow.outputMin wideOutputOptions).Is (-1030198414761001 / 281474976710656) ∧
    (loadDataVolumeNow.outputMax wideOutputOptions).Is (5415578551913021 / 1125899906842624) ∧
    (JsNumber.ofNat 255).Is 255 ∧
    loadDataVolumeNow.normalize wideOutputOptions (JsNumber.ofNat 255)
      = .finite (1353894637978255 / 281474976710656) ∧
    loadDataVolumeNow.stored wideOutputOptions (JsNumber.ofNat 255)
      = .finite (10087301 / 2097152) ∧
    loadDataVolumeNow.outputMax wideOutputOptions
      = .finite (5415578551913021 / 1125899906842624) ∧
    (1353894637978255 / 281474976710656 : ℚ) < 5415578551913021 / 1125899906842624 ∧
    (10087301 / 2097152 : ℚ) < 5415578551913021 / 1125899906842624 := by
  obtain ⟨hl, hh, _⟩ := loadDataVolumeNow.default_input_finite wideOutputOptions rfl rfl
  have hx : (JsNumber.ofNat 255).Is 255 := by
    simpa using JsNumber.ofNat_is 255 (by norm_num)
  exact ⟨hl, hh, loadDataVolumeNow.wideOutput_is.1, loadDataVolumeNow.wideOutput_is.2, hx,
    loadDataVolumeNow.normalize_wide_255.1, loadDataVolumeNow.normalize_wide_255.2, rfl,
    by norm_num, by norm_num⟩

/-! ## Theorems: range of the volume normalization -/

/-- C30, as the code has it. For finite doubles `input_min < input_max` and
`output_min <= output_max` whose differences are finite, no pixel value gives a
NaN; every double computed lies between `output_min` and the double
`output_min + (output_max - output_min)`, and every element written lies between
the singles nearest to these two; a pixel value that is not smaller gives a
double and an element that are not smaller.  With the default options every red
byte `r` from 0 to 255 gives the double nearest to `r / 255`, and the element
written is the single nearest to that double; 0 is written as 0 and 255 as 1. -/
theorem normalize_range_and_monotone (options : DataVolumeOptions) (l h a b : ℚ)
    (hlo : (loadDataVolumeNow.inputMin options).Is l)
    (hhi : (loadDataVolumeNow.inputMax options).Is h)
    (ha : (loadDataVolumeNow.outputMin options).Is a)
    (hb : (loadDataVolumeNow.outputMax options).Is b)
    (hin : l < h) (hout : a ≤ b)
    (hR : ((loadDataVolumeNow.inputMax options).sub
      (loadDataVolumeNow.inputMin options)).isFinite = true)
    (hS : ((loadDataVolumeNow.outputMax options).sub
      (loadDataVolumeNow.outputMin options)).isFinite = true) :
    (∀ (pixel : JsNumber) (x : ℚ), pixel.Is x →
      loadDataVolumeNow.normalize options pixel ≠ .nan ∧
      loadDataVolumeNow.stored options pixel ≠ .nan ∧
      (loadDataVolumeNow.outputMin options).ext
        ≤ (loadDataVolumeNow.normalize options pixel).ext ∧
      (loadDataVolumeNow.normalize options pixel).ext
        ≤ ((loadDataVolumeNow.outputMin options).add
            ((loadDataVolumeNow.outputMax options).sub
              (loadDataVolumeNow.outputMin options))).ext ∧
      (loadDataVolumeNow.outputMin options).toFloat32.ext
        ≤ (loadDataVolumeNow.stored options pixel).ext ∧
      (loadDataVolumeNow.stored options pixel).ext
        ≤ ((loadDataVolumeNow.outputMin options).add
            ((loadDataVolumeNow.outputMax options).sub
              (loadDataVolumeNow.outputMin options))).toFloat32.ext) ∧
    (∀ (p q : JsNumber) (x y : ℚ), p.Is x → q.Is y → x ≤ y →
      (loadDataVolumeNow.normalize options p).ext
        ≤ (loadDataVolumeNow.normalize options q).ext ∧
      (loadDataVolumeNow.stored options p).ext ≤ (loadDataVolumeNow.stored options q).ext) ∧
    (∀ r : Nat, r ≤ 255 →
      loadDataVolumeNow.normalize noVolumeOptions (JsNumber.ofNat r)
        = binary64.round ((r : ℚ) / 255) ∧
      loadDataVolumeNow.stored noVolumeOptions (JsNumber.ofNat r)
        = (binary64.round ((r : ℚ) / 255)).toFloat32) ∧
    loadDataVolumeNow.stored noVolumeOptions (JsNumber.ofNat 0) = .zero false ∧
    loadDataVolumeNow.stored noVolumeOptions (JsNumber.ofNat 255) = .finite 1 := by
  refine ⟨?_, ?_, ?_, loadDataVolumeNow.stored_default_ends.1,
    loadDataVolumeNow.stored_default_ends.2⟩
  · intro pixel x hx
    have hne := (loadDataVolumeNow.normalize_ext options pixel l h a b x
      hlo hhi ha hb hx hin hout hR hS).2
    have hr := loadDataVolumeNow.normalize_range options pixel l h a b x
      hlo hhi ha hb hx hin hout hR hS
    have hs := loadDataVolumeNow.stored_range options pixel l h a b x
      hlo hhi ha hb hx hin hout hR hS
    exact ⟨hne, JsNumber.toFloat32_ne_nan hne, hr.1, hr.2, hs.1, hs.2⟩
  · intro p q x y hx hy hxy
    exact ⟨loadDataVolumeNow.normalize_mono options p q l h a b x y
        hlo hhi ha hb hx hy hxy hin hout hR hS,
      (loadDataVolumeNow.stored_mono options p q l h a b x y
        hlo hhi ha hb hx hy hxy hin hout hR hS).2.2⟩
  · intro r hr
    have hn := loadDataVolumeNow.normalize_default r hr
    refine ⟨hn, ?_⟩
    unfold loadDataVolumeNow.stored
    rw [hn]

/-- C30, an instance: the default ranges, the red bytes 64 and 200. -/
theorem normalize_range_and_monotone_witness :
    (loadDataVolumeNow.inputMin noVolumeOptions).Is 0 ∧
    (loadDataVolumeNow.inputMax noVolumeOptions).Is 255 ∧
    (loadDataVolumeNow.outputMin noVolumeOptions).Is 0 ∧
    (loadDataVolumeNow.outputMax noVolumeOptions).Is 1 ∧
    (JsNumber.ofNat 64).Is 64 ∧ (JsNumber.ofNat 200).Is 200 ∧
    loadDataVolumeNow.stored noVolumeOptions (JsNumber.ofNat 64) ≠ .nan ∧
    (loadDataVolumeNow.stored noVolumeOptions (JsNumber.ofNat 64)).ext
      ≤ (loadDataVolumeNow.stored noVolumeOptions (JsNumber.ofNat 200)).ext := by
  obtain ⟨h1, h2, h3, h4⟩ := loadDataVolumeNow.default_ranges
  have h64 : (JsNumber.ofNat 64).Is 64 := by
    simpa using JsNumber.ofNat_is 64 (by norm_num)
  have h200 : (JsNumber.ofNat 200).Is 200 := by
    simpa using JsNumber.ofNat_is 200 (by norm_num)
  exact ⟨h1, h2, h3, h4, h64, h200,
    ((normalize_range_and_monotone noVolumeOptions 0 255 0 1 h1 h2 h3 h4 (by norm_num)
      (by norm_num) rfl rfl).1 _ 64 h64).2.1,
    ((normalize_range_and_monotone noVolumeOptions 0 255 0 1 h1 h2 h3 h4 (by norm_num)
      (by norm_num) rfl rfl).2.1 _ _ 64 200 h64 h200 (by norm_num)).2⟩

/-- C30, the counterexample. With the input range 0 to 255 and the output range
from 0 to the double nearest to 0.1, the red byte 255 is written as the single
13421773/134217728, which is above `output_max`.  With the default options the
red byte 128 gives the double 282578800148737/562949953421312 and is written as
8421505/16777216; neither is 128/255. -/
theorem stored_above_output_max :
    (loadDataVolumeNow.inputMin tenthOutputOptions).Is 0 ∧
    (loadDataVolumeNow.inputMax tenthOutputOptions).Is 255 ∧
    (loadDataVolumeNow.outputMin tenthOutputOptions).Is 0 ∧
    (loadDataVolumeNow.outputMax tenthOutputOptions).Is
      (3602879701896397 / 36028797018963968) ∧
    loadDataVolumeNow.stored tenthOutputOptions (JsNumber.ofNat 255)
      = .finite (13421773 / 134217728) ∧
    (3602879701896397 / 36028797018963968 : ℚ) < 13421773 / 134217728 ∧
    loadDataVolumeNow.normalize noVolumeOptions (JsNumber.ofNat 128)
      = .finite (282578800148737 / 562949953421312) ∧
    (282578800148737 / 562949953421312 : ℚ) ≠ 128 / 255 ∧
    loadDataVolumeNow.stored noVolumeOptions (JsNumber.ofNat 128)
      = .finite (8421505 / 16777216) ∧
    (8421505 / 16777216 : ℚ) ≠ 128 / 255 := by
  obtain ⟨hl, hh, _⟩ := loadDataVolumeNow.default_input_finite tenthOutputOptions rfl rfl
  exact ⟨hl, hh, loadDataVolumeNow.tenthOutput_is.1, loadDataVolumeNow.tenthOutput_is.2,
    loadDataVolumeNow.stored_tenth_255.2, by norm_num,
    loadDataVolumeNow.stored_default_128.1, by norm_num,
    loadDataVolumeNow.stored_default_128.2, by norm_num⟩

end Glance
